import Mathlib

/-!
# TCP core of xv6_net: a shallow embedding of `src/tcp.c`

The control-block table, the segment builder `tcp_tx`, the receive path
`tcp_rx` / `tcp_incoming_event` and the socket API `tcp_api_*` are written as
Lean functions over an explicit `World`.

Conventions of the embedding

* Machine integers are `Nat` (or `Int` for `int soc`); every C operation that
  can wrap carries its `% 2^w` (`uint32_t`: `2^32`, `uint16_t`: `2^16`,
  `size_t`: `2^32`, xv6 being a 32-bit x86 kernel).
* The host is little-endian: a `uint16_t` at byte offset `o` of a buffer is
  `b[o] + 256 * b[o+1]`.
* `struct tcp_cb *` values that point into `cb_table` are slot indices
  (`Fin 16`); `struct netif *` values are addresses (`Nat`, `0` is `NULL`) and
  the `unicast` field read through such a pointer is given by a function
  `U : Nat → Nat` supplied from outside.
* `ip_tx` is recorded: every call appends an `ip_tx_call` to `World.ip_out`.
  `wakeup` is recorded in `World.wakeups`.  `cprintf` is not recorded.
* `sleep` parks the caller: a blocking API function returns `Outcome.sleep`
  with the world as it stands at the `sleep` call, and the code that runs when
  `sleep` returns is a second function (`tcp_api_close_wake`, ...).
* A memory access outside the object it is aimed at (the 1500-byte staging
  buffer of `tcp_tx`, the 4096-byte `window`, a `NULL` parent) is where the
  model stops: `none` / `Outcome.fault`. The C code makes no test there and
  goes on with memory the model does not describe; the in-bounds conditions
  in the definitions mark that border, they are not tests of the code.
* `random()`, `time(NULL)` and `myproc()->killed` are arguments (`rnd`, `now`,
  `killed`).
-/

namespace Xv6Net

/-! ## Constants -/

abbrev TCP_CB_TABLE_SIZE : Nat := 16
abbrev TCP_SOURCE_PORT_MIN : Nat := 49152
abbrev TCP_SOURCE_PORT_MAX : Nat := 65535

abbrev TCP_CB_STATE_CLOSED : Nat := 0
abbrev TCP_CB_STATE_LISTEN : Nat := 1
abbrev TCP_CB_STATE_SYN_SENT : Nat := 2
abbrev TCP_CB_STATE_SYN_RCVD : Nat := 3
abbrev TCP_CB_STATE_ESTABLISHED : Nat := 4
abbrev TCP_CB_STATE_FIN_WAIT1 : Nat := 5
abbrev TCP_CB_STATE_FIN_WAIT2 : Nat := 6
abbrev TCP_CB_STATE_CLOSING : Nat := 7
abbrev TCP_CB_STATE_TIME_WAIT : Nat := 8
abbrev TCP_CB_STATE_CLOSE_WAIT : Nat := 9
abbrev TCP_CB_STATE_LAST_ACK : Nat := 10

abbrev TCP_FLG_FIN : Nat := 0x01
abbrev TCP_FLG_SYN : Nat := 0x02
abbrev TCP_FLG_RST : Nat := 0x04
abbrev TCP_FLG_PSH : Nat := 0x08
abbrev TCP_FLG_ACK : Nat := 0x10
abbrev TCP_FLG_URG : Nat := 0x20

/-- The macro `TCP_FLG_IS(x, y)`: `((x & 0x3f) == (y))`. -/
abbrev TCP_FLG_IS (x y : Nat) : Prop := (x &&& 0x3f) = y

/-- The macro `TCP_FLG_ISSET(x, y)`: `((x & 0x3f) & (y))`, used as a truth value. -/
abbrev TCP_FLG_ISSET (x y : Nat) : Prop := ((x &&& 0x3f) &&& y) ≠ 0

/-- The constant `IP_PROTOCOL_TCP` of `src/ip.h`. -/
abbrev IP_PROTOCOL_TCP : Nat := 0x06

/-- The constant `AF_INET` of `src/socket.h` (`PF_INET`). -/
abbrev AF_INET : Nat := 2

/-- The value of `sizeof(struct tcp_hdr)`: 2+2+4+4+1+1+2+2+2 bytes. -/
abbrev TCP_HDR_SIZE : Nat := 20

/-- The value of `sizeof(cb->window)`. -/
abbrev TCP_WINDOW_SIZE : Nat := 4096

/-- The value of `sizeof(segment)` in `tcp_tx`. -/
abbrev TCP_SEGMENT_SIZE : Nat := 1500

/-- The value of `sizeof(struct sockaddr_in)`: 2+2+4 bytes. -/
abbrev SOCKADDR_IN_SIZE : Nat := 8

/-! ## Bytes, byte order and the checksum -/

/-- Modelled from the spec: `hton16` is declared outside `src/`; the spec has
16-bit header fields in network order, and on the little-endian host that is
the exchange of the two bytes of a `uint16_t`. -/
def hton16 (h : Nat) : Nat := (h % 256) * 256 + (h / 256) % 256

/-- Modelled from the spec: `hton32` is declared outside `src/`; the spec has
`seq` and `ack` as 32-bit network-order fields, on the little-endian host the
reversal of the four bytes of a `uint32_t`. -/
def hton32 (h : Nat) : Nat :=
  (h % 256) * 2 ^ 24 + (h / 2 ^ 8 % 256) * 2 ^ 16 + (h / 2 ^ 16 % 256) * 2 ^ 8 + h / 2 ^ 24 % 256

/-- Modelled from the spec: `ntoh32` is declared outside `src/`; the inverse
byte reversal, which is the same function as `hton32`. -/
def ntoh32 (n : Nat) : Nat := hton32 n

/-- Read of a `uint8_t` at byte offset `o`. -/
def load8 (m : List Nat) (o : Nat) : Nat := m.getD o 0

/-- Read of a `uint16_t` at byte offset `o` (little-endian host). -/
def load16 (m : List Nat) (o : Nat) : Nat := load8 m o + 256 * load8 m (o + 1)

/-- Read of a `uint32_t` at byte offset `o` (little-endian host). -/
def load32 (m : List Nat) (o : Nat) : Nat :=
  load8 m o + 2 ^ 8 * load8 m (o + 1) + 2 ^ 16 * load8 m (o + 2) + 2 ^ 24 * load8 m (o + 3)

/-- The two bytes a store of a `uint16_t` writes (little-endian host). -/
def store16 (v : Nat) : List Nat := [v % 256, v / 256 % 256]

/-- The four bytes a store of a `uint32_t` writes (little-endian host). -/
def store32 (v : Nat) : List Nat := [v % 256, v / 2 ^ 8 % 256, v / 2 ^ 16 % 256, v / 2 ^ 24 % 256]

/-- Field `src` of `struct tcp_hdr` (bytes 0-1). -/
def hdr_src (hdr : List Nat) : Nat := load16 hdr 0

/-- Field `dst` of `struct tcp_hdr` (bytes 2-3). -/
def hdr_dst (hdr : List Nat) : Nat := load16 hdr 2

/-- Field `seq` of `struct tcp_hdr` (bytes 4-7). -/
def hdr_seq (hdr : List Nat) : Nat := load32 hdr 4

/-- Field `ack` of `struct tcp_hdr` (bytes 8-11). -/
def hdr_ack (hdr : List Nat) : Nat := load32 hdr 8

/-- Field `off` of `struct tcp_hdr` (byte 12). -/
def hdr_off (hdr : List Nat) : Nat := load8 hdr 12

/-- Field `flg` of `struct tcp_hdr` (byte 13). -/
def hdr_flg (hdr : List Nat) : Nat := load8 hdr 13

/-- Field `win` of `struct tcp_hdr` (bytes 14-15). -/
def hdr_win (hdr : List Nat) : Nat := load16 hdr 14

/-- Field `sum` of `struct tcp_hdr` (bytes 16-17). -/
def hdr_sum (hdr : List Nat) : Nat := load16 hdr 16

/-- Field `urg` of `struct tcp_hdr` (bytes 18-19). -/
def hdr_urg (hdr : List Nat) : Nat := load16 hdr 18

/-- Modelled from the spec: the summation loop of `cksum16`, which is declared
outside `src/`: the 16-bit words of the buffer, read as the host reads a
`uint16_t`, are added into a `uint32_t`; a trailing odd byte is added as a
`uint8_t`. -/
def cksum16_loop : List Nat → Nat → Nat
  | a :: b :: rest, sum => cksum16_loop rest ((sum + (a + 256 * b)) % 2 ^ 32)
  | [a], sum => (sum + a) % 2 ^ 32
  | [], sum => sum

/-- Modelled from the spec: `cksum16(data, size, init)` is declared outside
`src/`; the spec calls it the 16-bit one's-complement checksum over the
pseudo-header sum `init` and the `size` bytes of the segment: the 32-bit sum is
folded twice into 16 bits and complemented. -/
def cksum16 (data : List Nat) (size : Nat) (init : Nat) : Nat :=
  let sum := cksum16_loop (data.take size) (init % 2 ^ 32)
  let sum := (sum &&& 0xffff) + (sum >>> 16)
  let sum := (sum &&& 0xffff) + (sum >>> 16)
  0xffff - sum % 2 ^ 16

/-! ## Data model -/

/-- The member `peer` of `struct tcp_cb`. -/
structure tcp_cb_peer where
  addr : Nat
  port : Nat
deriving DecidableEq, Repr

/-- The member `snd` of `struct tcp_cb`. -/
structure tcp_cb_snd where
  nxt : Nat
  una : Nat
  up : Nat
  wl1 : Nat
  wl2 : Nat
  wnd : Nat
deriving DecidableEq, Repr

/-- The member `rcv` of `struct tcp_cb`. -/
structure tcp_cb_rcv where
  nxt : Nat
  up : Nat
  wnd : Nat
deriving DecidableEq, Repr

/-- One `struct tcp_txq_entry`: the copied segment and its length. The `next`
pointer is the position in the list `tcp_cb.txq`. -/
structure tcp_txq_entry where
  segment : List Nat
  len : Nat
deriving DecidableEq, Repr

/-- The record `struct tcp_cb`. `txq` lists the retransmission queue from head
to tail, `backlog` lists the queue entries from the one `queue_pop` returns
first; `parent` is `none` for a `NULL` pointer. -/
structure tcp_cb where
  used : Nat
  state : Nat
  iface : Nat
  port : Nat
  peer : tcp_cb_peer
  snd : tcp_cb_snd
  iss : Nat
  rcv : tcp_cb_rcv
  irs : Nat
  txq : List tcp_txq_entry
  window : List Nat
  parent : Option (Fin 16)
  backlog : List (Fin 16)
deriving DecidableEq, Repr

/-- The record `struct sockaddr_in` of `src/socket.h`. -/
structure sockaddr_in where
  sin_family : Nat
  sin_port : Nat
  sin_addr : Nat
deriving DecidableEq, Repr

/-- One call `ip_tx(iface, protocol, data, len, &dst)`. -/
structure ip_tx_call where
  iface : Nat
  protocol : Nat
  data : List Nat
  len : Nat
  dst : Nat
deriving DecidableEq, Repr

/-- The state the TCP core works on: `cb_table`, the calls of `ip_tx` made so
far (oldest first), the `wakeup` calls made so far (oldest first), and the
number of pages `kalloc` can still hand out. -/
structure World where
  cb_table : Fin 16 → tcp_cb
  ip_out : List ip_tx_call
  wakeups : List (Fin 16)
  kmem : Nat

/-- A CB after `memset(cb, 0, sizeof(*cb))`. -/
def tcp_cb_zero : tcp_cb where
  used := 0
  state := 0
  iface := 0
  port := 0
  peer := ⟨0, 0⟩
  snd := ⟨0, 0, 0, 0, 0, 0⟩
  iss := 0
  rcv := ⟨0, 0, 0⟩
  irs := 0
  txq := []
  window := List.replicate 4096 0
  parent := none
  backlog := []

/-- The table as the kernel starts with it: `cb_table` is static storage, all
zero; nothing has been transmitted. -/
def World_init (kmem : Nat) : World where
  cb_table := fun _ => tcp_cb_zero
  ip_out := []
  wakeups := []
  kmem := kmem

/-- Assignment through a `struct tcp_cb *` that points at slot `i`. -/
def set_cb (t : Fin 16 → tcp_cb) (i : Fin 16) (c : tcp_cb) : Fin 16 → tcp_cb :=
  fun j => if j = i then c else t j

/-- The world with slot `i` of the table replaced. -/
def World.put (w : World) (i : Fin 16) (c : tcp_cb) : World :=
  { w with cb_table := set_cb w.cb_table i c }

/-- The slots in the order `for (cb = cb_table; cb < array_tailof(cb_table); cb++)`
visits them. -/
def allSlots : List (Fin 16) := [0, 1, 2, 3, 4, 5, 6, 7, 8, 9, 10, 11, 12, 13, 14, 15]

/-- The macro `TCP_SOCKET_ISINVALID(x)`. -/
abbrev TCP_SOCKET_ISINVALID (x : Int) : Prop := x < 0 ∨ x ≥ 16

/-- The slot `&cb_table[soc]` of a socket number that passed `TCP_SOCKET_ISINVALID`. -/
def slot (soc : Int) : Fin 16 := Fin.ofNat soc.toNat

/-- The macro `TCP_CB_STATE_RX_ISREADY(x)`. -/
abbrev TCP_CB_STATE_RX_ISREADY (c : tcp_cb) : Prop :=
  c.state = TCP_CB_STATE_ESTABLISHED ∨ c.state = TCP_CB_STATE_FIN_WAIT1 ∨
    c.state = TCP_CB_STATE_FIN_WAIT2

/-- The macro `TCP_CB_STATE_TX_ISREADY(x)`. -/
abbrev TCP_CB_STATE_TX_ISREADY (c : tcp_cb) : Prop :=
  c.state = TCP_CB_STATE_ESTABLISHED ∨ c.state = TCP_CB_STATE_CLOSE_WAIT

/-- What a socket API call does to its caller: it returns `v` (with the data
`out` it wrote to the caller's buffers), or the caller is parked in `sleep`, or
the run ends in an out-of-bounds memory access. -/
inductive Outcome (α : Type) where
  | ret (w : World) (v : Int) (out : α)
  | sleep (w : World)
  | fault

/-! ## Retransmission queue and `tcp_cb_clear` -/

/-- Modelled from the spec: `kalloc()` is the page allocator of the kernel,
not under `src/`; the spec lists "allocation failure in TX path" under resource
exhaustion. It hands out a page as long as one is free; `none` is the `NULL`
result. -/
def kalloc (w : World) : Option World :=
  if w.kmem = 0 then none else some { w with kmem := w.kmem - 1 }

/-- Modelled from the spec: `kfree(p)` is the page allocator of the kernel,
not under `src/`; it takes a page back. -/
def kfree (w : World) : World := { w with kmem := w.kmem + 1 }

/-- Modelled from the spec: `queue_pop(&cb->backlog)`; the queue functions are
declared outside `src/`. The spec has the backlog a FIFO from whose head
`accept` takes: the result is the first entry and the rest of the queue, or
`none` (`NULL`) for an empty queue. Pages of queue entries belong to the queue
module and are not counted in `kmem`. -/
def queue_pop (q : List (Fin 16)) : Option (Fin 16 × List (Fin 16)) :=
  match q with
  | [] => none
  | b :: rest => some (b, rest)

/-- Modelled from the spec: `queue_push(&cb->parent->backlog, cb, sizeof(*cb))`;
the queue functions are declared outside `src/`. The spec has the backlog a
FIFO: the pushed CB goes behind the entries already queued. -/
def queue_push (q : List (Fin 16)) (data : Fin 16) : List (Fin 16) := q ++ [data]

/-- The function `tcp_txq_add(cb, hdr, len)`: two `kalloc` calls (the entry,
then the page for the segment copy); when the first fails the result is `-1`,
when the second fails the first page is freed and the result is `-1`.
Otherwise the first `len` bytes at `hdr` are copied, `txq->len` (a `uint16_t`)
is set, and the entry is linked behind the tail. -/
def tcp_txq_add (w : World) (cb : Fin 16) (hdr : List Nat) (len : Nat) : World × Int :=
  match kalloc w with
  | none => (w, -1)
  | some w1 =>
    match kalloc w1 with
    | none => (kfree w1, -1)
    | some w2 =>
      let c := w2.cb_table cb
      (w2.put cb { c with txq := c.txq ++ [⟨hdr.take len, len % 2 ^ 16⟩] }, 0)

/-- Number of queue entries in all backlogs of the table. -/
def total_backlog (t : Fin 16 → tcp_cb) : Nat :=
  (allSlots.map (fun i => (t i).backlog.length)).sum

/-- The function `tcp_cb_clear(cb)`, with a bound on the number of nested
activations. The first loop frees both pages of every retransmission entry;
each turn of the second loop pops one backlog entry and clears the CB it
names; then the record is zeroed. A turn of the second loop is written as
"pop, clear the child, start over on `cb`" (starting over repeats the first
loop on a queue that is already empty). -/
def tcp_cb_clear_fuel : Nat → World → Fin 16 → Option World
  | 0, _, _ => none
  | n + 1, w, cb =>
    let c := w.cb_table cb
    let w1 : World := (c.txq.foldl (fun v _ => kfree (kfree v)) w).put cb { c with txq := [] }
    match queue_pop c.backlog with
    | none => some (w1.put cb tcp_cb_zero)
    | some (b, rest) =>
      match tcp_cb_clear_fuel n (w1.put cb { c with txq := [], backlog := rest }) b with
      | none => none
      | some w3 => tcp_cb_clear_fuel n w3 cb

/-- The function `tcp_cb_clear(cb)`: every activation is preceded by a pop, so
one more activation than there are queue entries in the table is enough. -/
def tcp_cb_clear (w : World) (cb : Fin 16) : Option World :=
  tcp_cb_clear_fuel (total_backlog w.cb_table + 1) w cb

/-! ## Segment builder -/

/-- The 20 header bytes `tcp_tx` writes before the checksum is known
(`hdr->sum = 0`). -/
def tcp_tx_hdr (c : tcp_cb) (seq ack flg : Nat) : List Nat :=
  store16 c.port ++ store16 c.peer.port ++ store32 (hton32 seq) ++ store32 (hton32 ack) ++
    [((TCP_HDR_SIZE >>> 2) <<< 4) % 256, flg % 256] ++ store16 (hton16 c.rcv.wnd) ++
    store16 0 ++ store16 0

/-- The pseudo-header sum `tcp_tx` accumulates in `pseudo`. -/
def tcp_tx_pseudo (self peer len : Nat) : Nat :=
  (((self >>> 16) &&& 0xffff) + (self &&& 0xffff) + ((peer >>> 16) &&& 0xffff) + (peer &&& 0xffff) +
    hton16 IP_PROTOCOL_TCP + hton16 (TCP_HDR_SIZE + len)) % 2 ^ 32

/-- The bytes `tcp_tx` hands to `ip_tx`: header with the checksum stored in
bytes 16-17, followed by the payload. -/
def tcp_tx_segment (c : tcp_cb) (self : Nat) (seq ack flg : Nat) (buf : List Nat) : List Nat :=
  let hdr0 := tcp_tx_hdr c seq ack flg
  let sum := cksum16 (hdr0 ++ buf) (TCP_HDR_SIZE + buf.length)
    (tcp_tx_pseudo self c.peer.addr buf.length)
  hdr0.take 16 ++ store16 sum ++ hdr0.drop 18 ++ buf

/-- The function `tcp_tx(cb, seq, ack, flg, buf, len)` with `len` the length of
`buf`. The payload is copied behind the header in `segment[1500]`: a payload
that does not fit ends the run. The local address is read through `cb->iface`.
The segment is handed to `ip_tx`, then `tcp_txq_add` is called (its result is
ignored); the result is `len`. -/
def tcp_tx (U : Nat → Nat) (w : World) (cb : Fin 16) (seq ack flg : Nat) (buf : List Nat) :
    Option (World × Int) :=
  if TCP_SEGMENT_SIZE < TCP_HDR_SIZE + buf.length then none
  else
    let c := w.cb_table cb
    let self := U c.iface
    let peer := c.peer.addr
    let segment := tcp_tx_segment c self seq ack flg buf
    let w1 : World := { w with ip_out := w.ip_out ++
      [⟨c.iface, IP_PROTOCOL_TCP, segment, TCP_HDR_SIZE + buf.length, peer⟩] }
    some ((tcp_txq_add w1 cb segment (TCP_HDR_SIZE + buf.length)).1, buf.length)

/-- A call of `tcp_tx` whose result is not used. -/
def tcp_tx_ (U : Nat → Nat) (w : World) (cb : Fin 16) (seq ack flg : Nat) (buf : List Nat) :
    Option World :=
  (tcp_tx U w cb seq ack flg buf).map Prod.fst

/-! ## State machine -/

/-- The case `TCP_CB_STATE_CLOSED` of `tcp_incoming_event`. -/
def tcp_event_closed (U : Nat → Nat) (w : World) (cb : Fin 16) (hdr : List Nat) (plen : Nat) :
    Option World :=
  let flg := hdr_flg hdr
  if TCP_FLG_ISSET flg TCP_FLG_RST then some w
  else if TCP_FLG_ISSET flg TCP_FLG_ACK then
    tcp_tx_ U w cb (ntoh32 (hdr_ack hdr)) 0 TCP_FLG_RST []
  else
    let ack0 := ntoh32 (hdr_seq hdr)
    let ack1 := if TCP_FLG_ISSET flg TCP_FLG_SYN then (ack0 + 1) % 2 ^ 32 else ack0
    let ack2 := if plen ≠ 0 then (ack1 + plen) % 2 ^ 32 else ack1
    let ack3 := if TCP_FLG_ISSET flg TCP_FLG_FIN then (ack2 + 1) % 2 ^ 32 else ack2
    tcp_tx_ U w cb 0 ack3 TCP_FLG_RST []

/-- The case `TCP_CB_STATE_LISTEN` of `tcp_incoming_event`; `rnd` is the value
of `random()`. -/
def tcp_event_listen (U : Nat → Nat) (rnd : Nat) (w : World) (cb : Fin 16) (hdr : List Nat) :
    Option World :=
  let flg := hdr_flg hdr
  if TCP_FLG_ISSET flg TCP_FLG_RST then some w
  else if TCP_FLG_ISSET flg TCP_FLG_ACK then
    tcp_tx_ U w cb (ntoh32 (hdr_ack hdr)) 0 TCP_FLG_RST []
  else if TCP_FLG_ISSET flg TCP_FLG_SYN then
    let c := w.cb_table cb
    let c1 : tcp_cb := { c with rcv.nxt := (ntoh32 (hdr_seq hdr) + 1) % 2 ^ 32,
                                irs := ntoh32 (hdr_seq hdr),
                                iss := rnd % 2 ^ 32 }
    match tcp_tx_ U (w.put cb c1) cb c1.iss c1.rcv.nxt (TCP_FLG_SYN ||| TCP_FLG_ACK) [] with
    | none => none
    | some w1 =>
      let c2 := w1.cb_table cb
      some (w1.put cb { c2 with snd.nxt := (c2.iss + 1) % 2 ^ 32,
                                snd.una := c2.iss,
                                state := TCP_CB_STATE_SYN_RCVD })
  else some w

/-- The case `TCP_CB_STATE_SYN_SENT` of `tcp_incoming_event`. -/
def tcp_event_syn_sent (U : Nat → Nat) (w : World) (cb : Fin 16) (hdr : List Nat) : Option World :=
  let flg := hdr_flg hdr
  let c := w.cb_table cb
  if TCP_FLG_ISSET flg TCP_FLG_ACK ∧
      (ntoh32 (hdr_ack hdr) ≤ c.iss ∨ ntoh32 (hdr_ack hdr) > c.snd.nxt) then
    if ¬ TCP_FLG_ISSET flg TCP_FLG_RST then
      tcp_tx_ U w cb (ntoh32 (hdr_ack hdr)) 0 TCP_FLG_RST []
    else some w
  else if TCP_FLG_ISSET flg TCP_FLG_RST then some w
  else if TCP_FLG_ISSET flg TCP_FLG_SYN then
    let c1 : tcp_cb := { c with rcv.nxt := (ntoh32 (hdr_seq hdr) + 1) % 2 ^ 32,
                                irs := ntoh32 (hdr_seq hdr) }
    if TCP_FLG_ISSET flg TCP_FLG_ACK then
      let c2 : tcp_cb := { c1 with snd.una := ntoh32 (hdr_ack hdr) }
      if c2.snd.una > c2.iss then
        let c3 : tcp_cb := { c2 with state := TCP_CB_STATE_ESTABLISHED }
        match tcp_tx_ U (w.put cb c3) cb c3.snd.nxt c3.rcv.nxt TCP_FLG_ACK [] with
        | none => none
        | some w1 => some { w1 with wakeups := w1.wakeups ++ [cb] }
      else some (w.put cb c2)
    else
      tcp_tx_ U (w.put cb c1) cb c1.iss c1.rcv.nxt TCP_FLG_ACK []
  else some w

/-- The tail of `tcp_incoming_event`: `if (TCP_FLG_ISSET(hdr->flg, TCP_FLG_FIN))`. -/
def tcp_event_fin (U : Nat → Nat) (w : World) (cb : Fin 16) (hdr : List Nat) : Option World :=
  if TCP_FLG_ISSET (hdr_flg hdr) TCP_FLG_FIN then
    let c := w.cb_table cb
    let c1 : tcp_cb := { c with rcv.nxt := (c.rcv.nxt + 1) % 2 ^ 32 }
    match tcp_tx_ U (w.put cb c1) cb c1.snd.nxt c1.rcv.nxt TCP_FLG_ACK [] with
    | none => none
    | some w1 =>
      let c2 := w1.cb_table cb
      if c2.state = TCP_CB_STATE_SYN_RCVD ∨ c2.state = TCP_CB_STATE_ESTABLISHED then
        some { (w1.put cb { c2 with state := TCP_CB_STATE_CLOSE_WAIT }) with
                 wakeups := w1.wakeups ++ [cb] }
      else if c2.state = TCP_CB_STATE_FIN_WAIT1 then
        some (w1.put cb { c2 with state := TCP_CB_STATE_FIN_WAIT2 })
      else if c2.state = TCP_CB_STATE_FIN_WAIT2 then
        some { (w1.put cb { c2 with state := TCP_CB_STATE_TIME_WAIT }) with
                 wakeups := w1.wakeups ++ [cb] }
      else some w1
  else some w

/-- The part `if (plen) { ... }` of `tcp_incoming_event`, followed by the FIN
part. `hlen` and `plen` are the values computed at the head of the function.
The `memcpy` into `window` starts at offset `sizeof(cb->window) - cb->rcv.wnd`
and reads `plen` bytes at offset `hlen` of the segment. The C code compares
`plen` neither with `rcv.wnd` nor with the length of the segment: the `if`
on `off + plen` and `hlen + plen` below is not a test the code makes, it
separates the copies that stay inside `window` and inside the segment, which
the model follows, from the others. In those the C code goes on: it writes
behind `window` over `parent`, `backlog` and the next entries of `cb_table`,
or reads behind the segment, and leaves a table that depends on the layout
of the memory. The model gives no table for them (`none`), so a theorem about
`some` results says nothing of such a step, and a theorem that shows `none`
shows that the code makes the out-of-bounds copy. -/
def tcp_event_payload (U : Nat → Nat) (w : World) (cb : Fin 16) (hdr : List Nat) (hlen plen : Nat) :
    Option World :=
  let c := w.cb_table cb
  if plen ≠ 0 ∧ (c.state = TCP_CB_STATE_ESTABLISHED ∨ c.state = TCP_CB_STATE_FIN_WAIT1 ∨
      c.state = TCP_CB_STATE_FIN_WAIT2) then
    let off := (TCP_WINDOW_SIZE + 2 ^ 32 - c.rcv.wnd) % 2 ^ 32
    if off + plen ≤ TCP_WINDOW_SIZE ∧ hlen + plen ≤ hdr.length then
      let c1 : tcp_cb := { c with
        window := c.window.take off ++ (hdr.drop hlen).take plen ++ c.window.drop (off + plen),
        rcv.nxt := (ntoh32 (hdr_seq hdr) + plen) % 2 ^ 32,
        rcv.wnd := (c.rcv.wnd + 2 ^ 16 - plen % 2 ^ 16) % 2 ^ 16 }
      match tcp_tx_ U (w.put cb c1) cb c1.snd.nxt c1.rcv.nxt TCP_FLG_ACK [] with
      | none => none
      | some w1 => tcp_event_fin U { w1 with wakeups := w1.wakeups ++ [cb] } cb hdr
    else none
  else tcp_event_fin U w cb hdr

/-- The cases `ESTABLISHED`, `FIN_WAIT1`, `FIN_WAIT2`, `CLOSE_WAIT`, `CLOSING`
of the second `switch` of `tcp_incoming_event` (also reached by falling
through from `SYN_RCVD`), followed by what comes after the `switch`. -/
def tcp_event_ack (U : Nat → Nat) (w : World) (cb : Fin 16) (hdr : List Nat) (hlen plen : Nat) :
    Option World :=
  let c := w.cb_table cb
  let ack := ntoh32 (hdr_ack hdr)
  if ¬ (c.snd.una < ack ∧ ack ≤ c.snd.nxt) ∧ ack > c.snd.nxt then
    tcp_tx_ U w cb c.snd.nxt c.rcv.nxt TCP_FLG_ACK []
  else
    let c1 : tcp_cb := if c.snd.una < ack ∧ ack ≤ c.snd.nxt then { c with snd.una := ack } else c
    if c1.state = TCP_CB_STATE_FIN_WAIT1 then
      let c2 : tcp_cb := if ack = c1.snd.nxt then { c1 with state := TCP_CB_STATE_FIN_WAIT2 } else c1
      tcp_event_payload U (w.put cb c2) cb hdr hlen plen
    else if c1.state = TCP_CB_STATE_CLOSING then
      if ack = c1.snd.nxt then
        some { (w.put cb { c1 with state := TCP_CB_STATE_TIME_WAIT }) with
                 wakeups := w.wakeups ++ [cb] }
      else some (w.put cb c1)
    else tcp_event_payload U (w.put cb c1) cb hdr hlen plen

/-- The synchronised states of `tcp_incoming_event`: everything after the
first `switch`. -/
def tcp_event_synchronized (U : Nat → Nat) (w : World) (cb : Fin 16) (hdr : List Nat)
    (hlen plen : Nat) : Option World :=
  let c := w.cb_table cb
  let flg := hdr_flg hdr
  if ntoh32 (hdr_seq hdr) ≠ c.rcv.nxt then some w
  else if TCP_FLG_ISSET flg (TCP_FLG_RST ||| TCP_FLG_SYN) then some w
  else if ¬ TCP_FLG_ISSET flg TCP_FLG_ACK then some w
  else if c.state = TCP_CB_STATE_SYN_RCVD then
    if c.snd.una ≤ ntoh32 (hdr_ack hdr) ∧ ntoh32 (hdr_ack hdr) ≤ c.snd.nxt then
      match c.parent with
      | none => none
      | some p =>
        let w1 := w.put cb { c with state := TCP_CB_STATE_ESTABLISHED }
        let pc := w1.cb_table p
        let w2 : World := { (w1.put p { pc with backlog := queue_push pc.backlog cb }) with
                              wakeups := w1.wakeups ++ [p] }
        tcp_event_ack U w2 cb hdr hlen plen
    else
      match tcp_tx_ U w cb (ntoh32 (hdr_ack hdr)) 0 TCP_FLG_RST [] with
      | none => none
      | some w1 => tcp_event_payload U w1 cb hdr hlen plen
  else if c.state = TCP_CB_STATE_ESTABLISHED ∨ c.state = TCP_CB_STATE_FIN_WAIT1 ∨
      c.state = TCP_CB_STATE_FIN_WAIT2 ∨ c.state = TCP_CB_STATE_CLOSE_WAIT ∨
      c.state = TCP_CB_STATE_CLOSING then
    tcp_event_ack U w cb hdr hlen plen
  else if c.state = TCP_CB_STATE_LAST_ACK then
    tcp_cb_clear { w with wakeups := w.wakeups ++ [cb] } cb
  else tcp_event_payload U w cb hdr hlen plen

/-- The function `tcp_incoming_event(cb, hdr, len)`, `len` being the length
of the segment `hdr`; `rnd` is the value `random()` returns if it is called. -/
def tcp_incoming_event (U : Nat → Nat) (rnd : Nat) (w : World) (cb : Fin 16) (hdr : List Nat) :
    Option World :=
  let len := hdr.length
  let hlen := (hdr_off hdr >>> 4) <<< 2
  let plen := (len + 2 ^ 32 - hlen) % 2 ^ 32
  let c := w.cb_table cb
  if c.state = TCP_CB_STATE_CLOSED then tcp_event_closed U w cb hdr plen
  else if c.state = TCP_CB_STATE_LISTEN then tcp_event_listen U rnd w cb hdr
  else if c.state = TCP_CB_STATE_SYN_SENT then tcp_event_syn_sent U w cb hdr
  else tcp_event_synchronized U w cb hdr hlen plen

/-- The lookup loop of `tcp_rx` over the slots still to visit: the result is
the slot the loop stopped at with `break` (if any), `fcb` and `lcb`. -/
def tcp_rx_scan (t : Fin 16 → tcp_cb) (iface src sport dport : Nat) :
    List (Fin 16) → Option (Fin 16) → Option (Fin 16) →
      Option (Fin 16) × Option (Fin 16) × Option (Fin 16)
  | [], fcb, lcb => (none, fcb, lcb)
  | i :: rest, fcb, lcb =>
    let c := t i
    if c.used = 0 then
      tcp_rx_scan t iface src sport dport rest (if fcb = none then some i else fcb) lcb
    else if (c.iface = 0 ∨ c.iface = iface) ∧ c.port = dport then
      if c.peer.addr = src ∧ c.peer.port = sport then (some i, fcb, lcb)
      else tcp_rx_scan t iface src sport dport rest fcb
        (if c.state = TCP_CB_STATE_LISTEN ∧ lcb = none then some i else lcb)
    else tcp_rx_scan t iface src sport dport rest fcb lcb

/-- The pseudo-header sum `tcp_rx` accumulates in `pseudo`. -/
def tcp_rx_pseudo (src dst len : Nat) : Nat :=
  ((src >>> 16) + (src &&& 0xffff) + (dst >>> 16) + (dst &&& 0xffff) +
    hton16 IP_PROTOCOL_TCP + hton16 len) % 2 ^ 32

/-- The function `tcp_rx(segment, len, src, dst, iface)`, `len` being the
length of `segment`, `src` and `dst` the addresses the pointers refer to. -/
def tcp_rx (U : Nat → Nat) (rnd : Nat) (w : World) (segment : List Nat) (src dst iface : Nat) :
    Option World :=
  let len := segment.length
  if dst ≠ U iface then some w
  else if len < TCP_HDR_SIZE then some w
  else if cksum16 segment len (tcp_rx_pseudo src dst len) ≠ 0 then some w
  else
    match tcp_rx_scan w.cb_table iface src (hdr_src segment) (hdr_dst segment) allSlots none none with
    | (some cb, _, _) => tcp_incoming_event U rnd w cb segment
    | (none, some fcb, some lcb) =>
      if TCP_FLG_IS (hdr_flg segment) TCP_FLG_SYN then
        let c := w.cb_table fcb
        let l := w.cb_table lcb
        let c1 : tcp_cb := { c with used := 1, state := l.state, iface := iface, port := l.port,
                                    peer := ⟨src, hdr_src segment⟩,
                                    rcv.wnd := TCP_WINDOW_SIZE, parent := some lcb }
        tcp_incoming_event U rnd (w.put fcb c1) fcb segment
      else some w
    | (none, _, _) => some w

/-! ## Socket API -/

/-- The function `tcp_api_open()`. -/
def tcp_api_open (w : World) : World × Int :=
  match allSlots.find? (fun i => (w.cb_table i).used = 0) with
  | some i => (w.put i { w.cb_table i with used := 1 }, (i.val : Int))
  | none => (w, -1)

/-- The code of `tcp_api_close` that runs when `sleep` has returned (and in the
`default` case): `tcp_cb_clear(cb)`, result `0`. -/
def tcp_api_close_wake (w : World) (soc : Int) : Outcome Unit :=
  match tcp_cb_clear w (slot soc) with
  | none => Outcome.fault
  | some w1 => Outcome.ret w1 0 ()

/-- The function `tcp_api_close(soc)` up to its `sleep` call or, when it does
not sleep, to its end. -/
def tcp_api_close (U : Nat → Nat) (w : World) (soc : Int) : Outcome Unit :=
  if TCP_SOCKET_ISINVALID soc then Outcome.ret w (-1) ()
  else
    let cb := slot soc
    let c := w.cb_table cb
    if c.used = 0 then Outcome.ret w (-1) ()
    else if c.state = TCP_CB_STATE_SYN_RCVD ∨ c.state = TCP_CB_STATE_ESTABLISHED then
      match tcp_tx_ U w cb c.snd.nxt c.rcv.nxt (TCP_FLG_FIN ||| TCP_FLG_ACK) [] with
      | none => Outcome.fault
      | some w1 =>
        let c1 := w1.cb_table cb
        Outcome.sleep (w1.put cb { c1 with state := TCP_CB_STATE_FIN_WAIT1,
                                           snd.nxt := (c1.snd.nxt + 1) % 2 ^ 32 })
    else if c.state = TCP_CB_STATE_CLOSE_WAIT then
      match tcp_tx_ U w cb c.snd.nxt c.rcv.nxt (TCP_FLG_FIN ||| TCP_FLG_ACK) [] with
      | none => Outcome.fault
      | some w1 =>
        let c1 := w1.cb_table cb
        Outcome.sleep (w1.put cb { c1 with state := TCP_CB_STATE_LAST_ACK,
                                           snd.nxt := (c1.snd.nxt + 1) % 2 ^ 32 })
    else tcp_api_close_wake w soc

/-- The port search of `tcp_api_connect`: the first `p` among `start`,
`start + 1`, ..., `TCP_SOURCE_PORT_MAX` for which the inner loop finds no used
CB holding `hton16(p)`. -/
def tcp_connect_port (t : Fin 16 → tcp_cb) (start : Nat) : Option Nat :=
  (List.range' start (TCP_SOURCE_PORT_MAX + 1 - start)).find?
    (fun p => allSlots.all (fun i => ¬ ((t i).used ≠ 0 ∧ (t i).port = hton16 p)))

/-- The loop `while (cb->state == TCP_CB_STATE_SYN_SENT) sleep(...)` at the
end of `tcp_api_connect`, entered at its test: also the code that runs when
`sleep` has returned. -/
def tcp_api_connect_wake (w : World) (soc : Int) : Outcome Unit :=
  if (w.cb_table (slot soc)).state = TCP_CB_STATE_SYN_SENT then Outcome.sleep w
  else Outcome.ret w 0 ()

/-- The function `tcp_api_connect(soc, addr, addrlen)` up to its first `sleep`
or its return; `now` is the value of `time(NULL)`, `rnd` the value of
`random()`. -/
def tcp_api_connect (U : Nat → Nat) (now rnd : Nat) (w : World) (soc : Int) (addr : sockaddr_in) :
    Outcome Unit :=
  if TCP_SOCKET_ISINVALID soc then Outcome.ret w (-1) ()
  else if addr.sin_family ≠ AF_INET then Outcome.ret w (-1) ()
  else
    let cb := slot soc
    let c := w.cb_table cb
    if c.used = 0 ∨ c.state ≠ TCP_CB_STATE_CLOSED then Outcome.ret w (-1) ()
    else
      let c1 : tcp_cb :=
        if c.port = 0 then
          match tcp_connect_port w.cb_table (TCP_SOURCE_PORT_MIN + now % 1024) with
          | some p => { c with port := hton16 p }
          | none => c
        else c
      if c1.port = 0 then Outcome.ret w (-1) ()
      else
        let c2 : tcp_cb := { c1 with peer := ⟨addr.sin_addr, addr.sin_port⟩,
                                     rcv.wnd := TCP_WINDOW_SIZE,
                                     iss := rnd % 2 ^ 32 }
        match tcp_tx_ U (w.put cb c2) cb c2.iss 0 TCP_FLG_SYN [] with
        | none => Outcome.fault
        | some w1 =>
          let c3 := w1.cb_table cb
          tcp_api_connect_wake
            (w1.put cb { c3 with snd.nxt := (c3.iss + 1) % 2 ^ 32,
                                 state := TCP_CB_STATE_SYN_SENT }) soc

/-- The function `tcp_api_bind(soc, addr, addrlen)`. -/
def tcp_api_bind (w : World) (soc : Int) (addr : sockaddr_in) : World × Int :=
  if TCP_SOCKET_ISINVALID soc then (w, -1)
  else if addr.sin_family ≠ AF_INET then (w, -1)
  else if allSlots.any (fun i => (w.cb_table i).port = addr.sin_port) then (w, -1)
  else
    let cb := slot soc
    let c := w.cb_table cb
    if c.used = 0 ∨ c.state ≠ TCP_CB_STATE_CLOSED then (w, -1)
    else (w.put cb { c with port := addr.sin_port }, 0)

/-- The function `tcp_api_listen(soc, backlog)`. -/
def tcp_api_listen (w : World) (soc : Int) (_backlog : Int) : World × Int :=
  if TCP_SOCKET_ISINVALID soc then (w, -1)
  else
    let cb := slot soc
    let c := w.cb_table cb
    if c.used = 0 ∨ c.state ≠ TCP_CB_STATE_CLOSED ∨ c.port = 0 then (w, -1)
    else (w.put cb { c with state := TCP_CB_STATE_LISTEN }, 0)

/-- What `tcp_api_accept` has written through its pointer arguments:
`*addrlen` and `*sin`, each `none` when not written. -/
structure accept_out where
  addrlen : Option Int
  sin : Option sockaddr_in
deriving DecidableEq, Repr

/-- The loop `while ((entry = queue_pop(&cb->backlog)) == NULL) { ... }` of
`tcp_api_accept`, entered at its test, and the code behind it: also the code
that runs when `sleep` has returned. `sin` tells whether `addr` was supplied,
`al` is what has been written to `*addrlen`. -/
def tcp_api_accept_wake (w : World) (soc : Int) (sin : Bool) (al : Option Int) (killed : Bool) :
    Outcome accept_out :=
  let cb := slot soc
  let c := w.cb_table cb
  match queue_pop c.backlog with
  | none => if killed then Outcome.ret w (-1) ⟨al, none⟩ else Outcome.sleep w
  | some (b, rest) =>
    let peer := (w.cb_table b).peer
    Outcome.ret (w.put cb { c with backlog := rest }) (b.val : Int)
      ⟨al, if sin then some ⟨AF_INET, peer.port, peer.addr⟩ else none⟩

/-- The function `tcp_api_accept(soc, addr, addrlen)`: `addr` tells whether the
pointer `addr` is non-null, `addrlen` is `none` for a null pointer and the
pointed-to `int` otherwise. The comparison `*addrlen < sizeof(struct sockaddr_in)`
is made in `size_t`. -/
def tcp_api_accept (w : World) (soc : Int) (addr : Bool) (addrlen : Option Int) (killed : Bool) :
    Outcome accept_out :=
  if TCP_SOCKET_ISINVALID soc then Outcome.ret w (-1) ⟨none, none⟩
  else if addr ∧ addrlen = none then Outcome.ret w (-1) ⟨none, none⟩
  else if addr ∧ (((addrlen.getD 0) % 2 ^ 32).toNat < SOCKADDR_IN_SIZE) then
    Outcome.ret w (-1) ⟨none, none⟩
  else
    let al : Option Int := if addr then some (SOCKADDR_IN_SIZE : Int) else none
    let c := w.cb_table (slot soc)
    if c.used = 0 then Outcome.ret w (-1) ⟨al, none⟩
    else if c.state ≠ TCP_CB_STATE_LISTEN then Outcome.ret w (-1) ⟨al, none⟩
    else tcp_api_accept_wake w soc addr al killed

/-- The loop `while (!(total = sizeof(cb->window) - cb->rcv.wnd)) { ... }` of
`tcp_api_recv`, entered at its test, and the code behind it: also the code
that runs when `sleep` has returned. The result carries the bytes written to
`buf`. With more than 4096 bytes "available" the copies leave `window`. -/
def tcp_api_recv_wake (w : World) (soc : Int) (size : Nat) (killed : Bool) : Outcome (List Nat) :=
  let cb := slot soc
  let c := w.cb_table cb
  let total := (TCP_WINDOW_SIZE + 2 ^ 32 - c.rcv.wnd) % 2 ^ 32
  if total = 0 then
    if ¬ TCP_CB_STATE_RX_ISREADY c then Outcome.ret w 0 []
    else if killed then Outcome.ret w (-1) []
    else Outcome.sleep w
  else if TCP_WINDOW_SIZE < total then Outcome.fault
  else
    let len := if size < total then size else total
    Outcome.ret
      (w.put cb { c with
        window := (c.window.drop len).take (total - len) ++ c.window.drop (total - len),
        rcv.wnd := (c.rcv.wnd + len) % 2 ^ 16 })
      (len : Int) (c.window.take len)

/-- The function `tcp_api_recv(soc, buf, size)`. -/
def tcp_api_recv (w : World) (soc : Int) (size : Nat) (killed : Bool) : Outcome (List Nat) :=
  if TCP_SOCKET_ISINVALID soc then Outcome.ret w (-1) []
  else if (w.cb_table (slot soc)).used = 0 then Outcome.ret w (-1) []
  else tcp_api_recv_wake w soc size killed

/-- The function `tcp_api_send(soc, buf, len)`, `len` being the length of `buf`. -/
def tcp_api_send (U : Nat → Nat) (w : World) (soc : Int) (buf : List Nat) : Outcome Unit :=
  if TCP_SOCKET_ISINVALID soc then Outcome.ret w (-1) ()
  else
    let cb := slot soc
    let c := w.cb_table cb
    if c.used = 0 then Outcome.ret w (-1) ()
    else if ¬ TCP_CB_STATE_TX_ISREADY c then Outcome.ret w (-1) ()
    else
      match tcp_tx_ U w cb c.snd.nxt c.rcv.nxt (TCP_FLG_ACK ||| TCP_FLG_PSH) buf with
      | none => Outcome.fault
      | some w1 =>
        let c1 := w1.cb_table cb
        Outcome.ret (w1.put cb { c1 with snd.nxt := (c1.snd.nxt + buf.length) % 2 ^ 32 }) 0 ()

/-! ## Runs used in the statements -/

/-- The results of `n` successive calls of `tcp_api_open`, and the world they leave. -/
def tcp_api_open_seq : Nat → World → List Int × World
  | 0, w => ([], w)
  | n + 1, w =>
    let r := tcp_api_open w
    let rest := tcp_api_open_seq n r.1
    (r.2 :: rest.1, rest.2)

/-- The table in which exactly the first `n` slots are allocated and nothing else has happened. -/
def World_opened (kmem n : Nat) : World where
  cb_table := fun j => if j.val < n then { tcp_cb_zero with used := 1 } else tcp_cb_zero
  ip_out := []
  wakeups := []
  kmem := kmem

/-! ## Sample states used to instantiate the theorems -/

/-- A sample interface table: every interface has the unicast address 127.0.0.2
(bytes `7f 00 00 02` in memory). -/
def U_sample : Nat → Nat := fun _ => 0x0200007f

/-- A sample connected CB: ESTABLISHED on interface 1, local port 80, peer
127.0.0.1 port 0xC000 (both ports as stored, in network order), `snd.nxt = 1001`,
`rcv.nxt = 0x500`, empty receive buffer. -/
def tcp_cb_sample : tcp_cb :=
  { tcp_cb_zero with used := 1, state := TCP_CB_STATE_ESTABLISHED, iface := 1, port := 0x5000,
                     peer := ⟨0x0100007f, 0x00c0⟩, snd := ⟨1001, 1001, 0, 0, 0, 4096⟩, iss := 1000,
                     rcv := ⟨0x500, 0, 4096⟩, irs := 0x4ff }

/-- The sample CB in slot 0 of an otherwise empty table, 64 pages free. -/
def World_sample : World := (World_init 64).put 0 tcp_cb_sample

/-- The sample CB after its peer has closed (CLOSE_WAIT), in slot 0. -/
def World_sample_close_wait : World :=
  (World_init 64).put 0 { tcp_cb_sample with state := TCP_CB_STATE_CLOSE_WAIT }

/-- The sample CB holding the five bytes "hello" in its receive buffer, in slot 0. -/
def World_sample_data : World :=
  (World_init 64).put 0 { tcp_cb_sample with
    window := [104, 101, 108, 108, 111] ++ List.replicate 4091 0,
    rcv := ⟨0x505, 0, 4091⟩ }

/-- A sample segment for the sample CB: source port 0xC000, destination port
0x0050, `seq = 0x600`, `ack = 1001`, data offset 5 words, flags `ACK|PSH`, window
0x1000, checksum field zero, four payload bytes. -/
def segment_sample_600 : List Nat :=
  [0xc0, 0x00, 0x00, 0x50, 0x00, 0x00, 0x06, 0x00, 0x00, 0x00, 0x03, 0xe9, 0x50, 0x18, 0x10, 0x00,
   0x00, 0x00, 0x00, 0x00, 1, 2, 3, 4]

/-! ## Auxiliary notions used in the proofs -/

/-- The sum, without wrap-around, of the 16-bit words of a buffer as the
little-endian host reads them, a trailing odd byte counted as it stands: what
`cksum16_loop` adds up as long as the 32-bit accumulator does not overflow. -/
def wsum : List Nat → Nat
  | a :: b :: rest => a + 256 * b + wsum rest
  | [a] => a
  | [] => 0

/-- The value `hlen = ((hdr->off >> 4) << 2)` computed at the head of
`tcp_incoming_event`. -/
def seg_hlen (hdr : List Nat) : Nat := (hdr_off hdr >>> 4) <<< 2

/-- The value `plen = len - hlen` (a `size_t`) computed at the head of
`tcp_incoming_event`, `len` being the length of the segment. -/
def seg_plen (hdr : List Nat) : Nat := (hdr.length + 2 ^ 32 - seg_hlen hdr) % 2 ^ 32

/-- A sample segment for the sample CB, in sequence: source port 0xC000,
destination port 0x0050, `seq = 0x500`, `ack = 1001`, data offset 5 words, flags
`ACK|PSH`, window 0x1000, checksum field zero, the two payload bytes "hi". -/
def segment_sample_500 : List Nat :=
  [0xc0, 0x00, 0x00, 0x50, 0x00, 0x00, 0x05, 0x00, 0x00, 0x00, 0x03, 0xe9, 0x50, 0x18, 0x10, 0x00,
   0x00, 0x00, 0x00, 0x00, 104, 105]

/-- Modelled from the spec: `ntoh16` is declared outside `src/`; the inverse of
`hton16`, on the little-endian host again the exchange of the two bytes. It is
how a stored port is read in host order. -/
def ntoh16 (n : Nat) : Nat := hton16 n

/-- A sample CB whose active open is under way: slot 0 in SYN_SENT on port 49157 towards
127.0.0.1 port 80, `iss = 1000`, one SYN sent and not answered. -/
def World_sample_syn_sent : World :=
  (World_init 64).put 0
    { tcp_cb_zero with used := 1, state := TCP_CB_STATE_SYN_SENT, port := 0x05c0,
                       peer := ⟨0x0100007f, 0x5000⟩, snd := ⟨1001, 0, 0, 0, 0, 0⟩, iss := 1000,
                       rcv := ⟨0, 0, 4096⟩ }

/-- A sample listening socket with two connections waiting: slot 0 in LISTEN on port 80 with
backlog `[1, 2]`; slots 1 and 2 are its children, ESTABLISHED, with peers 127.0.0.1 port
0xC000 and 127.0.0.1 port 0xC001. -/
def World_sample_listen : World :=
  (((World_init 64).put 0
      { tcp_cb_zero with used := 1, state := TCP_CB_STATE_LISTEN, port := 0x5000,
                         backlog := [1, 2] }).put 1
      { tcp_cb_sample with parent := some 0 }).put 2
      { tcp_cb_sample with peer := ⟨0x0100007f, 0x01c0⟩, parent := some 0 }

/-- A sample SYN: from 127.0.0.1 port 0xC000 to 127.0.0.2 port 0x0050, `seq = 0x100`,
`ack = 0`, data offset 5 words, flags SYN, window 0x1000, with the checksum that verifies for
these two addresses, no payload. -/
def segment_sample_syn : List Nat :=
  [0xc0, 0x00, 0x00, 0x50, 0x00, 0x00, 0x01, 0x00, 0x00, 0x00, 0x00, 0x00, 0x50, 0x02, 0x10, 0x00,
   224, 142, 0x00, 0x00]

/-- A sample passive socket: slot 0 is used and in LISTEN on port 80 (stored in network
order), on no particular interface; the other slots are free; 64 pages free. -/
def World_sample_passive : World :=
  (World_init 64).put 0 { tcp_cb_zero with used := 1, state := TCP_CB_STATE_LISTEN, port := 0x5000 }

/-- The state a FIN moves a CB to, as the last `switch` of `tcp_incoming_event` has it:
SYN_RCVD and ESTABLISHED go to CLOSE_WAIT, FIN_WAIT_1 to FIN_WAIT_2, FIN_WAIT_2 to
TIME_WAIT, every other state stays. -/
def fin_next (s : Nat) : Nat :=
  if s = TCP_CB_STATE_SYN_RCVD ∨ s = TCP_CB_STATE_ESTABLISHED then TCP_CB_STATE_CLOSE_WAIT
  else if s = TCP_CB_STATE_FIN_WAIT1 then TCP_CB_STATE_FIN_WAIT2
  else if s = TCP_CB_STATE_FIN_WAIT2 then TCP_CB_STATE_TIME_WAIT
  else s

/-- What the handling of a segment by `tcp_incoming_event` never changes in the CB it is
handed: the fields other than `state`, `snd.una`, `rcv`, `irs`, `txq` and `window`. -/
def cb_kept (c c' : tcp_cb) : Prop :=
  c'.used = c.used ∧ c'.iface = c.iface ∧ c'.port = c.port ∧ c'.peer = c.peer ∧
  c'.snd.nxt = c.snd.nxt ∧ c'.iss = c.iss ∧ c'.parent = c.parent ∧ c'.backlog = c.backlog

/-- The frame of an event on the CB `cb`: the other slots are as before, segments are only
added to what has been handed to `ip_tx`, and the CB keeps the fields of `cb_kept`. -/
def ev_frame (cb : Fin 16) (w w' : World) : Prop :=
  (∀ j, j ≠ cb → w'.cb_table j = w.cb_table j) ∧
  (∃ more, w'.ip_out = w.ip_out ++ more) ∧
  cb_kept (w.cb_table cb) (w'.cb_table cb)

/-- The ordering of sequence numbers the spec describes: `a <= b` when
`(b - a) mod 2^32 < 2^31`. -/
abbrev seq_le (a b : Nat) : Prop := (b + 2 ^ 32 - a) % 2 ^ 32 < 2 ^ 31

/-- A sample passive handshake whose initial send sequence number is the largest `uint32_t`:
slot 0 listens on port 80; slot 1 is its child in SYN_RCVD for the peer 127.0.0.1 port 0xC000,
with `iss = snd.una = 0xFFFFFFFF`, `snd.nxt = 0` and `rcv.nxt = 0x101`. -/
def World_sample_wrap : World :=
  ((World_init 64).put 0
      { tcp_cb_zero with used := 1, state := TCP_CB_STATE_LISTEN, port := 0x5000 }).put 1
    { tcp_cb_zero with used := 1, state := TCP_CB_STATE_SYN_RCVD, iface := 1, port := 0x5000,
                       peer := ⟨0x0100007f, 0x00c0⟩, snd := ⟨0, 0xFFFFFFFF, 0, 0, 0, 0⟩,
                       iss := 0xFFFFFFFF, rcv := ⟨0x101, 0, 4096⟩, irs := 0x100,
                       parent := some 0 }

/-- The third segment of that handshake: source port 0xC000, destination port 0x0050,
`seq = 0x101`, `ack = 0` (which is `iss + 1` modulo 2^32), flags ACK, no payload. -/
def segment_sample_ack0 : List Nat :=
  [0xc0, 0x00, 0x00, 0x50, 0x00, 0x00, 0x01, 0x01, 0x00, 0x00, 0x00, 0x00, 0x50, 0x10, 0x10, 0x00,
   0x00, 0x00, 0x00, 0x00]

/-- A sample passive handshake in the middle of the sequence space: as `World_sample_wrap`
with `iss = snd.una = 1000` and `snd.nxt = 1001`. -/
def World_sample_syn_rcvd : World :=
  ((World_init 64).put 0
      { tcp_cb_zero with used := 1, state := TCP_CB_STATE_LISTEN, port := 0x5000 }).put 1
    { tcp_cb_zero with used := 1, state := TCP_CB_STATE_SYN_RCVD, iface := 1, port := 0x5000,
                       peer := ⟨0x0100007f, 0x00c0⟩, snd := ⟨1001, 1000, 0, 0, 0, 0⟩,
                       iss := 1000, rcv := ⟨0x101, 0, 4096⟩, irs := 0x100,
                       parent := some 0 }

/-- The third segment of that handshake: `seq = 0x101`, `ack = 1001`, flags ACK, no
payload. -/
def segment_sample_ack1001 : List Nat :=
  [0xc0, 0x00, 0x00, 0x50, 0x00, 0x00, 0x01, 0x01, 0x00, 0x00, 0x03, 0xe9, 0x50, 0x10, 0x10, 0x00,
   0x00, 0x00, 0x00, 0x00]

/-! ## Runs of the module -/

/-- A call of the socket API, with its arguments and with what the environment supplies to
it: the value of `time(NULL)`, the value of `random()`, the caller's kill flag. -/
inductive Call where
  | api_open
  | api_bind (soc : Int) (addr : sockaddr_in)
  | api_listen (soc : Int) (backlog : Int)
  | api_accept (soc : Int) (addr : Bool) (addrlen : Option Int) (killed : Bool)
  | api_connect (soc : Int) (addr : sockaddr_in) (now rnd : Nat)
  | api_send (soc : Int) (buf : List Nat)
  | api_recv (soc : Int) (size : Nat) (killed : Bool)
  | api_close (soc : Int)

/-- A caller parked in `sleep` inside an API call: the call and the arguments the code behind
the `sleep` still uses. -/
inductive Cont where
  | in_close (soc : Int)
  | in_connect (soc : Int)
  | in_accept (soc : Int) (sin : Bool) (al : Option Int)
  | in_recv (soc : Int) (size : Nat)
deriving DecidableEq

/-- The table an API call leaves and, if the caller is parked, what it will resume; `none`
when the run ends in an out-of-bounds access. -/
def outcome_step {α : Type} (o : Outcome α) (k : Cont) : Option (World × Option Cont) :=
  match o with
  | Outcome.ret w _ _ => some (w, none)
  | Outcome.sleep w => some (w, some k)
  | Outcome.fault => none

/-- One API call, entered with the lock free. -/
def call_step (U : Nat → Nat) : Call → World → Option (World × Option Cont)
  | Call.api_open, w => some ((tcp_api_open w).1, none)
  | Call.api_bind soc addr, w => some ((tcp_api_bind w soc addr).1, none)
  | Call.api_listen soc backlog, w => some ((tcp_api_listen w soc backlog).1, none)
  | Call.api_accept soc addr addrlen killed, w =>
    outcome_step (tcp_api_accept w soc addr addrlen killed)
      (Cont.in_accept soc addr (if addr then some (SOCKADDR_IN_SIZE : Int) else none))
  | Call.api_connect soc addr now rnd, w =>
    outcome_step (tcp_api_connect U now rnd w soc addr) (Cont.in_connect soc)
  | Call.api_send soc buf, w => outcome_step (tcp_api_send U w soc buf) (Cont.in_close soc)
  | Call.api_recv soc size killed, w =>
    outcome_step (tcp_api_recv w soc size killed) (Cont.in_recv soc size)
  | Call.api_close soc, w => outcome_step (tcp_api_close U w soc) (Cont.in_close soc)

/-- A parked caller runs again (after a `wakeup` on its channel, or because it was killed):
`killed` is its kill flag at that moment. -/
def wake_step : Cont → Bool → World → Option (World × Option Cont)
  | Cont.in_close soc, _, w => outcome_step (tcp_api_close_wake w soc) (Cont.in_close soc)
  | Cont.in_connect soc, _, w => outcome_step (tcp_api_connect_wake w soc) (Cont.in_connect soc)
  | Cont.in_accept soc sin al, killed, w =>
    outcome_step (tcp_api_accept_wake w soc sin al killed) (Cont.in_accept soc sin al)
  | Cont.in_recv soc size, killed, w =>
    outcome_step (tcp_api_recv_wake w soc size killed) (Cont.in_recv soc size)

/-- The states of the module reachable from the all-zero table, together with the callers
parked in `sleep`, along the runs that stay inside the memory of the objects they access: by
API calls that the guard `G` admits, by parked callers running again, and by incoming
segments handed to `tcp_rx`. Steps are taken with the lock held, from one release of the lock
to the next. Only a step with a result (`some`) has a successor. A step without one (`none`)
is a step in which the C code accesses memory out of bounds or through `NULL`: a payload
copied by `tcp_incoming_event` that does not fit the room left in `window` or does not lie
inside its segment, a `tcp_api_send` that hands more than 1480 bytes to `tcp_tx`, a
`tcp_api_recv` on a CB with `rcv.wnd > 4096`, the acknowledgement of the SYN|ACK of a
SYN_RCVD CB whose `parent` is `NULL`. The real program goes on after such a step, with a
table the model does not describe; `Reach` does not hold of the states it then passes
through, and a theorem over `Reach` is a theorem about the runs without such a step. -/
inductive Reach (U : Nat → Nat) (G : World → Call → Prop) : World → List Cont → Prop where
  | init (kmem : Nat) : Reach U G (World_init kmem) []
  | call (w w' : World) (ps : List Cont) (c : Call) (k : Option Cont) :
      Reach U G w ps → G w c → call_step U c w = some (w', k) → Reach U G w' (k.toList ++ ps)
  | wake (w w' : World) (ps : List Cont) (k : Cont) (killed : Bool) (k' : Option Cont) :
      Reach U G w ps → k ∈ ps → wake_step k killed w = some (w', k') →
      Reach U G w' (k'.toList ++ ps.erase k)
  | rx (w w' : World) (ps : List Cont) (rnd : Nat) (segment : List Nat) (src dst iface : Nat) :
      Reach U G w ps → tcp_rx U rnd w segment src dst iface = some w' → Reach U G w' ps

/-- The guard that admits every call. -/
def any_call (_ : World) (_ : Call) : Prop := True

/-- The synchronised states of the spec. -/
abbrev TCP_CB_STATE_ISSYNC (s : Nat) : Prop :=
  s = TCP_CB_STATE_SYN_RCVD ∨ s = TCP_CB_STATE_ESTABLISHED ∨ s = TCP_CB_STATE_FIN_WAIT1 ∨
  s = TCP_CB_STATE_FIN_WAIT2 ∨ s = TCP_CB_STATE_CLOSING ∨ s = TCP_CB_STATE_TIME_WAIT ∨
  s = TCP_CB_STATE_CLOSE_WAIT ∨ s = TCP_CB_STATE_LAST_ACK

/-- The number of sequence numbers sent and not acknowledged, `(snd.nxt - snd.una) mod 2^32`. -/
def seq_diff (c : tcp_cb) : Nat := (c.snd.nxt + 2 ^ 32 - c.snd.una) % 2 ^ 32

/-- The guard under which the send sequence space is not overrun: a `tcp_api_send` of `len`
bytes on a CB that can send is made only while fewer than `2^31 - len` sequence numbers are
unacknowledged, and a `tcp_api_close` that sends a FIN only while fewer than `2^31 - 1` are. -/
def send_guard (w : World) : Call → Prop
  | Call.api_send soc buf =>
    TCP_CB_STATE_TX_ISREADY (w.cb_table (slot soc)) →
      seq_diff (w.cb_table (slot soc)) + buf.length < 2 ^ 31
  | Call.api_close soc =>
    ((w.cb_table (slot soc)).state = TCP_CB_STATE_SYN_RCVD ∨
      (w.cb_table (slot soc)).state = TCP_CB_STATE_ESTABLISHED ∨
      (w.cb_table (slot soc)).state = TCP_CB_STATE_CLOSE_WAIT) →
      seq_diff (w.cb_table (slot soc)) + 1 < 2 ^ 31
  | _ => True

/-- Two CB records agree in the fields the table invariants look at. -/
def core_same (c c' : tcp_cb) : Prop :=
  c'.used = c.used ∧ c'.state = c.state ∧ c'.snd.una = c.snd.una ∧ c'.snd.nxt = c.snd.nxt ∧
  c'.iss = c.iss

/-- What one step of the module, other than sending, can do to the fields `used`, `state`,
`snd.una`, `snd.nxt` and `iss` of a CB. -/
inductive cb_step : tcp_cb → tcp_cb → Prop where
  | same (c c' : tcp_cb) : core_same c c' → cb_step c c'
  | zero (c c' : tcp_cb) : core_same tcp_cb_zero c' → cb_step c c'
  | alloc (c c' : tcp_cb) : c.used = 0 → c'.used = 1 → c'.state = c.state →
      c'.snd.una = c.snd.una → c'.snd.nxt = c.snd.nxt → c'.iss = c.iss → cb_step c c'
  | listen (c c' : tcp_cb) : c.used ≠ 0 → c.state = TCP_CB_STATE_CLOSED →
      c'.state = TCP_CB_STATE_LISTEN → c'.used = c.used →
      c'.snd.una = c.snd.una → c'.snd.nxt = c.snd.nxt → c'.iss = c.iss → cb_step c c'
  | connect (c c' : tcp_cb) : c.used ≠ 0 → c.state = TCP_CB_STATE_CLOSED →
      c'.state = TCP_CB_STATE_SYN_SENT → c'.used = c.used → c'.snd.una = c.snd.una →
      c'.iss < 2 ^ 32 → c'.snd.nxt = (c'.iss + 1) % 2 ^ 32 → cb_step c c'
  | syn_rcvd (c c' : tcp_cb) :
      ((c.state = TCP_CB_STATE_LISTEN ∧ c'.used = c.used) ∨ (c.used = 0 ∧ c'.used = 1)) →
      c'.state = TCP_CB_STATE_SYN_RCVD → c'.iss < 2 ^ 32 → c'.snd.una = c'.iss →
      c'.snd.nxt = (c'.iss + 1) % 2 ^ 32 → cb_step c c'
  | established (c c' : tcp_cb) : c.state = TCP_CB_STATE_SYN_SENT →
      c'.state = TCP_CB_STATE_ESTABLISHED → c'.used = c.used → c.iss < c'.snd.una →
      c'.snd.una ≤ c.snd.nxt → c'.snd.nxt = c.snd.nxt → c'.iss = c.iss → cb_step c c'
  | sync (c c' : tcp_cb) : TCP_CB_STATE_ISSYNC c.state → TCP_CB_STATE_ISSYNC c'.state →
      c'.used = c.used → c'.snd.nxt = c.snd.nxt → c'.iss = c.iss →
      (c'.snd.una = c.snd.una ∨ (c.snd.una < c'.snd.una ∧ c'.snd.una ≤ c.snd.nxt)) →
      cb_step c c'

/-- Sending `len` sequence numbers: `snd.nxt` moves on by `len` modulo 2^32, the CB is and
stays in a synchronised state, `used`, `snd.una` and `iss` stay. -/
def cb_advance (len : Nat) (c c' : tcp_cb) : Prop :=
  TCP_CB_STATE_ISSYNC c.state ∧ TCP_CB_STATE_ISSYNC c'.state ∧ c'.used = c.used ∧
  c'.snd.una = c.snd.una ∧ c'.iss = c.iss ∧ c'.snd.nxt = (c.snd.nxt + len) % 2 ^ 32

/-- The sending step of a call, if it has one: `tcp_api_send` moves `snd.nxt` of its CB on by
the length of the buffer, a `tcp_api_close` that sends a FIN by one. -/
def call_advances : Call → Fin 16 → tcp_cb → tcp_cb → Prop
  | Call.api_send soc buf, j, c, c' =>
    j = slot soc ∧ TCP_CB_STATE_TX_ISREADY c ∧ cb_advance buf.length c c'
  | Call.api_close soc, j, c, c' =>
    j = slot soc ∧ (c.state = TCP_CB_STATE_SYN_RCVD ∨ c.state = TCP_CB_STATE_ESTABLISHED ∨
      c.state = TCP_CB_STATE_CLOSE_WAIT) ∧ cb_advance 1 c c'
  | _, _, _, _ => False

/-- The invariant "not CLOSED only if used" for one CB: it is allocated, or it is free and in
CLOSED. -/
def used_inv (c : tcp_cb) : Prop := c.used = 1 ∨ (c.used = 0 ∧ c.state = TCP_CB_STATE_CLOSED)

/-- The invariant of the send sequence space for one CB: `snd.una`, `snd.nxt` and `iss` are
32-bit values, in SYN_SENT `snd.nxt` is `iss + 1`, and in a synchronised state fewer than
`2^31` sequence numbers are unacknowledged. -/
def seq_inv (c : tcp_cb) : Prop :=
  c.snd.una < 2 ^ 32 ∧ c.snd.nxt < 2 ^ 32 ∧ c.iss < 2 ^ 32 ∧
  (c.state = TCP_CB_STATE_SYN_SENT → c.snd.nxt = (c.iss + 1) % 2 ^ 32) ∧
  (TCP_CB_STATE_ISSYNC c.state → seq_diff c < 2 ^ 31)

/-- The run "open, bind to port 80, listen" from the all-zero table with 64 free pages. -/
def World_run_listen : World :=
  (tcp_api_listen (tcp_api_bind (tcp_api_open (World_init 64)).1 0 ⟨AF_INET, 0x5000, 0⟩).1 0 1).1

/-- A sample answer to an active open: source port 0x0050, destination port 0xC005,
`seq = 0x100`, `ack = 0`, flags SYN|ACK, no payload. -/
def segment_sample_synack0 : List Nat :=
  [0x00, 0x50, 0xc0, 0x05, 0x00, 0x00, 0x01, 0x00, 0x00, 0x00, 0x00, 0x00, 0x50, 0x12, 0x10, 0x00,
   0x00, 0x00, 0x00, 0x00]

/-- The answer to the sample active open (`iss = 1000`): `seq = 0x100`, `ack = 1001`, flags
SYN|ACK, no payload. -/
def segment_sample_synack1001 : List Nat :=
  [0x00, 0x50, 0xc0, 0x05, 0x00, 0x00, 0x01, 0x00, 0x00, 0x00, 0x03, 0xe9, 0x50, 0x12, 0x10, 0x00,
   0x00, 0x00, 0x00, 0x00]

/-- The sample connection after its send sequence space has wrapped: slot 0 ESTABLISHED with
`snd.una = 0xFFFFFFF0` and `snd.nxt = 0x10` (32 bytes in flight), `rcv.nxt = 0x500`. -/
def World_sample_wrapped : World :=
  (World_init 64).put 0 { tcp_cb_sample with snd := ⟨0x10, 0xFFFFFFF0, 0, 0, 0, 4096⟩ }

/-- A sample acknowledgement for the wrapped connection: `seq = 0x500`, `ack = 5`, flags ACK,
no payload. -/
def segment_sample_ack5 : List Nat :=
  [0xc0, 0x00, 0x00, 0x50, 0x00, 0x00, 0x05, 0x00, 0x00, 0x00, 0x00, 0x05, 0x50, 0x10, 0x10, 0x00,
   0x00, 0x00, 0x00, 0x00]

/-- The sample connection with one byte in flight: slot 0 ESTABLISHED with `snd.una = 1000`,
`snd.nxt = 1001`, `rcv.nxt = 0x500`. -/
def World_sample_inflight : World :=
  (World_init 64).put 0 { tcp_cb_sample with snd := ⟨1001, 1000, 0, 0, 0, 4096⟩ }

/-- The acknowledgement of that byte: `seq = 0x500`, `ack = 1001`, flags ACK, no payload. -/
def segment_sample_ack_est : List Nat :=
  [0xc0, 0x00, 0x00, 0x50, 0x00, 0x00, 0x05, 0x00, 0x00, 0x00, 0x03, 0xe9, 0x50, 0x10, 0x10, 0x00,
   0x00, 0x00, 0x00, 0x00]

/-- The peer of the sample connection closes: `seq = 0x500`, `ack = 1001`, flags FIN|ACK, no
payload. -/
def segment_sample_fin : List Nat :=
  [0xc0, 0x00, 0x00, 0x50, 0x00, 0x00, 0x05, 0x00, 0x00, 0x00, 0x03, 0xe9, 0x50, 0x11, 0x10, 0x00,
   0x00, 0x00, 0x00, 0x00]

/-- The sample CB in slot 0 of an otherwise empty table, no page free. -/
def World_sample_nomem : World := (World_init 0).put 0 tcp_cb_sample

/-- A segment for the sample CB whose data-offset byte is 0xF0 (15 words, 60 bytes) although
the segment has 20 bytes: from 127.0.0.1 port 0xC000 to 127.0.0.2 port 0x0050, `seq = 0x500`,
`ack = 1001`, flags ACK, window 0x1000, with the checksum that verifies for these two
addresses. -/
def segment_sample_off15 : List Nat :=
  [0xc0, 0x00, 0x00, 0x50, 0x00, 0x00, 0x05, 0x00, 0x00, 0x00, 0x03, 0xe9, 0xf0, 0x10, 0x10, 0x00,
   56, 151, 0x00, 0x00]

/-- The run "open" from the all-zero table with 64 free pages: one call of `tcp_api_open`. -/
def World_run_open : World := (tcp_api_open (World_init 64)).1

/-- The third segment of the sample passive handshake as it arrives at `tcp_rx`: from
127.0.0.1 port 0xC000 to 127.0.0.2 port 0x0050, `seq = 0x101`, `ack = 1001`, flags ACK, no
payload, with the checksum that verifies for these two addresses. -/
def segment_sample_ack_valid : List Nat :=
  [0xc0, 0x00, 0x00, 0x50, 0x00, 0x00, 0x01, 0x01, 0x00, 0x00, 0x03, 0xe9, 0x50, 0x10, 0x10, 0x00,
   220, 150, 0x00, 0x00]

/-- The other end of the sample passive connection, written as a CB: 127.0.0.1 port 0xC000
towards 127.0.0.2 port 80. It is used to build the segments that end sends, with `tcp_tx`'s
own layout and checksum. -/
def tcp_cb_sample_peer : tcp_cb :=
  { tcp_cb_zero with used := 1, state := TCP_CB_STATE_ESTABLISHED, iface := 1, port := 0x00c0,
                     peer := ⟨0x0200007f, 0x5000⟩, snd := ⟨0x101, 0x101, 0, 0, 0, 4096⟩,
                     iss := 0x100, rcv := ⟨1001, 0, 4096⟩, irs := 1000 }

/-- A payload of 1460 bytes, the bytes 0x00 and 0x04 in turn. -/
def payload_sample_1460 : List Nat := (List.range 1460).map (fun i => if i % 2 = 0 then 0 else 4)

/-- A full-sized data segment of the sample passive connection: from 127.0.0.1 port 0xC000 to
127.0.0.2 port 80, `seq = q`, `ack = 1001`, flags ACK|PSH, 1460 payload bytes, valid
checksum. -/
def segment_sample_data (q : Nat) : List Nat :=
  tcp_tx_segment tcp_cb_sample_peer 0x0100007f q 1001 (TCP_FLG_ACK ||| TCP_FLG_PSH)
    payload_sample_1460

/-- The sample passive connection in a table: slot 1 is the child of the listener in slot 0,
ESTABLISHED on interface 1, local port 80, peer 127.0.0.1 port 0xC000, `snd.nxt = 1001`,
with `rcv.nxt = q` and `rcv.wnd = wnd`; the listener has no peer. -/
def sample_child (w : World) (q wnd : Nat) : Prop :=
  (w.cb_table 1).used = 1 ∧ (w.cb_table 1).state = TCP_CB_STATE_ESTABLISHED ∧
  (w.cb_table 1).iface = 1 ∧ (w.cb_table 1).port = 0x5000 ∧
  (w.cb_table 1).peer = ⟨0x0100007f, 0x00c0⟩ ∧ (w.cb_table 1).snd.nxt = 1001 ∧
  (w.cb_table 1).rcv.nxt = q ∧ (w.cb_table 1).rcv.wnd = wnd ∧
  (w.cb_table 0).peer.addr = 0

/-! ## Theorems -/

/-! ### Table bookkeeping -/

@[simp] theorem tcp_cb_zero_used : tcp_cb_zero.used = 0 := rfl

@[simp] theorem tcp_cb_zero_state : tcp_cb_zero.state = 0 := rfl

@[simp] theorem tcp_cb_zero_port : tcp_cb_zero.port = 0 := rfl

@[simp] theorem tcp_cb_zero_txq : tcp_cb_zero.txq = [] := rfl

@[simp] theorem tcp_cb_zero_backlog : tcp_cb_zero.backlog = [] := rfl

theorem mem_allSlots (i : Fin 16) : i ∈ allSlots := by
  revert i; decide

theorem allSlots_sorted : allSlots.Pairwise (· < ·) := by decide

@[simp] theorem set_cb_same (t : Fin 16 → tcp_cb) (i : Fin 16) (c : tcp_cb) : set_cb t i c i = c := by
  simp [set_cb]

theorem set_cb_other (t : Fin 16 → tcp_cb) (i j : Fin 16) (c : tcp_cb) (h : j ≠ i) :
    set_cb t i c j = t j := by
  simp [set_cb, h]

@[simp] theorem put_cb_table (w : World) (i : Fin 16) (c : tcp_cb) :
    (w.put i c).cb_table = set_cb w.cb_table i c := rfl

@[simp] theorem put_ip_out (w : World) (i : Fin 16) (c : tcp_cb) : (w.put i c).ip_out = w.ip_out := rfl

@[simp] theorem put_wakeups (w : World) (i : Fin 16) (c : tcp_cb) : (w.put i c).wakeups = w.wakeups := rfl

@[simp] theorem put_kmem (w : World) (i : Fin 16) (c : tcp_cb) : (w.put i c).kmem = w.kmem := rfl

theorem World_ext {w v : World} (h1 : w.cb_table = v.cb_table) (h2 : w.ip_out = v.ip_out)
    (h3 : w.wakeups = v.wakeups) (h4 : w.kmem = v.kmem) : w = v := by
  cases w; cases v; simp_all

theorem set_cb_self (t : Fin 16 → tcp_cb) (i : Fin 16) : set_cb t i (t i) = t := by
  funext j; by_cases h : j = i <;> simp [set_cb, h]

theorem set_cb_set_cb (t : Fin 16 → tcp_cb) (i : Fin 16) (c d : tcp_cb) :
    set_cb (set_cb t i c) i d = set_cb t i d := by
  funext j; by_cases h : j = i <;> simp [set_cb, h]

theorem put_self (w : World) (i : Fin 16) : w.put i (w.cb_table i) = w := by
  apply World_ext <;> simp [set_cb_self]

theorem put_put (w : World) (i : Fin 16) (c d : tcp_cb) : (w.put i c).put i d = w.put i d := by
  apply World_ext <;> simp [set_cb_set_cb]

theorem slot_val (s : Int) (h0 : 0 ≤ s) (h1 : s < 16) : ((slot s).val : Int) = s := by
  unfold slot
  simp [Fin.ofNat]
  omega

theorem slot_natCast (i : Fin 16) : slot (i.val : Int) = i := by
  apply Fin.ext
  simp [slot, Fin.ofNat]

/-- In a list of slots in increasing order, the search stops at the lowest slot that
satisfies the test. -/
theorem find?_lowest (p : Fin 16 → Bool) (i : Fin 16) (hp : p i = true)
    (hlt : ∀ j, j < i → p j = false) :
    ∀ l : List (Fin 16), l.Pairwise (· < ·) → i ∈ l → l.find? p = some i := by
  intro l
  induction l with
  | nil => intro _ h; simp at h
  | cons a l ih =>
    intro hs hi
    rw [List.pairwise_cons] at hs
    by_cases ha : a = i
    · subst ha; simp [List.find?, hp]
    · have hi2 : i ∈ l := by
        rcases List.mem_cons.mp hi with h | h
        · exact absurd h.symm ha
        · exact h
      have : p a = false := hlt a (hs.1 i hi2)
      simp [List.find?, this, ih hs.2 hi2]

theorem tcp_api_open_lowest (w : World) (i : Fin 16) (h0 : (w.cb_table i).used = 0)
    (hlt : ∀ j : Fin 16, j < i → (w.cb_table j).used ≠ 0) :
    tcp_api_open w = (w.put i { w.cb_table i with used := 1 }, (i.val : Int)) := by
  have := find?_lowest (fun i => decide ((w.cb_table i).used = 0)) i (by simpa using h0)
    (by intro j hj; simpa using hlt j hj) allSlots allSlots_sorted (mem_allSlots i)
  simp [tcp_api_open, this]

theorem tcp_api_open_full (w : World) (h : ∀ i : Fin 16, (w.cb_table i).used ≠ 0) :
    tcp_api_open w = (w, -1) := by
  have : allSlots.find? (fun i => decide ((w.cb_table i).used = 0)) = none := by
    rw [List.find?_eq_none]
    intro x _
    simpa using h x
  simp [tcp_api_open, this]

theorem tcp_api_open_result (w : World) :
    (tcp_api_open w).2 = -1 ↔ ∀ i : Fin 16, (w.cb_table i).used ≠ 0 := by
  constructor
  · intro h i hi
    cases hf : allSlots.find? (fun i => decide ((w.cb_table i).used = 0)) with
    | none =>
      rw [List.find?_eq_none] at hf
      have := hf i (mem_allSlots i)
      simp [hi] at this
    | some j =>
      simp [tcp_api_open, hf] at h
  · intro h
    rw [tcp_api_open_full w h]

theorem World_init_eq_opened (k : Nat) : World_init k = World_opened k 0 := by
  apply World_ext <;> simp [World_init, World_opened]

theorem tcp_api_open_opened (k n : Nat) (h : n < 16) :
    tcp_api_open (World_opened k n) = (World_opened k (n + 1), (n : Int)) := by
  have h1 := tcp_api_open_lowest (World_opened k n) ⟨n, h⟩ (by simp [World_opened])
    (by intro j hj; have : j.val < n := hj; simp [World_opened, this])
  rw [h1]
  congr 1
  apply World_ext
  · funext j
    simp only [put_cb_table, set_cb, World_opened]
    by_cases hj : j = ⟨n, h⟩
    · subst hj; simp
    · have : j.val ≠ n := fun e => hj (Fin.ext e)
      simp only [hj, if_false]
      by_cases h2 : j.val < n
      · have h3 : j.val < n + 1 := by omega
        simp [h2, h3]
      · have h3 : ¬ j.val < n + 1 := by omega
        simp [h2, h3]
  · rfl
  · rfl
  · rfl

theorem tcp_api_open_opened_full (k : Nat) :
    tcp_api_open (World_opened k 16) = (World_opened k 16, -1) := by
  apply tcp_api_open_full
  intro i
  have := i.isLt
  simp [World_opened, this]

theorem tcp_api_open_seq_init (k : Nat) :
    (tcp_api_open_seq 17 (World_init k)).1 = [0, 1, 2, 3, 4, 5, 6, 7, 8, 9, 10, 11, 12, 13, 14, 15, -1] := by
  rw [World_init_eq_opened]
  simp [tcp_api_open_seq, tcp_api_open_opened, tcp_api_open_opened_full]

/-- C1: `tcp_api_open` returns the index of the lowest slot with `used = 0` and sets only that
slot's `used` to 1; it returns -1 exactly when all 16 slots are used, and then changes nothing;
from the empty table 16 successive opens return 0, 1, ..., 15 and the 17th returns -1. -/
theorem tcp_api_open_spec (w : World) (k : Nat) :
    (∀ i : Fin 16, (w.cb_table i).used = 0 → (∀ j : Fin 16, j < i → (w.cb_table j).used ≠ 0) →
      tcp_api_open w = (w.put i { w.cb_table i with used := 1 }, (i.val : Int))) ∧
    ((tcp_api_open w).2 = -1 ↔ ∀ i : Fin 16, (w.cb_table i).used ≠ 0) ∧
    ((tcp_api_open w).2 = -1 → (tcp_api_open w).1 = w) ∧
    (tcp_api_open_seq 17 (World_init k)).1 =
      [0, 1, 2, 3, 4, 5, 6, 7, 8, 9, 10, 11, 12, 13, 14, 15, -1] := by
  refine ⟨fun i h0 hlt => tcp_api_open_lowest w i h0 hlt, tcp_api_open_result w, ?_,
    tcp_api_open_seq_init k⟩
  intro h
  rw [tcp_api_open_full w ((tcp_api_open_result w).mp h)]


theorem tcp_cb_clear_of_empty (w : World) (cb : Fin 16) (hb : (w.cb_table cb).backlog = [])
    (ht : (w.cb_table cb).txq = []) : tcp_cb_clear w cb = some (w.put cb tcp_cb_zero) := by
  simp only [tcp_cb_clear, tcp_cb_clear_fuel, hb, ht, queue_pop, List.foldl_nil]
  rw [put_put]

theorem tcp_api_bind_cases (w : World) (soc : Int) (addr : sockaddr_in) :
    tcp_api_bind w soc addr = (w, -1) ∨
    (tcp_api_bind w soc addr =
        (w.put (slot soc) { w.cb_table (slot soc) with port := addr.sin_port }, 0) ∧
      (w.cb_table (slot soc)).used ≠ 0 ∧ (w.cb_table (slot soc)).state = TCP_CB_STATE_CLOSED) := by
  unfold tcp_api_bind
  by_cases h1 : TCP_SOCKET_ISINVALID soc
  · simp [h1]
  by_cases h2 : addr.sin_family ≠ AF_INET
  · simp [h1, h2]
  by_cases h3 : allSlots.any (fun i => (w.cb_table i).port = addr.sin_port) = true
  · left; rw [if_neg h1, if_neg h2, if_pos h3]
  by_cases h4 : (w.cb_table (slot soc)).used = 0 ∨ (w.cb_table (slot soc)).state ≠ TCP_CB_STATE_CLOSED
  · left; rw [if_neg h1, if_neg h2, if_neg h3]; simp only [h4, if_true]
  · right
    rw [if_neg h1, if_neg h2, if_neg h3]
    simp only [h4, if_false]
    push_neg at h4
    exact ⟨trivial, h4.1, h4.2⟩

theorem tcp_api_listen_cases (w : World) (soc : Int) (n : Int) :
    tcp_api_listen w soc n = (w, -1) ∨
    (tcp_api_listen w soc n =
        (w.put (slot soc) { w.cb_table (slot soc) with state := TCP_CB_STATE_LISTEN }, 0) ∧
      (w.cb_table (slot soc)).used ≠ 0 ∧ (w.cb_table (slot soc)).state = TCP_CB_STATE_CLOSED) := by
  unfold tcp_api_listen
  by_cases h1 : TCP_SOCKET_ISINVALID soc
  · simp [h1]
  by_cases h4 : (w.cb_table (slot soc)).used = 0 ∨ (w.cb_table (slot soc)).state ≠ TCP_CB_STATE_CLOSED
      ∨ (w.cb_table (slot soc)).port = 0
  · left; simp only [h1, h4, if_true, if_false]
  · right
    simp only [h1, h4, if_true, if_false]
    push_neg at h4
    exact ⟨trivial, h4.1, h4.2.1⟩

/-- Closing a used socket that is neither connected nor half-closed and holds no queue
entries zeroes its slot and returns 0. -/
theorem tcp_api_close_idle (U : Nat → Nat) (w : World) (soc : Int) (hv : ¬ TCP_SOCKET_ISINVALID soc)
    (hu : (w.cb_table (slot soc)).used ≠ 0)
    (hs : (w.cb_table (slot soc)).state = TCP_CB_STATE_CLOSED ∨
      (w.cb_table (slot soc)).state = TCP_CB_STATE_LISTEN)
    (hb : (w.cb_table (slot soc)).backlog = []) (ht : (w.cb_table (slot soc)).txq = []) :
    tcp_api_close U w soc = Outcome.ret (w.put (slot soc) tcp_cb_zero) 0 () := by
  unfold tcp_api_close
  rcases hs with hs | hs <;>
    simp [hv, hu, hs, tcp_api_close_wake, tcp_cb_clear_of_empty w (slot soc) hb ht]

theorem World_opened_one_put_zero (k : Nat) (c : tcp_cb) :
    ((World_opened k 1).put 0 c).put 0 tcp_cb_zero = World_init k := by
  rw [put_put]
  apply World_ext
  · funext j
    by_cases hj : j = 0
    · subst hj; simp [World_init]
    · have h0 : (j : Nat) ≠ 0 := fun h => hj (Fin.ext h)
      simp [World_init, World_opened, set_cb, hj, h0]
  · rfl
  · rfl
  · rfl

/-- C2: from the initial all-zero table, `s = open(); close(s)` and
`s = open(); bind(s, addr); listen(s, n); close(s)` both return 0 from `close` and leave the
world equal to the initial one (every CB all zero), for every `addr` and `n`, whether or not
the bind and the listen succeeded. -/
theorem close_undoes_open (U : Nat → Nat) (k : Nat) (addr : sockaddr_in) (n : Int) :
    tcp_api_close U (tcp_api_open (World_init k)).1 (tcp_api_open (World_init k)).2
      = Outcome.ret (World_init k) 0 () ∧
    tcp_api_close U
      (tcp_api_listen
        (tcp_api_bind (tcp_api_open (World_init k)).1 (tcp_api_open (World_init k)).2 addr).1
        (tcp_api_open (World_init k)).2 n).1
      (tcp_api_open (World_init k)).2
      = Outcome.ret (World_init k) 0 () := by
  have hopen : tcp_api_open (World_init k) = (World_opened k 1, 0) := by
    rw [World_init_eq_opened, tcp_api_open_opened k 0 (by omega)]; rfl
  have hslot : slot 0 = (0 : Fin 16) := rfl
  have hw1 : World_opened k 1 = (World_opened k 1).put 0 ((World_opened k 1).cb_table 0) :=
    (put_self _ _).symm
  have hc0 : (World_opened k 1).cb_table 0 = { tcp_cb_zero with used := 1 } := by
    simp [World_opened]
  have key : ∀ c : tcp_cb, c.used ≠ 0 →
      (c.state = TCP_CB_STATE_CLOSED ∨ c.state = TCP_CB_STATE_LISTEN) →
      c.backlog = [] → c.txq = [] →
      tcp_api_close U ((World_opened k 1).put 0 c) 0 = Outcome.ret (World_init k) 0 () := by
    intro c h1 h2 h3 h4
    rw [tcp_api_close_idle U _ 0 (by decide) (by simpa [hslot] using h1)
      (by simpa [hslot] using h2) (by simpa [hslot] using h3) (by simpa [hslot] using h4)]
    rw [hslot, World_opened_one_put_zero]
  rw [hopen]
  refine ⟨?_, ?_⟩
  · show tcp_api_close U (World_opened k 1) 0 = _
    rw [hw1, hc0]
    exact key _ (by simp) (by simp) (by simp) (by simp)
  · show tcp_api_close U (tcp_api_listen (tcp_api_bind (World_opened k 1) 0 addr).1 0 n).1 0 = _
    rcases tcp_api_bind_cases (World_opened k 1) 0 addr with hb | ⟨hb, -, -⟩ <;> rw [hb] <;>
      simp only [hslot, hc0]
    · rcases tcp_api_listen_cases (World_opened k 1) 0 n with hl | ⟨hl, -, -⟩ <;> rw [hl] <;>
        simp only [hslot, hc0]
      · rw [hw1, hc0]
        exact key _ (by simp) (by simp) (by simp) (by simp)
      · exact key _ (by simp) (by simp) (by simp) (by simp)
    · rcases tcp_api_listen_cases ((World_opened k 1).put 0
          { ({ tcp_cb_zero with used := 1 } : tcp_cb) with port := addr.sin_port }) 0 n
        with hl | ⟨hl, -, -⟩ <;> rw [hl] <;> simp only [hslot, put_cb_table, set_cb_same, put_put]
      · exact key _ (by simp) (by simp) (by simp) (by simp)
      · exact key _ (by simp) (by simp) (by simp) (by simp)


/-- C3, as stated, fails on the code. (1) Socket 0 is open, CLOSED, the family is AF_INET and no
other CB with `used = 1` holds port 0, yet binding socket 0 to port 0 returns -1: the scan also
matches unused slots and the socket itself. (2) Socket 0 is open, CLOSED and already bound to
port 0x0050, no other used CB holds that port, yet binding it to 0x0050 again returns -1. -/
theorem tcp_api_bind_counterexample :
    (¬ TCP_SOCKET_ISINVALID 0 ∧
      ((World_opened 0 1).cb_table (slot 0)).used = 1 ∧
      ((World_opened 0 1).cb_table (slot 0)).state = TCP_CB_STATE_CLOSED ∧
      (⟨AF_INET, 0, 0⟩ : sockaddr_in).sin_family = AF_INET ∧
      (∀ j : Fin 16, j ≠ slot 0 →
        ¬ (((World_opened 0 1).cb_table j).used = 1 ∧ ((World_opened 0 1).cb_table j).port = 0)) ∧
      (tcp_api_bind (World_opened 0 1) 0 ⟨AF_INET, 0, 0⟩).2 = -1) ∧
    (¬ TCP_SOCKET_ISINVALID 0 ∧
      ((tcp_api_bind (World_opened 0 1) 0 ⟨AF_INET, 0x0050, 0⟩).1.cb_table (slot 0)).used = 1 ∧
      ((tcp_api_bind (World_opened 0 1) 0 ⟨AF_INET, 0x0050, 0⟩).1.cb_table (slot 0)).state
        = TCP_CB_STATE_CLOSED ∧
      (∀ j : Fin 16, j ≠ slot 0 →
        ¬ (((tcp_api_bind (World_opened 0 1) 0 ⟨AF_INET, 0x0050, 0⟩).1.cb_table j).used = 1 ∧
          ((tcp_api_bind (World_opened 0 1) 0 ⟨AF_INET, 0x0050, 0⟩).1.cb_table j).port = 0x0050)) ∧
      (tcp_api_bind (World_opened 0 1) 0 ⟨AF_INET, 0x0050, 0⟩).2 = 0 ∧
      (tcp_api_bind (tcp_api_bind (World_opened 0 1) 0 ⟨AF_INET, 0x0050, 0⟩).1 0
        ⟨AF_INET, 0x0050, 0⟩).2 = -1) := by
  decide

theorem any_port_iff (w : World) (p : Nat) :
    allSlots.any (fun i => decide ((w.cb_table i).port = p)) = true ↔
      ∃ j : Fin 16, (w.cb_table j).port = p := by
  rw [List.any_eq_true]
  constructor
  · rintro ⟨j, -, hj⟩; exact ⟨j, by simpa using hj⟩
  · rintro ⟨j, hj⟩; exact ⟨j, mem_allSlots j, by simpa using hj⟩

theorem tcp_api_bind_eq_zero_iff (w : World) (soc : Int) (addr : sockaddr_in) :
    (tcp_api_bind w soc addr).2 = 0 ↔
      (¬ TCP_SOCKET_ISINVALID soc ∧ (w.cb_table (slot soc)).used ≠ 0 ∧
        (w.cb_table (slot soc)).state = TCP_CB_STATE_CLOSED ∧ addr.sin_family = AF_INET ∧
        ∀ j : Fin 16, (w.cb_table j).port ≠ addr.sin_port) := by
  have hany := any_port_iff w addr.sin_port
  unfold tcp_api_bind
  by_cases h1 : TCP_SOCKET_ISINVALID soc
  · simp [h1]
  by_cases h2 : addr.sin_family ≠ AF_INET
  · simp [h1, h2]
  by_cases h3 : allSlots.any (fun i => (w.cb_table i).port = addr.sin_port) = true
  · rw [if_neg h1, if_neg h2, if_pos h3]
    have := hany.mp h3
    simp only [Int.reduceNeg, Int.reduceEq, false_iff, not_and, not_forall]
    intro _ _ _ _
    obtain ⟨j, hj⟩ := this
    exact ⟨j, by simpa using hj⟩
  · rw [if_neg h1, if_neg h2, if_neg h3]
    have h3' : ∀ j : Fin 16, (w.cb_table j).port ≠ addr.sin_port := by
      intro j hj; exact h3 (hany.mpr ⟨j, hj⟩)
    push_neg at h2
    by_cases h4 : (w.cb_table (slot soc)).used = 0 ∨
        (w.cb_table (slot soc)).state ≠ TCP_CB_STATE_CLOSED
    · simp only [h4, if_true]
      simp only [Int.reduceNeg, Int.reduceEq, false_iff, not_and]
      intro _ hu hs
      rcases h4 with h4 | h4
      · exact absurd h4 hu
      · exact absurd hs h4
    · simp only [h4, if_false, true_iff]
      push_neg at h4
      exact ⟨h1, h4.1, h4.2, h2, h3'⟩

theorem World_opened_cb (k n : Nat) (j : Fin 16) :
    (World_opened k n).cb_table j = if j.val < n then { tcp_cb_zero with used := 1 } else tcp_cb_zero :=
  rfl

theorem World_opened_port (k n : Nat) (j : Fin 16) : ((World_opened k n).cb_table j).port = 0 := by
  rw [World_opened_cb]; split <;> rfl

theorem World_opened_state (k n : Nat) (j : Fin 16) : ((World_opened k n).cb_table j).state = 0 := by
  rw [World_opened_cb]; split <;> rfl

/-- C3, amended: `tcp_api_bind(s, addr)` returns 0 if and only if `s` is in [0,16), `cb[s]` is
used and CLOSED, the family is AF_INET, and no CB of the table at all (used or not, `cb[s]`
included) has its `port` equal to the port of `addr`; then it sets `cb[s].port` and changes
nothing else; in every other case it returns -1 and changes nothing. When two open sockets
are both bound to port 0x0050, the first bind returns 0 and the second returns -1. -/
theorem tcp_api_bind_spec (w : World) (soc : Int) (addr : sockaddr_in) (k : Nat) :
    ((tcp_api_bind w soc addr).2 = 0 ↔
      (¬ TCP_SOCKET_ISINVALID soc ∧ (w.cb_table (slot soc)).used ≠ 0 ∧
        (w.cb_table (slot soc)).state = TCP_CB_STATE_CLOSED ∧ addr.sin_family = AF_INET ∧
        ∀ j : Fin 16, (w.cb_table j).port ≠ addr.sin_port)) ∧
    ((tcp_api_bind w soc addr).2 = 0 →
      (tcp_api_bind w soc addr).1 =
        w.put (slot soc) { w.cb_table (slot soc) with port := addr.sin_port }) ∧
    ((tcp_api_bind w soc addr).2 ≠ 0 → tcp_api_bind w soc addr = (w, -1)) ∧
    ((tcp_api_bind (tcp_api_open (tcp_api_open (World_init k)).1).1 0 ⟨AF_INET, 0x0050, 0⟩).2 = 0 ∧
      (tcp_api_bind
        (tcp_api_bind (tcp_api_open (tcp_api_open (World_init k)).1).1 0 ⟨AF_INET, 0x0050, 0⟩).1 1
        ⟨AF_INET, 0x0050, 0⟩).2 = -1) := by
  refine ⟨tcp_api_bind_eq_zero_iff w soc addr, ?_, ?_, ?_⟩
  · intro h
    rcases tcp_api_bind_cases w soc addr with hb | ⟨hb, -, -⟩
    · rw [hb] at h; simp at h
    · rw [hb]
  · intro h
    rcases tcp_api_bind_cases w soc addr with hb | ⟨hb, -, -⟩
    · exact hb
    · rw [hb] at h; simp at h
  · have hopen : (tcp_api_open (tcp_api_open (World_init k)).1).1 = World_opened k 2 := by
      rw [World_init_eq_opened, tcp_api_open_opened k 0 (by omega)]
      show (tcp_api_open (World_opened k 1)).1 = _
      rw [tcp_api_open_opened k 1 (by omega)]
    rw [hopen]
    have h1 : (tcp_api_bind (World_opened k 2) 0 ⟨AF_INET, 0x0050, 0⟩).2 = 0 := by
      rw [tcp_api_bind_eq_zero_iff]
      refine ⟨by decide, ?_, World_opened_state k 2 _, rfl, ?_⟩
      · rw [World_opened_cb]; simp [slot, Fin.ofNat]
      · intro j; rw [World_opened_port]; decide
    refine ⟨h1, ?_⟩
    rcases tcp_api_bind_cases (World_opened k 2) 0 ⟨AF_INET, 0x0050, 0⟩ with hb | ⟨hb, -, -⟩
    · rw [hb] at h1; simp at h1
    · rw [hb]
      rcases tcp_api_bind_cases ((World_opened k 2).put (slot 0)
          { (World_opened k 2).cb_table (slot 0) with port := 0x0050 }) 1 ⟨AF_INET, 0x0050, 0⟩
        with hc | ⟨hc, -, -⟩
      · simp only [] at hc ⊢; rw [hc]
      · exfalso
        have h2 := (tcp_api_bind_eq_zero_iff ((World_opened k 2).put (slot 0)
          { (World_opened k 2).cb_table (slot 0) with port := 0x0050 }) 1
            ⟨AF_INET, 0x0050, 0⟩).mp (by simp only [] at hc ⊢; rw [hc])
        exact h2.2.2.2.2 (slot 0) (by simp)

/-! ### Validation failures -/

/-- C4: validation failures have no side effect. For each of `tcp_api_close`,
`tcp_api_connect`, `tcp_api_bind`, `tcp_api_listen`, `tcp_api_accept`, `tcp_api_recv` and
`tcp_api_send`: when the socket index is outside [0,16), or the slot has `used = 0`, or the
family is not AF_INET (connect, bind), or the CB is not in the state the call requires (CLOSED
for connect, bind and listen, with the port set for listen; LISTEN for accept; ESTABLISHED or
CLOSE_WAIT for send), the call returns -1 and the world is the one it started from: the table
is unchanged and no segment has been transmitted. (`tcp_api_accept` writes no address; it may
already have stored `sizeof(struct sockaddr_in)` in the caller's `*addrlen`.) -/
theorem validation_failure_no_side_effect (U : Nat → Nat) (w : World) (soc : Int)
    (addr : sockaddr_in) (now rnd : Nat) (n : Int) (a : Bool) (al : Option Int) (killed : Bool)
    (size : Nat) (buf : List Nat) :
    ((TCP_SOCKET_ISINVALID soc ∨ (w.cb_table (slot soc)).used = 0) →
      tcp_api_close U w soc = Outcome.ret w (-1) ()) ∧
    ((TCP_SOCKET_ISINVALID soc ∨ (w.cb_table (slot soc)).used = 0 ∨ addr.sin_family ≠ AF_INET ∨
        (w.cb_table (slot soc)).state ≠ TCP_CB_STATE_CLOSED) →
      tcp_api_connect U now rnd w soc addr = Outcome.ret w (-1) ()) ∧
    ((TCP_SOCKET_ISINVALID soc ∨ (w.cb_table (slot soc)).used = 0 ∨ addr.sin_family ≠ AF_INET ∨
        (w.cb_table (slot soc)).state ≠ TCP_CB_STATE_CLOSED) →
      tcp_api_bind w soc addr = (w, -1)) ∧
    ((TCP_SOCKET_ISINVALID soc ∨ (w.cb_table (slot soc)).used = 0 ∨
        (w.cb_table (slot soc)).state ≠ TCP_CB_STATE_CLOSED ∨ (w.cb_table (slot soc)).port = 0) →
      tcp_api_listen w soc n = (w, -1)) ∧
    ((TCP_SOCKET_ISINVALID soc ∨ (w.cb_table (slot soc)).used = 0 ∨
        (w.cb_table (slot soc)).state ≠ TCP_CB_STATE_LISTEN) →
      ∃ written, tcp_api_accept w soc a al killed = Outcome.ret w (-1) ⟨written, none⟩) ∧
    ((TCP_SOCKET_ISINVALID soc ∨ (w.cb_table (slot soc)).used = 0) →
      tcp_api_recv w soc size killed = Outcome.ret w (-1) []) ∧
    ((TCP_SOCKET_ISINVALID soc ∨ (w.cb_table (slot soc)).used = 0 ∨
        ¬ ((w.cb_table (slot soc)).state = TCP_CB_STATE_ESTABLISHED ∨
          (w.cb_table (slot soc)).state = TCP_CB_STATE_CLOSE_WAIT)) →
      tcp_api_send U w soc buf = Outcome.ret w (-1) ()) := by
  refine ⟨?_, ?_, ?_, ?_, ?_, ?_, ?_⟩
  · intro h
    unfold tcp_api_close
    by_cases h1 : TCP_SOCKET_ISINVALID soc
    · rw [if_pos h1]
    · rw [if_neg h1]
      have h2 : (w.cb_table (slot soc)).used = 0 := h.resolve_left h1
      simp only [h2, if_true]
  · intro h
    unfold tcp_api_connect
    by_cases h1 : TCP_SOCKET_ISINVALID soc
    · rw [if_pos h1]
    rw [if_neg h1]
    by_cases h2 : addr.sin_family ≠ AF_INET
    · rw [if_pos h2]
    rw [if_neg h2]
    have h3 : (w.cb_table (slot soc)).used = 0 ∨
        (w.cb_table (slot soc)).state ≠ TCP_CB_STATE_CLOSED := by
      rcases h with h | h | h | h
      · exact absurd h h1
      · exact Or.inl h
      · exact absurd h h2
      · exact Or.inr h
    simp only [h3, if_true]
  · intro h
    rcases tcp_api_bind_cases w soc addr with hb | ⟨hb, hu, hs⟩
    · exact hb
    · exfalso
      have hz := (tcp_api_bind_eq_zero_iff w soc addr).mp (by rw [hb])
      rcases h with h | h | h | h
      · exact hz.1 h
      · exact hu h
      · exact h hz.2.2.2.1
      · exact h hs
  · intro h
    unfold tcp_api_listen
    by_cases h1 : TCP_SOCKET_ISINVALID soc
    · rw [if_pos h1]
    rw [if_neg h1]
    have h3 := h.resolve_left h1
    simp only [h3, if_true]
  · intro h
    unfold tcp_api_accept
    by_cases h1 : TCP_SOCKET_ISINVALID soc
    · rw [if_pos h1]; exact ⟨_, rfl⟩
    rw [if_neg h1]
    split
    · exact ⟨_, rfl⟩
    split
    · exact ⟨_, rfl⟩
    by_cases h2 : (w.cb_table (slot soc)).used = 0
    · simp only [h2, if_true]; exact ⟨_, rfl⟩
    have h3 : (w.cb_table (slot soc)).state ≠ TCP_CB_STATE_LISTEN :=
      (h.resolve_left h1).resolve_left h2
    simp only [h2, h3, if_false, if_true, ne_eq, not_false_eq_true]
    exact ⟨_, rfl⟩
  · intro h
    unfold tcp_api_recv
    by_cases h1 : TCP_SOCKET_ISINVALID soc
    · rw [if_pos h1]
    rw [if_neg h1]
    have h2 : (w.cb_table (slot soc)).used = 0 := h.resolve_left h1
    simp only [h2, if_true]
  · intro h
    unfold tcp_api_send
    by_cases h1 : TCP_SOCKET_ISINVALID soc
    · rw [if_pos h1]
    rw [if_neg h1]
    by_cases h2 : (w.cb_table (slot soc)).used = 0
    · simp only [h2, if_true]
    have h3 := (h.resolve_left h1).resolve_left h2
    simp only [h2, h3, if_false, if_true, not_false_eq_true]

/-! ### The segment builder -/

theorem kalloc_some (w w1 : World) (h : kalloc w = some w1) :
    w1.cb_table = w.cb_table ∧ w1.ip_out = w.ip_out ∧ w1.wakeups = w.wakeups := by
  unfold kalloc at h
  split_ifs at h
  cases h
  exact ⟨rfl, rfl, rfl⟩

/-- What `tcp_txq_add` leaves alone: the `ip_tx` log, the `wakeup` log, and every field of
the table other than `txq` of its own CB. -/
theorem tcp_txq_add_frame (w : World) (cb : Fin 16) (hdr : List Nat) (len : Nat) :
    (tcp_txq_add w cb hdr len).1.ip_out = w.ip_out ∧
    (tcp_txq_add w cb hdr len).1.wakeups = w.wakeups ∧
    (tcp_txq_add w cb hdr len).1.cb_table =
      set_cb w.cb_table cb
        { w.cb_table cb with txq := ((tcp_txq_add w cb hdr len).1.cb_table cb).txq } := by
  unfold tcp_txq_add
  cases h1 : kalloc w with
  | none => exact ⟨rfl, rfl, (set_cb_self _ _).symm⟩
  | some w1 =>
    obtain ⟨e1, e2, e3⟩ := kalloc_some w w1 h1
    dsimp only
    cases h2 : kalloc w1 with
    | none =>
      dsimp only [kfree]
      refine ⟨e2, e3, ?_⟩
      rw [e1]
      exact (set_cb_self _ _).symm
    | some w2 =>
      obtain ⟨f1, f2, f3⟩ := kalloc_some w1 w2 h2
      dsimp only
      refine ⟨by simp [f2, e2], by simp [f3, e3], ?_⟩
      simp [f1, e1]

theorem tcp_txq_add_ip_out (w : World) (cb : Fin 16) (hdr : List Nat) (len : Nat) :
    (tcp_txq_add w cb hdr len).1.ip_out = w.ip_out :=
  (tcp_txq_add_frame w cb hdr len).1

theorem tcp_txq_add_wakeups (w : World) (cb : Fin 16) (hdr : List Nat) (len : Nat) :
    (tcp_txq_add w cb hdr len).1.wakeups = w.wakeups :=
  (tcp_txq_add_frame w cb hdr len).2.1

/-- `tcp_txq_add` touches no field of the table other than `txq` of its own CB. -/
theorem tcp_txq_add_cb_table (w : World) (cb : Fin 16) (hdr : List Nat) (len : Nat) :
    (tcp_txq_add w cb hdr len).1.cb_table =
      set_cb w.cb_table cb
        { w.cb_table cb with txq := ((tcp_txq_add w cb hdr len).1.cb_table cb).txq } :=
  (tcp_txq_add_frame w cb hdr len).2.2

/-- A segment that fits the staging buffer is always built and handed to `ip_tx`. -/
theorem tcp_tx__eq (U : Nat → Nat) (w : World) (cb : Fin 16) (seq ack flg : Nat) (buf : List Nat)
    (h : TCP_HDR_SIZE + buf.length ≤ TCP_SEGMENT_SIZE) :
    tcp_tx_ U w cb seq ack flg buf =
      some (tcp_txq_add
        { w with ip_out := w.ip_out ++
          [⟨(w.cb_table cb).iface, IP_PROTOCOL_TCP,
            tcp_tx_segment (w.cb_table cb) (U (w.cb_table cb).iface) seq ack flg buf,
            TCP_HDR_SIZE + buf.length, (w.cb_table cb).peer.addr⟩] }
        cb (tcp_tx_segment (w.cb_table cb) (U (w.cb_table cb).iface) seq ack flg buf)
        (TCP_HDR_SIZE + buf.length)).1 := by
  have h' : ¬ (TCP_SEGMENT_SIZE < TCP_HDR_SIZE + buf.length) := by omega
  simp only [tcp_tx_, tcp_tx, if_neg h', Option.map_some']

theorem hton32_of_bytes (b0 b1 b2 b3 : Nat) (h0 : b0 < 256) (h1 : b1 < 256) (h2 : b2 < 256)
    (h3 : b3 < 256) :
    hton32 (b0 + 2 ^ 8 * b1 + 2 ^ 16 * b2 + 2 ^ 24 * b3) =
      b0 * 2 ^ 24 + b1 * 2 ^ 16 + b2 * 2 ^ 8 + b3 := by
  unfold hton32
  omega

theorem join_bytes (a b c d : Nat) (ha : a < 256) (hb : b < 256) (hc : c < 256) (hd : d < 256) :
    (a * 2 ^ 24 + b * 2 ^ 16 + c * 2 ^ 8 + d) % 256 = d ∧
    (a * 2 ^ 24 + b * 2 ^ 16 + c * 2 ^ 8 + d) / 2 ^ 8 % 256 = c ∧
    (a * 2 ^ 24 + b * 2 ^ 16 + c * 2 ^ 8 + d) / 2 ^ 16 % 256 = b ∧
    (a * 2 ^ 24 + b * 2 ^ 16 + c * 2 ^ 8 + d) / 2 ^ 24 % 256 = a := by
  omega

theorem hton32_bytes (x : Nat) :
    hton32 x % 256 = x / 2 ^ 24 % 256 ∧ hton32 x / 2 ^ 8 % 256 = x / 2 ^ 16 % 256 ∧
    hton32 x / 2 ^ 16 % 256 = x / 2 ^ 8 % 256 ∧ hton32 x / 2 ^ 24 % 256 = x % 256 :=
  join_bytes _ _ _ _ (Nat.mod_lt _ (by norm_num)) (Nat.mod_lt _ (by norm_num))
    (Nat.mod_lt _ (by norm_num)) (Nat.mod_lt _ (by norm_num))

/-- Reading back, in host order, a `uint32_t` that was stored in network order. -/
theorem ntoh32_stored (x : Nat) :
    ntoh32 (hton32 x % 256 + 2 ^ 8 * (hton32 x / 2 ^ 8 % 256) +
      2 ^ 16 * (hton32 x / 2 ^ 16 % 256) + 2 ^ 24 * (hton32 x / 2 ^ 24 % 256)) = x % 2 ^ 32 := by
  unfold ntoh32
  rw [hton32_of_bytes _ _ _ _ (Nat.mod_lt _ (by norm_num)) (Nat.mod_lt _ (by norm_num))
    (Nat.mod_lt _ (by norm_num)) (Nat.mod_lt _ (by norm_num)),
    (hton32_bytes x).1, (hton32_bytes x).2.1, (hton32_bytes x).2.2.1, (hton32_bytes x).2.2.2]
  omega

theorem tcp_tx_segment_length (c : tcp_cb) (self seq ack flg : Nat) (buf : List Nat) :
    (tcp_tx_segment c self seq ack flg buf).length = 20 + buf.length := by
  simp [tcp_tx_segment, tcp_tx_hdr, store16, store32]
  omega

theorem tcp_tx_segment_drop (c : tcp_cb) (self seq ack flg : Nat) (buf : List Nat) :
    (tcp_tx_segment c self seq ack flg buf).drop 20 = buf := rfl

theorem tcp_tx_segment_seq (c : tcp_cb) (self seq ack flg : Nat) (buf : List Nat) :
    ntoh32 (hdr_seq (tcp_tx_segment c self seq ack flg buf)) = seq % 2 ^ 32 :=
  ntoh32_stored seq

theorem tcp_tx_segment_ack (c : tcp_cb) (self seq ack flg : Nat) (buf : List Nat) :
    ntoh32 (hdr_ack (tcp_tx_segment c self seq ack flg buf)) = ack % 2 ^ 32 :=
  ntoh32_stored ack

theorem tcp_tx_segment_flg (c : tcp_cb) (self seq ack flg : Nat) (buf : List Nat) :
    hdr_flg (tcp_tx_segment c self seq ack flg buf) = flg % 256 := rfl

theorem tcp_tx_segment_off (c : tcp_cb) (self seq ack flg : Nat) (buf : List Nat) :
    hdr_off (tcp_tx_segment c self seq ack flg buf) = 0x50 := rfl
/-- What a call of `tcp_tx` with a payload that fits the staging buffer does: one call of
`ip_tx` with the built segment, no `wakeup`, and no change to the table other than `txq` of the
CB. -/
theorem tcp_tx__spec (U : Nat → Nat) (w : World) (cb : Fin 16) (seq ack flg : Nat) (buf : List Nat)
    (h : TCP_HDR_SIZE + buf.length ≤ TCP_SEGMENT_SIZE) :
    ∃ w1 : World, tcp_tx_ U w cb seq ack flg buf = some w1 ∧
      w1.ip_out = w.ip_out ++ [⟨(w.cb_table cb).iface, IP_PROTOCOL_TCP,
        tcp_tx_segment (w.cb_table cb) (U (w.cb_table cb).iface) seq ack flg buf,
        TCP_HDR_SIZE + buf.length, (w.cb_table cb).peer.addr⟩] ∧
      w1.wakeups = w.wakeups ∧
      w1.cb_table = set_cb w.cb_table cb { w.cb_table cb with txq := (w1.cb_table cb).txq } := by
  refine ⟨_, tcp_tx__eq U w cb seq ack flg buf h, ?_, ?_, ?_⟩
  · rw [tcp_txq_add_ip_out]
  · rw [tcp_txq_add_wakeups]
  · exact tcp_txq_add_cb_table _ _ _ _

/-- C5: for a used CB in ESTABLISHED or CLOSE_WAIT and a buffer `buf` with `20 + len` within
the 1500-byte staging buffer, `tcp_api_send` hands exactly one segment to `ip_tx`, of
`20 + len` bytes, with `seq` = old `snd.nxt`, `ack` = `rcv.nxt`, flags `ACK|PSH`, a 20-byte
header and payload `buf`; it returns 0, sets `snd.nxt` to `(old snd.nxt + len) mod 2^32`, and
leaves `state`, `snd.una`, `rcv.nxt`, `rcv.wnd`, `window` and every other CB unchanged. With
`len = 0` the segment is the 20-byte header alone and `snd.nxt` is unchanged. (`snd.nxt` and
`rcv.nxt` are `uint32_t`.) -/
theorem tcp_api_send_spec (U : Nat → Nat) (w : World) (soc : Int) (buf : List Nat)
    (hv : ¬ TCP_SOCKET_ISINVALID soc) (hu : (w.cb_table (slot soc)).used ≠ 0)
    (hs : (w.cb_table (slot soc)).state = TCP_CB_STATE_ESTABLISHED ∨
      (w.cb_table (slot soc)).state = TCP_CB_STATE_CLOSE_WAIT)
    (hlen : 20 + buf.length ≤ 1500)
    (hnxt : (w.cb_table (slot soc)).snd.nxt < 2 ^ 32)
    (hrcv : (w.cb_table (slot soc)).rcv.nxt < 2 ^ 32) :
    ∃ (w' : World) (seg : List Nat),
      tcp_api_send U w soc buf = Outcome.ret w' 0 () ∧
      w'.ip_out = w.ip_out ++ [⟨(w.cb_table (slot soc)).iface, IP_PROTOCOL_TCP, seg,
        20 + buf.length, (w.cb_table (slot soc)).peer.addr⟩] ∧
      seg.length = 20 + buf.length ∧
      ntoh32 (hdr_seq seg) = (w.cb_table (slot soc)).snd.nxt ∧
      ntoh32 (hdr_ack seg) = (w.cb_table (slot soc)).rcv.nxt ∧
      hdr_flg seg = TCP_FLG_ACK ||| TCP_FLG_PSH ∧
      (hdr_off seg >>> 4) <<< 2 = 20 ∧
      seg.drop 20 = buf ∧
      (w'.cb_table (slot soc)).snd.nxt = ((w.cb_table (slot soc)).snd.nxt + buf.length) % 2 ^ 32 ∧
      (w'.cb_table (slot soc)).state = (w.cb_table (slot soc)).state ∧
      (w'.cb_table (slot soc)).snd.una = (w.cb_table (slot soc)).snd.una ∧
      (w'.cb_table (slot soc)).rcv.nxt = (w.cb_table (slot soc)).rcv.nxt ∧
      (w'.cb_table (slot soc)).rcv.wnd = (w.cb_table (slot soc)).rcv.wnd ∧
      (w'.cb_table (slot soc)).window = (w.cb_table (slot soc)).window ∧
      (∀ j : Fin 16, j ≠ slot soc → w'.cb_table j = w.cb_table j) ∧
      (buf = [] → seg.length = 20 ∧
        (w'.cb_table (slot soc)).snd.nxt = (w.cb_table (slot soc)).snd.nxt) := by
  obtain ⟨w1, htx, e_out, -, e_tab⟩ := tcp_tx__spec U w (slot soc) (w.cb_table (slot soc)).snd.nxt
    (w.cb_table (slot soc)).rcv.nxt (TCP_FLG_ACK ||| TCP_FLG_PSH) buf hlen
  have hready : TCP_CB_STATE_TX_ISREADY (w.cb_table (slot soc)) := hs
  generalize hseg : tcp_tx_segment (w.cb_table (slot soc)) (U (w.cb_table (slot soc)).iface)
    (w.cb_table (slot soc)).snd.nxt (w.cb_table (slot soc)).rcv.nxt
    (TCP_FLG_ACK ||| TCP_FLG_PSH) buf = seg at e_out
  have e_cb : w1.cb_table (slot soc) =
      { w.cb_table (slot soc) with txq := (w1.cb_table (slot soc)).txq } := by
    conv_lhs => rw [e_tab]
    simp
  have hres : tcp_api_send U w soc buf = Outcome.ret
      (w1.put (slot soc) { w1.cb_table (slot soc) with
        snd.nxt := ((w1.cb_table (slot soc)).snd.nxt + buf.length) % 2 ^ 32 }) 0 () := by
    unfold tcp_api_send
    rw [if_neg hv]
    simp only [hu, if_false, hready, not_true_eq_false, htx]
  have hnx : (w1.cb_table (slot soc)).snd.nxt = (w.cb_table (slot soc)).snd.nxt := by rw [e_cb]
  refine ⟨_, seg, hres, ?_, ?_, ?_, ?_, ?_, ?_, ?_, ?_, ?_, ?_, ?_, ?_, ?_, ?_, ?_⟩
  · simpa using e_out
  · rw [← hseg, tcp_tx_segment_length]
  · rw [← hseg, tcp_tx_segment_seq, Nat.mod_eq_of_lt hnxt]
  · rw [← hseg, tcp_tx_segment_ack, Nat.mod_eq_of_lt hrcv]
  · rw [← hseg, tcp_tx_segment_flg]; decide
  · rw [← hseg, tcp_tx_segment_off]; decide
  · rw [← hseg, tcp_tx_segment_drop]
  · simp [hnx]
  · simp only [put_cb_table, set_cb_same]; rw [e_cb]
  · simp only [put_cb_table, set_cb_same]; rw [e_cb]
  · simp only [put_cb_table, set_cb_same]; rw [e_cb]
  · simp only [put_cb_table, set_cb_same]; rw [e_cb]
  · simp only [put_cb_table, set_cb_same]; rw [e_cb]
  · intro j hj
    simp only [put_cb_table, set_cb_other _ _ _ _ hj]
    rw [e_tab, set_cb_other _ _ _ _ hj]
  · intro hb
    subst hb
    refine ⟨by rw [← hseg, tcp_tx_segment_length]; rfl, ?_⟩
    simp only [put_cb_table, set_cb_same, List.length_nil, Nat.add_zero, hnx]
    exact Nat.mod_eq_of_lt hnxt

/-- Witness for C5: the sample ESTABLISHED socket sends the two bytes "hi". -/
theorem tcp_api_send_spec_witness :
    (¬ TCP_SOCKET_ISINVALID 0 ∧ (World_sample.cb_table (slot 0)).used ≠ 0 ∧
      (World_sample.cb_table (slot 0)).state = TCP_CB_STATE_ESTABLISHED ∧
      20 + [104, 105].length ≤ 1500) ∧
    ∃ (w' : World) (seg : List Nat),
      tcp_api_send U_sample World_sample 0 [104, 105] = Outcome.ret w' 0 () ∧
      w'.ip_out = [⟨1, IP_PROTOCOL_TCP, seg, 22, 0x0100007f⟩] ∧
      ntoh32 (hdr_seq seg) = 1001 ∧ ntoh32 (hdr_ack seg) = 0x500 ∧ hdr_flg seg = 0x18 ∧
      seg.drop 20 = [104, 105] ∧ (w'.cb_table (slot 0)).snd.nxt = 1003 := by
  refine ⟨⟨by decide, by decide, by decide, by decide⟩, ?_⟩
  obtain ⟨w', seg, h1, h2, -, h4, h5, h6, -, h8, h9, -⟩ :=
    tcp_api_send_spec U_sample World_sample 0 [104, 105] (by decide) (by decide)
      (Or.inl (by decide)) (by decide) (by decide) (by decide)
  exact ⟨w', seg, h1, h2, h4, h5, h6, h8, h9⟩

/-! ### Receiving -/

/-- The number of bytes `tcp_api_recv` finds available when `rcv.wnd` is within the buffer. -/
theorem recv_total (wnd : Nat) (h : wnd ≤ 4096) :
    (TCP_WINDOW_SIZE + 2 ^ 32 - wnd) % 2 ^ 32 = 4096 - wnd := by
  show (4096 + 2 ^ 32 - wnd) % 2 ^ 32 = 4096 - wnd
  omega

/-- C6: for a used CB with `rcv.wnd <= 4096` and `available = 4096 - rcv.wnd > 0`,
`tcp_api_recv(s, buf, size)` returns `n = min(size, available)`, writes `window[0..n)` to
`buf`, increases `rcv.wnd` by exactly `n`, and moves the remaining `available - n` bytes to
`window[0..available-n)` in unchanged order (the buffer keeps its 4096 bytes); nothing else
changes; and a following `recv` (with any `size2`), when bytes remain, returns exactly the
bytes that followed the first `n`. -/
theorem tcp_api_recv_spec (w : World) (soc : Int) (size : Nat) (killed : Bool)
    (hv : ¬ TCP_SOCKET_ISINVALID soc) (hu : (w.cb_table (slot soc)).used ≠ 0)
    (hw : (w.cb_table (slot soc)).rcv.wnd ≤ 4096)
    (ha : 0 < 4096 - (w.cb_table (slot soc)).rcv.wnd)
    (hl : (w.cb_table (slot soc)).window.length = 4096) :
    ∃ w' : World,
      tcp_api_recv w soc size killed =
        Outcome.ret w' ((min size (4096 - (w.cb_table (slot soc)).rcv.wnd) : Nat) : Int)
          ((w.cb_table (slot soc)).window.take (min size (4096 - (w.cb_table (slot soc)).rcv.wnd))) ∧
      (w'.cb_table (slot soc)).rcv.wnd =
        (w.cb_table (slot soc)).rcv.wnd + min size (4096 - (w.cb_table (slot soc)).rcv.wnd) ∧
      (w'.cb_table (slot soc)).window.take
          (4096 - (w.cb_table (slot soc)).rcv.wnd - min size (4096 - (w.cb_table (slot soc)).rcv.wnd)) =
        ((w.cb_table (slot soc)).window.drop (min size (4096 - (w.cb_table (slot soc)).rcv.wnd))).take
          (4096 - (w.cb_table (slot soc)).rcv.wnd - min size (4096 - (w.cb_table (slot soc)).rcv.wnd)) ∧
      (w'.cb_table (slot soc)).window.length = 4096 ∧
      w' = w.put (slot soc) { w.cb_table (slot soc) with
        window := (w'.cb_table (slot soc)).window,
        rcv.wnd := (w'.cb_table (slot soc)).rcv.wnd } ∧
      (∀ (size2 : Nat) (killed2 : Bool),
        0 < 4096 - (w.cb_table (slot soc)).rcv.wnd - min size (4096 - (w.cb_table (slot soc)).rcv.wnd) →
        ∃ w'' : World,
          tcp_api_recv w' soc size2 killed2 =
            Outcome.ret w''
              ((min size2 (4096 - (w.cb_table (slot soc)).rcv.wnd -
                min size (4096 - (w.cb_table (slot soc)).rcv.wnd)) : Nat) : Int)
              (((w.cb_table (slot soc)).window.drop
                  (min size (4096 - (w.cb_table (slot soc)).rcv.wnd))).take
                (min size2 (4096 - (w.cb_table (slot soc)).rcv.wnd -
                  min size (4096 - (w.cb_table (slot soc)).rcv.wnd))))) := by
  generalize hc : w.cb_table (slot soc) = c at *
  generalize hn : min size (4096 - c.rcv.wnd) = n
  have hn1 : n ≤ 4096 - c.rcv.wnd := by rw [← hn]; exact Nat.min_le_right _ _
  have hn2 : (if size < 4096 - c.rcv.wnd then size else 4096 - c.rcv.wnd) = n := by
    rw [← hn]; split_ifs with h <;> omega
  have htot := recv_total c.rcv.wnd hw
  have h0 : ¬ (4096 - c.rcv.wnd = 0) := by omega
  have h1 : ¬ (TCP_WINDOW_SIZE < 4096 - c.rcv.wnd) := by
    show ¬ (4096 < 4096 - c.rcv.wnd)
    omega
  have hmod : (c.rcv.wnd + n) % 2 ^ 16 = c.rcv.wnd + n := by omega
  have hres : tcp_api_recv w soc size killed = Outcome.ret
      (w.put (slot soc) { c with
        window := (c.window.drop n).take (4096 - c.rcv.wnd - n) ++ c.window.drop (4096 - c.rcv.wnd - n),
        rcv.wnd := c.rcv.wnd + n }) (n : Int) (c.window.take n) := by
    unfold tcp_api_recv tcp_api_recv_wake
    rw [if_neg hv]
    simp only [hc, hu, if_false, htot, h0, h1, hn2, hmod]
  have hlen1 : ((c.window.drop n).take (4096 - c.rcv.wnd - n)).length = 4096 - c.rcv.wnd - n := by
    rw [List.length_take, List.length_drop, hl]; omega
  refine ⟨_, hres, ?_, ?_, ?_, ?_, ?_⟩
  · simp
  · simp only [put_cb_table, set_cb_same]
    rw [List.take_append_of_le_length (by rw [hlen1]), List.take_take, Nat.min_self]
  · simp only [put_cb_table, set_cb_same, List.length_append, hlen1, List.length_drop, hl]
    omega
  · simp only [put_cb_table, set_cb_same, hc]
  · intro size2 killed2 hrem
    generalize hm : min size2 (4096 - c.rcv.wnd - n) = m
    have hm1 : m ≤ 4096 - c.rcv.wnd - n := by rw [← hm]; exact Nat.min_le_right _ _
    have hm2 : (if size2 < 4096 - (c.rcv.wnd + n) then size2 else 4096 - (c.rcv.wnd + n)) = m := by
      rw [← hm]; split_ifs with h <;> omega
    have htot2 := recv_total (c.rcv.wnd + n) (by omega)
    have h02 : ¬ (4096 - (c.rcv.wnd + n) = 0) := by omega
    have h12 : ¬ (TCP_WINDOW_SIZE < 4096 - (c.rcv.wnd + n)) := by
      show ¬ (4096 < 4096 - (c.rcv.wnd + n))
      omega
    have htake : (List.take (4096 - c.rcv.wnd - n) (List.drop n c.window) ++
        List.drop (4096 - c.rcv.wnd - n) c.window).take m = (c.window.drop n).take m := by
      rw [List.take_append_of_le_length (by rw [hlen1]; exact hm1), List.take_take,
        Nat.min_eq_left hm1]
    unfold tcp_api_recv tcp_api_recv_wake
    rw [if_neg hv]
    simp only [put_cb_table, set_cb_same, hu, if_false, htot2, h02, h12, hm2, htake]
    exact ⟨_, rfl⟩

/-- Witness for C6: the sample socket holds "hello"; a `recv` of 2 bytes returns "he", then a
`recv` of 10 bytes returns "llo". -/
theorem tcp_api_recv_spec_witness :
    (¬ TCP_SOCKET_ISINVALID 0 ∧ (World_sample_data.cb_table (slot 0)).used ≠ 0 ∧
      (World_sample_data.cb_table (slot 0)).rcv.wnd ≤ 4096 ∧
      0 < 4096 - (World_sample_data.cb_table (slot 0)).rcv.wnd ∧
      (World_sample_data.cb_table (slot 0)).window.length = 4096) ∧
    ∃ w' : World,
      tcp_api_recv World_sample_data 0 2 false = Outcome.ret w' 2 [104, 101] ∧
      (w'.cb_table (slot 0)).rcv.wnd = 4093 ∧
      ∃ w'' : World, tcp_api_recv w' 0 10 false = Outcome.ret w'' 3 [108, 108, 111] := by
  have hl : (World_sample_data.cb_table (slot 0)).window.length = 4096 := by
    show ([104, 101, 108, 108, 111] ++ List.replicate 4091 0).length = 4096
    rw [List.length_append, List.length_replicate]; rfl
  refine ⟨⟨by decide, by decide, by decide, by decide, hl⟩, ?_⟩
  obtain ⟨w', h1, h2, -, -, -, h6⟩ :=
    tcp_api_recv_spec World_sample_data 0 2 false (by decide) (by decide) (by decide) (by decide) hl
  refine ⟨w', h1, h2, ?_⟩
  obtain ⟨w'', h7⟩ := h6 10 false (by decide)
  exact ⟨w'', h7⟩

/-- C7: for a used CB whose receive buffer is empty (`rcv.wnd = 4096`, so `4096 - rcv.wnd = 0`): when the state is
not one of ESTABLISHED, FIN_WAIT_1, FIN_WAIT_2, `tcp_api_recv` returns 0 (it does not sleep);
when the state is one of the three and the caller's kill flag is set, it returns -1; in both
cases the world is unchanged: same table, nothing transmitted. -/
theorem tcp_api_recv_empty (w : World) (soc : Int) (size : Nat) (killed : Bool)
    (hv : ¬ TCP_SOCKET_ISINVALID soc) (hu : (w.cb_table (slot soc)).used ≠ 0)
    (he : (w.cb_table (slot soc)).rcv.wnd = 4096) :
    (¬ ((w.cb_table (slot soc)).state = TCP_CB_STATE_ESTABLISHED ∨
        (w.cb_table (slot soc)).state = TCP_CB_STATE_FIN_WAIT1 ∨
        (w.cb_table (slot soc)).state = TCP_CB_STATE_FIN_WAIT2) →
      tcp_api_recv w soc size killed = Outcome.ret w 0 []) ∧
    (((w.cb_table (slot soc)).state = TCP_CB_STATE_ESTABLISHED ∨
        (w.cb_table (slot soc)).state = TCP_CB_STATE_FIN_WAIT1 ∨
        (w.cb_table (slot soc)).state = TCP_CB_STATE_FIN_WAIT2) → killed = true →
      tcp_api_recv w soc size killed = Outcome.ret w (-1) []) := by
  have htot : (TCP_WINDOW_SIZE + 2 ^ 32 - (w.cb_table (slot soc)).rcv.wnd) % 2 ^ 32 = 0 := by
    rw [recv_total _ (le_of_eq he), he]
  constructor
  · intro hs
    unfold tcp_api_recv tcp_api_recv_wake
    rw [if_neg hv]
    simp only [hu, if_false, htot, if_true]
    rw [if_pos hs]
  · intro hs hk
    unfold tcp_api_recv tcp_api_recv_wake
    rw [if_neg hv]
    simp only [hu, if_false, htot, if_true]
    rw [if_neg (not_not.mpr hs)]
    simp [hk]

/-- Witness for C7: `recv` on the sample socket in CLOSE_WAIT with an empty buffer returns 0. -/
theorem tcp_api_recv_empty_witness :
    (¬ TCP_SOCKET_ISINVALID 0 ∧ (World_sample_close_wait.cb_table (slot 0)).used ≠ 0 ∧
      (World_sample_close_wait.cb_table (slot 0)).rcv.wnd = 4096 ∧
      (World_sample_close_wait.cb_table (slot 0)).state = TCP_CB_STATE_CLOSE_WAIT) ∧
    tcp_api_recv World_sample_close_wait 0 100 false = Outcome.ret World_sample_close_wait 0 [] ∧
    tcp_api_recv World_sample 0 100 true = Outcome.ret World_sample (-1) [] :=
  ⟨⟨by decide, by decide, by decide, by decide⟩,
    (tcp_api_recv_empty World_sample_close_wait 0 100 false (by decide) (by decide)
      (by decide)).1 (by decide),
    (tcp_api_recv_empty World_sample 0 100 true (by decide) (by decide)
      (by decide)).2 (Or.inl (by decide)) rfl⟩

/-! ### The state machine: segments that are dropped -/

theorem flg_isset_rst_or_syn (flg : Nat)
    (h : TCP_FLG_ISSET flg TCP_FLG_RST ∨ TCP_FLG_ISSET flg TCP_FLG_SYN) :
    TCP_FLG_ISSET flg (TCP_FLG_RST ||| TCP_FLG_SYN) := by
  have hb : flg &&& 0x3f < 64 := Nat.lt_succ_of_le Nat.and_le_right
  have key : ∀ y : Nat, y < 64 →
      ((y &&& TCP_FLG_RST) ≠ 0 ∨ (y &&& TCP_FLG_SYN) ≠ 0) →
      (y &&& (TCP_FLG_RST ||| TCP_FLG_SYN)) ≠ 0 := by decide
  exact key _ hb h

/-- C8: a CB in a synchronised state (SYN_RCVD, ESTABLISHED, FIN_WAIT_1, FIN_WAIT_2, CLOSING,
TIME_WAIT, CLOSE_WAIT, LAST_ACK) that is handed a segment whose sequence number differs from
`rcv.nxt`, or that carries RST or SYN, or that lacks ACK: `tcp_incoming_event` returns with
the world unchanged, so every field of every CB (with `rcv.nxt`, `rcv.wnd`, the window bytes
and the retransmission queue) is as before and no segment is transmitted. -/
theorem tcp_incoming_event_drop (U : Nat → Nat) (rnd : Nat) (w : World) (cb : Fin 16)
    (hdr : List Nat)
    (hs : (w.cb_table cb).state = TCP_CB_STATE_SYN_RCVD ∨
      (w.cb_table cb).state = TCP_CB_STATE_ESTABLISHED ∨
      (w.cb_table cb).state = TCP_CB_STATE_FIN_WAIT1 ∨
      (w.cb_table cb).state = TCP_CB_STATE_FIN_WAIT2 ∨
      (w.cb_table cb).state = TCP_CB_STATE_CLOSING ∨
      (w.cb_table cb).state = TCP_CB_STATE_TIME_WAIT ∨
      (w.cb_table cb).state = TCP_CB_STATE_CLOSE_WAIT ∨
      (w.cb_table cb).state = TCP_CB_STATE_LAST_ACK)
    (hd : ntoh32 (hdr_seq hdr) ≠ (w.cb_table cb).rcv.nxt ∨
      TCP_FLG_ISSET (hdr_flg hdr) TCP_FLG_RST ∨ TCP_FLG_ISSET (hdr_flg hdr) TCP_FLG_SYN ∨
      ¬ TCP_FLG_ISSET (hdr_flg hdr) TCP_FLG_ACK) :
    tcp_incoming_event U rnd w cb hdr = some w := by
  have h0 : (w.cb_table cb).state ≠ TCP_CB_STATE_CLOSED := by
    rcases hs with h | h | h | h | h | h | h | h <;> rw [h] <;> decide
  have h1 : (w.cb_table cb).state ≠ TCP_CB_STATE_LISTEN := by
    rcases hs with h | h | h | h | h | h | h | h <;> rw [h] <;> decide
  have h2 : (w.cb_table cb).state ≠ TCP_CB_STATE_SYN_SENT := by
    rcases hs with h | h | h | h | h | h | h | h <;> rw [h] <;> decide
  unfold tcp_incoming_event
  simp only [if_neg h0, if_neg h1, if_neg h2]
  unfold tcp_event_synchronized
  by_cases hseq : ntoh32 (hdr_seq hdr) ≠ (w.cb_table cb).rcv.nxt
  · simp only [if_pos hseq]
  simp only [if_neg hseq]
  by_cases hrs : TCP_FLG_ISSET (hdr_flg hdr) (TCP_FLG_RST ||| TCP_FLG_SYN)
  · simp only [if_pos hrs]
  simp only [if_neg hrs]
  have hack : ¬ TCP_FLG_ISSET (hdr_flg hdr) TCP_FLG_ACK := by
    rcases hd with h | h | h | h
    · exact absurd h hseq
    · exact absurd (flg_isset_rst_or_syn _ (Or.inl h)) hrs
    · exact absurd (flg_isset_rst_or_syn _ (Or.inr h)) hrs
    · exact h
  simp only [if_pos hack]

/-- Witness for C8: the sample CB is ESTABLISHED with `rcv.nxt = 0x500`; the sample segment
has `seq = 0x600` and 4 payload bytes; nothing changes and nothing is transmitted. -/
theorem tcp_incoming_event_drop_witness :
    ((World_sample.cb_table 0).state = TCP_CB_STATE_ESTABLISHED ∧
      (World_sample.cb_table 0).rcv.nxt = 0x500 ∧
      ntoh32 (hdr_seq segment_sample_600) = 0x600 ∧
      segment_sample_600.length = 20 + 4) ∧
    tcp_incoming_event U_sample 0 World_sample 0 segment_sample_600 = some World_sample :=
  ⟨⟨by decide, by decide, by decide, by decide⟩,
    tcp_incoming_event_drop U_sample 0 World_sample 0 segment_sample_600
      (Or.inr (Or.inl (by decide))) (Or.inl (by decide))⟩

/-! ### The one's-complement checksum -/

theorem cksum16_loop_eq_wsum (data : List Nat) :
    ∀ sum : Nat, sum < 2 ^ 32 → cksum16_loop data sum = (sum + wsum data) % 2 ^ 32 := by
  induction data using wsum.induct with
  | case1 a b rest ih =>
    intro sum _
    rw [cksum16_loop, wsum, ih _ (Nat.mod_lt _ (by norm_num))]
    omega
  | case2 a =>
    intro sum _
    rw [cksum16_loop, wsum]
  | case3 =>
    intro sum h
    rw [cksum16_loop, wsum, Nat.add_zero, Nat.mod_eq_of_lt h]

theorem wsum_append_even (a : List Nat) :
    ∀ b : List Nat, a.length % 2 = 0 → wsum (a ++ b) = wsum a + wsum b := by
  induction a using wsum.induct with
  | case1 x y rest ih =>
    intro b h
    have h2 : rest.length % 2 = 0 := by simp only [List.length_cons] at h; omega
    show wsum (x :: y :: (rest ++ b)) = wsum (x :: y :: rest) + wsum b
    rw [wsum, wsum, ih b h2]
    omega
  | case2 x => intro b h; simp at h
  | case3 => intro b _; simp [wsum]

theorem wsum_cons (x : Nat) (rest : List Nat) : wsum (x :: rest) = x + wsum (0 :: rest) := by
  cases rest with
  | nil => simp [wsum]
  | cons y r => simp only [wsum]; omega

theorem wsum_le (l : List Nat) :
    (∀ b ∈ l, b < 256) → 2 * wsum l ≤ 65535 * (l.length + 1) := by
  induction l using wsum.induct with
  | case1 x y rest ih =>
    intro h
    have hx : x < 256 := h x (by simp)
    have hy : y < 256 := h y (by simp)
    have := ih (fun b hb => h b (by simp [hb]))
    simp only [wsum, List.length_cons]
    omega
  | case2 x =>
    intro h
    have hx : x < 256 := h x (by simp)
    simp only [wsum, List.length_cons, List.length_nil]
    omega
  | case3 => intro _; simp [wsum]

/-- The two folds of `cksum16` bring a 32-bit sum into `0..0xffff` without changing it
modulo `0xffff`, and give 0 only for the sum 0. -/
theorem fold16_spec (X : Nat) (h : X < 2 ^ 32) :
    ∃ k : Nat, X = 65535 * k +
        (((X &&& 0xffff) + (X >>> 16) &&& 0xffff) + (((X &&& 0xffff) + (X >>> 16)) >>> 16)) ∧
      (((X &&& 0xffff) + (X >>> 16) &&& 0xffff) + (((X &&& 0xffff) + (X >>> 16)) >>> 16)) ≤ 65535 ∧
      ((((X &&& 0xffff) + (X >>> 16) &&& 0xffff) + (((X &&& 0xffff) + (X >>> 16)) >>> 16)) = 0
        ↔ X = 0) := by
  have e1 : ∀ s : Nat, s &&& 0xffff = s % 65536 := fun s => by
    simpa using Nat.and_pow_two_sub_one_eq_mod s 16
  have e2 : ∀ s : Nat, s >>> 16 = s / 65536 := fun s => by
    rw [Nat.shiftRight_eq_div_pow]
  simp only [e1, e2]
  refine ⟨X / 65536 + (X % 65536 + X / 65536) / 65536, ?_, ?_, ?_⟩ <;> omega

/-- When the 32-bit accumulator does not overflow, `cksum16` returns 0 exactly when the sum of
the seed and the words is a non-zero multiple of `0xffff`. -/
theorem cksum16_eq_zero_iff (data : List Nat) (size init : Nat)
    (hno : init % 2 ^ 32 + wsum (data.take size) < 2 ^ 32) :
    cksum16 data size init = 0 ↔
      (init % 2 ^ 32 + wsum (data.take size) ≠ 0 ∧
        (init % 2 ^ 32 + wsum (data.take size)) % 65535 = 0) := by
  unfold cksum16
  rw [cksum16_loop_eq_wsum _ _ (Nat.mod_lt _ (by norm_num)), Nat.mod_eq_of_lt hno]
  generalize init % 2 ^ 32 + wsum (data.take size) = X at hno
  obtain ⟨k, hk, hle, hz⟩ := fold16_spec X hno
  simp only []
  generalize (((X &&& 0xffff) + (X >>> 16) &&& 0xffff) + (((X &&& 0xffff) + (X >>> 16)) >>> 16)) = f
    at hk hle hz
  omega

/-- The value `cksum16` returns, when the accumulator does not overflow: the complement in
`0xffff` of a number congruent to the sum modulo `0xffff`. -/
theorem cksum16_value (data : List Nat) (size init : Nat)
    (hno : init % 2 ^ 32 + wsum (data.take size) < 2 ^ 32) :
    ∃ k f : Nat, init % 2 ^ 32 + wsum (data.take size) = 65535 * k + f ∧ f ≤ 65535 ∧
      (f = 0 ↔ init % 2 ^ 32 + wsum (data.take size) = 0) ∧
      cksum16 data size init = 65535 - f := by
  unfold cksum16
  rw [cksum16_loop_eq_wsum _ _ (Nat.mod_lt _ (by norm_num)), Nat.mod_eq_of_lt hno]
  generalize init % 2 ^ 32 + wsum (data.take size) = X at hno
  obtain ⟨k, hk, hle, hz⟩ := fold16_spec X hno
  refine ⟨k, _, hk, hle, hz, ?_⟩
  simp only []
  generalize (((X &&& 0xffff) + (X >>> 16) &&& 0xffff) + (((X &&& 0xffff) + (X >>> 16)) >>> 16)) = f
    at hk hle hz
  omega

theorem hton16_le (x : Nat) : hton16 x ≤ 65535 := by
  unfold hton16; omega

/-- For 32-bit addresses the pseudo-header sum of `tcp_rx` is the one `tcp_tx` computes, and
it is at most `6 * 0xffff`. -/
theorem tcp_rx_pseudo_eq_tx (self peer len : Nat) (hs : self < 2 ^ 32) (hp : peer < 2 ^ 32) :
    tcp_rx_pseudo self peer (TCP_HDR_SIZE + len) = tcp_tx_pseudo self peer len ∧
      tcp_tx_pseudo self peer len ≤ 6 * 65535 := by
  have e1 : ∀ s : Nat, s &&& 0xffff = s % 65536 := fun s => by
    simpa using Nat.and_pow_two_sub_one_eq_mod s 16
  have e2 : ∀ s : Nat, s >>> 16 = s / 65536 := fun s => by
    rw [Nat.shiftRight_eq_div_pow]
  have h1 := hton16_le IP_PROTOCOL_TCP
  have h2 := hton16_le (TCP_HDR_SIZE + len)
  have h3 : self / 65536 % 65536 = self / 65536 := Nat.mod_eq_of_lt (by omega)
  have h4 : peer / 65536 % 65536 = peer / 65536 := Nat.mod_eq_of_lt (by omega)
  have h5 : self / 65536 < 65536 := by omega
  have h6 : peer / 65536 < 65536 := by omega
  have h7 : self % 65536 < 65536 := Nat.mod_lt _ (by norm_num)
  have h8 : peer % 65536 < 65536 := Nat.mod_lt _ (by norm_num)
  unfold tcp_rx_pseudo tcp_tx_pseudo
  simp only [e1, e2, h3, h4]
  generalize hton16 IP_PROTOCOL_TCP = a at h1 ⊢
  generalize hton16 (TCP_HDR_SIZE + len) = b at h2 ⊢
  generalize self / 65536 = sh at h5 ⊢
  generalize peer / 65536 = ph at h6 ⊢
  generalize self % 65536 = sl at h7 ⊢
  generalize peer % 65536 = pl at h8 ⊢
  exact ⟨trivial, by omega⟩

theorem store16_lt (v : Nat) : ∀ b ∈ store16 v, b < 256 := by
  intro b hb
  simp only [store16, List.mem_cons, List.mem_singleton, List.not_mem_nil, or_false] at hb
  rcases hb with h | h <;> rw [h] <;> omega

theorem store32_lt (v : Nat) : ∀ b ∈ store32 v, b < 256 := by
  intro b hb
  simp only [store32, List.mem_cons, List.mem_singleton, List.not_mem_nil, or_false] at hb
  rcases hb with h | h | h | h <;> rw [h] <;> omega

theorem wsum_store16 (s : Nat) (hs : s < 65536) (post : List Nat) :
    wsum (store16 s ++ post) = s + wsum post := by
  show wsum (s % 256 :: s / 256 % 256 :: post) = s + wsum post
  rw [wsum]; omega

/-- The layout of the segment `tcp_tx` builds: 16 header bytes, the checksum field, the urgent
field, the payload; before the checksum is stored the checksum field holds 0. -/
theorem tcp_tx_segment_layout (c : tcp_cb) (self seq ack flg : Nat) (buf : List Nat) :
    ∃ pre : List Nat, pre.length = 16 ∧ (∀ b ∈ pre, b < 256) ∧
      tcp_tx_hdr c seq ack flg ++ buf = pre ++ (store16 0 ++ (store16 0 ++ buf)) ∧
      tcp_tx_segment c self seq ack flg buf =
        pre ++ (store16 (cksum16 (tcp_tx_hdr c seq ack flg ++ buf) (TCP_HDR_SIZE + buf.length)
          (tcp_tx_pseudo self c.peer.addr buf.length)) ++ (store16 0 ++ buf)) := by
  refine ⟨(tcp_tx_hdr c seq ack flg).take 16, rfl, ?_, rfl, rfl⟩
  intro b hb
  have hb' : b ∈ store16 c.port ++ store16 c.peer.port ++ store32 (hton32 seq) ++
      store32 (hton32 ack) ++ [((TCP_HDR_SIZE >>> 2) <<< 4) % 256, flg % 256] ++
      store16 (hton16 c.rcv.wnd) := hb
  simp only [List.mem_append, List.mem_cons, List.mem_singleton, List.not_mem_nil, or_false] at hb'
  rcases hb' with ((((h | h) | h) | h) | h) | h
  · exact store16_lt _ _ h
  · exact store16_lt _ _ h
  · exact store32_lt _ _ h
  · exact store32_lt _ _ h
  · rcases h with h | h <;> rw [h] <;> exact Nat.mod_lt _ (by norm_num)
  · exact store16_lt _ _ h

/-- The checksum `tcp_tx` stores makes the receiver's sum over pseudo-header and segment come
out as 0. -/
theorem tcp_tx_segment_cksum (c : tcp_cb) (self seq ack flg : Nat) (buf : List Nat)
    (hlen : 20 + buf.length ≤ 1500) (hb : ∀ b ∈ buf, b < 256)
    (hself : self < 2 ^ 32) (hpeer : c.peer.addr < 2 ^ 32) :
    cksum16 (tcp_tx_segment c self seq ack flg buf) (tcp_tx_segment c self seq ack flg buf).length
      (tcp_rx_pseudo self c.peer.addr (tcp_tx_segment c self seq ack flg buf).length) = 0 := by
  obtain ⟨hpe, hpl⟩ := tcp_rx_pseudo_eq_tx self c.peer.addr buf.length hself hpeer
  obtain ⟨pre, hpre, hprelt, hh, hseg⟩ := tcp_tx_segment_layout c self seq ack flg buf
  have hlenseg := tcp_tx_segment_length c self seq ack flg buf
  have heven : pre.length % 2 = 0 := by rw [hpre]
  have hw0 : wsum (tcp_tx_hdr c seq ack flg ++ buf) = wsum pre + wsum buf := by
    rw [hh, wsum_append_even pre _ heven, wsum_store16 0 (by norm_num),
      wsum_store16 0 (by norm_num)]
    omega
  have hpw := wsum_le pre hprelt
  have hbw := wsum_le buf hb
  have hlen0 : (tcp_tx_hdr c seq ack flg ++ buf).length = TCP_HDR_SIZE + buf.length := by
    show _ = 20 + buf.length
    rw [hh]; simp [store16, hpre]; omega
  have htake0 : (tcp_tx_hdr c seq ack flg ++ buf).take (TCP_HDR_SIZE + buf.length) =
      tcp_tx_hdr c seq ack flg ++ buf := by
    rw [← hlen0, List.take_length]
  have hP : tcp_tx_pseudo self c.peer.addr buf.length % 2 ^ 32 =
      tcp_tx_pseudo self c.peer.addr buf.length := Nat.mod_eq_of_lt (by omega)
  have hno : tcp_tx_pseudo self c.peer.addr buf.length % 2 ^ 32 +
      wsum ((tcp_tx_hdr c seq ack flg ++ buf).take (TCP_HDR_SIZE + buf.length)) < 2 ^ 32 := by
    rw [htake0, hw0, hP]; rw [hpre] at hpw; omega
  obtain ⟨k, f, hk, hf, -, hsum⟩ := cksum16_value _ _ _ hno
  rw [htake0, hw0, hP] at hk
  have hw1 : wsum (tcp_tx_segment c self seq ack flg buf) = wsum pre + wsum buf + (65535 - f) := by
    rw [hseg, hsum, wsum_append_even pre _ heven, wsum_store16 _ (by omega),
      wsum_store16 0 (by norm_num)]
    omega
  rw [hlenseg, show (20 : Nat) + buf.length = TCP_HDR_SIZE + buf.length from rfl, hpe]
  have htake1 : (tcp_tx_segment c self seq ack flg buf).take (TCP_HDR_SIZE + buf.length) =
      tcp_tx_segment c self seq ack flg buf := by
    rw [show TCP_HDR_SIZE + buf.length = (tcp_tx_segment c self seq ack flg buf).length from
      hlenseg.symm, List.take_length]
  rw [cksum16_eq_zero_iff _ _ _ (by rw [htake1, hw1, hP]; rw [hpre] at hpw; omega),
    htake1, hw1, hP]
  constructor <;> omega

/-- C10: checksum round trip. For every CB, `seq`, `ack`, flags and payload of `len` bytes
(`20 + len <= 1500`, odd or even), `tcp_tx` hands `ip_tx` a segment of `20 + len` bytes,
addressed to `cb.peer.addr`, on which the test of `tcp_rx` (`cksum16` over the segment, seeded
with the pseudo-header sum of source = the sender's unicast address, destination =
`cb.peer.addr`, protocol 6 and the segment length) yields 0. (Payload bytes are `uint8_t`,
addresses are `ip_addr_t`, 32 bits.) -/
theorem tcp_tx_checksum_roundtrip (U : Nat → Nat) (w : World) (cb : Fin 16) (seq ack flg : Nat)
    (buf : List Nat) (hlen : 20 + buf.length ≤ 1500) (hb : ∀ b ∈ buf, b < 256)
    (hself : U (w.cb_table cb).iface < 2 ^ 32) (hpeer : (w.cb_table cb).peer.addr < 2 ^ 32) :
    ∃ (w1 : World) (seg : List Nat),
      tcp_tx U w cb seq ack flg buf = some (w1, (buf.length : Int)) ∧
      w1.ip_out = w.ip_out ++ [⟨(w.cb_table cb).iface, IP_PROTOCOL_TCP, seg, 20 + buf.length,
        (w.cb_table cb).peer.addr⟩] ∧
      seg.length = 20 + buf.length ∧
      cksum16 seg seg.length
        (tcp_rx_pseudo (U (w.cb_table cb).iface) (w.cb_table cb).peer.addr seg.length) = 0 := by
  have h' : ¬ (TCP_SEGMENT_SIZE < TCP_HDR_SIZE + buf.length) := by
    show ¬ (1500 < 20 + buf.length)
    omega
  refine ⟨(tcp_txq_add
      { w with ip_out := w.ip_out ++ [⟨(w.cb_table cb).iface, IP_PROTOCOL_TCP,
          tcp_tx_segment (w.cb_table cb) (U (w.cb_table cb).iface) seq ack flg buf,
          TCP_HDR_SIZE + buf.length, (w.cb_table cb).peer.addr⟩] }
      cb (tcp_tx_segment (w.cb_table cb) (U (w.cb_table cb).iface) seq ack flg buf)
      (TCP_HDR_SIZE + buf.length)).1,
    tcp_tx_segment (w.cb_table cb) (U (w.cb_table cb).iface) seq ack flg buf, ?_, ?_,
    tcp_tx_segment_length _ _ _ _ _ _,
    tcp_tx_segment_cksum _ _ _ _ _ _ hlen hb hself hpeer⟩
  · simp only [tcp_tx, if_neg h']
  · rw [tcp_txq_add_ip_out]
/-- Witness for C10: the sample CB sends the three bytes "hi!" (an odd length). -/
theorem tcp_tx_checksum_roundtrip_witness :
    (20 + [104, 105, 33].length ≤ 1500 ∧ U_sample (World_sample.cb_table 0).iface < 2 ^ 32 ∧
      (World_sample.cb_table 0).peer.addr < 2 ^ 32) ∧
    ∃ (w1 : World) (seg : List Nat),
      tcp_tx U_sample World_sample 0 1001 0x500 0x18 [104, 105, 33] = some (w1, 3) ∧
      seg.length = 23 ∧
      cksum16 seg seg.length (tcp_rx_pseudo 0x0200007f 0x0100007f seg.length) = 0 := by
  refine ⟨⟨by decide, by decide, by decide⟩, ?_⟩
  obtain ⟨w1, seg, h1, -, h3, h4⟩ :=
    tcp_tx_checksum_roundtrip U_sample World_sample 0 1001 0x500 0x18 [104, 105, 33]
      (by decide) (by decide) (by decide) (by decide)
  exact ⟨w1, seg, h1, h3, h4⟩
/-! ### Segments rejected by `tcp_rx` -/

theorem wsum_set_16 (seg : List Nat) (h : 16 < seg.length) (b : Nat) :
    wsum (seg.set 16 b) + seg.getD 16 0 = wsum seg + b := by
  have h1 : seg.set 16 b = seg.take 16 ++ b :: seg.drop 17 := by
    rw [List.set_eq_take_append_cons_drop, if_pos h]
  have h2 : seg = seg.take 16 ++ seg.getD 16 0 :: seg.drop 17 := by
    rw [List.getD_eq_getElem seg 0 h, List.getElem_cons_drop, List.take_append_drop]
  have h3 : (seg.take 16).length % 2 = 0 := by
    rw [List.length_take, Nat.min_eq_left (by omega)]
  have e1 : wsum (seg.set 16 b) = wsum (seg.take 16) + (b + wsum (0 :: seg.drop 17)) := by
    rw [h1, wsum_append_even _ _ h3, wsum_cons]
  have e2 : wsum seg = wsum (seg.take 16) + (seg.getD 16 0 + wsum (0 :: seg.drop 17)) := by
    conv_lhs => rw [h2]
    rw [wsum_append_even _ _ h3, wsum_cons]
  omega

/-- A segment that verifies stops verifying when its byte 16 is replaced by a different
byte. -/
theorem cksum16_corrupt_16 (seg : List Nat) (src dst b' : Nat) (hmax : seg.length ≤ 65535)
    (hmin : 20 ≤ seg.length) (hb : ∀ b ∈ seg, b < 256) (hsrc : src < 2 ^ 32)
    (hdst : dst < 2 ^ 32)
    (hok : cksum16 seg seg.length (tcp_rx_pseudo src dst seg.length) = 0)
    (hb' : b' < 256) (hne : b' ≠ seg.getD 16 0) :
    cksum16 (seg.set 16 b') (seg.set 16 b').length
      (tcp_rx_pseudo src dst (seg.set 16 b').length) ≠ 0 := by
  have hx : seg.getD 16 0 < 256 := by
    rw [List.getD_eq_getElem seg 0 (by omega)]
    exact hb _ (List.getElem_mem _)
  have hP : tcp_rx_pseudo src dst seg.length ≤ 6 * 65535 := by
    have := tcp_rx_pseudo_eq_tx src dst (seg.length - 20) hsrc hdst
    rw [show TCP_HDR_SIZE + (seg.length - 20) = seg.length from by
      show 20 + (seg.length - 20) = seg.length
      omega] at this
    rw [this.1]; exact this.2
  have hPm : tcp_rx_pseudo src dst seg.length % 2 ^ 32 = tcp_rx_pseudo src dst seg.length :=
    Nat.mod_eq_of_lt (by omega)
  have hw := wsum_le seg hb
  have hset := wsum_set_16 seg (by omega) b'
  have hlen : (seg.set 16 b').length = seg.length := List.length_set _ _ _
  have ht : seg.take seg.length = seg := List.take_length seg
  have ht' : (seg.set 16 b').take seg.length = seg.set 16 b' := by
    rw [← hlen, List.take_length]
  rw [cksum16_eq_zero_iff _ _ _ (by rw [ht, hPm]; omega), ht, hPm] at hok
  rw [hlen, Ne, cksum16_eq_zero_iff _ _ _ (by rw [ht', hPm]; omega), ht', hPm]
  omega

/-- C9: `tcp_rx` returns with the world unchanged (same table, nothing transmitted) when the
destination address differs from the unicast address of the receiving interface, or the
segment is shorter than the 20-byte header, or `cksum16` over pseudo-header and segment is not
0. In particular a segment (of at most 65535 bytes, between 32-bit addresses) that verifies is
dropped in this way once its header byte 16 is changed to any different byte. -/
theorem tcp_rx_drop (U : Nat → Nat) (rnd : Nat) (w : World) (segment : List Nat)
    (src dst iface : Nat) :
    ((dst ≠ U iface ∨ segment.length < 20 ∨
        cksum16 segment segment.length (tcp_rx_pseudo src dst segment.length) ≠ 0) →
      tcp_rx U rnd w segment src dst iface = some w) ∧
    (∀ b' : Nat, segment.length ≤ 65535 → 20 ≤ segment.length → (∀ b ∈ segment, b < 256) →
      src < 2 ^ 32 → dst < 2 ^ 32 →
      cksum16 segment segment.length (tcp_rx_pseudo src dst segment.length) = 0 →
      b' < 256 → b' ≠ load8 segment 16 →
      cksum16 (segment.set 16 b') (segment.set 16 b').length
          (tcp_rx_pseudo src dst (segment.set 16 b').length) ≠ 0 ∧
        tcp_rx U rnd w (segment.set 16 b') src dst iface = some w) := by
  have drop : ∀ seg : List Nat,
      (dst ≠ U iface ∨ seg.length < 20 ∨
        cksum16 seg seg.length (tcp_rx_pseudo src dst seg.length) ≠ 0) →
      tcp_rx U rnd w seg src dst iface = some w := by
    intro seg h
    unfold tcp_rx
    by_cases h1 : dst ≠ U iface
    · simp only [if_pos h1]
    simp only [if_neg h1]
    by_cases h2 : seg.length < TCP_HDR_SIZE
    · simp only [if_pos h2]
    simp only [if_neg h2]
    have h3 : cksum16 seg seg.length (tcp_rx_pseudo src dst seg.length) ≠ 0 := by
      rcases h with h | h | h
      · exact absurd h h1
      · exact absurd h h2
      · exact h
    simp only [if_pos h3]
  refine ⟨drop segment, ?_⟩
  intro b' hmax hmin hb hsrc hdst hok hb' hne
  have hbad := cksum16_corrupt_16 segment src dst b' hmax hmin hb hsrc hdst hok hb' hne
  exact ⟨hbad, drop _ (Or.inr (Or.inr hbad))⟩
theorem tcp_tx_segment_bytes (c : tcp_cb) (self seq ack flg : Nat) (buf : List Nat)
    (hb : ∀ b ∈ buf, b < 256) : ∀ b ∈ tcp_tx_segment c self seq ack flg buf, b < 256 := by
  obtain ⟨pre, -, hprelt, -, hseg⟩ := tcp_tx_segment_layout c self seq ack flg buf
  intro b hmem
  rw [hseg] at hmem
  simp only [List.mem_append] at hmem
  rcases hmem with h | h | h | h
  · exact hprelt b h
  · exact store16_lt _ b h
  · exact store16_lt _ b h
  · exact hb b h

/-- Witness for C9: the segment the sample CB builds for the payload "hi!" verifies at its
peer 127.0.0.1; with byte 16 replaced by the next byte value it is dropped there, and so is
any segment addressed to another host. -/
theorem tcp_rx_drop_witness :
    (20 ≤ (tcp_tx_segment tcp_cb_sample 0x0200007f 1001 0x500 0x18 [104, 105, 33]).length ∧
      cksum16 (tcp_tx_segment tcp_cb_sample 0x0200007f 1001 0x500 0x18 [104, 105, 33])
        (tcp_tx_segment tcp_cb_sample 0x0200007f 1001 0x500 0x18 [104, 105, 33]).length
        (tcp_rx_pseudo 0x0200007f 0x0100007f
          (tcp_tx_segment tcp_cb_sample 0x0200007f 1001 0x500 0x18 [104, 105, 33]).length) = 0) ∧
    tcp_rx (fun _ => 0x0100007f) 0 World_sample
      ((tcp_tx_segment tcp_cb_sample 0x0200007f 1001 0x500 0x18 [104, 105, 33]).set 16
        ((load8 (tcp_tx_segment tcp_cb_sample 0x0200007f 1001 0x500 0x18 [104, 105, 33]) 16 + 1)
          % 256))
      0x0200007f 0x0100007f 1 = some World_sample ∧
    tcp_rx (fun _ => 0x0100007f) 0 World_sample segment_sample_600 0x0200007f 0x0300007f 1
      = some World_sample := by
  have hbuf : ∀ b ∈ [104, 105, 33], b < 256 := by decide
  have hlen := tcp_tx_segment_length tcp_cb_sample 0x0200007f 1001 0x500 0x18 [104, 105, 33]
  have hok := tcp_tx_segment_cksum tcp_cb_sample 0x0200007f 1001 0x500 0x18 [104, 105, 33]
    (by decide) hbuf (by norm_num) (by decide)
  have hbytes := tcp_tx_segment_bytes tcp_cb_sample 0x0200007f 1001 0x500 0x18 [104, 105, 33] hbuf
  have hx : load8 (tcp_tx_segment tcp_cb_sample 0x0200007f 1001 0x500 0x18 [104, 105, 33]) 16
      < 256 := by
    unfold load8
    rw [List.getD_eq_getElem _ 0 (by rw [hlen]; decide)]
    exact hbytes _ (List.getElem_mem _)
  refine ⟨⟨by rw [hlen]; decide, hok⟩, ?_, ?_⟩
  · exact ((tcp_rx_drop (fun _ => 0x0100007f) 0 World_sample _ 0x0200007f 0x0100007f 1).2 _
      (by rw [hlen]; decide) (by rw [hlen]; decide) hbytes (by norm_num) (by norm_num) hok
      (Nat.mod_lt _ (by norm_num)) (by omega)).2
  · exact (tcp_rx_drop (fun _ => 0x0100007f) 0 World_sample segment_sample_600 0x0200007f
      0x0300007f 1).1 (Or.inl (by decide))

/-! ### `tcp_cb_clear` always finishes -/

theorem kfree_foldl_cb_table (l : List tcp_txq_entry) :
    ∀ w : World, (l.foldl (fun v _ => kfree (kfree v)) w).cb_table = w.cb_table := by
  induction l with
  | nil => intro w; rfl
  | cons a l ih => intro w; rw [List.foldl_cons, ih]; rfl

theorem sum_map_set_cb (f : tcp_cb → Nat) (t : Fin 16 → tcp_cb) (i : Fin 16) (c : tcp_cb) :
    ∀ l : List (Fin 16), l.Nodup → i ∈ l →
      (l.map (fun j => f (set_cb t i c j))).sum + f (t i) = (l.map (fun j => f (t j))).sum + f c := by
  intro l
  induction l with
  | nil => intro _ h; simp at h
  | cons a l ih =>
    intro hnd hi
    rw [List.nodup_cons] at hnd
    by_cases ha : a = i
    · subst ha
      have hrest : l.map (fun j => f (set_cb t a c j)) = l.map (fun j => f (t j)) := by
        apply List.map_congr_left
        intro j hj
        have : j ≠ a := fun e => hnd.1 (e ▸ hj)
        rw [set_cb_other _ _ _ _ this]
      simp only [List.map_cons, List.sum_cons, set_cb_same, hrest]
      omega
    · have hi2 : i ∈ l := by
        rcases List.mem_cons.mp hi with h | h
        · exact absurd h.symm ha
        · exact h
      have := ih hnd.2 hi2
      simp only [List.map_cons, List.sum_cons, set_cb_other _ _ _ _ ha]
      omega

theorem allSlots_nodup : allSlots.Nodup := by decide

theorem total_backlog_set_cb (t : Fin 16 → tcp_cb) (i : Fin 16) (c : tcp_cb) :
    total_backlog (set_cb t i c) + (t i).backlog.length = total_backlog t + c.backlog.length :=
  sum_map_set_cb (fun c => c.backlog.length) t i c allSlots allSlots_nodup (mem_allSlots i)

theorem tcp_cb_clear_fuel_nil (n : Nat) (w : World) (cb : Fin 16)
    (hq : (w.cb_table cb).backlog = []) :
    tcp_cb_clear_fuel (n + 1) w cb =
      some (((w.cb_table cb).txq.foldl (fun v _ => kfree (kfree v)) w).put cb tcp_cb_zero) := by
  rw [tcp_cb_clear_fuel]
  simp only [hq, queue_pop, put_put]

theorem tcp_cb_clear_fuel_cons (n : Nat) (w : World) (cb b : Fin 16) (rest : List (Fin 16))
    (hq : (w.cb_table cb).backlog = b :: rest) :
    tcp_cb_clear_fuel (n + 1) w cb =
      (tcp_cb_clear_fuel n
        (((w.cb_table cb).txq.foldl (fun v _ => kfree (kfree v)) w).put cb
          { w.cb_table cb with txq := [], backlog := rest }) b).bind
        (fun w3 => tcp_cb_clear_fuel n w3 cb) := by
  rw [tcp_cb_clear_fuel]
  simp only [hq, queue_pop, put_put]
  cases tcp_cb_clear_fuel n _ b <;> rfl

/-- With more activations allowed than there are backlog entries in the table, `tcp_cb_clear`
finishes, and it leaves no more backlog entries than it found. -/
theorem tcp_cb_clear_fuel_total :
    ∀ (n : Nat) (w : World) (cb : Fin 16), total_backlog w.cb_table < n →
      ∃ w' : World, tcp_cb_clear_fuel n w cb = some w' ∧
        total_backlog w'.cb_table ≤ total_backlog w.cb_table := by
  intro n
  induction n with
  | zero => intro w cb h; omega
  | succ n ih =>
    intro w cb h
    have e0 := kfree_foldl_cb_table (w.cb_table cb).txq w
    cases hq : (w.cb_table cb).backlog with
    | nil =>
      have h1 := total_backlog_set_cb w.cb_table cb tcp_cb_zero
      refine ⟨_, tcp_cb_clear_fuel_nil n w cb hq, ?_⟩
      simp only [put_cb_table, e0]
      rw [hq] at h1
      simp only [tcp_cb_zero_backlog, List.length_nil] at h1
      omega
    | cons b rest =>
      have h1 := total_backlog_set_cb w.cb_table cb
        { w.cb_table cb with txq := [], backlog := rest }
      rw [hq] at h1
      simp only [List.length_cons] at h1
      obtain ⟨w3, h3, l3⟩ := ih
        ((List.foldl (fun v _ => kfree (kfree v)) w (w.cb_table cb).txq).put cb
          { w.cb_table cb with txq := [], backlog := rest }) b
        (by simp only [put_cb_table, e0]; omega)
      simp only [put_cb_table, e0] at l3
      obtain ⟨w4, h4, l4⟩ := ih w3 cb (by omega)
      refine ⟨w4, ?_, by omega⟩
      rw [tcp_cb_clear_fuel_cons n w cb b rest hq, h3]
      exact h4

/-- The function `tcp_cb_clear` always returns. -/
theorem tcp_cb_clear_total (w : World) (cb : Fin 16) :
    ∃ w' : World, tcp_cb_clear w cb = some w' ∧
      total_backlog w'.cb_table ≤ total_backlog w.cb_table :=
  tcp_cb_clear_fuel_total _ w cb (Nat.lt_succ_self _)

/-! ### The state machine: accepted segments -/

/-- The world a call of `tcp_tx` with a payload that fits leaves, written out: one more `ip_tx`
call, possibly a longer `txq` of the CB and fewer free pages, nothing else. -/
theorem tcp_tx__form (U : Nat → Nat) (w : World) (cb : Fin 16) (seq ack flg : Nat) (buf : List Nat)
    (h : TCP_HDR_SIZE + buf.length ≤ TCP_SEGMENT_SIZE) :
    ∃ (T : List tcp_txq_entry) (k : Nat), tcp_tx_ U w cb seq ack flg buf = some
      { cb_table := set_cb w.cb_table cb { w.cb_table cb with txq := T },
        ip_out := w.ip_out ++ [⟨(w.cb_table cb).iface, IP_PROTOCOL_TCP,
          tcp_tx_segment (w.cb_table cb) (U (w.cb_table cb).iface) seq ack flg buf,
          TCP_HDR_SIZE + buf.length, (w.cb_table cb).peer.addr⟩],
        wakeups := w.wakeups,
        kmem := k } := by
  obtain ⟨w1, h1, h2, h3, h4⟩ := tcp_tx__spec U w cb seq ack flg buf h
  refine ⟨(w1.cb_table cb).txq, w1.kmem, ?_⟩
  rw [h1]
  congr 1
  exact World_ext h4 h2 h3 rfl

theorem flg_isset_rst_syn_split (flg : Nat)
    (h : TCP_FLG_ISSET flg (TCP_FLG_RST ||| TCP_FLG_SYN)) :
    TCP_FLG_ISSET flg TCP_FLG_RST ∨ TCP_FLG_ISSET flg TCP_FLG_SYN := by
  have hb : flg &&& 0x3f < 64 := Nat.lt_succ_of_le Nat.and_le_right
  have key : ∀ y : Nat, y < 64 →
      (y &&& (TCP_FLG_RST ||| TCP_FLG_SYN)) ≠ 0 →
      ((y &&& TCP_FLG_RST) ≠ 0 ∨ (y &&& TCP_FLG_SYN) ≠ 0) := by decide
  exact key _ hb h

theorem tcp_incoming_event_eq (U : Nat → Nat) (rnd : Nat) (w : World) (cb : Fin 16)
    (hdr : List Nat) :
    tcp_incoming_event U rnd w cb hdr =
      if (w.cb_table cb).state = TCP_CB_STATE_CLOSED then tcp_event_closed U w cb hdr (seg_plen hdr)
      else if (w.cb_table cb).state = TCP_CB_STATE_LISTEN then tcp_event_listen U rnd w cb hdr
      else if (w.cb_table cb).state = TCP_CB_STATE_SYN_SENT then tcp_event_syn_sent U w cb hdr
      else tcp_event_synchronized U w cb hdr (seg_hlen hdr) (seg_plen hdr) := rfl

theorem tcp_event_fin_none (U : Nat → Nat) (w : World) (cb : Fin 16) (hdr : List Nat)
    (h : ¬ TCP_FLG_ISSET (hdr_flg hdr) TCP_FLG_FIN) : tcp_event_fin U w cb hdr = some w := by
  unfold tcp_event_fin
  rw [if_neg h]

theorem seg_hlen_le (hdr : List Nat) (hoff : hdr_off hdr < 256) : seg_hlen hdr ≤ 60 := by
  unfold seg_hlen
  rw [Nat.shiftRight_eq_div_pow, Nat.shiftLeft_eq]
  omega

/-- A payload length that fits the free part of the receive buffer is the true length of
what follows the header. -/
theorem seg_plen_fits (hdr : List Nat) (wnd : Nat) (hoff : hdr_off hdr < 256)
    (hlen : hdr.length < 2 ^ 32) (hw : wnd ≤ 4096) (hp : seg_plen hdr ≤ wnd) :
    seg_hlen hdr + seg_plen hdr ≤ hdr.length ∧ (hdr.drop (seg_hlen hdr)).take (seg_plen hdr) =
      hdr.drop (seg_hlen hdr) := by
  have hl := seg_hlen_le hdr hoff
  unfold seg_plen at hp ⊢
  generalize seg_hlen hdr = hlen at hl hp ⊢
  have h1 : hlen + (hdr.length + 2 ^ 32 - hlen) % 2 ^ 32 ≤ hdr.length := by omega
  refine ⟨h1, ?_⟩
  have h3 : (hdr.length + 2 ^ 32 - hlen) % 2 ^ 32 = hdr.length - hlen := by omega
  rw [h3]
  apply List.take_of_length_le
  rw [List.length_drop]

/-- The payload part of `tcp_incoming_event` for a payload that fits: the bytes are stored
behind the buffered ones, `rcv.nxt` and `rcv.wnd` are moved, one bare ACK is sent, the CB is
woken. -/
theorem tcp_event_payload_store (U : Nat → Nat) (w : World) (cb : Fin 16) (hdr : List Nat)
    (hs : (w.cb_table cb).state = TCP_CB_STATE_ESTABLISHED ∨
      (w.cb_table cb).state = TCP_CB_STATE_FIN_WAIT1 ∨
      (w.cb_table cb).state = TCP_CB_STATE_FIN_WAIT2)
    (hfin : ¬ TCP_FLG_ISSET (hdr_flg hdr) TCP_FLG_FIN)
    (hoff : hdr_off hdr < 256) (hlen : hdr.length < 2 ^ 32)
    (hp0 : 0 < seg_plen hdr) (hpw : seg_plen hdr ≤ (w.cb_table cb).rcv.wnd)
    (hw : (w.cb_table cb).rcv.wnd ≤ 4096) :
    ∃ (T : List tcp_txq_entry) (k : Nat),
      tcp_event_payload U w cb hdr (seg_hlen hdr) (seg_plen hdr) = some
        { cb_table := set_cb w.cb_table cb { w.cb_table cb with
            window := (w.cb_table cb).window.take (4096 - (w.cb_table cb).rcv.wnd) ++
              hdr.drop (seg_hlen hdr) ++
              (w.cb_table cb).window.drop (4096 - (w.cb_table cb).rcv.wnd + seg_plen hdr),
            rcv.nxt := (ntoh32 (hdr_seq hdr) + seg_plen hdr) % 2 ^ 32,
            rcv.wnd := (w.cb_table cb).rcv.wnd - seg_plen hdr,
            txq := T },
          ip_out := w.ip_out ++ [⟨(w.cb_table cb).iface, IP_PROTOCOL_TCP,
            tcp_tx_segment
              { w.cb_table cb with
                window := (w.cb_table cb).window.take (4096 - (w.cb_table cb).rcv.wnd) ++
                  hdr.drop (seg_hlen hdr) ++
                  (w.cb_table cb).window.drop (4096 - (w.cb_table cb).rcv.wnd + seg_plen hdr),
                rcv.nxt := (ntoh32 (hdr_seq hdr) + seg_plen hdr) % 2 ^ 32,
                rcv.wnd := (w.cb_table cb).rcv.wnd - seg_plen hdr }
              (U (w.cb_table cb).iface) (w.cb_table cb).snd.nxt
              ((ntoh32 (hdr_seq hdr) + seg_plen hdr) % 2 ^ 32) TCP_FLG_ACK [],
            TCP_HDR_SIZE, (w.cb_table cb).peer.addr⟩],
          wakeups := w.wakeups ++ [cb],
          kmem := k } := by
  obtain ⟨hfit, htake⟩ := seg_plen_fits hdr _ hoff hlen hw hpw
  have hoffs := recv_total _ hw
  have hwnd : ((w.cb_table cb).rcv.wnd + 2 ^ 16 - seg_plen hdr % 2 ^ 16) % 2 ^ 16 =
      (w.cb_table cb).rcv.wnd - seg_plen hdr := by omega
  have hcond : seg_plen hdr ≠ 0 ∧ ((w.cb_table cb).state = TCP_CB_STATE_ESTABLISHED ∨
      (w.cb_table cb).state = TCP_CB_STATE_FIN_WAIT1 ∨
      (w.cb_table cb).state = TCP_CB_STATE_FIN_WAIT2) := ⟨by omega, hs⟩
  have hb : 4096 - (w.cb_table cb).rcv.wnd + seg_plen hdr ≤ TCP_WINDOW_SIZE ∧
      seg_hlen hdr + seg_plen hdr ≤ hdr.length := by
    refine ⟨?_, hfit⟩
    show _ ≤ 4096
    omega
  obtain ⟨T, k, htx⟩ := tcp_tx__form U
    (w.put cb { w.cb_table cb with
      window := (w.cb_table cb).window.take (4096 - (w.cb_table cb).rcv.wnd) ++
        hdr.drop (seg_hlen hdr) ++
        (w.cb_table cb).window.drop (4096 - (w.cb_table cb).rcv.wnd + seg_plen hdr),
      rcv.nxt := (ntoh32 (hdr_seq hdr) + seg_plen hdr) % 2 ^ 32,
      rcv.wnd := (w.cb_table cb).rcv.wnd - seg_plen hdr })
    cb (w.cb_table cb).snd.nxt ((ntoh32 (hdr_seq hdr) + seg_plen hdr) % 2 ^ 32) TCP_FLG_ACK []
    (by decide)
  refine ⟨T, k, ?_⟩
  unfold tcp_event_payload
  simp only [if_pos hcond, hoffs, if_pos hb, htake, hwnd]
  simp only [put_cb_table, set_cb_same, put_ip_out, put_wakeups, set_cb_set_cb] at htx
  rw [htx]
  simp only [tcp_event_fin_none U _ cb hdr hfin]
  rfl
/-- The ACK part of `tcp_incoming_event` for a CB in ESTABLISHED, FIN_WAIT1 or FIN_WAIT2 and
an acknowledgement not beyond `snd.nxt`: at most `snd.una` and the state change (the state
stays one of the three), then the payload part runs. -/
theorem tcp_event_ack_accept (U : Nat → Nat) (w : World) (cb : Fin 16) (hdr : List Nat)
    (hlen plen : Nat)
    (hs : (w.cb_table cb).state = TCP_CB_STATE_ESTABLISHED ∨
      (w.cb_table cb).state = TCP_CB_STATE_FIN_WAIT1 ∨
      (w.cb_table cb).state = TCP_CB_STATE_FIN_WAIT2)
    (hle : ntoh32 (hdr_ack hdr) ≤ (w.cb_table cb).snd.nxt) :
    ∃ (u s : Nat),
      (s = TCP_CB_STATE_ESTABLISHED ∨ s = TCP_CB_STATE_FIN_WAIT1 ∨ s = TCP_CB_STATE_FIN_WAIT2) ∧
      tcp_event_ack U w cb hdr hlen plen =
        tcp_event_payload U (w.put cb { w.cb_table cb with snd.una := u, state := s }) cb hdr
          hlen plen := by
  have hgt : ¬ (¬ ((w.cb_table cb).snd.una < ntoh32 (hdr_ack hdr) ∧
      ntoh32 (hdr_ack hdr) ≤ (w.cb_table cb).snd.nxt) ∧
      ntoh32 (hdr_ack hdr) > (w.cb_table cb).snd.nxt) := by
    intro h; omega
  unfold tcp_event_ack
  simp only [if_neg hgt]
  by_cases hu : (w.cb_table cb).snd.una < ntoh32 (hdr_ack hdr) ∧
      ntoh32 (hdr_ack hdr) ≤ (w.cb_table cb).snd.nxt
  · simp only [if_pos hu]
    rcases hs with h | h | h
    · refine ⟨ntoh32 (hdr_ack hdr), TCP_CB_STATE_ESTABLISHED, Or.inl rfl, ?_⟩
      simp [h]
    · by_cases he : ntoh32 (hdr_ack hdr) = (w.cb_table cb).snd.nxt
      · refine ⟨ntoh32 (hdr_ack hdr), TCP_CB_STATE_FIN_WAIT2, Or.inr (Or.inr rfl), ?_⟩
        simp [h, he]
      · refine ⟨ntoh32 (hdr_ack hdr), TCP_CB_STATE_FIN_WAIT1, Or.inr (Or.inl rfl), ?_⟩
        simp [h, he]
    · refine ⟨ntoh32 (hdr_ack hdr), TCP_CB_STATE_FIN_WAIT2, Or.inr (Or.inr rfl), ?_⟩
      simp [h]
  · simp only [if_neg hu]
    rcases hs with h | h | h
    · refine ⟨(w.cb_table cb).snd.una, (w.cb_table cb).state, Or.inl h, ?_⟩
      have h1 : ¬ (w.cb_table cb).state = TCP_CB_STATE_FIN_WAIT1 := by rw [h]; decide
      have h2 : ¬ (w.cb_table cb).state = TCP_CB_STATE_CLOSING := by rw [h]; decide
      simp only [if_neg h1, if_neg h2]
    · by_cases he : ntoh32 (hdr_ack hdr) = (w.cb_table cb).snd.nxt
      · refine ⟨(w.cb_table cb).snd.una, TCP_CB_STATE_FIN_WAIT2, Or.inr (Or.inr rfl), ?_⟩
        simp only [if_pos h, if_pos he]
      · refine ⟨(w.cb_table cb).snd.una, (w.cb_table cb).state, Or.inr (Or.inl h), ?_⟩
        simp only [if_pos h, if_neg he]
    · refine ⟨(w.cb_table cb).snd.una, (w.cb_table cb).state, Or.inr (Or.inr h), ?_⟩
      have h1 : ¬ (w.cb_table cb).state = TCP_CB_STATE_FIN_WAIT1 := by rw [h]; decide
      have h2 : ¬ (w.cb_table cb).state = TCP_CB_STATE_CLOSING := by rw [h]; decide
      simp only [if_neg h1, if_neg h2]

/-- C11: a CB in ESTABLISHED, FIN_WAIT_1 or FIN_WAIT_2 is handed an accepted segment
(`seq = rcv.nxt`, ACK set, no RST, no SYN, acknowledgement not beyond `snd.nxt`, no FIN) with
payload length `0 < plen <= rcv.wnd` (`rcv.wnd <= 4096`, so that the offsets lie in the
buffer). The payload bytes are stored in `window` at offsets `[4096 - rcv.wnd,
4096 - rcv.wnd + plen)` and the earlier buffered bytes stay, `rcv.nxt` becomes
`(old rcv.nxt + plen) mod 2^32`, `rcv.wnd` decreases by exactly `plen`, and exactly one
segment is handed to `ip_tx`: 20 bytes, `seq = snd.nxt`, `ack` = the new `rcv.nxt`, flags ACK.
(The data-offset byte is a `uint8_t`, the segment length a `size_t`, `snd.nxt` a
`uint32_t`.) -/
theorem tcp_incoming_event_payload (U : Nat → Nat) (rnd : Nat) (w : World) (cb : Fin 16)
    (hdr : List Nat)
    (hs : (w.cb_table cb).state = TCP_CB_STATE_ESTABLISHED ∨
      (w.cb_table cb).state = TCP_CB_STATE_FIN_WAIT1 ∨
      (w.cb_table cb).state = TCP_CB_STATE_FIN_WAIT2)
    (hseq : ntoh32 (hdr_seq hdr) = (w.cb_table cb).rcv.nxt)
    (hack : TCP_FLG_ISSET (hdr_flg hdr) TCP_FLG_ACK)
    (hrst : ¬ TCP_FLG_ISSET (hdr_flg hdr) TCP_FLG_RST)
    (hsyn : ¬ TCP_FLG_ISSET (hdr_flg hdr) TCP_FLG_SYN)
    (hfin : ¬ TCP_FLG_ISSET (hdr_flg hdr) TCP_FLG_FIN)
    (hle : ntoh32 (hdr_ack hdr) ≤ (w.cb_table cb).snd.nxt)
    (hp0 : 0 < seg_plen hdr) (hpw : seg_plen hdr ≤ (w.cb_table cb).rcv.wnd)
    (hw : (w.cb_table cb).rcv.wnd ≤ 4096)
    (hl : (w.cb_table cb).window.length = 4096)
    (hoff : hdr_off hdr < 256) (hlen : hdr.length < 2 ^ 32)
    (hnxt : (w.cb_table cb).snd.nxt < 2 ^ 32) :
    ∃ (w' : World) (seg : List Nat),
      tcp_incoming_event U rnd w cb hdr = some w' ∧
      (w'.cb_table cb).window =
        (w.cb_table cb).window.take (4096 - (w.cb_table cb).rcv.wnd) ++ hdr.drop (seg_hlen hdr) ++
          (w.cb_table cb).window.drop (4096 - (w.cb_table cb).rcv.wnd + seg_plen hdr) ∧
      (hdr.drop (seg_hlen hdr)).length = seg_plen hdr ∧
      (w'.cb_table cb).window.length = 4096 ∧
      (w'.cb_table cb).window.take (4096 - (w.cb_table cb).rcv.wnd) =
        (w.cb_table cb).window.take (4096 - (w.cb_table cb).rcv.wnd) ∧
      (w'.cb_table cb).rcv.nxt = ((w.cb_table cb).rcv.nxt + seg_plen hdr) % 2 ^ 32 ∧
      (w'.cb_table cb).rcv.wnd + seg_plen hdr = (w.cb_table cb).rcv.wnd ∧
      w'.ip_out = w.ip_out ++ [⟨(w.cb_table cb).iface, IP_PROTOCOL_TCP, seg, 20,
        (w.cb_table cb).peer.addr⟩] ∧
      seg.length = 20 ∧
      ntoh32 (hdr_seq seg) = (w.cb_table cb).snd.nxt ∧
      ntoh32 (hdr_ack seg) = ((w.cb_table cb).rcv.nxt + seg_plen hdr) % 2 ^ 32 ∧
      hdr_flg seg = TCP_FLG_ACK ∧
      (∀ j : Fin 16, j ≠ cb → w'.cb_table j = w.cb_table j) := by
  have h0 : (w.cb_table cb).state ≠ TCP_CB_STATE_CLOSED := by
    rcases hs with h | h | h <;> rw [h] <;> decide
  have h1 : (w.cb_table cb).state ≠ TCP_CB_STATE_LISTEN := by
    rcases hs with h | h | h <;> rw [h] <;> decide
  have h2 : (w.cb_table cb).state ≠ TCP_CB_STATE_SYN_SENT := by
    rcases hs with h | h | h <;> rw [h] <;> decide
  have h3 : (w.cb_table cb).state ≠ TCP_CB_STATE_SYN_RCVD := by
    rcases hs with h | h | h <;> rw [h] <;> decide
  have h4 : (w.cb_table cb).state = TCP_CB_STATE_ESTABLISHED ∨
      (w.cb_table cb).state = TCP_CB_STATE_FIN_WAIT1 ∨
      (w.cb_table cb).state = TCP_CB_STATE_FIN_WAIT2 ∨
      (w.cb_table cb).state = TCP_CB_STATE_CLOSE_WAIT ∨
      (w.cb_table cb).state = TCP_CB_STATE_CLOSING := by
    rcases hs with h | h | h
    · exact Or.inl h
    · exact Or.inr (Or.inl h)
    · exact Or.inr (Or.inr (Or.inl h))
  have hrs : ¬ TCP_FLG_ISSET (hdr_flg hdr) (TCP_FLG_RST ||| TCP_FLG_SYN) := fun h =>
    (flg_isset_rst_syn_split _ h).elim hrst hsyn
  obtain ⟨u, s, hs', hev⟩ := tcp_event_ack_accept U w cb hdr (seg_hlen hdr) (seg_plen hdr) hs hle
  obtain ⟨T, k, hst⟩ := tcp_event_payload_store U
    (w.put cb { w.cb_table cb with snd.una := u, state := s }) cb hdr
    (by simpa using hs') hfin hoff hlen hp0 (by simpa using hpw) (by simpa using hw)
  have hinc : tcp_incoming_event U rnd w cb hdr =
      tcp_event_ack U w cb hdr (seg_hlen hdr) (seg_plen hdr) := by
    rw [tcp_incoming_event_eq, if_neg h0, if_neg h1, if_neg h2]
    unfold tcp_event_synchronized
    simp only [hseq, ne_eq, not_true_eq_false, if_false, if_neg hrs, not_not.mpr hack,
      if_neg h3, if_pos h4]
  rw [← hev, ← hinc] at hst
  generalize hsg : tcp_tx_segment _ _ _ _ _ _ = seg at hst
  have hres := hst
  obtain ⟨-, htake⟩ := seg_plen_fits hdr _ hoff hlen hw hpw
  have hplen : (hdr.drop (seg_hlen hdr)).length = seg_plen hdr := by
    rw [← htake, List.length_take, List.length_drop]
    have := (seg_plen_fits hdr _ hoff hlen hw hpw).1
    omega
  have hl1 : ((w.cb_table cb).window.take (4096 - (w.cb_table cb).rcv.wnd)).length =
      4096 - (w.cb_table cb).rcv.wnd := by
    rw [List.length_take, hl]; omega
  refine ⟨_, seg, hres, ?_, hplen, ?_, ?_, ?_, ?_, ?_, ?_, ?_, ?_, ?_, ?_⟩
  · simp
  · simp only [put_cb_table, set_cb_same, List.length_append, hl1, hplen, List.length_drop, hl]
    omega
  · simp only [put_cb_table, set_cb_same, List.append_assoc]
    rw [List.take_append_of_le_length (by rw [hl1]), List.take_take, Nat.min_self]
  · simp [hseq]
  · simp only [put_cb_table, set_cb_same]
    omega
  · simp
  · rw [← hsg]
    exact tcp_tx_segment_length _ _ _ _ _ _
  · rw [← hsg, tcp_tx_segment_seq]
    simp only [put_cb_table, set_cb_same]
    exact Nat.mod_eq_of_lt hnxt
  · rw [← hsg, tcp_tx_segment_ack]
    simp only [put_cb_table, set_cb_same, hseq]
    exact Nat.mod_eq_of_lt (Nat.mod_lt _ (by norm_num))
  · rw [← hsg, tcp_tx_segment_flg]
    rfl
  · intro j hj
    simp only [put_cb_table, set_cb_other _ _ _ _ hj]

/-- Witness for C11: the sample CB (ESTABLISHED, `rcv.nxt = 0x500`, empty buffer) receives
"hi" in sequence. -/
theorem tcp_incoming_event_payload_witness :
    ((World_sample.cb_table 0).state = TCP_CB_STATE_ESTABLISHED ∧
      ntoh32 (hdr_seq segment_sample_500) = (World_sample.cb_table 0).rcv.nxt ∧
      seg_plen segment_sample_500 = 2 ∧ (World_sample.cb_table 0).rcv.wnd = 4096) ∧
    ∃ (w' : World) (seg : List Nat),
      tcp_incoming_event U_sample 0 World_sample 0 segment_sample_500 = some w' ∧
      (w'.cb_table 0).window.take 2 = [104, 105] ∧
      (w'.cb_table 0).rcv.nxt = 0x502 ∧ (w'.cb_table 0).rcv.wnd + 2 = 4096 ∧
      w'.ip_out = [⟨1, IP_PROTOCOL_TCP, seg, 20, 0x0100007f⟩] ∧
      ntoh32 (hdr_seq seg) = 1001 ∧ ntoh32 (hdr_ack seg) = 0x502 ∧ hdr_flg seg = TCP_FLG_ACK := by
  have hl : (World_sample.cb_table 0).window.length = 4096 := by
    show (List.replicate 4096 0).length = 4096
    exact List.length_replicate _ _
  refine ⟨⟨by decide, by decide, by decide, by decide⟩, ?_⟩
  obtain ⟨w', seg, h1, h2, -, -, -, h6, h7, h8, -, h10, h11, h12, -⟩ :=
    tcp_incoming_event_payload U_sample 0 World_sample 0 segment_sample_500
      (Or.inl (by decide)) (by decide) (by decide) (by decide) (by decide) (by decide)
      (by decide) (by decide) (by decide) (by decide) hl (by decide) (by decide) (by decide)
  refine ⟨w', seg, h1, ?_, h6, h7, h8, h10, h11, h12⟩
  rw [h2]
  rfl

/-! ### Closing -/

theorem kfree_foldl_ip_out (l : List tcp_txq_entry) :
    ∀ w : World, (l.foldl (fun v _ => kfree (kfree v)) w).ip_out = w.ip_out := by
  induction l with
  | nil => intro w; rfl
  | cons a l ih => intro w; rw [List.foldl_cons, ih]; rfl

theorem kfree_foldl_wakeups (l : List tcp_txq_entry) :
    ∀ w : World, (l.foldl (fun v _ => kfree (kfree v)) w).wakeups = w.wakeups := by
  induction l with
  | nil => intro w; rfl
  | cons a l ih => intro w; rw [List.foldl_cons, ih]; rfl

/-- What `tcp_cb_clear` leaves: the cleared slot is all zero, and nothing is transmitted and
nobody woken. -/
theorem tcp_cb_clear_fuel_zero :
    ∀ (n : Nat) (w w' : World) (cb : Fin 16), tcp_cb_clear_fuel n w cb = some w' →
      w'.cb_table cb = tcp_cb_zero ∧ w'.ip_out = w.ip_out ∧ w'.wakeups = w.wakeups := by
  intro n
  induction n with
  | zero => intro w w' cb h; simp [tcp_cb_clear_fuel] at h
  | succ n ih =>
    intro w w' cb h
    cases hq : (w.cb_table cb).backlog with
    | nil =>
      rw [tcp_cb_clear_fuel_nil n w cb hq] at h
      injection h with h
      subst h
      simp only [put_cb_table, set_cb_same, put_ip_out, put_wakeups, kfree_foldl_ip_out,
        kfree_foldl_wakeups, and_self]
    | cons b rest =>
      rw [tcp_cb_clear_fuel_cons n w cb b rest hq] at h
      cases h3 : tcp_cb_clear_fuel n
          (((w.cb_table cb).txq.foldl (fun v _ => kfree (kfree v)) w).put cb
            { w.cb_table cb with txq := [], backlog := rest }) b with
      | none => rw [h3] at h; simp at h
      | some w3 =>
        rw [h3] at h
        have h4 : tcp_cb_clear_fuel n w3 cb = some w' := h
        obtain ⟨-, i3, k3⟩ := ih _ _ _ h3
        obtain ⟨z4, i4, k4⟩ := ih _ _ _ h4
        refine ⟨z4, ?_, ?_⟩
        · rw [i4, i3, put_ip_out, kfree_foldl_ip_out]
        · rw [k4, k3, put_wakeups, kfree_foldl_wakeups]

/-- A property of the CB in each slot that the zero record has and that does not look at the
two queues holds of every slot after `tcp_cb_clear` if it held of every slot before. -/
theorem tcp_cb_clear_fuel_inv (P : Fin 16 → tcp_cb → Prop) (hz : ∀ j, P j tcp_cb_zero)
    (hmod : ∀ (j : Fin 16) (c : tcp_cb) (T : List tcp_txq_entry) (B : List (Fin 16)),
      P j c → P j { c with txq := T, backlog := B }) :
    ∀ (n : Nat) (w w' : World) (cb : Fin 16), tcp_cb_clear_fuel n w cb = some w' →
      (∀ j, P j (w.cb_table j)) → ∀ j, P j (w'.cb_table j) := by
  intro n
  induction n with
  | zero => intro w w' cb h; simp [tcp_cb_clear_fuel] at h
  | succ n ih =>
    intro w w' cb h hP
    cases hq : (w.cb_table cb).backlog with
    | nil =>
      rw [tcp_cb_clear_fuel_nil n w cb hq] at h
      injection h with h
      subst h
      intro j
      by_cases hj : j = cb
      · subst hj; simpa using hz j
      · simp only [put_cb_table, set_cb_other _ _ _ _ hj, kfree_foldl_cb_table]
        exact hP j
    | cons b rest =>
      rw [tcp_cb_clear_fuel_cons n w cb b rest hq] at h
      cases h3 : tcp_cb_clear_fuel n
          (((w.cb_table cb).txq.foldl (fun v _ => kfree (kfree v)) w).put cb
            { w.cb_table cb with txq := [], backlog := rest }) b with
      | none => rw [h3] at h; simp at h
      | some w3 =>
        rw [h3] at h
        have h4 : tcp_cb_clear_fuel n w3 cb = some w' := h
        refine ih _ _ _ h4 (ih _ _ _ h3 ?_)
        intro j
        by_cases hj : j = cb
        · subst hj
          simp only [put_cb_table, set_cb_same]
          exact hmod _ _ _ _ (hP j)
        · simp only [put_cb_table, set_cb_other _ _ _ _ hj, kfree_foldl_cb_table]
          exact hP j

/-- The function `tcp_cb_clear` returns, leaves the slot all zero, transmits nothing and wakes
nobody. -/
theorem tcp_cb_clear_spec (w : World) (cb : Fin 16) :
    ∃ w' : World, tcp_cb_clear w cb = some w' ∧ w'.cb_table cb = tcp_cb_zero ∧
      w'.ip_out = w.ip_out ∧ w'.wakeups = w.wakeups := by
  obtain ⟨w', h, -⟩ := tcp_cb_clear_total w cb
  exact ⟨w', h, tcp_cb_clear_fuel_zero _ _ _ _ h⟩

/-- The code of `tcp_api_close` behind its `sleep` returns 0 with the slot all zero. -/
theorem tcp_api_close_wake_spec (w : World) (soc : Int) :
    ∃ w' : World, tcp_api_close_wake w soc = Outcome.ret w' 0 () ∧
      w'.cb_table (slot soc) = tcp_cb_zero ∧ w'.ip_out = w.ip_out := by
  obtain ⟨w', h, hz, hi, -⟩ := tcp_cb_clear_spec w (slot soc)
  refine ⟨w', ?_, hz, hi⟩
  unfold tcp_api_close_wake
  rw [h]

/-- The two sending branches of `tcp_api_close`, written out. -/
theorem tcp_api_close_send (U : Nat → Nat) (w : World) (soc : Int) (s : Nat)
    (hs : s = TCP_CB_STATE_FIN_WAIT1 ∨ s = TCP_CB_STATE_LAST_ACK)
    (hv : ¬ TCP_SOCKET_ISINVALID soc)
    (hu : (w.cb_table (slot soc)).used ≠ 0)
    (hst : (s = TCP_CB_STATE_FIN_WAIT1 ∧ ((w.cb_table (slot soc)).state = TCP_CB_STATE_SYN_RCVD ∨
        (w.cb_table (slot soc)).state = TCP_CB_STATE_ESTABLISHED)) ∨
      (s = TCP_CB_STATE_LAST_ACK ∧ (w.cb_table (slot soc)).state = TCP_CB_STATE_CLOSE_WAIT)) :
    ∃ (T : List tcp_txq_entry) (k : Nat),
      tcp_api_close U w soc = Outcome.sleep
        { cb_table := set_cb w.cb_table (slot soc)
            { w.cb_table (slot soc) with
              txq := T, state := s,
              snd.nxt := ((w.cb_table (slot soc)).snd.nxt + 1) % 2 ^ 32 },
          ip_out := w.ip_out ++ [⟨(w.cb_table (slot soc)).iface, IP_PROTOCOL_TCP,
            tcp_tx_segment (w.cb_table (slot soc)) (U (w.cb_table (slot soc)).iface)
              (w.cb_table (slot soc)).snd.nxt (w.cb_table (slot soc)).rcv.nxt
              (TCP_FLG_FIN ||| TCP_FLG_ACK) [],
            TCP_HDR_SIZE + 0, (w.cb_table (slot soc)).peer.addr⟩],
          wakeups := w.wakeups, kmem := k } := by
  obtain ⟨T, k, h⟩ := tcp_tx__form U w (slot soc) (w.cb_table (slot soc)).snd.nxt
    (w.cb_table (slot soc)).rcv.nxt (TCP_FLG_FIN ||| TCP_FLG_ACK) [] (by decide)
  refine ⟨T, k, ?_⟩
  unfold tcp_api_close
  rw [if_neg hv]
  dsimp only
  rw [if_neg hu]
  rcases hst with ⟨e, h1⟩ | ⟨e, h1⟩
  · rw [if_pos h1, h]
    subst e
    simp only [World.put, set_cb_same, set_cb_set_cb, List.length_nil]
  · have h2 : ¬ ((w.cb_table (slot soc)).state = TCP_CB_STATE_SYN_RCVD ∨
        (w.cb_table (slot soc)).state = TCP_CB_STATE_ESTABLISHED) := by
      rw [h1]; decide
    rw [if_neg h2, if_pos h1, h]
    subst e
    simp only [World.put, set_cb_same, set_cb_set_cb, List.length_nil]
/-- C12: `tcp_api_close` on a used CB (valid descriptor; `snd.nxt` and `rcv.nxt` are
`uint32_t`). From SYN_RCVD or ESTABLISHED it hands exactly one segment to `ip_tx`, 20 bytes
with `seq = snd.nxt`, `ack = rcv.nxt`, flags FIN|ACK, and sleeps with state FIN_WAIT_1 and
`snd.nxt = (old snd.nxt + 1) mod 2^32`; from CLOSE_WAIT the same with state LAST_ACK; from
every other state it transmits nothing and returns 0 at once with the slot all zero. Whatever
the table is when the sleep ends, the rest of the call returns 0 and leaves the slot equal to
the zero record (used = 0, state CLOSED, empty retransmission queue, empty backlog). A
segment with `seq = rcv.nxt`, ACK set and neither RST nor SYN, handed to a CB in LAST_ACK,
also leaves that slot equal to the zero record. -/
theorem tcp_api_close_spec (U : Nat → Nat) (rnd : Nat) (w : World) (soc : Int)
    (hv : ¬ TCP_SOCKET_ISINVALID soc) (hu : (w.cb_table (slot soc)).used = 1)
    (hn : (w.cb_table (slot soc)).snd.nxt < 2 ^ 32)
    (hr : (w.cb_table (slot soc)).rcv.nxt < 2 ^ 32) :
    (((w.cb_table (slot soc)).state = TCP_CB_STATE_SYN_RCVD ∨
        (w.cb_table (slot soc)).state = TCP_CB_STATE_ESTABLISHED) →
      ∃ (w' : World) (seg : List Nat),
        tcp_api_close U w soc = Outcome.sleep w' ∧
        w'.ip_out = w.ip_out ++ [⟨(w.cb_table (slot soc)).iface, IP_PROTOCOL_TCP, seg, 20,
          (w.cb_table (slot soc)).peer.addr⟩] ∧
        seg.length = 20 ∧
        ntoh32 (hdr_seq seg) = (w.cb_table (slot soc)).snd.nxt ∧
        ntoh32 (hdr_ack seg) = (w.cb_table (slot soc)).rcv.nxt ∧
        hdr_flg seg = TCP_FLG_FIN ||| TCP_FLG_ACK ∧
        (w'.cb_table (slot soc)).state = TCP_CB_STATE_FIN_WAIT1 ∧
        (w'.cb_table (slot soc)).snd.nxt = ((w.cb_table (slot soc)).snd.nxt + 1) % 2 ^ 32) ∧
    ((w.cb_table (slot soc)).state = TCP_CB_STATE_CLOSE_WAIT →
      ∃ (w' : World) (seg : List Nat),
        tcp_api_close U w soc = Outcome.sleep w' ∧
        w'.ip_out = w.ip_out ++ [⟨(w.cb_table (slot soc)).iface, IP_PROTOCOL_TCP, seg, 20,
          (w.cb_table (slot soc)).peer.addr⟩] ∧
        seg.length = 20 ∧
        ntoh32 (hdr_seq seg) = (w.cb_table (slot soc)).snd.nxt ∧
        ntoh32 (hdr_ack seg) = (w.cb_table (slot soc)).rcv.nxt ∧
        hdr_flg seg = TCP_FLG_FIN ||| TCP_FLG_ACK ∧
        (w'.cb_table (slot soc)).state = TCP_CB_STATE_LAST_ACK ∧
        (w'.cb_table (slot soc)).snd.nxt = ((w.cb_table (slot soc)).snd.nxt + 1) % 2 ^ 32) ∧
    ((w.cb_table (slot soc)).state ≠ TCP_CB_STATE_SYN_RCVD →
      (w.cb_table (slot soc)).state ≠ TCP_CB_STATE_ESTABLISHED →
      (w.cb_table (slot soc)).state ≠ TCP_CB_STATE_CLOSE_WAIT →
      ∃ w' : World, tcp_api_close U w soc = Outcome.ret w' 0 () ∧ w'.ip_out = w.ip_out ∧
        w'.cb_table (slot soc) = tcp_cb_zero) ∧
    (∀ v : World, ∃ v' : World, tcp_api_close_wake v soc = Outcome.ret v' 0 () ∧
      v'.ip_out = v.ip_out ∧ v'.cb_table (slot soc) = tcp_cb_zero ∧
      (v'.cb_table (slot soc)).used = 0 ∧ (v'.cb_table (slot soc)).state = TCP_CB_STATE_CLOSED ∧
      (v'.cb_table (slot soc)).txq = [] ∧ (v'.cb_table (slot soc)).backlog = []) ∧
    (∀ (v : World) (cb : Fin 16) (hdr : List Nat),
      (v.cb_table cb).state = TCP_CB_STATE_LAST_ACK →
      ntoh32 (hdr_seq hdr) = (v.cb_table cb).rcv.nxt →
      TCP_FLG_ISSET (hdr_flg hdr) TCP_FLG_ACK →
      ¬ TCP_FLG_ISSET (hdr_flg hdr) TCP_FLG_RST →
      ¬ TCP_FLG_ISSET (hdr_flg hdr) TCP_FLG_SYN →
      ∃ v' : World, tcp_incoming_event U rnd v cb hdr = some v' ∧ v'.ip_out = v.ip_out ∧
        v'.cb_table cb = tcp_cb_zero ∧
        (v'.cb_table cb).used = 0 ∧ (v'.cb_table cb).state = TCP_CB_STATE_CLOSED ∧
        (v'.cb_table cb).txq = [] ∧ (v'.cb_table cb).backlog = []) := by
  have hu0 : (w.cb_table (slot soc)).used ≠ 0 := by rw [hu]; decide
  have hsend : ∀ s : Nat, (s = TCP_CB_STATE_FIN_WAIT1 ∨ s = TCP_CB_STATE_LAST_ACK) →
      ((s = TCP_CB_STATE_FIN_WAIT1 ∧ ((w.cb_table (slot soc)).state = TCP_CB_STATE_SYN_RCVD ∨
          (w.cb_table (slot soc)).state = TCP_CB_STATE_ESTABLISHED)) ∨
        (s = TCP_CB_STATE_LAST_ACK ∧ (w.cb_table (slot soc)).state = TCP_CB_STATE_CLOSE_WAIT)) →
      ∃ (w' : World) (seg : List Nat),
        tcp_api_close U w soc = Outcome.sleep w' ∧
        w'.ip_out = w.ip_out ++ [⟨(w.cb_table (slot soc)).iface, IP_PROTOCOL_TCP, seg, 20,
          (w.cb_table (slot soc)).peer.addr⟩] ∧
        seg.length = 20 ∧
        ntoh32 (hdr_seq seg) = (w.cb_table (slot soc)).snd.nxt ∧
        ntoh32 (hdr_ack seg) = (w.cb_table (slot soc)).rcv.nxt ∧
        hdr_flg seg = TCP_FLG_FIN ||| TCP_FLG_ACK ∧
        (w'.cb_table (slot soc)).state = s ∧
        (w'.cb_table (slot soc)).snd.nxt = ((w.cb_table (slot soc)).snd.nxt + 1) % 2 ^ 32 := by
    intro s hs hst
    obtain ⟨T, k, h⟩ := tcp_api_close_send U w soc s hs hv hu0 hst
    refine ⟨_, _, h, rfl, tcp_tx_segment_length _ _ _ _ _ _, ?_, ?_, ?_, ?_, ?_⟩
    · rw [tcp_tx_segment_seq]; exact Nat.mod_eq_of_lt hn
    · rw [tcp_tx_segment_ack]; exact Nat.mod_eq_of_lt hr
    · rw [tcp_tx_segment_flg]; rfl
    · simp only [set_cb_same]
    · simp only [set_cb_same]
  have hz : ∀ (v' : World) (cb : Fin 16), v'.cb_table cb = tcp_cb_zero →
      (v'.cb_table cb).used = 0 ∧ (v'.cb_table cb).state = TCP_CB_STATE_CLOSED ∧
      (v'.cb_table cb).txq = [] ∧ (v'.cb_table cb).backlog = [] := by
    intro v' cb h
    rw [h]
    exact ⟨rfl, rfl, rfl, rfl⟩
  refine ⟨fun h => hsend _ (Or.inl rfl) (Or.inl ⟨rfl, h⟩),
    fun h => hsend _ (Or.inr rfl) (Or.inr ⟨rfl, h⟩), ?_, ?_, ?_⟩
  · intro h1 h2 h3
    obtain ⟨w', h, hz', hi⟩ := tcp_api_close_wake_spec w soc
    refine ⟨w', ?_, hi, hz'⟩
    unfold tcp_api_close
    rw [if_neg hv]
    dsimp only
    rw [if_neg hu0, if_neg (by tauto), if_neg h3, h]
  · intro v
    obtain ⟨v', h, hz', hi⟩ := tcp_api_close_wake_spec v soc
    exact ⟨v', h, hi, hz', hz v' _ hz'⟩
  · intro v cb hdr hst hseq hack hrst hsyn
    obtain ⟨v', h, hz', hi, -⟩ := tcp_cb_clear_spec { v with wakeups := v.wakeups ++ [cb] } cb
    refine ⟨v', ?_, hi, hz', hz v' _ hz'⟩
    have hrs : ¬ TCP_FLG_ISSET (hdr_flg hdr) (TCP_FLG_RST ||| TCP_FLG_SYN) := fun h =>
      (flg_isset_rst_syn_split _ h).elim hrst hsyn
    rw [tcp_incoming_event_eq, hst, if_neg (by decide), if_neg (by decide), if_neg (by decide)]
    unfold tcp_event_synchronized
    simp only [hseq, ne_eq, not_true_eq_false, if_false, if_neg hrs, not_not.mpr hack, hst]
    rw [if_pos trivial]
    exact h

/-- Witness for C12: closing the sample connection (slot 0, ESTABLISHED, `snd.nxt = 1001`,
`rcv.nxt = 0x500`). -/
theorem tcp_api_close_spec_witness :
    (¬ TCP_SOCKET_ISINVALID 0 ∧ (World_sample.cb_table (slot 0)).used = 1 ∧
      (World_sample.cb_table (slot 0)).state = TCP_CB_STATE_ESTABLISHED) ∧
    ∃ (w' : World) (seg : List Nat),
      tcp_api_close U_sample World_sample 0 = Outcome.sleep w' ∧
      w'.ip_out = [⟨1, IP_PROTOCOL_TCP, seg, 20, 0x0100007f⟩] ∧
      ntoh32 (hdr_seq seg) = 1001 ∧ ntoh32 (hdr_ack seg) = 0x500 ∧ hdr_flg seg = 0x11 ∧
      (w'.cb_table (slot 0)).state = TCP_CB_STATE_FIN_WAIT1 ∧
      (w'.cb_table (slot 0)).snd.nxt = 1002 := by
  refine ⟨⟨by decide, by decide, by decide⟩, ?_⟩
  obtain ⟨w', seg, h1, h2, -, h4, h5, h6, h7, h8⟩ :=
    (tcp_api_close_spec U_sample 0 World_sample 0 (by decide) (by decide) (by decide)
      (by decide)).1 (Or.inr (by decide))
  exact ⟨w', seg, h1, h2, h4, h5, h6, h7, h8⟩

/-! ### Active open -/

theorem ntoh16_hton16 (p : Nat) (h : p ≤ 65535) : ntoh16 (hton16 p) = p := by
  have ha : p / 256 < 256 := by omega
  have hb : p % 256 < 256 := Nat.mod_lt _ (by norm_num)
  have hpe : p = 256 * (p / 256) + p % 256 := (Nat.div_add_mod p 256).symm
  unfold ntoh16 hton16
  rw [Nat.mod_eq_of_lt ha]
  generalize p / 256 = a at ha hpe ⊢
  generalize p % 256 = b at hb hpe ⊢
  have e1 : (b * 256 + a) % 256 = a := by omega
  have e2 : (b * 256 + a) / 256 = b := by omega
  rw [e1, e2, Nat.mod_eq_of_lt hb]
  omega

theorem hton16_ne_zero (p : Nat) (h1 : 49152 ≤ p) (h2 : p ≤ 65535) : hton16 p ≠ 0 := by
  unfold hton16
  omega

/-- The port search of `tcp_api_connect` finds a port when one of the candidates is free: the
result lies between the start and 65535 and no used CB holds it. -/
theorem tcp_connect_port_some (t : Fin 16 → tcp_cb) (start q : Nat) (h1 : start ≤ q)
    (h2 : q ≤ 65535) (hq : ∀ j, (t j).used ≠ 0 → (t j).port ≠ hton16 q) :
    ∃ p, tcp_connect_port t start = some p ∧ start ≤ p ∧ p ≤ 65535 ∧
      ∀ j, (t j).used ≠ 0 → (t j).port ≠ hton16 p := by
  unfold tcp_connect_port
  cases h : (List.range' start (TCP_SOURCE_PORT_MAX + 1 - start)).find?
      (fun p => allSlots.all (fun i => ¬ ((t i).used ≠ 0 ∧ (t i).port = hton16 p))) with
  | none =>
    exfalso
    rw [List.find?_eq_none] at h
    have hm : q ∈ List.range' start (TCP_SOURCE_PORT_MAX + 1 - start) := by
      rw [List.mem_range'_1]
      show start ≤ q ∧ q < start + (65535 + 1 - start)
      omega
    apply h q hm
    rw [List.all_eq_true]
    intro j _
    have := hq j
    simp only [decide_eq_true_eq]
    tauto
  | some p =>
    have hm := List.mem_of_find?_eq_some h
    have hp := List.find?_some h
    rw [List.mem_range'_1] at hm
    rw [List.all_eq_true] at hp
    refine ⟨p, rfl, hm.1, ?_, ?_⟩
    · have := hm.2
      change p < start + (65535 + 1 - start) at this
      omega
    · intro j hu he
      have := hp j (mem_allSlots j)
      simp only [decide_eq_true_eq] at this
      exact this ⟨hu, he⟩

/-- The port search of `tcp_api_connect` fails when every candidate is held by a used CB. -/
theorem tcp_connect_port_none (t : Fin 16 → tcp_cb) (start : Nat)
    (hq : ∀ q, start ≤ q → q ≤ 65535 → ∃ j, (t j).used ≠ 0 ∧ (t j).port = hton16 q) :
    tcp_connect_port t start = none := by
  unfold tcp_connect_port
  rw [List.find?_eq_none]
  intro q hm
  rw [List.mem_range'_1] at hm
  have h2 := hm.2
  change q < start + (65535 + 1 - start) at h2
  obtain ⟨j, hj⟩ := hq q hm.1 (by omega)
  simp only [Bool.not_eq_true, List.all_eq_false]
  exact ⟨j, mem_allSlots j, by simpa using hj⟩

/-- The call `tcp_api_connect` on a used CLOSED CB without a port, once the port search has
succeeded, written out: it sleeps in SYN_SENT having handed one SYN to `ip_tx`. -/
theorem tcp_api_connect_form (U : Nat → Nat) (now rnd : Nat) (w : World) (soc : Int)
    (addr : sockaddr_in) (p : Nat)
    (hv : ¬ TCP_SOCKET_ISINVALID soc) (hf : addr.sin_family = AF_INET)
    (hu : (w.cb_table (slot soc)).used ≠ 0)
    (hs : (w.cb_table (slot soc)).state = TCP_CB_STATE_CLOSED)
    (hp : (w.cb_table (slot soc)).port = 0)
    (hport : tcp_connect_port w.cb_table (TCP_SOURCE_PORT_MIN + now % 1024) = some p)
    (hne : hton16 p ≠ 0) :
    ∃ (T : List tcp_txq_entry) (k : Nat),
      tcp_api_connect U now rnd w soc addr = Outcome.sleep
        { cb_table := set_cb w.cb_table (slot soc)
            { w.cb_table (slot soc) with
              port := hton16 p, peer := ⟨addr.sin_addr, addr.sin_port⟩,
              rcv.wnd := TCP_WINDOW_SIZE, iss := rnd % 2 ^ 32, txq := T,
              snd.nxt := (rnd % 2 ^ 32 + 1) % 2 ^ 32, state := TCP_CB_STATE_SYN_SENT },
          ip_out := w.ip_out ++ [⟨(w.cb_table (slot soc)).iface, IP_PROTOCOL_TCP,
            tcp_tx_segment
              { w.cb_table (slot soc) with
                port := hton16 p, peer := ⟨addr.sin_addr, addr.sin_port⟩,
                rcv.wnd := TCP_WINDOW_SIZE, iss := rnd % 2 ^ 32 }
              (U (w.cb_table (slot soc)).iface) (rnd % 2 ^ 32) 0 TCP_FLG_SYN [],
            TCP_HDR_SIZE + 0, addr.sin_addr⟩],
          wakeups := w.wakeups, kmem := k } := by
  obtain ⟨T, k, h⟩ := tcp_tx__form U
    (w.put (slot soc) { w.cb_table (slot soc) with
      port := hton16 p, peer := ⟨addr.sin_addr, addr.sin_port⟩,
      rcv.wnd := TCP_WINDOW_SIZE, iss := rnd % 2 ^ 32 }) (slot soc)
    (rnd % 2 ^ 32) 0 TCP_FLG_SYN [] (by decide)
  refine ⟨T, k, ?_⟩
  unfold tcp_api_connect
  rw [if_neg hv, if_neg (not_not.mpr hf)]
  dsimp only
  rw [if_neg (by rw [hs]; tauto), if_pos hp, hport]
  dsimp only
  rw [if_neg hne, h]
  unfold tcp_api_connect_wake
  simp only [World.put, set_cb_same, set_cb_set_cb, List.length_nil, if_pos]

/-- C13: `tcp_api_connect` on a used CB in state CLOSED with no port, valid descriptor,
address of family AF_INET, any clock value `now` and any `random()` value `rnd`. If some port
from `49152 + now mod 1024` to 65535 is held by no used CB, the call records a port that read
in host order is a `p` with `49152 <= p <= 65535` held by no other used CB, records the peer
address and port, hands exactly one segment to `ip_tx` (20 bytes, `seq = iss`, `ack = 0`,
flags SYN), and sleeps with `snd.nxt = (iss + 1) mod 2^32` and state SYN_SENT, all other slots
as before. If every port from `49152 + now mod 1024` to 65535 is held by a used CB it returns
-1 and the table (and everything else) is unchanged. -/
theorem tcp_api_connect_spec (U : Nat → Nat) (now rnd : Nat) (w : World) (soc : Int)
    (addr : sockaddr_in)
    (hv : ¬ TCP_SOCKET_ISINVALID soc) (hf : addr.sin_family = AF_INET)
    (hu : (w.cb_table (slot soc)).used = 1)
    (hs : (w.cb_table (slot soc)).state = TCP_CB_STATE_CLOSED)
    (hp : (w.cb_table (slot soc)).port = 0) :
    ((∃ q, 49152 + now % 1024 ≤ q ∧ q ≤ 65535 ∧
        ∀ j, (w.cb_table j).used ≠ 0 → (w.cb_table j).port ≠ hton16 q) →
      ∃ (w' : World) (p : Nat) (seg : List Nat),
        tcp_api_connect U now rnd w soc addr = Outcome.sleep w' ∧
        49152 ≤ p ∧ p ≤ 65535 ∧
        ntoh16 (w'.cb_table (slot soc)).port = p ∧
        (w'.cb_table (slot soc)).port = hton16 p ∧
        (∀ j, j ≠ slot soc → (w'.cb_table j).used ≠ 0 →
          (w'.cb_table j).port ≠ (w'.cb_table (slot soc)).port) ∧
        (∀ j, j ≠ slot soc → w'.cb_table j = w.cb_table j) ∧
        (w'.cb_table (slot soc)).peer = ⟨addr.sin_addr, addr.sin_port⟩ ∧
        w'.ip_out = w.ip_out ++ [⟨(w.cb_table (slot soc)).iface, IP_PROTOCOL_TCP, seg, 20,
          addr.sin_addr⟩] ∧
        seg.length = 20 ∧
        (w'.cb_table (slot soc)).iss = rnd % 2 ^ 32 ∧
        ntoh32 (hdr_seq seg) = (w'.cb_table (slot soc)).iss ∧
        ntoh32 (hdr_ack seg) = 0 ∧
        hdr_flg seg = TCP_FLG_SYN ∧
        (w'.cb_table (slot soc)).snd.nxt = ((w'.cb_table (slot soc)).iss + 1) % 2 ^ 32 ∧
        (w'.cb_table (slot soc)).state = TCP_CB_STATE_SYN_SENT ∧
        (w'.cb_table (slot soc)).used = 1) ∧
    ((∀ q, 49152 + now % 1024 ≤ q → q ≤ 65535 →
        ∃ j, (w.cb_table j).used ≠ 0 ∧ (w.cb_table j).port = hton16 q) →
      tcp_api_connect U now rnd w soc addr = Outcome.ret w (-1) ()) := by
  have hu0 : (w.cb_table (slot soc)).used ≠ 0 := by rw [hu]; decide
  constructor
  · rintro ⟨q, h1, h2, hq⟩
    obtain ⟨p, hport, l1, l2, hfree⟩ := tcp_connect_port_some w.cb_table _ q h1 h2 hq
    have l0 : 49152 ≤ p := by omega
    obtain ⟨T, k, h⟩ := tcp_api_connect_form U now rnd w soc addr p hv hf hu0 hs hp hport
      (hton16_ne_zero p l0 l2)
    refine ⟨_, p, _, h, l0, l2, ?_, ?_, ?_, ?_, ?_, rfl, tcp_tx_segment_length _ _ _ _ _ _,
      ?_, ?_, ?_, ?_, ?_, ?_, ?_⟩
    · simp only [set_cb_same]
      exact ntoh16_hton16 p l2
    · simp only [set_cb_same]
    · intro j hj hused
      simp only [set_cb_same, set_cb_other _ _ _ _ hj] at hused ⊢
      exact hfree j hused
    · intro j hj
      simp only [set_cb_other _ _ _ _ hj]
    · simp only [set_cb_same]
    · simp only [set_cb_same]
    · rw [tcp_tx_segment_seq]
      simp only [set_cb_same]
      exact Nat.mod_eq_of_lt (Nat.mod_lt _ (by norm_num))
    · rw [tcp_tx_segment_ack]
      rfl
    · rw [tcp_tx_segment_flg]
      rfl
    · simp only [set_cb_same]
    · simp only [set_cb_same]
    · simp only [set_cb_same]
      exact hu
  · intro hall
    have hport := tcp_connect_port_none w.cb_table (TCP_SOURCE_PORT_MIN + now % 1024) hall
    unfold tcp_api_connect
    rw [if_neg hv, if_neg (not_not.mpr hf)]
    dsimp only
    rw [if_neg (by rw [hs]; tauto), if_pos hp, hport]
    dsimp only
    rw [if_pos hp]

/-- Witness for C13: the first connect on a fresh socket at clock value 5 takes port
49157. -/
theorem tcp_api_connect_spec_witness :
    (¬ TCP_SOCKET_ISINVALID 0 ∧ ((World_opened 64 1).cb_table (slot 0)).used = 1 ∧
      ((World_opened 64 1).cb_table (slot 0)).state = TCP_CB_STATE_CLOSED ∧
      ((World_opened 64 1).cb_table (slot 0)).port = 0) ∧
    ∃ (w' : World) (p : Nat),
      tcp_api_connect U_sample 5 1000 (World_opened 64 1) 0 ⟨AF_INET, 0x5000, 0x0100007f⟩ =
        Outcome.sleep w' ∧
      49152 ≤ p ∧ p ≤ 65535 ∧ ntoh16 (w'.cb_table (slot 0)).port = p ∧
      (w'.cb_table (slot 0)).state = TCP_CB_STATE_SYN_SENT ∧
      (w'.cb_table (slot 0)).snd.nxt = 1001 := by
  have h := (tcp_api_connect_spec U_sample 5 1000 (World_opened 64 1) 0
    ⟨AF_INET, 0x5000, 0x0100007f⟩ (by decide) rfl rfl rfl rfl).1
    ⟨49157, by decide, by decide, fun j _ => by rw [World_opened_port]; decide⟩
  obtain ⟨w', p, seg, h1, h2, h3, h4, -, -, -, -, -, -, h11, -, -, -, h15, h16, -⟩ := h
  refine ⟨⟨by decide, rfl, rfl, rfl⟩, w', p, h1, h2, h3, h4, h16, ?_⟩
  rw [h15, h11]
  decide

/-- C14 (the code departs from the claim): the loop at the end of `tcp_api_connect` tests
`cb->state` only. A caller woken while the CB is still in SYN_SENT goes back to sleep on the
unchanged table, whatever its kill flag, and when the loop is left the call returns 0: no run
of this code returns -1. -/
theorem tcp_api_connect_wake_ignores_kill (w : World) (soc : Int) :
    ((w.cb_table (slot soc)).state = TCP_CB_STATE_SYN_SENT →
      tcp_api_connect_wake w soc = Outcome.sleep w) ∧
    (∀ (w' : World) (v : Int), tcp_api_connect_wake w soc = Outcome.ret w' v () → v = 0) := by
  unfold tcp_api_connect_wake
  constructor
  · intro h
    rw [if_pos h]
  · intro w' v h
    split at h
    · exact Outcome.noConfusion h
    · injection h with _ hv _
      exact hv.symm

/-- Witness for C14: the caller of the sample connect (slot 0 in SYN_SENT, SYN unanswered) is
woken: it sleeps again. -/
theorem tcp_api_connect_wake_ignores_kill_witness :
    (World_sample_syn_sent.cb_table (slot 0)).state = TCP_CB_STATE_SYN_SENT ∧
    tcp_api_connect_wake World_sample_syn_sent 0 = Outcome.sleep World_sample_syn_sent :=
  ⟨rfl, (tcp_api_connect_wake_ignores_kill World_sample_syn_sent 0).1 rfl⟩

/-! ### Accepting -/

/-- C15, as stated, fails on the code: slot 0 is used, in LISTEN, with the non-empty backlog
`[1, 2]`, and an address buffer is supplied; with a null `addrlen`, and also with
`*addrlen = 4`, `tcp_api_accept` returns -1, writes nothing, and leaves the backlog as it
was. -/
theorem tcp_api_accept_counterexample :
    ¬ TCP_SOCKET_ISINVALID 0 ∧
    (World_sample_listen.cb_table (slot 0)).used = 1 ∧
    (World_sample_listen.cb_table (slot 0)).state = TCP_CB_STATE_LISTEN ∧
    (World_sample_listen.cb_table (slot 0)).backlog = [1, 2] ∧
    tcp_api_accept World_sample_listen 0 true none false =
      Outcome.ret World_sample_listen (-1) ⟨none, none⟩ ∧
    tcp_api_accept World_sample_listen 0 true (some 4) false =
      Outcome.ret World_sample_listen (-1) ⟨none, none⟩ :=
  ⟨by decide, rfl, rfl, rfl, rfl, rfl⟩

/-- C15, amended: `tcp_api_accept` on a used CB in state LISTEN (valid descriptor). When `addr`
is null, or `addrlen` is non-null and `*addrlen`, read as a `size_t`, is at least
`sizeof(struct sockaddr_in) = 8`: with a non-empty backlog the call removes the head entry,
the rest of the backlog keeping its order, returns that child's table index and, if `addr` is
supplied, writes family AF_INET and the child's peer port and address (and has set `*addrlen`
to 8); with an empty backlog and the kill flag set it returns -1 and leaves the table,
the segments sent and the wakeups as they were (`*addrlen` is set to 8 if `addr` is supplied).
When `addr` is supplied and `addrlen` is null or `*addrlen` is below 8, the call returns -1
at once, writes nothing and leaves everything, the backlog included, as it was. -/
theorem tcp_api_accept_spec (w : World) (soc : Int) (addr : Bool) (addrlen : Option Int)
    (killed : Bool)
    (hv : ¬ TCP_SOCKET_ISINVALID soc) (hu : (w.cb_table (slot soc)).used = 1)
    (hs : (w.cb_table (slot soc)).state = TCP_CB_STATE_LISTEN) :
    ((addr = true → ∃ n : Int, addrlen = some n ∧ 8 ≤ (n % 2 ^ 32).toNat) →
      (∀ (b : Fin 16) (rest : List (Fin 16)), (w.cb_table (slot soc)).backlog = b :: rest →
        tcp_api_accept w soc addr addrlen killed =
          Outcome.ret (w.put (slot soc) { w.cb_table (slot soc) with backlog := rest })
            (b.val : Int)
            ⟨if addr then some 8 else none,
             if addr then some ⟨AF_INET, (w.cb_table b).peer.port, (w.cb_table b).peer.addr⟩
             else none⟩) ∧
      ((w.cb_table (slot soc)).backlog = [] → killed = true →
        tcp_api_accept w soc addr addrlen killed =
          Outcome.ret w (-1) ⟨if addr then some 8 else none, none⟩)) ∧
    (addr = true → (addrlen = none ∨ ∃ n : Int, addrlen = some n ∧ (n % 2 ^ 32).toNat < 8) →
      tcp_api_accept w soc addr addrlen killed = Outcome.ret w (-1) ⟨none, none⟩) := by
  have hu0 : ¬ (w.cb_table (slot soc)).used = 0 := by rw [hu]; decide
  constructor
  · intro ha
    have g1 : ¬ (addr = true ∧ addrlen = none) := by
      rintro ⟨h1, h2⟩
      obtain ⟨n, hn, -⟩ := ha h1
      rw [hn] at h2
      exact Option.noConfusion h2
    have g2 : ¬ (addr = true ∧ ((addrlen.getD 0) % 2 ^ 32).toNat < SOCKADDR_IN_SIZE) := by
      rintro ⟨h1, h2⟩
      obtain ⟨n, hn, hle⟩ := ha h1
      rw [hn] at h2
      change (n % 2 ^ 32).toNat < 8 at h2
      omega
    constructor
    · intro b rest hb
      unfold tcp_api_accept
      rw [if_neg hv, if_neg g1, if_neg g2]
      dsimp only
      rw [if_neg hu0, if_neg (not_not.mpr hs)]
      unfold tcp_api_accept_wake
      dsimp only
      rw [hb]
      cases addr <;> rfl
    · intro hb hk
      unfold tcp_api_accept
      rw [if_neg hv, if_neg g1, if_neg g2]
      dsimp only
      rw [if_neg hu0, if_neg (not_not.mpr hs)]
      unfold tcp_api_accept_wake
      dsimp only
      rw [hb, hk]
      cases addr <;> rfl
  · intro ha hl
    unfold tcp_api_accept
    rw [if_neg hv]
    rcases hl with h | ⟨n, hn, hlt⟩
    · rw [if_pos ⟨ha, h⟩]
    · have g1 : ¬ (addr = true ∧ addrlen = none) := by
        rintro ⟨-, h2⟩
        rw [hn] at h2
        exact Option.noConfusion h2
      rw [if_neg g1, if_pos ⟨ha, by rw [hn]; exact hlt⟩]

/-- Witness for C15: accepting on the sample listening socket with a 16-byte address buffer
returns child 1 with its peer, and leaves `[2]` in the backlog. -/
theorem tcp_api_accept_spec_witness :
    (¬ TCP_SOCKET_ISINVALID 0 ∧ (World_sample_listen.cb_table (slot 0)).used = 1 ∧
      (World_sample_listen.cb_table (slot 0)).state = TCP_CB_STATE_LISTEN ∧
      (World_sample_listen.cb_table (slot 0)).backlog = [1, 2]) ∧
    tcp_api_accept World_sample_listen 0 true (some 16) false =
      Outcome.ret
        (World_sample_listen.put (slot 0)
          { World_sample_listen.cb_table (slot 0) with backlog := [2] })
        1 ⟨some 8, some ⟨AF_INET, 0x00c0, 0x0100007f⟩⟩ :=
  ⟨⟨by decide, rfl, rfl, rfl⟩,
    ((tcp_api_accept_spec World_sample_listen 0 true (some 16) false (by decide) rfl rfl).1
      (fun _ => ⟨16, rfl, by decide⟩)).1 1 [2] rfl⟩

/-! ### Segments for a CB in CLOSED -/

theorem hton32_lt (x : Nat) : hton32 x < 2 ^ 32 := by
  unfold hton32
  omega

theorem ntoh32_lt (x : Nat) : ntoh32 x < 2 ^ 32 := hton32_lt x

/-- C18 (the code departs from the claim in the flags of one reply): a segment handed to a CB
in state CLOSED. With RST set nothing happens. Otherwise exactly one 20-byte reply goes to
`ip_tx` and the state stays CLOSED: with ACK set the reply has `seq` = the incoming `ack`,
`ack = 0`, flags RST; without ACK it has `seq = 0` and `ack` = incoming `seq` + (1 if SYN) +
`plen` + (1 if FIN) modulo 2^32, but its flags byte is RST (0x04) again, not RST|ACK (0x14). -/
theorem tcp_incoming_event_closed (U : Nat → Nat) (rnd : Nat) (w : World) (cb : Fin 16)
    (hdr : List Nat) (hs : (w.cb_table cb).state = TCP_CB_STATE_CLOSED) :
    (TCP_FLG_ISSET (hdr_flg hdr) TCP_FLG_RST → tcp_incoming_event U rnd w cb hdr = some w) ∧
    (¬ TCP_FLG_ISSET (hdr_flg hdr) TCP_FLG_RST → TCP_FLG_ISSET (hdr_flg hdr) TCP_FLG_ACK →
      ∃ (w' : World) (seg : List Nat),
        tcp_incoming_event U rnd w cb hdr = some w' ∧
        w'.ip_out = w.ip_out ++ [⟨(w.cb_table cb).iface, IP_PROTOCOL_TCP, seg, 20,
          (w.cb_table cb).peer.addr⟩] ∧
        seg.length = 20 ∧
        ntoh32 (hdr_seq seg) = ntoh32 (hdr_ack hdr) ∧
        ntoh32 (hdr_ack seg) = 0 ∧
        hdr_flg seg = TCP_FLG_RST ∧
        (w'.cb_table cb).state = TCP_CB_STATE_CLOSED) ∧
    (¬ TCP_FLG_ISSET (hdr_flg hdr) TCP_FLG_RST → ¬ TCP_FLG_ISSET (hdr_flg hdr) TCP_FLG_ACK →
      ∃ (w' : World) (seg : List Nat),
        tcp_incoming_event U rnd w cb hdr = some w' ∧
        w'.ip_out = w.ip_out ++ [⟨(w.cb_table cb).iface, IP_PROTOCOL_TCP, seg, 20,
          (w.cb_table cb).peer.addr⟩] ∧
        seg.length = 20 ∧
        ntoh32 (hdr_seq seg) = 0 ∧
        ntoh32 (hdr_ack seg) =
          (ntoh32 (hdr_seq hdr) + (if TCP_FLG_ISSET (hdr_flg hdr) TCP_FLG_SYN then 1 else 0) +
            seg_plen hdr + (if TCP_FLG_ISSET (hdr_flg hdr) TCP_FLG_FIN then 1 else 0)) % 2 ^ 32 ∧
        hdr_flg seg = TCP_FLG_RST ∧
        hdr_flg seg ≠ TCP_FLG_RST ||| TCP_FLG_ACK ∧
        (w'.cb_table cb).state = TCP_CB_STATE_CLOSED) := by
  have hev : tcp_incoming_event U rnd w cb hdr = tcp_event_closed U w cb hdr (seg_plen hdr) := by
    rw [tcp_incoming_event_eq, if_pos hs]
  rw [hev]
  unfold tcp_event_closed
  dsimp only
  refine ⟨fun h => by rw [if_pos h], ?_, ?_⟩
  · intro hr ha
    rw [if_neg hr, if_pos ha]
    obtain ⟨T, k, h⟩ := tcp_tx__form U w cb (ntoh32 (hdr_ack hdr)) 0 TCP_FLG_RST [] (by decide)
    refine ⟨_, _, h, rfl, tcp_tx_segment_length _ _ _ _ _ _, ?_, ?_, ?_, ?_⟩
    · rw [tcp_tx_segment_seq]
      exact Nat.mod_eq_of_lt (ntoh32_lt _)
    · rw [tcp_tx_segment_ack]
      rfl
    · rw [tcp_tx_segment_flg]
      rfl
    · simp only [set_cb_same]
      exact hs
  · intro hr ha
    rw [if_neg hr, if_neg ha]
    obtain ⟨T, k, h⟩ := tcp_tx__form U w cb 0
      (if TCP_FLG_ISSET (hdr_flg hdr) TCP_FLG_FIN then
        ((if seg_plen hdr ≠ 0 then
            ((if TCP_FLG_ISSET (hdr_flg hdr) TCP_FLG_SYN then (ntoh32 (hdr_seq hdr) + 1) % 2 ^ 32
              else ntoh32 (hdr_seq hdr)) + seg_plen hdr) % 2 ^ 32
          else (if TCP_FLG_ISSET (hdr_flg hdr) TCP_FLG_SYN then (ntoh32 (hdr_seq hdr) + 1) % 2 ^ 32
            else ntoh32 (hdr_seq hdr))) + 1) % 2 ^ 32
      else
        (if seg_plen hdr ≠ 0 then
            ((if TCP_FLG_ISSET (hdr_flg hdr) TCP_FLG_SYN then (ntoh32 (hdr_seq hdr) + 1) % 2 ^ 32
              else ntoh32 (hdr_seq hdr)) + seg_plen hdr) % 2 ^ 32
          else (if TCP_FLG_ISSET (hdr_flg hdr) TCP_FLG_SYN then (ntoh32 (hdr_seq hdr) + 1) % 2 ^ 32
            else ntoh32 (hdr_seq hdr))))
      TCP_FLG_RST [] (by decide)
    refine ⟨_, _, h, rfl, tcp_tx_segment_length _ _ _ _ _ _, ?_, ?_, ?_, ?_, ?_⟩
    · rw [tcp_tx_segment_seq]
      rfl
    · rw [tcp_tx_segment_ack]
      have hq := ntoh32_lt (hdr_seq hdr)
      generalize ntoh32 (hdr_seq hdr) = q at hq ⊢
      generalize seg_plen hdr = p
      by_cases h3 : p = 0
      · subst h3
        split_ifs <;> omega
      · split_ifs <;> omega
    · rw [tcp_tx_segment_flg]
      rfl
    · rw [tcp_tx_segment_flg]
      decide
    · simp only [set_cb_same]
      exact hs

/-- Witness for C18: the sample SYN (`seq = 0x100`, no ACK, no payload) handed to a freshly
opened socket, still CLOSED: the reply acknowledges 0x101 and carries the flags byte 0x04. -/
theorem tcp_incoming_event_closed_witness :
    (((World_opened 64 1).cb_table 0).used = 1 ∧
      ((World_opened 64 1).cb_table 0).state = TCP_CB_STATE_CLOSED ∧
      hdr_flg segment_sample_syn = TCP_FLG_SYN ∧ ntoh32 (hdr_seq segment_sample_syn) = 0x100) ∧
    ∃ (w' : World) (seg : List Nat),
      tcp_incoming_event U_sample 0 (World_opened 64 1) 0 segment_sample_syn = some w' ∧
      w'.ip_out = [⟨0, IP_PROTOCOL_TCP, seg, 20, 0⟩] ∧
      ntoh32 (hdr_seq seg) = 0 ∧ ntoh32 (hdr_ack seg) = 0x101 ∧ hdr_flg seg = 0x04 ∧
      hdr_flg seg ≠ 0x14 := by
  refine ⟨⟨rfl, rfl, by decide, by decide⟩, ?_⟩
  obtain ⟨w', seg, h1, h2, -, h4, h5, h6, h7, -⟩ :=
    (tcp_incoming_event_closed U_sample 0 (World_opened 64 1) 0 segment_sample_syn rfl).2.2
      (by decide) (by decide)
  refine ⟨w', seg, h1, h2, h4, ?_, h6, h7⟩
  rw [h5]
  decide

/-! ### Passive open -/

/-- The lookup loop of `tcp_rx` over slots none of which is a used CB that matches interface,
port and peer: it does not stop early, `fcb` is the first free slot seen and `lcb` the first
used CB in LISTEN that matches interface and port. -/
theorem tcp_rx_scan_none (t : Fin 16 → tcp_cb) (iface src sport dport : Nat) :
    ∀ (l : List (Fin 16)) (fcb lcb : Option (Fin 16)),
      (∀ i ∈ l, (t i).used ≠ 0 → ((t i).iface = 0 ∨ (t i).iface = iface) ∧ (t i).port = dport →
        ¬ ((t i).peer.addr = src ∧ (t i).peer.port = sport)) →
      tcp_rx_scan t iface src sport dport l fcb lcb =
        (none, fcb.or (l.find? (fun i => (t i).used = 0)),
          lcb.or (l.find? (fun i => (t i).used ≠ 0 ∧
            ((t i).iface = 0 ∨ (t i).iface = iface) ∧ (t i).port = dport ∧
            (t i).state = TCP_CB_STATE_LISTEN))) := by
  intro l
  induction l with
  | nil => intro fcb lcb _; simp [tcp_rx_scan]
  | cons i rest ih =>
    intro fcb lcb h
    have hrest : ∀ j ∈ rest, (t j).used ≠ 0 →
        ((t j).iface = 0 ∨ (t j).iface = iface) ∧ (t j).port = dport →
        ¬ ((t j).peer.addr = src ∧ (t j).peer.port = sport) :=
      fun j hj => h j (List.mem_cons_of_mem _ hj)
    unfold tcp_rx_scan
    dsimp only
    by_cases hu : (t i).used = 0
    · rw [if_pos hu, ih _ _ hrest]
      cases fcb <;> simp [List.find?_cons, hu]
    · rw [if_neg hu]
      by_cases hm : ((t i).iface = 0 ∨ (t i).iface = iface) ∧ (t i).port = dport
      · rw [if_pos hm, if_neg (h i (List.mem_cons_self _ _) hu hm), ih _ _ hrest]
        by_cases hl : (t i).state = TCP_CB_STATE_LISTEN
        · cases lcb <;> simp [List.find?_cons, hu, hm, hl]
        · cases lcb <;> simp [List.find?_cons, hu, hm, hl]
      · rw [if_neg hm, ih _ _ hrest]
        have hm' : ¬ (((t i).iface = 0 ∨ (t i).iface = iface) ∧ (t i).port = dport ∧
            (t i).state = TCP_CB_STATE_LISTEN) := fun hx => hm ⟨hx.1, hx.2.1⟩
        simp [List.find?_cons, hu, hm']

theorem flg_is_syn (flg : Nat) (h : TCP_FLG_IS flg TCP_FLG_SYN) :
    ¬ TCP_FLG_ISSET flg TCP_FLG_RST ∧ ¬ TCP_FLG_ISSET flg TCP_FLG_ACK ∧
      TCP_FLG_ISSET flg TCP_FLG_SYN := by
  have h' : (flg &&& 0x3f) = 2 := h
  refine ⟨?_, ?_, ?_⟩
  · show ¬ ((flg &&& 0x3f) &&& 4) ≠ 0
    rw [h']; decide
  · show ¬ ((flg &&& 0x3f) &&& 16) ≠ 0
    rw [h']; decide
  · show ((flg &&& 0x3f) &&& 2) ≠ 0
    rw [h']; decide

/-- The SYN branch of the LISTEN case, written out. -/
theorem tcp_event_listen_syn (U : Nat → Nat) (rnd : Nat) (w : World) (cb : Fin 16)
    (hdr : List Nat) (hs : (w.cb_table cb).state = TCP_CB_STATE_LISTEN)
    (hflg : TCP_FLG_IS (hdr_flg hdr) TCP_FLG_SYN) :
    ∃ (T : List tcp_txq_entry) (k : Nat),
      tcp_incoming_event U rnd w cb hdr = some
        { cb_table := set_cb w.cb_table cb
            { w.cb_table cb with
              rcv.nxt := (ntoh32 (hdr_seq hdr) + 1) % 2 ^ 32, irs := ntoh32 (hdr_seq hdr),
              iss := rnd % 2 ^ 32, txq := T, snd.nxt := (rnd % 2 ^ 32 + 1) % 2 ^ 32,
              snd.una := rnd % 2 ^ 32, state := TCP_CB_STATE_SYN_RCVD },
          ip_out := w.ip_out ++ [⟨(w.cb_table cb).iface, IP_PROTOCOL_TCP,
            tcp_tx_segment
              { w.cb_table cb with
                rcv.nxt := (ntoh32 (hdr_seq hdr) + 1) % 2 ^ 32, irs := ntoh32 (hdr_seq hdr),
                iss := rnd % 2 ^ 32 }
              (U (w.cb_table cb).iface) (rnd % 2 ^ 32) ((ntoh32 (hdr_seq hdr) + 1) % 2 ^ 32)
              (TCP_FLG_SYN ||| TCP_FLG_ACK) [],
            TCP_HDR_SIZE + 0, (w.cb_table cb).peer.addr⟩],
          wakeups := w.wakeups, kmem := k } := by
  obtain ⟨hr, ha, hsy⟩ := flg_is_syn _ hflg
  obtain ⟨T, k, h⟩ := tcp_tx__form U
    (w.put cb { w.cb_table cb with
      rcv.nxt := (ntoh32 (hdr_seq hdr) + 1) % 2 ^ 32, irs := ntoh32 (hdr_seq hdr),
      iss := rnd % 2 ^ 32 }) cb
    (rnd % 2 ^ 32) ((ntoh32 (hdr_seq hdr) + 1) % 2 ^ 32) (TCP_FLG_SYN ||| TCP_FLG_ACK) []
    (by decide)
  refine ⟨T, k, ?_⟩
  rw [tcp_incoming_event_eq, hs, if_neg (by decide), if_pos rfl]
  unfold tcp_event_listen
  dsimp only
  rw [if_neg hr, if_neg ha, if_pos hsy, h]
  simp only [World.put, set_cb_same, set_cb_set_cb, List.length_nil]

theorem tcp_tx_segment_src (c : tcp_cb) (self seq ack flg : Nat) (buf : List Nat) :
    hdr_src (tcp_tx_segment c self seq ack flg buf) = c.port % 2 ^ 16 := by
  show c.port % 256 + 256 * (c.port / 256 % 256) = c.port % 2 ^ 16
  omega

theorem tcp_tx_segment_dst (c : tcp_cb) (self seq ack flg : Nat) (buf : List Nat) :
    hdr_dst (tcp_tx_segment c self seq ack flg buf) = c.peer.port % 2 ^ 16 := by
  show c.peer.port % 256 + 256 * (c.peer.port / 256 % 256) = c.peer.port % 2 ^ 16
  omega

/-- C19: passive open. The table has a used CB `L` in LISTEN on the segment's destination port
(reachable from the receiving interface, and the first such CB in table order), `F` is the
first free slot, and no used CB on that port has the peer (`src`, source port). The segment
is addressed to the interface, at least 20 bytes long, its checksum verifies and its flags
are exactly SYN. Then `tcp_rx` returns, slot `F` is a used CB with the port of `L`, peer
(`src`, source port), parent `L`, `rcv.wnd = 4096`, `irs` = the segment's sequence number `q`,
`rcv.nxt = (q + 1) mod 2^32`, `snd.una = iss`, `snd.nxt = (iss + 1) mod 2^32` (`iss` the value
of `random()` as a `uint32_t`) and state SYN_RCVD; exactly one segment is handed to `ip_tx`,
20 bytes with `seq = iss`, `ack = (q + 1) mod 2^32`, flags SYN|ACK, from the listening port
to the source port; every slot other than `F` is unchanged, so `L` is, and it is still in
LISTEN. -/
theorem tcp_rx_passive_open (U : Nat → Nat) (rnd : Nat) (w : World) (segment : List Nat)
    (src dst iface : Nat) (L F : Fin 16)
    (hdst : dst = U iface) (hlen : 20 ≤ segment.length)
    (hck : cksum16 segment segment.length (tcp_rx_pseudo src dst segment.length) = 0)
    (hflg : TCP_FLG_IS (hdr_flg segment) TCP_FLG_SYN)
    (hLu : (w.cb_table L).used = 1) (hLs : (w.cb_table L).state = TCP_CB_STATE_LISTEN)
    (hLp : (w.cb_table L).port = hdr_dst segment)
    (hLi : (w.cb_table L).iface = 0 ∨ (w.cb_table L).iface = iface)
    (hL1 : ∀ j, j < L → (w.cb_table j).used ≠ 0 →
      ((w.cb_table j).iface = 0 ∨ (w.cb_table j).iface = iface) →
      (w.cb_table j).port = hdr_dst segment → (w.cb_table j).state ≠ TCP_CB_STATE_LISTEN)
    (hFu : (w.cb_table F).used = 0) (hF1 : ∀ j, j < F → (w.cb_table j).used ≠ 0)
    (hno : ∀ j, (w.cb_table j).used ≠ 0 → (w.cb_table j).port = hdr_dst segment →
      ¬ ((w.cb_table j).peer.addr = src ∧ (w.cb_table j).peer.port = hdr_src segment)) :
    ∃ (w' : World) (seg : List Nat),
      tcp_rx U rnd w segment src dst iface = some w' ∧
      (w'.cb_table F).used = 1 ∧
      (w'.cb_table F).port = hdr_dst segment ∧
      (w'.cb_table F).peer = ⟨src, hdr_src segment⟩ ∧
      (w'.cb_table F).parent = some L ∧
      (w'.cb_table F).rcv.wnd = 4096 ∧
      (w'.cb_table F).irs = ntoh32 (hdr_seq segment) ∧
      (w'.cb_table F).rcv.nxt = (ntoh32 (hdr_seq segment) + 1) % 2 ^ 32 ∧
      (w'.cb_table F).iss = rnd % 2 ^ 32 ∧
      (w'.cb_table F).snd.una = (w'.cb_table F).iss ∧
      (w'.cb_table F).snd.nxt = ((w'.cb_table F).iss + 1) % 2 ^ 32 ∧
      (w'.cb_table F).state = TCP_CB_STATE_SYN_RCVD ∧
      w'.ip_out = w.ip_out ++ [⟨iface, IP_PROTOCOL_TCP, seg, 20, src⟩] ∧
      seg.length = 20 ∧
      hdr_src seg = hdr_dst segment % 2 ^ 16 ∧ hdr_dst seg = hdr_src segment % 2 ^ 16 ∧
      ntoh32 (hdr_seq seg) = (w'.cb_table F).iss ∧
      ntoh32 (hdr_ack seg) = (ntoh32 (hdr_seq segment) + 1) % 2 ^ 32 ∧
      hdr_flg seg = TCP_FLG_SYN ||| TCP_FLG_ACK ∧
      (∀ j, j ≠ F → w'.cb_table j = w.cb_table j) ∧
      w'.cb_table L = w.cb_table L ∧ (w'.cb_table L).state = TCP_CB_STATE_LISTEN := by
  have hLu0 : (w.cb_table L).used ≠ 0 := by rw [hLu]; decide
  have hLF : L ≠ F := fun e => hLu0 (e ▸ hFu)
  have hscan := tcp_rx_scan_none w.cb_table iface src (hdr_src segment) (hdr_dst segment)
    allSlots none none (fun i _ hu hm => hno i hu hm.2)
  have hfree : allSlots.find? (fun i => decide ((w.cb_table i).used = 0)) = some F :=
    find?_lowest _ F (by simpa using hFu) (fun j hj => by simpa using hF1 j hj) allSlots
      allSlots_sorted (mem_allSlots F)
  have hlis : allSlots.find? (fun i => decide ((w.cb_table i).used ≠ 0 ∧
      ((w.cb_table i).iface = 0 ∨ (w.cb_table i).iface = iface) ∧
      (w.cb_table i).port = hdr_dst segment ∧
      (w.cb_table i).state = TCP_CB_STATE_LISTEN)) = some L :=
    find?_lowest _ L (by simpa using ⟨hLu0, hLi, hLp, hLs⟩)
      (fun j hj => by
        have := hL1 j hj
        simp only [decide_eq_false_iff_not]
        tauto) allSlots allSlots_sorted (mem_allSlots L)
  rw [hfree, hlis] at hscan
  obtain ⟨T, k, hev⟩ := tcp_event_listen_syn U rnd
    (w.put F { w.cb_table F with used := 1, state := (w.cb_table L).state, iface := iface,
                                 port := (w.cb_table L).port, peer := ⟨src, hdr_src segment⟩,
                                 rcv.wnd := TCP_WINDOW_SIZE, parent := some L })
    F segment (by simp only [put_cb_table, set_cb_same]; exact hLs) hflg
  have hrx : tcp_rx U rnd w segment src dst iface = tcp_incoming_event U rnd
      (w.put F { w.cb_table F with used := 1, state := (w.cb_table L).state, iface := iface,
                                   port := (w.cb_table L).port, peer := ⟨src, hdr_src segment⟩,
                                   rcv.wnd := TCP_WINDOW_SIZE, parent := some L })
      F segment := by
    unfold tcp_rx
    rw [if_neg (not_not.mpr hdst), if_neg (by show ¬ segment.length < 20; omega),
      if_neg (not_not.mpr hck), hscan]
    simp only [Option.none_or]
    rw [if_pos hflg]
  rw [← hrx] at hev
  generalize hsg : tcp_tx_segment _ _ _ _ _ _ = seg at hev
  refine ⟨_, seg, hev, ?_, ?_, ?_, ?_, ?_, ?_, ?_, ?_, ?_, ?_, ?_, ?_, ?_, ?_, ?_, ?_, ?_, ?_, ?_,
    ?_, ?_⟩
  all_goals subst hsg
  all_goals (try simp only [put_cb_table, put_ip_out, set_cb_same, hLp, List.length_nil])
  all_goals (try rfl)
  · rw [tcp_tx_segment_src]
  · rw [tcp_tx_segment_dst]
  · rw [tcp_tx_segment_seq, Nat.mod_mod]
  · rw [tcp_tx_segment_ack, Nat.mod_mod]
  · intro j hj
    rw [set_cb_other _ _ _ _ hj, set_cb_other _ _ _ _ hj]
  · rw [set_cb_other _ _ _ _ hLF, set_cb_other _ _ _ _ hLF]
  · rw [set_cb_other _ _ _ _ hLF, set_cb_other _ _ _ _ hLF]
    exact hLs

/-- Witness for C19: the sample SYN (source port 0xC000, destination port 0x0050,
`seq = 0x100`) arrives for the sample passive socket: slot 1 becomes the child in SYN_RCVD and
the SYN|ACK acknowledges 0x101. -/
theorem tcp_rx_passive_open_witness :
    (ntoh16 (hdr_src segment_sample_syn) = 0xC000 ∧ ntoh16 (hdr_dst segment_sample_syn) = 0x0050 ∧
      ntoh32 (hdr_seq segment_sample_syn) = 0x100 ∧
      cksum16 segment_sample_syn 20 (tcp_rx_pseudo 0x0100007f 0x0200007f 20) = 0) ∧
    ∃ (w' : World) (seg : List Nat),
      tcp_rx U_sample 1000 World_sample_passive segment_sample_syn 0x0100007f 0x0200007f 1 =
        some w' ∧
      (w'.cb_table 1).state = TCP_CB_STATE_SYN_RCVD ∧ (w'.cb_table 1).parent = some 0 ∧
      (w'.cb_table 1).rcv.nxt = 0x101 ∧ (w'.cb_table 1).snd.nxt = 1001 ∧
      w'.ip_out = [⟨1, IP_PROTOCOL_TCP, seg, 20, 0x0100007f⟩] ∧
      ntoh32 (hdr_seq seg) = 1000 ∧ ntoh32 (hdr_ack seg) = 0x101 ∧
      hdr_flg seg = TCP_FLG_SYN ||| TCP_FLG_ACK ∧
      (w'.cb_table 0).state = TCP_CB_STATE_LISTEN := by
  have hck : cksum16 segment_sample_syn 20 (tcp_rx_pseudo 0x0100007f 0x0200007f 20) = 0 := by
    decide
  refine ⟨⟨by decide, by decide, by decide, hck⟩, ?_⟩
  obtain ⟨w', seg, h1, -, -, -, h5, -, -, h8, h9, -, h11, h12, h13, -, -, -, h17, h18, h19, -, -,
      h22⟩ :=
    tcp_rx_passive_open U_sample 1000 World_sample_passive segment_sample_syn 0x0100007f
      0x0200007f 1 0 1 rfl (by decide) hck (by decide) rfl rfl (by decide) (Or.inl rfl)
      (by decide) rfl (by decide) (by decide)
  refine ⟨w', seg, h1, h12, h5, ?_, ?_, h13, ?_, ?_, h19, h22⟩
  · rw [h8]; decide
  · rw [h11, h9]; decide
  · rw [h17, h9]; decide
  · rw [h18]; decide

/-! ### Frames of the state machine -/

theorem cb_kept_refl (c : tcp_cb) : cb_kept c c :=
  ⟨rfl, rfl, rfl, rfl, rfl, rfl, rfl, rfl⟩

theorem cb_kept_trans {a b c : tcp_cb} (h1 : cb_kept a b) (h2 : cb_kept b c) : cb_kept a c := by
  obtain ⟨a1, a2, a3, a4, a5, a6, a7, a8⟩ := h1
  obtain ⟨b1, b2, b3, b4, b5, b6, b7, b8⟩ := h2
  exact ⟨b1.trans a1, b2.trans a2, b3.trans a3, b4.trans a4, b5.trans a5, b6.trans a6,
    b7.trans a7, b8.trans a8⟩

theorem ev_frame_refl (cb : Fin 16) (w : World) : ev_frame cb w w :=
  ⟨fun _ _ => rfl, ⟨[], (List.append_nil _).symm⟩, cb_kept_refl _⟩

theorem ev_frame_trans {cb : Fin 16} {a b c : World} (h1 : ev_frame cb a b)
    (h2 : ev_frame cb b c) : ev_frame cb a c := by
  obtain ⟨a1, ⟨m1, a2⟩, a3⟩ := h1
  obtain ⟨b1, ⟨m2, b2⟩, b3⟩ := h2
  refine ⟨fun j hj => (b1 j hj).trans (a1 j hj), ⟨m1 ++ m2, ?_⟩, cb_kept_trans a3 b3⟩
  rw [b2, a2, List.append_assoc]

/-- Replacing the CB by a record that keeps the fields of `cb_kept` is within the frame. -/
theorem ev_frame_put (cb : Fin 16) (w : World) (c : tcp_cb) (h : cb_kept (w.cb_table cb) c) :
    ev_frame cb w (w.put cb c) := by
  refine ⟨fun j hj => ?_, ⟨[], (List.append_nil _).symm⟩, ?_⟩
  · rw [put_cb_table, set_cb_other _ _ _ _ hj]
  · rw [put_cb_table, set_cb_same]
    exact h

/-- Noting a `wakeup` is within the frame. -/
theorem ev_frame_wakeups (cb : Fin 16) (w : World) (l : List (Fin 16)) :
    ev_frame cb w { w with wakeups := l } :=
  ⟨fun _ _ => rfl, ⟨[], (List.append_nil _).symm⟩, cb_kept_refl _⟩

/-- A call of `tcp_tx` that returns has handed one segment to `ip_tx` and changed nothing in
the table but `txq` of the CB. -/
theorem tcp_tx__some (U : Nat → Nat) (w w1 : World) (cb : Fin 16) (seq ack flg : Nat)
    (buf : List Nat) (h : tcp_tx_ U w cb seq ack flg buf = some w1) :
    w1.ip_out = w.ip_out ++ [⟨(w.cb_table cb).iface, IP_PROTOCOL_TCP,
        tcp_tx_segment (w.cb_table cb) (U (w.cb_table cb).iface) seq ack flg buf,
        TCP_HDR_SIZE + buf.length, (w.cb_table cb).peer.addr⟩] ∧
      w1.wakeups = w.wakeups ∧
      w1.cb_table = set_cb w.cb_table cb { w.cb_table cb with txq := (w1.cb_table cb).txq } := by
  have hb : TCP_HDR_SIZE + buf.length ≤ TCP_SEGMENT_SIZE := by
    by_contra hc
    have hlt : TCP_SEGMENT_SIZE < TCP_HDR_SIZE + buf.length := Nat.lt_of_not_le hc
    unfold tcp_tx_ tcp_tx at h
    rw [if_pos hlt] at h
    exact Option.noConfusion h
  obtain ⟨w2, h2, r⟩ := tcp_tx__spec U w cb seq ack flg buf hb
  rw [h] at h2
  injection h2 with h2
  subst h2
  exact r

/-- A call of `tcp_tx` with an empty payload returns. -/
theorem tcp_tx__nil (U : Nat → Nat) (w : World) (cb : Fin 16) (seq ack flg : Nat) :
    ∃ w1, tcp_tx_ U w cb seq ack flg [] = some w1 := by
  obtain ⟨w1, h, -⟩ := tcp_tx__spec U w cb seq ack flg [] (by decide)
  exact ⟨w1, h⟩

/-- A call of `tcp_tx` is within the frame, and leaves `state` and `snd.una`. -/
theorem tcp_tx__frame (U : Nat → Nat) (w w1 : World) (cb : Fin 16) (seq ack flg : Nat)
    (buf : List Nat) (h : tcp_tx_ U w cb seq ack flg buf = some w1) :
    ev_frame cb w w1 ∧ (w1.cb_table cb).state = (w.cb_table cb).state ∧
      (w1.cb_table cb).snd.una = (w.cb_table cb).snd.una ∧
      (w1.cb_table cb).rcv = (w.cb_table cb).rcv := by
  obtain ⟨h1, -, h3⟩ := tcp_tx__some U w w1 cb seq ack flg buf h
  have hcb : w1.cb_table cb = { w.cb_table cb with txq := (w1.cb_table cb).txq } := by
    conv_lhs => rw [h3]
    rw [set_cb_same]
  refine ⟨⟨fun j hj => ?_, ⟨_, h1⟩, ?_⟩, ?_, ?_, ?_⟩
  · rw [h3, set_cb_other _ _ _ _ hj]
  · rw [hcb]; exact ⟨rfl, rfl, rfl, rfl, rfl, rfl, rfl, rfl⟩
  · rw [hcb]
  · rw [hcb]
  · rw [hcb]

/-- The FIN part of `tcp_incoming_event` returns, stays within the frame, leaves `snd.una`,
and moves the state as `fin_next` says when FIN is set. -/
theorem tcp_event_fin_frame (U : Nat → Nat) (w : World) (cb : Fin 16) (hdr : List Nat) :
    ∃ w', tcp_event_fin U w cb hdr = some w' ∧ ev_frame cb w w' ∧
      (w'.cb_table cb).snd.una = (w.cb_table cb).snd.una ∧
      (w'.cb_table cb).state =
        (if TCP_FLG_ISSET (hdr_flg hdr) TCP_FLG_FIN then fin_next (w.cb_table cb).state
         else (w.cb_table cb).state) ∧
      (¬ TCP_FLG_ISSET (hdr_flg hdr) TCP_FLG_FIN → w' = w) := by
  unfold tcp_event_fin
  by_cases hf : TCP_FLG_ISSET (hdr_flg hdr) TCP_FLG_FIN
  · rw [if_pos hf, if_pos hf]
    dsimp only
    obtain ⟨w1, h1⟩ := tcp_tx__nil U
      (w.put cb { w.cb_table cb with rcv.nxt := ((w.cb_table cb).rcv.nxt + 1) % 2 ^ 32 }) cb
      (w.cb_table cb).snd.nxt (((w.cb_table cb).rcv.nxt + 1) % 2 ^ 32) TCP_FLG_ACK
    have e1 : (w.put cb { w.cb_table cb with
        rcv.nxt := ((w.cb_table cb).rcv.nxt + 1) % 2 ^ 32 }).cb_table cb =
        { w.cb_table cb with rcv.nxt := ((w.cb_table cb).rcv.nxt + 1) % 2 ^ 32 } := by
      rw [put_cb_table, set_cb_same]
    simp only [e1] at h1 ⊢
    rw [h1]
    dsimp only
    obtain ⟨f1, s1, u1, -⟩ := tcp_tx__frame U _ w1 cb _ _ _ _ h1
    have f0 := ev_frame_put cb w
      { w.cb_table cb with rcv.nxt := ((w.cb_table cb).rcv.nxt + 1) % 2 ^ 32 }
      ⟨rfl, rfl, rfl, rfl, rfl, rfl, rfl, rfl⟩
    have f01 := ev_frame_trans f0 f1
    rw [e1] at s1 u1
    have s1' : (w1.cb_table cb).state = (w.cb_table cb).state := s1
    have u1' : (w1.cb_table cb).snd.una = (w.cb_table cb).snd.una := u1
    have k1 : ∀ s : Nat, cb_kept (w1.cb_table cb) { w1.cb_table cb with state := s } :=
      fun s => ⟨rfl, rfl, rfl, rfl, rfl, rfl, rfl, rfl⟩
    unfold fin_next
    rw [s1']
    by_cases c1 : (w.cb_table cb).state = TCP_CB_STATE_SYN_RCVD ∨
        (w.cb_table cb).state = TCP_CB_STATE_ESTABLISHED
    · rw [if_pos c1, if_pos c1]
      refine ⟨_, rfl, ev_frame_trans f01 (ev_frame_trans (ev_frame_put cb w1 _ (k1 _))
        (ev_frame_wakeups cb _ _)), ?_, ?_, fun h => absurd hf h⟩
      · simp only [put_cb_table, set_cb_same]; exact u1'
      · simp only [put_cb_table, set_cb_same]
    · rw [if_neg c1, if_neg c1]
      by_cases c2 : (w.cb_table cb).state = TCP_CB_STATE_FIN_WAIT1
      · rw [if_pos c2, if_pos c2]
        refine ⟨_, rfl, ev_frame_trans f01 (ev_frame_put cb w1 _ (k1 _)), ?_, ?_,
          fun h => absurd hf h⟩
        · simp only [put_cb_table, set_cb_same]; exact u1'
        · simp only [put_cb_table, set_cb_same]
      · rw [if_neg c2, if_neg c2]
        by_cases c3 : (w.cb_table cb).state = TCP_CB_STATE_FIN_WAIT2
        · rw [if_pos c3, if_pos c3]
          refine ⟨_, rfl, ev_frame_trans f01 (ev_frame_trans (ev_frame_put cb w1 _ (k1 _))
            (ev_frame_wakeups cb _ _)), ?_, ?_, fun h => absurd hf h⟩
          · simp only [put_cb_table, set_cb_same]; exact u1'
          · simp only [put_cb_table, set_cb_same]
        · rw [if_neg c3, if_neg c3]
          exact ⟨_, rfl, f01, u1', s1', fun h => absurd hf h⟩
  · rw [if_neg hf, if_neg hf]
    exact ⟨w, rfl, ev_frame_refl cb w, rfl, rfl, fun _ => rfl⟩
/-- The payload part of `tcp_incoming_event`, when it returns, stays within the frame, leaves
`snd.una`, and moves the state only as a FIN does. -/
theorem tcp_event_payload_frame (U : Nat → Nat) (w w' : World) (cb : Fin 16) (hdr : List Nat)
    (hlen plen : Nat) (h : tcp_event_payload U w cb hdr hlen plen = some w') :
    ev_frame cb w w' ∧ (w'.cb_table cb).snd.una = (w.cb_table cb).snd.una ∧
      (w'.cb_table cb).state =
        (if TCP_FLG_ISSET (hdr_flg hdr) TCP_FLG_FIN then fin_next (w.cb_table cb).state
         else (w.cb_table cb).state) := by
  unfold tcp_event_payload at h
  dsimp only at h
  split at h
  · split at h
    · split at h
      · exact Option.noConfusion h
      · rename_i w1 h1
        obtain ⟨f1, s1, u1, -⟩ := tcp_tx__frame U _ w1 cb _ _ _ _ h1
        rw [put_cb_table, set_cb_same] at s1 u1
        obtain ⟨w2, h2, f2, u2, s2, -⟩ := tcp_event_fin_frame U
          { w1 with wakeups := w1.wakeups ++ [cb] } cb hdr
        rw [h2] at h
        injection h with h
        subst h
        refine ⟨ev_frame_trans
          (ev_frame_put cb w _ (by exact ⟨rfl, rfl, rfl, rfl, rfl, rfl, rfl, rfl⟩))
          (ev_frame_trans f1 (ev_frame_trans (ev_frame_wakeups cb w1 _) f2)), ?_, ?_⟩
        · rw [u2]; exact u1
        · rw [s2]
          show (if _ then fin_next (w1.cb_table cb).state else (w1.cb_table cb).state) = _
          rw [s1]
    · exact Option.noConfusion h
  · obtain ⟨w2, h2, f2, u2, s2, -⟩ := tcp_event_fin_frame U w cb hdr
    rw [h2] at h
    injection h with h
    subst h
    exact ⟨f2, u2, s2⟩

/-- The payload part of `tcp_incoming_event` returns when there is no payload, when the state
takes none, or when the copy stays inside `window` and inside the segment. -/
theorem tcp_event_payload_total (U : Nat → Nat) (w : World) (cb : Fin 16) (hdr : List Nat)
    (hlen plen : Nat)
    (hfit : plen = 0 ∨
      ¬ ((w.cb_table cb).state = TCP_CB_STATE_ESTABLISHED ∨
        (w.cb_table cb).state = TCP_CB_STATE_FIN_WAIT1 ∨
        (w.cb_table cb).state = TCP_CB_STATE_FIN_WAIT2) ∨
      ((TCP_WINDOW_SIZE + 2 ^ 32 - (w.cb_table cb).rcv.wnd) % 2 ^ 32 + plen ≤ TCP_WINDOW_SIZE ∧
        hlen + plen ≤ hdr.length)) :
    ∃ w', tcp_event_payload U w cb hdr hlen plen = some w' := by
  unfold tcp_event_payload
  dsimp only
  by_cases hc : plen ≠ 0 ∧ ((w.cb_table cb).state = TCP_CB_STATE_ESTABLISHED ∨
      (w.cb_table cb).state = TCP_CB_STATE_FIN_WAIT1 ∨
      (w.cb_table cb).state = TCP_CB_STATE_FIN_WAIT2)
  · rw [if_pos hc]
    have hin : (TCP_WINDOW_SIZE + 2 ^ 32 - (w.cb_table cb).rcv.wnd) % 2 ^ 32 + plen ≤
        TCP_WINDOW_SIZE ∧ hlen + plen ≤ hdr.length := by
      rcases hfit with h | h | h
      · exact absurd h hc.1
      · exact absurd hc.2 h
      · exact h
    rw [if_pos hin]
    obtain ⟨w1, h1⟩ := tcp_tx__nil U
      (w.put cb { w.cb_table cb with
        window := (w.cb_table cb).window.take
            ((TCP_WINDOW_SIZE + 2 ^ 32 - (w.cb_table cb).rcv.wnd) % 2 ^ 32) ++
          (hdr.drop hlen).take plen ++ (w.cb_table cb).window.drop
            ((TCP_WINDOW_SIZE + 2 ^ 32 - (w.cb_table cb).rcv.wnd) % 2 ^ 32 + plen),
        rcv.nxt := (ntoh32 (hdr_seq hdr) + plen) % 2 ^ 32,
        rcv.wnd := ((w.cb_table cb).rcv.wnd + 2 ^ 16 - plen % 2 ^ 16) % 2 ^ 16 }) cb
      (w.cb_table cb).snd.nxt ((ntoh32 (hdr_seq hdr) + plen) % 2 ^ 32) TCP_FLG_ACK
    rw [h1]
    obtain ⟨w2, h2, -⟩ := tcp_event_fin_frame U { w1 with wakeups := w1.wakeups ++ [cb] } cb hdr
    exact ⟨w2, h2⟩
  · rw [if_neg hc]
    obtain ⟨w2, h2, -⟩ := tcp_event_fin_frame U w cb hdr
    exact ⟨w2, h2⟩

/-- The acknowledgement part of `tcp_incoming_event`, when it returns, stays within the
frame; `snd.una` stays or moves up to the acknowledged number, which lies above it and not
above `snd.nxt`; the state stays, or moves as a FIN says, or from FIN_WAIT_1 to FIN_WAIT_2
(and on to TIME_WAIT with a FIN), or from CLOSING to TIME_WAIT. -/
theorem tcp_event_ack_frame (U : Nat → Nat) (w w' : World) (cb : Fin 16) (hdr : List Nat)
    (hlen plen : Nat) (h : tcp_event_ack U w cb hdr hlen plen = some w') :
    ev_frame cb w w' ∧
      (w'.cb_table cb).snd.una =
        (if (w.cb_table cb).snd.una < ntoh32 (hdr_ack hdr) ∧
            ntoh32 (hdr_ack hdr) ≤ (w.cb_table cb).snd.nxt then ntoh32 (hdr_ack hdr)
         else (w.cb_table cb).snd.una) ∧
      ((w'.cb_table cb).state = (w.cb_table cb).state ∨
        (w'.cb_table cb).state = fin_next (w.cb_table cb).state ∨
        ((w.cb_table cb).state = TCP_CB_STATE_FIN_WAIT1 ∧
          ((w'.cb_table cb).state = TCP_CB_STATE_FIN_WAIT2 ∨
            (w'.cb_table cb).state = TCP_CB_STATE_TIME_WAIT)) ∨
        ((w.cb_table cb).state = TCP_CB_STATE_CLOSING ∧
          (w'.cb_table cb).state = TCP_CB_STATE_TIME_WAIT)) := by
  unfold tcp_event_ack at h
  dsimp only at h
  split at h
  · rename_i hgt
    obtain ⟨f1, s1, u1, -⟩ := tcp_tx__frame U _ w' cb _ _ _ _ h
    exact ⟨f1, u1.trans (if_neg hgt.1).symm, Or.inl s1⟩
  · -- the acknowledged record
    have key : ∀ c1 : tcp_cb, cb_kept (w.cb_table cb) c1 →
        c1.state = (w.cb_table cb).state →
        c1.snd.una =
          (if (w.cb_table cb).snd.una < ntoh32 (hdr_ack hdr) ∧
              ntoh32 (hdr_ack hdr) ≤ (w.cb_table cb).snd.nxt then ntoh32 (hdr_ack hdr)
           else (w.cb_table cb).snd.una) →
        ((if c1.state = TCP_CB_STATE_FIN_WAIT1 then
            tcp_event_payload U
              (w.put cb (if ntoh32 (hdr_ack hdr) = c1.snd.nxt then
                { c1 with state := TCP_CB_STATE_FIN_WAIT2 } else c1)) cb hdr hlen plen
          else if c1.state = TCP_CB_STATE_CLOSING then
            if ntoh32 (hdr_ack hdr) = c1.snd.nxt then
              some { (w.put cb { c1 with state := TCP_CB_STATE_TIME_WAIT }) with
                       wakeups := w.wakeups ++ [cb] }
            else some (w.put cb c1)
          else tcp_event_payload U (w.put cb c1) cb hdr hlen plen) = some w') →
        ev_frame cb w w' ∧
          (w'.cb_table cb).snd.una =
            (if (w.cb_table cb).snd.una < ntoh32 (hdr_ack hdr) ∧
                ntoh32 (hdr_ack hdr) ≤ (w.cb_table cb).snd.nxt then ntoh32 (hdr_ack hdr)
             else (w.cb_table cb).snd.una) ∧
          ((w'.cb_table cb).state = (w.cb_table cb).state ∨
            (w'.cb_table cb).state = fin_next (w.cb_table cb).state ∨
            ((w.cb_table cb).state = TCP_CB_STATE_FIN_WAIT1 ∧
              ((w'.cb_table cb).state = TCP_CB_STATE_FIN_WAIT2 ∨
                (w'.cb_table cb).state = TCP_CB_STATE_TIME_WAIT)) ∨
            ((w.cb_table cb).state = TCP_CB_STATE_CLOSING ∧
              (w'.cb_table cb).state = TCP_CB_STATE_TIME_WAIT)) := by
      intro c1 k1 st1 un1 hh
      by_cases a1 : c1.state = TCP_CB_STATE_FIN_WAIT1
      · rw [if_pos a1] at hh
        by_cases a2 : ntoh32 (hdr_ack hdr) = c1.snd.nxt
        · rw [if_pos a2] at hh
          obtain ⟨f, u, s⟩ := tcp_event_payload_frame U _ w' cb hdr hlen plen hh
          rw [put_cb_table, set_cb_same] at u s
          refine ⟨ev_frame_trans (ev_frame_put cb w _ ?_) f, ?_, ?_⟩
          · obtain ⟨k1, k2, k3, k4, k5, k6, k7, k8⟩ := k1
            exact ⟨k1, k2, k3, k4, k5, k6, k7, k8⟩
          · rw [u]; exact un1
          · refine Or.inr (Or.inr (Or.inl ⟨st1 ▸ a1, ?_⟩))
            rw [s]
            by_cases hf : TCP_FLG_ISSET (hdr_flg hdr) TCP_FLG_FIN
            · rw [if_pos hf]; exact Or.inr rfl
            · rw [if_neg hf]; exact Or.inl rfl
        · rw [if_neg a2] at hh
          obtain ⟨f, u, s⟩ := tcp_event_payload_frame U _ w' cb hdr hlen plen hh
          rw [put_cb_table, set_cb_same] at u s
          refine ⟨ev_frame_trans (ev_frame_put cb w _ k1) f, ?_, ?_⟩
          · rw [u]; exact un1
          · rw [s, st1]
            by_cases hf : TCP_FLG_ISSET (hdr_flg hdr) TCP_FLG_FIN
            · rw [if_pos hf]; exact Or.inr (Or.inl rfl)
            · rw [if_neg hf]; exact Or.inl rfl
      · rw [if_neg a1] at hh
        by_cases a3 : c1.state = TCP_CB_STATE_CLOSING
        · rw [if_pos a3] at hh
          by_cases a2 : ntoh32 (hdr_ack hdr) = c1.snd.nxt
          · rw [if_pos a2] at hh
            injection hh with hh
            subst hh
            refine ⟨ev_frame_trans (ev_frame_put cb w _ ?_) (ev_frame_wakeups cb _ _), ?_, ?_⟩
            · obtain ⟨k1, k2, k3, k4, k5, k6, k7, k8⟩ := k1
              exact ⟨k1, k2, k3, k4, k5, k6, k7, k8⟩
            · simp only [put_cb_table, set_cb_same]; exact un1
            · simp only [put_cb_table, set_cb_same]
              exact Or.inr (Or.inr (Or.inr ⟨st1 ▸ a3, trivial⟩))
          · rw [if_neg a2] at hh
            injection hh with hh
            subst hh
            refine ⟨ev_frame_put cb w _ k1, ?_, ?_⟩
            · simp only [put_cb_table, set_cb_same]; exact un1
            · simp only [put_cb_table, set_cb_same]; exact Or.inl st1
        · rw [if_neg a3] at hh
          obtain ⟨f, u, s⟩ := tcp_event_payload_frame U _ w' cb hdr hlen plen hh
          rw [put_cb_table, set_cb_same] at u s
          refine ⟨ev_frame_trans (ev_frame_put cb w _ k1) f, ?_, ?_⟩
          · rw [u]; exact un1
          · rw [s, st1]
            by_cases hf : TCP_FLG_ISSET (hdr_flg hdr) TCP_FLG_FIN
            · rw [if_pos hf]; exact Or.inr (Or.inl rfl)
            · rw [if_neg hf]; exact Or.inl rfl
    by_cases hin : (w.cb_table cb).snd.una < ntoh32 (hdr_ack hdr) ∧
        ntoh32 (hdr_ack hdr) ≤ (w.cb_table cb).snd.nxt
    · simp only [if_pos hin] at h
      exact key { w.cb_table cb with snd.una := ntoh32 (hdr_ack hdr) }
        ⟨rfl, rfl, rfl, rfl, rfl, rfl, rfl, rfl⟩ rfl (if_pos hin).symm h
    · simp only [if_neg hin] at h
      exact key (w.cb_table cb) (cb_kept_refl _) rfl (if_neg hin).symm h

/-! ### Handshake completion on the passive side -/

/-- In ESTABLISHED an acknowledgement not above `snd.nxt` leads on to the payload part, with
`snd.una` as it was or moved up to the acknowledged number. -/
theorem tcp_event_ack_established (U : Nat → Nat) (w : World) (cb : Fin 16) (hdr : List Nat)
    (hlen plen : Nat) (hs : (w.cb_table cb).state = TCP_CB_STATE_ESTABLISHED)
    (hle : ntoh32 (hdr_ack hdr) ≤ (w.cb_table cb).snd.nxt) :
    ∃ u : Nat, tcp_event_ack U w cb hdr hlen plen =
      tcp_event_payload U (w.put cb { w.cb_table cb with snd.una := u }) cb hdr hlen plen := by
  have hgt : ¬ (¬ ((w.cb_table cb).snd.una < ntoh32 (hdr_ack hdr) ∧
      ntoh32 (hdr_ack hdr) ≤ (w.cb_table cb).snd.nxt) ∧
      ntoh32 (hdr_ack hdr) > (w.cb_table cb).snd.nxt) := by
    intro h; omega
  have h1 : ¬ (w.cb_table cb).state = TCP_CB_STATE_FIN_WAIT1 := by rw [hs]; decide
  have h2 : ¬ (w.cb_table cb).state = TCP_CB_STATE_CLOSING := by rw [hs]; decide
  unfold tcp_event_ack
  simp only [if_neg hgt]
  by_cases hu : (w.cb_table cb).snd.una < ntoh32 (hdr_ack hdr) ∧
      ntoh32 (hdr_ack hdr) ≤ (w.cb_table cb).snd.nxt
  · simp only [if_pos hu]
    exact ⟨ntoh32 (hdr_ack hdr), by simp only [if_neg h1, if_neg h2]⟩
  · simp only [if_neg hu]
    exact ⟨(w.cb_table cb).snd.una, by simp only [if_neg h1, if_neg h2]⟩

/-- The SYN_RCVD case with an acknowledgement inside `[snd.una, snd.nxt]` (compared as plain
unsigned numbers): the child is pushed behind the entries of its parent's backlog, the parent
is otherwise untouched, and the child ends in ESTABLISHED, or in CLOSE_WAIT if the segment
also carries FIN. -/
theorem tcp_event_syn_rcvd_accept (U : Nat → Nat) (rnd : Nat) (w : World) (cb p : Fin 16)
    (hdr : List Nat)
    (hs : (w.cb_table cb).state = TCP_CB_STATE_SYN_RCVD)
    (hpar : (w.cb_table cb).parent = some p) (hpc : p ≠ cb)
    (hseq : ntoh32 (hdr_seq hdr) = (w.cb_table cb).rcv.nxt)
    (hack : TCP_FLG_ISSET (hdr_flg hdr) TCP_FLG_ACK)
    (hrst : ¬ TCP_FLG_ISSET (hdr_flg hdr) TCP_FLG_RST)
    (hsyn : ¬ TCP_FLG_ISSET (hdr_flg hdr) TCP_FLG_SYN)
    (hin : (w.cb_table cb).snd.una ≤ ntoh32 (hdr_ack hdr) ∧
      ntoh32 (hdr_ack hdr) ≤ (w.cb_table cb).snd.nxt)
    (hfit : seg_plen hdr = 0 ∨ (seg_plen hdr ≤ (w.cb_table cb).rcv.wnd ∧
      (w.cb_table cb).rcv.wnd ≤ 4096 ∧ hdr_off hdr < 256 ∧ hdr.length < 2 ^ 32)) :
    ∃ w' : World, tcp_incoming_event U rnd w cb hdr = some w' ∧
      w'.cb_table p = { w.cb_table p with backlog := (w.cb_table p).backlog ++ [cb] } ∧
      (w'.cb_table cb).state =
        (if TCP_FLG_ISSET (hdr_flg hdr) TCP_FLG_FIN then TCP_CB_STATE_CLOSE_WAIT
         else TCP_CB_STATE_ESTABLISHED) ∧
      (∀ j, j ≠ cb → j ≠ p → w'.cb_table j = w.cb_table j) := by
  have hrs : ¬ TCP_FLG_ISSET (hdr_flg hdr) (TCP_FLG_RST ||| TCP_FLG_SYN) := fun h =>
    (flg_isset_rst_syn_split _ h).elim hrst hsyn
  have hcp : cb ≠ p := fun e => hpc e.symm
  -- the table after the push
  have hinc : ∃ w2 : World,
      (∀ j, w2.cb_table j =
        if j = p then { w.cb_table p with backlog := (w.cb_table p).backlog ++ [cb] }
        else if j = cb then { w.cb_table cb with state := TCP_CB_STATE_ESTABLISHED }
        else w.cb_table j) ∧
      tcp_incoming_event U rnd w cb hdr =
        tcp_event_ack U w2 cb hdr (seg_hlen hdr) (seg_plen hdr) := by
    rw [tcp_incoming_event_eq, hs, if_neg (by decide), if_neg (by decide), if_neg (by decide)]
    unfold tcp_event_synchronized
    simp only [hseq, ne_eq, not_true_eq_false, if_false, if_neg hrs, not_not.mpr hack, hs,
      if_true, if_pos hin, hpar]
    refine ⟨_, ?_, rfl⟩
    intro j
    by_cases hjp : j = p
    · subst hjp
      simp only [put_cb_table, set_cb_same, set_cb_other _ _ _ _ hpc, queue_push, if_true]
    · by_cases hjc : j = cb
      · subst hjc
        simp only [put_cb_table, set_cb_same, set_cb_other _ _ _ _ hjp, if_neg hjp, if_true,
          hpar]
      · simp only [put_cb_table, set_cb_other _ _ _ _ hjp, set_cb_other _ _ _ _ hjc, if_neg hjp,
          if_neg hjc]
  obtain ⟨w2, e2, hinc⟩ := hinc
  have ec : w2.cb_table cb = { w.cb_table cb with state := TCP_CB_STATE_ESTABLISHED } := by
    rw [e2, if_neg hcp, if_pos rfl]
  have ep : w2.cb_table p = { w.cb_table p with backlog := (w.cb_table p).backlog ++ [cb] } := by
    rw [e2, if_pos rfl]
  obtain ⟨u, hev⟩ := tcp_event_ack_established U w2 cb hdr (seg_hlen hdr) (seg_plen hdr)
    (by rw [ec]) (by rw [ec]; exact hin.2)
  have hst : (w2.put cb { w2.cb_table cb with snd.una := u }).cb_table cb =
      { w2.cb_table cb with snd.una := u } := by
    rw [put_cb_table, set_cb_same]
  obtain ⟨w', hw'⟩ := tcp_event_payload_total U
    (w2.put cb { w2.cb_table cb with snd.una := u }) cb hdr (seg_hlen hdr) (seg_plen hdr)
    (by
      rcases hfit with h | ⟨h1, h2, h3, h4⟩
      · exact Or.inl h
      · refine Or.inr (Or.inr ?_)
        rw [hst, ec]
        have := (seg_plen_fits hdr _ h3 h4 h2 h1).1
        refine ⟨?_, this⟩
        show (4096 + 2 ^ 32 - (w.cb_table cb).rcv.wnd) % 2 ^ 32 + seg_plen hdr ≤ 4096
        omega)
  obtain ⟨⟨fo, -, -⟩, -, fs⟩ := tcp_event_payload_frame U _ w' cb hdr _ _ hw'
  refine ⟨w', by rw [hinc, hev, hw'], ?_, ?_, ?_⟩
  · rw [fo p hpc, put_cb_table, set_cb_other _ _ _ _ hpc, ep]
  · rw [fs, hst, ec]
    by_cases hf : TCP_FLG_ISSET (hdr_flg hdr) TCP_FLG_FIN
    · rw [if_pos hf, if_pos hf]; rfl
    · rw [if_neg hf, if_neg hf]
  · intro j hjc hjp
    rw [fo j hjc, put_cb_table, set_cb_other _ _ _ _ hjc, e2, if_neg hjp, if_neg hjc]

/-- The SYN_RCVD case with an acknowledgement outside `[snd.una, snd.nxt]` (compared as plain
unsigned numbers): a 20-byte RST with `seq` = the acknowledged number goes to `ip_tx` (behind
it the acknowledgement of a FIN, if the segment carries one), no other slot is touched and
the child's backlog stays, so nothing is enqueued, and the child stays in SYN_RCVD (CLOSE_WAIT
after a FIN). -/
theorem tcp_event_syn_rcvd_reject (U : Nat → Nat) (rnd : Nat) (w : World) (cb : Fin 16)
    (hdr : List Nat)
    (hs : (w.cb_table cb).state = TCP_CB_STATE_SYN_RCVD)
    (hseq : ntoh32 (hdr_seq hdr) = (w.cb_table cb).rcv.nxt)
    (hack : TCP_FLG_ISSET (hdr_flg hdr) TCP_FLG_ACK)
    (hrst : ¬ TCP_FLG_ISSET (hdr_flg hdr) TCP_FLG_RST)
    (hsyn : ¬ TCP_FLG_ISSET (hdr_flg hdr) TCP_FLG_SYN)
    (hout : ¬ ((w.cb_table cb).snd.una ≤ ntoh32 (hdr_ack hdr) ∧
      ntoh32 (hdr_ack hdr) ≤ (w.cb_table cb).snd.nxt)) :
    ∃ (w' : World) (seg : List Nat) (more : List ip_tx_call),
      tcp_incoming_event U rnd w cb hdr = some w' ∧
      w'.ip_out = w.ip_out ++ [⟨(w.cb_table cb).iface, IP_PROTOCOL_TCP, seg, 20,
        (w.cb_table cb).peer.addr⟩] ++ more ∧
      (¬ TCP_FLG_ISSET (hdr_flg hdr) TCP_FLG_FIN → more = []) ∧
      seg.length = 20 ∧
      ntoh32 (hdr_seq seg) = ntoh32 (hdr_ack hdr) ∧
      hdr_flg seg = TCP_FLG_RST ∧
      (∀ j, j ≠ cb → w'.cb_table j = w.cb_table j) ∧
      (w'.cb_table cb).backlog = (w.cb_table cb).backlog ∧
      (w'.cb_table cb).state =
        (if TCP_FLG_ISSET (hdr_flg hdr) TCP_FLG_FIN then TCP_CB_STATE_CLOSE_WAIT
         else TCP_CB_STATE_SYN_RCVD) := by
  have hrs : ¬ TCP_FLG_ISSET (hdr_flg hdr) (TCP_FLG_RST ||| TCP_FLG_SYN) := fun h =>
    (flg_isset_rst_syn_split _ h).elim hrst hsyn
  obtain ⟨w1, h1⟩ := tcp_tx__nil U w cb (ntoh32 (hdr_ack hdr)) 0 TCP_FLG_RST
  obtain ⟨i1, -, -⟩ := tcp_tx__some U w w1 cb _ _ _ _ h1
  obtain ⟨⟨o1, -, k1⟩, s1, -, -⟩ := tcp_tx__frame U w w1 cb _ _ _ _ h1
  have s1' : (w1.cb_table cb).state = TCP_CB_STATE_SYN_RCVD := s1.trans hs
  obtain ⟨w', h2, ⟨o2, ⟨more, i2⟩, k2⟩, -, s2, n2⟩ := tcp_event_fin_frame U w1 cb hdr
  have hnp : ¬ (seg_plen hdr ≠ 0 ∧ ((w1.cb_table cb).state = TCP_CB_STATE_ESTABLISHED ∨
      (w1.cb_table cb).state = TCP_CB_STATE_FIN_WAIT1 ∨
      (w1.cb_table cb).state = TCP_CB_STATE_FIN_WAIT2)) := by
    rw [s1']
    intro h
    rcases h.2 with h | h | h <;> exact absurd h (by decide)
  have hinc : tcp_incoming_event U rnd w cb hdr = some w' := by
    rw [tcp_incoming_event_eq, hs, if_neg (by decide), if_neg (by decide), if_neg (by decide)]
    unfold tcp_event_synchronized
    simp only [hseq, ne_eq, not_true_eq_false, if_false, if_neg hrs, not_not.mpr hack, hs,
      if_true, if_neg hout, h1]
    unfold tcp_event_payload
    dsimp only
    rw [if_neg hnp]
    exact h2
  refine ⟨w', tcp_tx_segment (w.cb_table cb) (U (w.cb_table cb).iface) (ntoh32 (hdr_ack hdr)) 0
    TCP_FLG_RST [], more, hinc, ?_, ?_, ?_, ?_, ?_, ?_, ?_, ?_⟩
  · rw [i2, i1]
    rfl
  · intro hf
    have := n2 hf
    rw [this] at i2
    have hl := congrArg List.length i2
    rw [List.length_append] at hl
    exact List.eq_nil_of_length_eq_zero (by omega)
  · rw [tcp_tx_segment_length]
    rfl
  · rw [tcp_tx_segment_seq]
    exact Nat.mod_eq_of_lt (ntoh32_lt _)
  · rw [tcp_tx_segment_flg]
    rfl
  · intro j hj
    rw [o2 j hj, o1 j hj]
  · rw [k2.2.2.2.2.2.2.2, k1.2.2.2.2.2.2.2]
  · rw [s2, s1']
    by_cases hf : TCP_FLG_ISSET (hdr_flg hdr) TCP_FLG_FIN
    · rw [if_pos hf, if_pos hf]; rfl
    · rw [if_neg hf, if_neg hf]
/-- C20, as stated, fails on the code: the child in slot 1 is in SYN_RCVD with
`iss = snd.una = 0xFFFFFFFF` and `snd.nxt = iss + 1 mod 2^32 = 0`, its parent in slot 0 is in
LISTEN, and the segment is in sequence, has ACK set, neither RST nor SYN, and acknowledges
`iss + 1 mod 2^32 = 0`, so `snd.una <= ack <= snd.nxt` in the modular ordering. Yet the child
stays in SYN_RCVD, the parent's backlog stays empty and a RST with `seq = 0` is sent. -/
theorem tcp_incoming_event_syn_rcvd_counterexample :
    ((World_sample_wrap.cb_table 1).state = TCP_CB_STATE_SYN_RCVD ∧
      (World_sample_wrap.cb_table 1).snd.una = (World_sample_wrap.cb_table 1).iss ∧
      (World_sample_wrap.cb_table 1).snd.nxt = ((World_sample_wrap.cb_table 1).iss + 1) % 2 ^ 32 ∧
      (World_sample_wrap.cb_table 1).parent = some 0 ∧
      (World_sample_wrap.cb_table 0).state = TCP_CB_STATE_LISTEN ∧
      ntoh32 (hdr_seq segment_sample_ack0) = (World_sample_wrap.cb_table 1).rcv.nxt ∧
      TCP_FLG_IS (hdr_flg segment_sample_ack0) TCP_FLG_ACK ∧
      ntoh32 (hdr_ack segment_sample_ack0) = ((World_sample_wrap.cb_table 1).iss + 1) % 2 ^ 32 ∧
      seq_le (World_sample_wrap.cb_table 1).snd.una (ntoh32 (hdr_ack segment_sample_ack0)) ∧
      seq_le (ntoh32 (hdr_ack segment_sample_ack0)) (World_sample_wrap.cb_table 1).snd.nxt) ∧
    ∃ (w' : World) (seg : List Nat),
      tcp_incoming_event U_sample 0 World_sample_wrap 1 segment_sample_ack0 = some w' ∧
      (w'.cb_table 1).state = TCP_CB_STATE_SYN_RCVD ∧
      (w'.cb_table 0).backlog = [] ∧
      w'.ip_out = [⟨1, IP_PROTOCOL_TCP, seg, 20, 0x0100007f⟩] ∧
      ntoh32 (hdr_seq seg) = 0 ∧ hdr_flg seg = TCP_FLG_RST := by
  refine ⟨⟨rfl, rfl, by decide, rfl, rfl, by decide, by decide, by decide, by decide,
    by decide⟩, ?_⟩
  obtain ⟨w', seg, more, h1, h2, h3, -, h5, h6, h7, -, h9⟩ :=
    tcp_event_syn_rcvd_reject U_sample 0 World_sample_wrap 1 segment_sample_ack0 rfl
      (by decide) (by decide) (by decide) (by decide) (by decide)
  have hm : more = [] := h3 (by decide)
  subst hm
  refine ⟨w', seg, h1, ?_, ?_, h2, ?_, h6⟩
  · rw [h9]; decide
  · rw [h7 0 (by decide)]; rfl
  · rw [h5]; decide

/-- C20, amended: a child CB in SYN_RCVD whose parent `p` is a CB in LISTEN is handed an
in-sequence segment with ACK set and neither RST nor SYN. If `snd.una <= ack <= snd.nxt` as
plain unsigned numbers, and the payload, if there is one, fits the receive window, the child
is appended once behind the entries of its parent's backlog, the parent is otherwise
untouched, and the child ends in ESTABLISHED (in CLOSE_WAIT if the segment also carries FIN).
This is the case for `ack = iss + 1` when `snd.una = iss`, `snd.nxt = iss + 1` and
`iss + 1 < 2^32`. Otherwise nothing is enqueued (no other slot changes, and the child's own
backlog stays), the child does not reach ESTABLISHED, and a 20-byte segment with `seq = ack`
and flags RST is handed to `ip_tx`, the only one unless the segment carries FIN. -/
theorem tcp_incoming_event_syn_rcvd (U : Nat → Nat) (rnd : Nat) (w : World) (cb p : Fin 16)
    (hdr : List Nat)
    (hs : (w.cb_table cb).state = TCP_CB_STATE_SYN_RCVD)
    (hpar : (w.cb_table cb).parent = some p)
    (hpl : (w.cb_table p).state = TCP_CB_STATE_LISTEN)
    (hseq : ntoh32 (hdr_seq hdr) = (w.cb_table cb).rcv.nxt)
    (hack : TCP_FLG_ISSET (hdr_flg hdr) TCP_FLG_ACK)
    (hrst : ¬ TCP_FLG_ISSET (hdr_flg hdr) TCP_FLG_RST)
    (hsyn : ¬ TCP_FLG_ISSET (hdr_flg hdr) TCP_FLG_SYN) :
    (((w.cb_table cb).snd.una ≤ ntoh32 (hdr_ack hdr) ∧
        ntoh32 (hdr_ack hdr) ≤ (w.cb_table cb).snd.nxt) →
      (seg_plen hdr = 0 ∨ (seg_plen hdr ≤ (w.cb_table cb).rcv.wnd ∧
        (w.cb_table cb).rcv.wnd ≤ 4096 ∧ hdr_off hdr < 256 ∧ hdr.length < 2 ^ 32)) →
      ∃ w' : World, tcp_incoming_event U rnd w cb hdr = some w' ∧
        w'.cb_table p = { w.cb_table p with backlog := (w.cb_table p).backlog ++ [cb] } ∧
        (w'.cb_table cb).state =
          (if TCP_FLG_ISSET (hdr_flg hdr) TCP_FLG_FIN then TCP_CB_STATE_CLOSE_WAIT
           else TCP_CB_STATE_ESTABLISHED) ∧
        (∀ j, j ≠ cb → j ≠ p → w'.cb_table j = w.cb_table j)) ∧
    ((w.cb_table cb).snd.una = (w.cb_table cb).iss →
      (w.cb_table cb).snd.nxt = (w.cb_table cb).iss + 1 → (w.cb_table cb).iss + 1 < 2 ^ 32 →
      ntoh32 (hdr_ack hdr) = (w.cb_table cb).iss + 1 →
      (w.cb_table cb).snd.una ≤ ntoh32 (hdr_ack hdr) ∧
        ntoh32 (hdr_ack hdr) ≤ (w.cb_table cb).snd.nxt) ∧
    (¬ ((w.cb_table cb).snd.una ≤ ntoh32 (hdr_ack hdr) ∧
        ntoh32 (hdr_ack hdr) ≤ (w.cb_table cb).snd.nxt) →
      ∃ (w' : World) (seg : List Nat) (more : List ip_tx_call),
        tcp_incoming_event U rnd w cb hdr = some w' ∧
        w'.ip_out = w.ip_out ++ [⟨(w.cb_table cb).iface, IP_PROTOCOL_TCP, seg, 20,
          (w.cb_table cb).peer.addr⟩] ++ more ∧
        (¬ TCP_FLG_ISSET (hdr_flg hdr) TCP_FLG_FIN → more = []) ∧
        seg.length = 20 ∧
        ntoh32 (hdr_seq seg) = ntoh32 (hdr_ack hdr) ∧
        hdr_flg seg = TCP_FLG_RST ∧
        (∀ j, j ≠ cb → w'.cb_table j = w.cb_table j) ∧
        (w'.cb_table cb).backlog = (w.cb_table cb).backlog ∧
        (w'.cb_table cb).state =
          (if TCP_FLG_ISSET (hdr_flg hdr) TCP_FLG_FIN then TCP_CB_STATE_CLOSE_WAIT
           else TCP_CB_STATE_SYN_RCVD)) := by
  have hpc : p ≠ cb := by
    intro e
    rw [e, hs] at hpl
    exact absurd hpl (by decide)
  refine ⟨fun hin hfit => tcp_event_syn_rcvd_accept U rnd w cb p hdr hs hpar hpc hseq hack hrst
    hsyn hin hfit, ?_, fun hout => tcp_event_syn_rcvd_reject U rnd w cb hdr hs hseq hack hrst
    hsyn hout⟩
  intro h1 h2 _ h4
  omega

/-- Witness for C20: the sample child (`iss = 1000`) receives the acknowledgement of 1001: it
is ESTABLISHED and the only entry of its parent's backlog. -/
theorem tcp_incoming_event_syn_rcvd_witness :
    ((World_sample_syn_rcvd.cb_table 1).state = TCP_CB_STATE_SYN_RCVD ∧
      (World_sample_syn_rcvd.cb_table 1).parent = some 0 ∧
      (World_sample_syn_rcvd.cb_table 0).state = TCP_CB_STATE_LISTEN ∧
      ntoh32 (hdr_ack segment_sample_ack1001) = (World_sample_syn_rcvd.cb_table 1).iss + 1) ∧
    ∃ w' : World,
      tcp_incoming_event U_sample 0 World_sample_syn_rcvd 1 segment_sample_ack1001 = some w' ∧
      (w'.cb_table 0).backlog = [1] ∧ (w'.cb_table 0).state = TCP_CB_STATE_LISTEN ∧
      (w'.cb_table 1).state = TCP_CB_STATE_ESTABLISHED := by
  refine ⟨⟨rfl, rfl, rfl, by decide⟩, ?_⟩
  obtain ⟨w', h1, h2, h3, -⟩ :=
    (tcp_incoming_event_syn_rcvd U_sample 0 World_sample_syn_rcvd 1 0 segment_sample_ack1001
      rfl rfl rfl (by decide) (by decide) (by decide) (by decide)).1 (by decide)
      (Or.inl (by decide))
  refine ⟨w', h1, ?_, ?_, ?_⟩
  · rw [h2]; rfl
  · rw [h2]; rfl
  · rw [h3]; decide

/-! ### Steps of single CBs -/

theorem core_same_refl (c : tcp_cb) : core_same c c := ⟨rfl, rfl, rfl, rfl, rfl⟩

theorem cb_step_refl (c : tcp_cb) : cb_step c c := cb_step.same c c (core_same_refl c)

theorem cb_step_of_eq {c c' : tcp_cb} (h : c' = c) : cb_step c c' := h ▸ cb_step_refl c

/-- An event that stays within the frame and leaves `state` and `snd.una` is no step for the
invariants, in any slot. -/
theorem cb_step_of_frame {cb : Fin 16} {w w' : World} (f : ev_frame cb w w')
    (hs : (w'.cb_table cb).state = (w.cb_table cb).state)
    (hu : (w'.cb_table cb).snd.una = (w.cb_table cb).snd.una) :
    ∀ j, cb_step (w.cb_table j) (w'.cb_table j) := by
  intro j
  by_cases hj : j = cb
  · subst hj
    obtain ⟨-, -, k1, -, -, -, k5, k6, -, -⟩ := f
    exact cb_step.same _ _ ⟨k1, hs, hu, k5, k6⟩
  · exact cb_step_of_eq (f.1 j hj)

/-- An event within the frame of a CB in a synchronised state that leaves it in one, with
`snd.una` where it was or moved up, not above `snd.nxt`. -/
theorem cb_step_of_frame_sync {cb : Fin 16} {w w' : World} (f : ev_frame cb w w')
    (hs : TCP_CB_STATE_ISSYNC (w.cb_table cb).state)
    (hs' : TCP_CB_STATE_ISSYNC (w'.cb_table cb).state)
    (hu : (w'.cb_table cb).snd.una = (w.cb_table cb).snd.una ∨
      ((w.cb_table cb).snd.una < (w'.cb_table cb).snd.una ∧
        (w'.cb_table cb).snd.una ≤ (w.cb_table cb).snd.nxt)) :
    ∀ j, cb_step (w.cb_table j) (w'.cb_table j) := by
  intro j
  by_cases hj : j = cb
  · subst hj
    obtain ⟨-, -, k1, -, -, -, k5, k6, -, -⟩ := f
    exact cb_step.sync _ _ hs hs' k1 k5 k6 hu
  · exact cb_step_of_eq (f.1 j hj)

theorem fin_next_sync (s : Nat) (h : TCP_CB_STATE_ISSYNC s) : TCP_CB_STATE_ISSYNC (fin_next s) := by
  unfold fin_next
  split_ifs
  · exact Or.inr (Or.inr (Or.inr (Or.inr (Or.inr (Or.inr (Or.inl rfl))))))
  · exact Or.inr (Or.inr (Or.inr (Or.inl rfl)))
  · exact Or.inr (Or.inr (Or.inr (Or.inr (Or.inr (Or.inl rfl)))))
  · exact h

theorem fin_next_of_not (s : Nat) (h1 : s ≠ TCP_CB_STATE_SYN_RCVD)
    (h2 : s ≠ TCP_CB_STATE_ESTABLISHED) (h3 : s ≠ TCP_CB_STATE_FIN_WAIT1)
    (h4 : s ≠ TCP_CB_STATE_FIN_WAIT2) : fin_next s = s := by
  unfold fin_next
  rw [if_neg (by tauto), if_neg h3, if_neg h4]

/-- The function `tcp_cb_clear` leaves every slot with the fields of the invariants as they
were, or all zero. -/
theorem tcp_cb_clear_cb_step (w w' : World) (cb : Fin 16) (h : tcp_cb_clear w cb = some w') :
    ∀ j, cb_step (w.cb_table j) (w'.cb_table j) := by
  have key := tcp_cb_clear_fuel_inv
    (fun j c => core_same (w.cb_table j) c ∨ core_same tcp_cb_zero c)
    (fun _ => Or.inr (core_same_refl _))
    (fun j c T B hc => by
      rcases hc with ⟨h1, h2, h3, h4, h5⟩ | ⟨h1, h2, h3, h4, h5⟩
      · exact Or.inl ⟨h1, h2, h3, h4, h5⟩
      · exact Or.inr ⟨h1, h2, h3, h4, h5⟩)
    _ w w' cb h (fun j => Or.inl (core_same_refl _))
  intro j
  rcases key j with hc | hc
  · exact cb_step.same _ _ hc
  · exact cb_step.zero _ _ hc
/-- A call of `tcp_tx` is no step for the invariants. -/
theorem tcp_tx__cb_step (U : Nat → Nat) (w w1 : World) (cb : Fin 16) (seq ack flg : Nat)
    (buf : List Nat) (h : tcp_tx_ U w cb seq ack flg buf = some w1) :
    ∀ j, cb_step (w.cb_table j) (w1.cb_table j) := by
  obtain ⟨f, s, u, -⟩ := tcp_tx__frame U w w1 cb seq ack flg buf h
  exact cb_step_of_frame f s u

theorem tcp_event_closed_cb_step (U : Nat → Nat) (w w' : World) (cb : Fin 16) (hdr : List Nat)
    (plen : Nat) (h : tcp_event_closed U w cb hdr plen = some w') :
    ∀ j, cb_step (w.cb_table j) (w'.cb_table j) := by
  unfold tcp_event_closed at h
  dsimp only at h
  split at h
  · injection h with h
    subst h
    exact fun j => cb_step_refl _
  · split at h
    · exact tcp_tx__cb_step U w w' cb _ _ _ _ h
    · exact tcp_tx__cb_step U w w' cb _ _ _ _ h

theorem tcp_event_listen_cb_step (U : Nat → Nat) (rnd : Nat) (w w' : World) (cb : Fin 16)
    (hdr : List Nat) (hs : (w.cb_table cb).state = TCP_CB_STATE_LISTEN)
    (h : tcp_event_listen U rnd w cb hdr = some w') :
    ∀ j, cb_step (w.cb_table j) (w'.cb_table j) := by
  unfold tcp_event_listen at h
  dsimp only at h
  split at h
  · injection h with h
    subst h
    exact fun j => cb_step_refl _
  · split at h
    · exact tcp_tx__cb_step U w w' cb _ _ _ _ h
    · split at h
      · split at h
        · exact Option.noConfusion h
        · rename_i w1 h1
          injection h with h
          subst h
          obtain ⟨⟨o1, -, k1⟩, -, -, -⟩ := tcp_tx__frame U _ w1 cb _ _ _ _ h1
          rw [put_cb_table, set_cb_same] at k1
          obtain ⟨k1, -, -, -, -, k6, -, -⟩ := k1
          intro j
          by_cases hj : j = cb
          · subst hj
            rw [put_cb_table, set_cb_same]
            refine cb_step.syn_rcvd _ _ (Or.inl ⟨hs, k1⟩) rfl ?_ rfl rfl
            show (w1.cb_table j).iss < 2 ^ 32
            rw [k6]
            exact Nat.mod_lt _ (by norm_num)
          · rw [put_cb_table, set_cb_other _ _ _ _ hj, o1 j hj, put_cb_table,
              set_cb_other _ _ _ _ hj]
            exact cb_step_refl _
      · injection h with h
        subst h
        exact fun j => cb_step_refl _

theorem tcp_event_syn_sent_cb_step (U : Nat → Nat) (w w' : World) (cb : Fin 16) (hdr : List Nat)
    (hs : (w.cb_table cb).state = TCP_CB_STATE_SYN_SENT)
    (h : tcp_event_syn_sent U w cb hdr = some w') :
    ∀ j, cb_step (w.cb_table j) (w'.cb_table j) := by
  unfold tcp_event_syn_sent at h
  dsimp only at h
  split at h
  · split at h
    · exact tcp_tx__cb_step U w w' cb _ _ _ _ h
    · injection h with h
      subst h
      exact fun j => cb_step_refl _
  · rename_i hchk
    split at h
    · injection h with h
      subst h
      exact fun j => cb_step_refl _
    · split at h
      · split at h
        · rename_i hack
          have hwin : (w.cb_table cb).iss < ntoh32 (hdr_ack hdr) ∧
              ntoh32 (hdr_ack hdr) ≤ (w.cb_table cb).snd.nxt := by
            by_contra hc
            apply hchk
            refine ⟨hack, ?_⟩
            omega
          split at h
          · split at h
            · exact Option.noConfusion h
            · rename_i w1 h1
              injection h with h
              subst h
              obtain ⟨⟨o1, -, k1⟩, s1, u1, -⟩ := tcp_tx__frame U _ w1 cb _ _ _ _ h1
              rw [put_cb_table, set_cb_same] at k1 s1 u1
              obtain ⟨k1, -, -, -, k5, k6, -, -⟩ := k1
              intro j
              by_cases hj : j = cb
              · subst hj
                refine cb_step.established _ _ hs s1 k1 ?_ ?_ k5 k6
                · show (w.cb_table j).iss < (w1.cb_table j).snd.una
                  rw [u1]; exact hwin.1
                · show (w1.cb_table j).snd.una ≤ (w.cb_table j).snd.nxt
                  rw [u1]; exact hwin.2
              · show cb_step (w.cb_table j) (w1.cb_table j)
                rw [o1 j hj, put_cb_table, set_cb_other _ _ _ _ hj]
                exact cb_step_refl _
          · rename_i hle
            exact absurd hwin.1 hle
        · obtain ⟨f1, s1, u1, -⟩ := tcp_tx__frame U _ w' cb _ _ _ _ h
          rw [put_cb_table, set_cb_same] at s1 u1
          exact cb_step_of_frame
            (ev_frame_trans (ev_frame_put cb w _ (by exact ⟨rfl, rfl, rfl, rfl, rfl, rfl, rfl, rfl⟩))
              f1) s1 u1
      · injection h with h
        subst h
        exact fun j => cb_step_refl _
theorem ack_una_cases (una nxt ack una' : Nat)
    (h : una' = if una < ack ∧ ack ≤ nxt then ack else una) :
    una' = una ∨ (una < una' ∧ una' ≤ nxt) := by
  split_ifs at h with hc
  · right; rw [h]; exact hc
  · left; exact h

theorem tcp_event_ack_cb_step (U : Nat → Nat) (w w' : World) (cb : Fin 16) (hdr : List Nat)
    (hlen plen : Nat) (hs : TCP_CB_STATE_ISSYNC (w.cb_table cb).state)
    (h : tcp_event_ack U w cb hdr hlen plen = some w') :
    ∀ j, cb_step (w.cb_table j) (w'.cb_table j) := by
  obtain ⟨f, u, s⟩ := tcp_event_ack_frame U w w' cb hdr hlen plen h
  refine cb_step_of_frame_sync f hs ?_ (ack_una_cases _ _ _ _ u)
  rcases s with s | s | ⟨-, s | s⟩ | ⟨-, s⟩
  · rw [s]; exact hs
  · rw [s]; exact fin_next_sync _ hs
  · rw [s]; exact Or.inr (Or.inr (Or.inr (Or.inl rfl)))
  · rw [s]; exact Or.inr (Or.inr (Or.inr (Or.inr (Or.inr (Or.inl rfl)))))
  · rw [s]; exact Or.inr (Or.inr (Or.inr (Or.inr (Or.inr (Or.inl rfl)))))

/-- The acknowledgement part run on a table `w2` that differs from `w` only in backlogs,
wakeups and in the state of `cb`, which is ESTABLISHED in `w2` and synchronised in `w`. -/
theorem tcp_event_ack_pushed (U : Nat → Nat) (w w2 w' : World) (cb : Fin 16) (hdr : List Nat)
    (hlen plen : Nat) (hsy : TCP_CB_STATE_ISSYNC (w.cb_table cb).state)
    (e2 : ∀ j, (w2.cb_table j).used = (w.cb_table j).used ∧
      (w2.cb_table j).snd = (w.cb_table j).snd ∧ (w2.cb_table j).iss = (w.cb_table j).iss ∧
      (w2.cb_table j).state =
        (if j = cb then TCP_CB_STATE_ESTABLISHED else (w.cb_table j).state))
    (h : tcp_event_ack U w2 cb hdr hlen plen = some w') :
    ∀ j, cb_step (w.cb_table j) (w'.cb_table j) := by
  obtain ⟨f, u, s⟩ := tcp_event_ack_frame U w2 w' cb hdr hlen plen h
  obtain ⟨c1, c2, c3, c4⟩ := e2 cb
  rw [if_pos rfl] at c4
  intro j
  by_cases hj : j = cb
  · subst hj
    obtain ⟨-, -, k1, -, -, -, k5, k6, -, -⟩ := f
    refine cb_step.sync _ _ hsy ?_ (k1.trans c1) (k5.trans (by rw [c2])) (k6.trans c3) ?_
    · rw [c4] at s
      rcases s with s | s | ⟨s0, -⟩ | ⟨s0, -⟩
      · rw [s]; exact Or.inr (Or.inl rfl)
      · rw [s]; exact fin_next_sync _ (Or.inr (Or.inl rfl))
      · exact absurd s0 (by decide)
      · exact absurd s0 (by decide)
    · have u' := ack_una_cases _ _ _ _ u
      rw [c2] at u'
      exact u'
  · rw [f.1 j hj]
    obtain ⟨d1, d2, d3, d4⟩ := e2 j
    rw [if_neg hj] at d4
    exact cb_step.same _ _ ⟨d1, d4, by rw [d2], by rw [d2], d3⟩

theorem tcp_event_synchronized_cb_step (U : Nat → Nat) (w w' : World) (cb : Fin 16)
    (hdr : List Nat) (hlen plen : Nat)
    (h : tcp_event_synchronized U w cb hdr hlen plen = some w') :
    ∀ j, cb_step (w.cb_table j) (w'.cb_table j) := by
  unfold tcp_event_synchronized at h
  dsimp only at h
  split at h
  · injection h with h
    subst h
    exact fun j => cb_step_refl _
  split at h
  · injection h with h
    subst h
    exact fun j => cb_step_refl _
  split at h
  · injection h with h
    subst h
    exact fun j => cb_step_refl _
  split at h
  · rename_i hst
    have hsy : TCP_CB_STATE_ISSYNC (w.cb_table cb).state := Or.inl hst
    split at h
    · split at h
      · exact Option.noConfusion h
      · rename_i p hp
        refine tcp_event_ack_pushed U w _ w' cb hdr hlen plen hsy ?_ h
        intro j
        by_cases hjp : j = p
        · by_cases hjc : j = cb
          · subst hjp
            subst hjc
            simp only [put_cb_table, set_cb_same, if_true, and_self]
          · subst hjp
            simp only [put_cb_table, set_cb_same, set_cb_other _ _ _ _ hjc, if_neg hjc,
              and_self]
        · by_cases hjc : j = cb
          · subst hjc
            simp only [put_cb_table, set_cb_same, set_cb_other _ _ _ _ hjp, if_true, and_self]
          · simp only [put_cb_table, set_cb_other _ _ _ _ hjp, set_cb_other _ _ _ _ hjc,
              if_neg hjc, and_self]
    · split at h
      · exact Option.noConfusion h
      · rename_i w1 h1
        obtain ⟨f1, s1, u1, -⟩ := tcp_tx__frame U w w1 cb _ _ _ _ h1
        obtain ⟨f2, u2, s2⟩ := tcp_event_payload_frame U w1 w' cb hdr hlen plen h
        refine cb_step_of_frame_sync (ev_frame_trans f1 f2) hsy ?_ (Or.inl (u2.trans u1))
        rw [s2, s1]
        split_ifs
        · exact fin_next_sync _ hsy
        · exact hsy
  split at h
  · rename_i hst
    refine tcp_event_ack_cb_step U w w' cb hdr hlen plen ?_ h
    rcases hst with e | e | e | e | e
    · exact Or.inr (Or.inl e)
    · exact Or.inr (Or.inr (Or.inl e))
    · exact Or.inr (Or.inr (Or.inr (Or.inl e)))
    · exact Or.inr (Or.inr (Or.inr (Or.inr (Or.inr (Or.inr (Or.inl e))))))
    · exact Or.inr (Or.inr (Or.inr (Or.inr (Or.inl e))))
  split at h
  · have hc := tcp_cb_clear_cb_step _ w' cb h
    exact hc
  · rename_i n1 n2 n3
    obtain ⟨f2, u2, s2⟩ := tcp_event_payload_frame U w w' cb hdr hlen plen h
    refine cb_step_of_frame f2 ?_ u2
    rw [s2]
    split_ifs
    · exact fin_next_of_not _ n1 (fun e => n2 (Or.inl e)) (fun e => n2 (Or.inr (Or.inl e)))
        (fun e => n2 (Or.inr (Or.inr (Or.inl e))))
    · rfl

/-- Whatever `tcp_incoming_event` does to the table is a step of `cb_step` in every slot. -/
theorem tcp_incoming_event_cb_step (U : Nat → Nat) (rnd : Nat) (w w' : World) (cb : Fin 16)
    (hdr : List Nat) (h : tcp_incoming_event U rnd w cb hdr = some w') :
    ∀ j, cb_step (w.cb_table j) (w'.cb_table j) := by
  rw [tcp_incoming_event_eq] at h
  split at h
  · exact tcp_event_closed_cb_step U w w' cb hdr _ h
  split at h
  · rename_i hs
    exact tcp_event_listen_cb_step U rnd w w' cb hdr hs h
  split at h
  · rename_i hs
    exact tcp_event_syn_sent_cb_step U w w' cb hdr hs h
  · exact tcp_event_synchronized_cb_step U w w' cb hdr _ _ h
/-- What the lookup loop of `tcp_rx` returns as `fcb` is a free slot, and what it returns as
`lcb` is a CB in LISTEN. -/
theorem tcp_rx_scan_props (t : Fin 16 → tcp_cb) (iface src sport dport : Nat) :
    ∀ (l : List (Fin 16)) (fcb lcb : Option (Fin 16)),
      (∀ f, fcb = some f → (t f).used = 0) →
      (∀ x, lcb = some x → (t x).state = TCP_CB_STATE_LISTEN) →
      (∀ f, (tcp_rx_scan t iface src sport dport l fcb lcb).2.1 = some f → (t f).used = 0) ∧
      (∀ x, (tcp_rx_scan t iface src sport dport l fcb lcb).2.2 = some x →
        (t x).state = TCP_CB_STATE_LISTEN) := by
  intro l
  induction l with
  | nil => intro fcb lcb hf hl; exact ⟨hf, hl⟩
  | cons i rest ih =>
    intro fcb lcb hf hl
    unfold tcp_rx_scan
    dsimp only
    split
    · rename_i hu
      refine ih _ _ ?_ hl
      intro f hfe
      split at hfe
      · injection hfe with hfe
        subst hfe
        exact hu
      · exact hf f hfe
    · split
      · split
        · exact ⟨hf, hl⟩
        · refine ih _ _ hf ?_
          intro x hxe
          split at hxe
          · rename_i hc
            injection hxe with hxe
            subst hxe
            exact hc.1
          · exact hl x hxe
      · exact ih _ _ hf hl

/-- Whatever `tcp_rx` does to the table is a step of `cb_step` in every slot. -/
theorem tcp_rx_cb_step (U : Nat → Nat) (rnd : Nat) (w w' : World) (segment : List Nat)
    (src dst iface : Nat) (h : tcp_rx U rnd w segment src dst iface = some w') :
    ∀ j, cb_step (w.cb_table j) (w'.cb_table j) := by
  have keep : some w = some w' → ∀ j, cb_step (w.cb_table j) (w'.cb_table j) := by
    intro e
    injection e with e
    subst e
    exact fun j => cb_step_refl _
  unfold tcp_rx at h
  dsimp only at h
  split at h
  · exact keep h
  split at h
  · exact keep h
  split at h
  · exact keep h
  have hprops := tcp_rx_scan_props w.cb_table iface src (hdr_src segment) (hdr_dst segment)
    allSlots none none (fun _ e => Option.noConfusion e) (fun _ e => Option.noConfusion e)
  split at h
  · exact tcp_incoming_event_cb_step U rnd w w' _ segment h
  · rename_i fcb lcb hscan
    rw [hscan] at hprops
    have hfu : (w.cb_table fcb).used = 0 := hprops.1 fcb rfl
    have hls : (w.cb_table lcb).state = TCP_CB_STATE_LISTEN := hprops.2 lcb rfl
    split at h
    · rename_i hflg
      obtain ⟨T, k, hev⟩ := tcp_event_listen_syn U rnd
        (w.put fcb { w.cb_table fcb with used := 1, state := (w.cb_table lcb).state,
                                         iface := iface, port := (w.cb_table lcb).port,
                                         peer := ⟨src, hdr_src segment⟩,
                                         rcv.wnd := TCP_WINDOW_SIZE, parent := some lcb })
        fcb segment (by rw [put_cb_table, set_cb_same]; exact hls) hflg
      rw [hev] at h
      injection h with h
      subst h
      intro j
      by_cases hj : j = fcb
      · subst hj
        simp only [put_cb_table, set_cb_same]
        exact cb_step.syn_rcvd _ _ (Or.inr ⟨hfu, rfl⟩) rfl (Nat.mod_lt _ (by norm_num)) rfl rfl
      · simp only [put_cb_table, set_cb_other _ _ _ _ hj]
        exact cb_step_refl _
    · exact keep h
  · exact keep h
/-! ### Steps of API calls -/

theorem outcome_step_ret {α : Type} (w w' : World) (v : Int) (out : α) (k : Cont)
    (k' : Option Cont) (h : outcome_step (Outcome.ret w v out) k = some (w', k')) : w' = w := by
  simp only [outcome_step, Option.some.injEq, Prod.mk.injEq] at h
  exact h.1.symm

theorem outcome_step_sleep {α : Type} (w w' : World) (k : Cont) (k' : Option Cont)
    (h : outcome_step (Outcome.sleep w : Outcome α) k = some (w', k')) : w' = w := by
  simp only [outcome_step, Option.some.injEq, Prod.mk.injEq] at h
  exact h.1.symm

theorem outcome_step_fault {α : Type} (w' : World) (k : Cont) (k' : Option Cont)
    (h : outcome_step (Outcome.fault : Outcome α) k = some (w', k')) : False := by
  simp only [outcome_step] at h
  exact Option.noConfusion h

theorem tcp_api_open_cb_step (w : World) :
    ∀ j, cb_step (w.cb_table j) ((tcp_api_open w).1.cb_table j) := by
  unfold tcp_api_open
  split
  · rename_i i hi
    have hu : (w.cb_table i).used = 0 := by simpa using List.find?_some hi
    intro j
    by_cases hj : j = i
    · subst hj
      simp only [put_cb_table, set_cb_same]
      exact cb_step.alloc _ _ hu rfl rfl rfl rfl rfl
    · simp only [put_cb_table, set_cb_other _ _ _ _ hj]
      exact cb_step_refl _
  · exact fun j => cb_step_refl _

theorem tcp_api_bind_cb_step (w : World) (soc : Int) (addr : sockaddr_in) :
    ∀ j, cb_step (w.cb_table j) ((tcp_api_bind w soc addr).1.cb_table j) := by
  rcases tcp_api_bind_cases w soc addr with h | ⟨h, -, -⟩
  · rw [h]; exact fun j => cb_step_refl _
  · rw [h]
    intro j
    by_cases hj : j = slot soc
    · subst hj
      simp only [put_cb_table, set_cb_same]
      exact cb_step.same _ _ ⟨rfl, rfl, rfl, rfl, rfl⟩
    · simp only [put_cb_table, set_cb_other _ _ _ _ hj]
      exact cb_step_refl _

theorem tcp_api_listen_cb_step (w : World) (soc : Int) (backlog : Int) :
    ∀ j, cb_step (w.cb_table j) ((tcp_api_listen w soc backlog).1.cb_table j) := by
  rcases tcp_api_listen_cases w soc backlog with h | ⟨h, hu, hs⟩
  · rw [h]; exact fun j => cb_step_refl _
  · rw [h]
    intro j
    by_cases hj : j = slot soc
    · subst hj
      simp only [put_cb_table, set_cb_same]
      exact cb_step.listen _ _ hu hs rfl rfl rfl rfl rfl
    · simp only [put_cb_table, set_cb_other _ _ _ _ hj]
      exact cb_step_refl _

theorem tcp_api_accept_wake_cb_step (w w' : World) (soc : Int) (sin : Bool) (al : Option Int)
    (killed : Bool) (k : Cont) (k' : Option Cont)
    (h : outcome_step (tcp_api_accept_wake w soc sin al killed) k = some (w', k')) :
    ∀ j, cb_step (w.cb_table j) (w'.cb_table j) := by
  unfold tcp_api_accept_wake at h
  dsimp only at h
  split at h
  · split at h
    · rw [outcome_step_ret _ _ _ _ _ _ h]
      exact fun j => cb_step_refl _
    · rw [outcome_step_sleep _ _ _ _ h]
      exact fun j => cb_step_refl _
  · rw [outcome_step_ret _ _ _ _ _ _ h]
    intro j
    by_cases hj : j = slot soc
    · subst hj
      simp only [put_cb_table, set_cb_same]
      exact cb_step.same _ _ ⟨rfl, rfl, rfl, rfl, rfl⟩
    · simp only [put_cb_table, set_cb_other _ _ _ _ hj]
      exact cb_step_refl _

theorem tcp_api_accept_cb_step (w w' : World) (soc : Int) (addr : Bool) (addrlen : Option Int)
    (killed : Bool) (k : Cont) (k' : Option Cont)
    (h : outcome_step (tcp_api_accept w soc addr addrlen killed) k = some (w', k')) :
    ∀ j, cb_step (w.cb_table j) (w'.cb_table j) := by
  unfold tcp_api_accept at h
  dsimp only at h
  split at h
  · rw [outcome_step_ret _ _ _ _ _ _ h]; exact fun j => cb_step_refl _
  split at h
  · rw [outcome_step_ret _ _ _ _ _ _ h]; exact fun j => cb_step_refl _
  split at h
  · rw [outcome_step_ret _ _ _ _ _ _ h]; exact fun j => cb_step_refl _
  split at h
  · rw [outcome_step_ret _ _ _ _ _ _ h]; exact fun j => cb_step_refl _
  split at h
  · rw [outcome_step_ret _ _ _ _ _ _ h]; exact fun j => cb_step_refl _
  · exact tcp_api_accept_wake_cb_step w w' soc _ _ killed k k' h

theorem tcp_api_recv_wake_cb_step (w w' : World) (soc : Int) (size : Nat) (killed : Bool)
    (k : Cont) (k' : Option Cont)
    (h : outcome_step (tcp_api_recv_wake w soc size killed) k = some (w', k')) :
    ∀ j, cb_step (w.cb_table j) (w'.cb_table j) := by
  unfold tcp_api_recv_wake at h
  dsimp only at h
  split at h
  · split at h
    · rw [outcome_step_ret _ _ _ _ _ _ h]; exact fun j => cb_step_refl _
    · split at h
      · rw [outcome_step_ret _ _ _ _ _ _ h]; exact fun j => cb_step_refl _
      · rw [outcome_step_sleep _ _ _ _ h]; exact fun j => cb_step_refl _
  · split at h
    · exact (outcome_step_fault _ _ _ h).elim
    · rw [outcome_step_ret _ _ _ _ _ _ h]
      intro j
      by_cases hj : j = slot soc
      · subst hj
        simp only [put_cb_table, set_cb_same]
        exact cb_step.same _ _ ⟨rfl, rfl, rfl, rfl, rfl⟩
      · simp only [put_cb_table, set_cb_other _ _ _ _ hj]
        exact cb_step_refl _

theorem tcp_api_recv_cb_step (w w' : World) (soc : Int) (size : Nat) (killed : Bool)
    (k : Cont) (k' : Option Cont)
    (h : outcome_step (tcp_api_recv w soc size killed) k = some (w', k')) :
    ∀ j, cb_step (w.cb_table j) (w'.cb_table j) := by
  unfold tcp_api_recv at h
  split at h
  · rw [outcome_step_ret _ _ _ _ _ _ h]; exact fun j => cb_step_refl _
  split at h
  · rw [outcome_step_ret _ _ _ _ _ _ h]; exact fun j => cb_step_refl _
  · exact tcp_api_recv_wake_cb_step w w' soc size killed k k' h

theorem tcp_api_close_wake_cb_step (w w' : World) (soc : Int) (k : Cont) (k' : Option Cont)
    (h : outcome_step (tcp_api_close_wake w soc) k = some (w', k')) :
    ∀ j, cb_step (w.cb_table j) (w'.cb_table j) := by
  unfold tcp_api_close_wake at h
  split at h
  · exact (outcome_step_fault _ _ _ h).elim
  · rename_i w1 h1
    rw [outcome_step_ret _ _ _ _ _ _ h]
    exact tcp_cb_clear_cb_step w w1 _ h1

theorem tcp_api_connect_wake_cb_step (w w' : World) (soc : Int) (k : Cont) (k' : Option Cont)
    (h : outcome_step (tcp_api_connect_wake w soc) k = some (w', k')) :
    ∀ j, cb_step (w.cb_table j) (w'.cb_table j) := by
  unfold tcp_api_connect_wake at h
  split at h
  · rw [outcome_step_sleep _ _ _ _ h]; exact fun j => cb_step_refl _
  · rw [outcome_step_ret _ _ _ _ _ _ h]; exact fun j => cb_step_refl _

theorem tcp_api_connect_cb_step (U : Nat → Nat) (now rnd : Nat) (w w' : World) (soc : Int)
    (addr : sockaddr_in) (k : Cont) (k' : Option Cont)
    (h : outcome_step (tcp_api_connect U now rnd w soc addr) k = some (w', k')) :
    ∀ j, cb_step (w.cb_table j) (w'.cb_table j) := by
  unfold tcp_api_connect at h
  dsimp only at h
  split at h
  · rw [outcome_step_ret _ _ _ _ _ _ h]; exact fun j => cb_step_refl _
  split at h
  · rw [outcome_step_ret _ _ _ _ _ _ h]; exact fun j => cb_step_refl _
  split at h
  · rw [outcome_step_ret _ _ _ _ _ _ h]; exact fun j => cb_step_refl _
  rename_i hok
  have hu : (w.cb_table (slot soc)).used ≠ 0 := fun e => hok (Or.inl e)
  have hs : (w.cb_table (slot soc)).state = TCP_CB_STATE_CLOSED := by
    by_contra e
    exact hok (Or.inr e)
  -- the code behind the port search, for the record `c1` the search leaves
  have tail : ∀ c1 : tcp_cb, c1.used = (w.cb_table (slot soc)).used →
      c1.snd.una = (w.cb_table (slot soc)).snd.una →
      outcome_step
        (if c1.port = 0 then Outcome.ret w (-1) ()
         else
          match tcp_tx_ U (w.put (slot soc) { c1 with peer := ⟨addr.sin_addr, addr.sin_port⟩,
                                                      rcv.wnd := TCP_WINDOW_SIZE,
                                                      iss := rnd % 2 ^ 32 }) (slot soc)
              (rnd % 2 ^ 32) 0 TCP_FLG_SYN [] with
          | none => Outcome.fault
          | some w1 =>
            tcp_api_connect_wake
              (w1.put (slot soc) { w1.cb_table (slot soc) with
                snd.nxt := ((w1.cb_table (slot soc)).iss + 1) % 2 ^ 32,
                state := TCP_CB_STATE_SYN_SENT }) soc) k = some (w', k') →
      ∀ j, cb_step (w.cb_table j) (w'.cb_table j) := by
    intro c1 e1 e2 h
    split at h
    · rw [outcome_step_ret _ _ _ _ _ _ h]; exact fun j => cb_step_refl _
    split at h
    · exact (outcome_step_fault _ _ _ h).elim
    rename_i w1 h1
    obtain ⟨⟨o1, -, k1⟩, -, u1, -⟩ := tcp_tx__frame U _ w1 _ _ _ _ _ h1
    rw [put_cb_table, set_cb_same] at k1 u1
    obtain ⟨k1, -, -, -, -, k6, -, -⟩ := k1
    have hwe : w' = w1.put (slot soc) { w1.cb_table (slot soc) with
        snd.nxt := ((w1.cb_table (slot soc)).iss + 1) % 2 ^ 32,
        state := TCP_CB_STATE_SYN_SENT } := by
      unfold tcp_api_connect_wake at h
      split at h
      · exact outcome_step_sleep _ _ _ _ h
      · exact outcome_step_ret _ _ _ _ _ _ h
    subst hwe
    intro j
    by_cases hj : j = slot soc
    · subst hj
      simp only [put_cb_table, set_cb_same]
      refine cb_step.connect _ _ hu hs rfl (k1.trans e1) (u1.trans e2) ?_ rfl
      show (w1.cb_table (slot soc)).iss < 2 ^ 32
      rw [k6]
      exact Nat.mod_lt _ (by norm_num)
    · simp only [put_cb_table, set_cb_other _ _ _ _ hj]
      rw [o1 j hj, put_cb_table, set_cb_other _ _ _ _ hj]
      exact cb_step_refl _
  by_cases hp0 : (w.cb_table (slot soc)).port = 0
  · cases hport : tcp_connect_port w.cb_table (TCP_SOURCE_PORT_MIN + now % 1024) with
    | none =>
      simp only [if_pos hp0, hport] at h
      rw [outcome_step_ret _ _ _ _ _ _ h]
      exact fun j => cb_step_refl _
    | some p =>
      simp only [if_pos hp0, hport] at h
      exact tail { w.cb_table (slot soc) with port := hton16 p } rfl rfl h
  · simp only [if_neg hp0] at h
    refine tail (w.cb_table (slot soc)) rfl rfl ?_
    rw [if_neg hp0]
    exact h

theorem tcp_api_send_cb_step (U : Nat → Nat) (w w' : World) (soc : Int) (buf : List Nat)
    (k : Cont) (k' : Option Cont)
    (h : outcome_step (tcp_api_send U w soc buf) k = some (w', k')) :
    ∀ j, cb_step (w.cb_table j) (w'.cb_table j) ∨
      call_advances (Call.api_send soc buf) j (w.cb_table j) (w'.cb_table j) := by
  unfold tcp_api_send at h
  dsimp only at h
  split at h
  · rw [outcome_step_ret _ _ _ _ _ _ h]; exact fun j => Or.inl (cb_step_refl _)
  split at h
  · rw [outcome_step_ret _ _ _ _ _ _ h]; exact fun j => Or.inl (cb_step_refl _)
  split at h
  · rw [outcome_step_ret _ _ _ _ _ _ h]; exact fun j => Or.inl (cb_step_refl _)
  rename_i hready
  have hrdy : TCP_CB_STATE_TX_ISREADY (w.cb_table (slot soc)) := not_not.mp hready
  split at h
  · exact (outcome_step_fault _ _ _ h).elim
  rename_i w1 h1
  rw [outcome_step_ret _ _ _ _ _ _ h]
  obtain ⟨⟨o1, -, k1⟩, s1, u1, -⟩ := tcp_tx__frame U _ w1 _ _ _ _ _ h1
  obtain ⟨k1, -, -, -, k5, k6, -, -⟩ := k1
  intro j
  by_cases hj : j = slot soc
  · subst hj
    right
    simp only [put_cb_table, set_cb_same]
    have hsy : TCP_CB_STATE_ISSYNC (w.cb_table (slot soc)).state := by
      rcases hrdy with e | e
      · exact Or.inr (Or.inl e)
      · exact Or.inr (Or.inr (Or.inr (Or.inr (Or.inr (Or.inr (Or.inl e))))))
    refine ⟨rfl, hrdy, hsy, ?_, k1, u1, k6, ?_⟩
    · show TCP_CB_STATE_ISSYNC (w1.cb_table (slot soc)).state
      rw [s1]; exact hsy
    · show ((w1.cb_table (slot soc)).snd.nxt + buf.length) % 2 ^ 32 = _
      rw [k5]
  · left
    simp only [put_cb_table, set_cb_other _ _ _ _ hj]
    exact cb_step_of_eq (o1 j hj)

theorem tcp_api_close_cb_step (U : Nat → Nat) (w w' : World) (soc : Int)
    (k : Cont) (k' : Option Cont)
    (h : outcome_step (tcp_api_close U w soc) k = some (w', k')) :
    ∀ j, cb_step (w.cb_table j) (w'.cb_table j) ∨
      call_advances (Call.api_close soc) j (w.cb_table j) (w'.cb_table j) := by
  unfold tcp_api_close at h
  dsimp only at h
  split at h
  · rw [outcome_step_ret _ _ _ _ _ _ h]; exact fun j => Or.inl (cb_step_refl _)
  split at h
  · rw [outcome_step_ret _ _ _ _ _ _ h]; exact fun j => Or.inl (cb_step_refl _)
  -- the two branches that send a FIN
  have fin : ∀ (s : Nat) (w1 : World), TCP_CB_STATE_ISSYNC s →
      ((w.cb_table (slot soc)).state = TCP_CB_STATE_SYN_RCVD ∨
        (w.cb_table (slot soc)).state = TCP_CB_STATE_ESTABLISHED ∨
        (w.cb_table (slot soc)).state = TCP_CB_STATE_CLOSE_WAIT) →
      tcp_tx_ U w (slot soc) (w.cb_table (slot soc)).snd.nxt (w.cb_table (slot soc)).rcv.nxt
        (TCP_FLG_FIN ||| TCP_FLG_ACK) [] = some w1 →
      w' = w1.put (slot soc) { w1.cb_table (slot soc) with
        state := s, snd.nxt := ((w1.cb_table (slot soc)).snd.nxt + 1) % 2 ^ 32 } →
      ∀ j, cb_step (w.cb_table j) (w'.cb_table j) ∨
        call_advances (Call.api_close soc) j (w.cb_table j) (w'.cb_table j) := by
    intro s w1 hs hst h1 hw'
    subst hw'
    obtain ⟨⟨o1, -, k1⟩, -, u1, -⟩ := tcp_tx__frame U _ w1 _ _ _ _ _ h1
    obtain ⟨k1, -, -, -, k5, k6, -, -⟩ := k1
    intro j
    by_cases hj : j = slot soc
    · subst hj
      right
      simp only [put_cb_table, set_cb_same]
      have hsy : TCP_CB_STATE_ISSYNC (w.cb_table (slot soc)).state := by
        rcases hst with e | e | e
        · exact Or.inl e
        · exact Or.inr (Or.inl e)
        · exact Or.inr (Or.inr (Or.inr (Or.inr (Or.inr (Or.inr (Or.inl e))))))
      refine ⟨rfl, hst, hsy, hs, k1, u1, k6, ?_⟩
      show ((w1.cb_table (slot soc)).snd.nxt + 1) % 2 ^ 32 = _
      rw [k5]
    · left
      simp only [put_cb_table, set_cb_other _ _ _ _ hj]
      exact cb_step_of_eq (o1 j hj)
  split at h
  · rename_i hst
    split at h
    · exact (outcome_step_fault _ _ _ h).elim
    · rename_i w1 h1
      exact fin _ w1 (Or.inr (Or.inr (Or.inl rfl)))
        (hst.elim Or.inl (fun e => Or.inr (Or.inl e))) h1 (outcome_step_sleep _ _ _ _ h)
  split at h
  · rename_i hst
    split at h
    · exact (outcome_step_fault _ _ _ h).elim
    · rename_i w1 h1
      exact fin _ w1 (Or.inr (Or.inr (Or.inr (Or.inr (Or.inr (Or.inr (Or.inr rfl)))))))
        (Or.inr (Or.inr hst)) h1 (outcome_step_sleep _ _ _ _ h)
  · exact fun j => Or.inl (tcp_api_close_wake_cb_step w w' soc k k' h j)

/-- Whatever an API call does to the table is, in every slot, a step of `cb_step` or the
sending step of the call. -/
theorem call_step_cb (U : Nat → Nat) (c : Call) (w w' : World) (k' : Option Cont)
    (h : call_step U c w = some (w', k')) :
    ∀ j, cb_step (w.cb_table j) (w'.cb_table j) ∨
      call_advances c j (w.cb_table j) (w'.cb_table j) := by
  cases c with
  | api_open =>
    simp only [call_step, Option.some.injEq, Prod.mk.injEq] at h
    rw [← h.1]
    exact fun j => Or.inl (tcp_api_open_cb_step w j)
  | api_bind soc addr =>
    simp only [call_step, Option.some.injEq, Prod.mk.injEq] at h
    rw [← h.1]
    exact fun j => Or.inl (tcp_api_bind_cb_step w soc addr j)
  | api_listen soc backlog =>
    simp only [call_step, Option.some.injEq, Prod.mk.injEq] at h
    rw [← h.1]
    exact fun j => Or.inl (tcp_api_listen_cb_step w soc backlog j)
  | api_accept soc addr addrlen killed =>
    exact fun j => Or.inl (tcp_api_accept_cb_step w w' soc addr addrlen killed _ k' h j)
  | api_connect soc addr now rnd =>
    exact fun j => Or.inl (tcp_api_connect_cb_step U now rnd w w' soc addr _ k' h j)
  | api_send soc buf => exact tcp_api_send_cb_step U w w' soc buf _ k' h
  | api_recv soc size killed =>
    exact fun j => Or.inl (tcp_api_recv_cb_step w w' soc size killed _ k' h j)
  | api_close soc => exact tcp_api_close_cb_step U w w' soc _ k' h

/-- Whatever a parked caller does to the table when it runs again is a step of `cb_step` in
every slot. -/
theorem wake_step_cb (k : Cont) (killed : Bool) (w w' : World) (k' : Option Cont)
    (h : wake_step k killed w = some (w', k')) :
    ∀ j, cb_step (w.cb_table j) (w'.cb_table j) := by
  cases k with
  | in_close soc => exact tcp_api_close_wake_cb_step w w' soc _ k' h
  | in_connect soc => exact tcp_api_connect_wake_cb_step w w' soc _ k' h
  | in_accept soc sin al => exact tcp_api_accept_wake_cb_step w w' soc sin al killed _ k' h
  | in_recv soc size => exact tcp_api_recv_wake_cb_step w w' soc size killed _ k' h

/-! ### The invariants along a run -/

theorem sync_ne_closed (s : Nat) (h : TCP_CB_STATE_ISSYNC s) : s ≠ TCP_CB_STATE_CLOSED := by
  rcases h with e | e | e | e | e | e | e | e <;> rw [e] <;> decide

theorem used_inv_step (c c' : tcp_cb) (hs : cb_step c c') (hi : used_inv c) : used_inv c' := by
  unfold used_inv at hi ⊢
  cases hs with
  | same h =>
    obtain ⟨h1, h2, -⟩ := h
    rw [h1, h2]; exact hi
  | zero h =>
    obtain ⟨h1, h2, -⟩ := h
    right
    rw [h1, h2]
    exact ⟨rfl, rfl⟩
  | alloc _ h2 => exact Or.inl h2
  | listen h1 _ _ h4 =>
    rw [h4]
    rcases hi with e | e
    · exact Or.inl e
    · exact absurd e.1 h1
  | connect h1 _ _ h4 =>
    rw [h4]
    rcases hi with e | e
    · exact Or.inl e
    · exact absurd e.1 h1
  | syn_rcvd h1 =>
    rcases h1 with ⟨e1, e2⟩ | ⟨-, e2⟩
    · rw [e2]
      rcases hi with e | e
      · exact Or.inl e
      · rw [e1] at e
        exact absurd e.2 (by decide)
    · exact Or.inl e2
  | established h1 _ h3 =>
    rw [h3]
    rcases hi with e | e
    · exact Or.inl e
    · rw [h1] at e
      exact absurd e.2 (by decide)
  | sync h1 _ h3 =>
    rw [h3]
    rcases hi with e | e
    · exact Or.inl e
    · exact absurd e.2 (sync_ne_closed _ h1)

theorem used_inv_advance (c c' : tcp_cb) (len : Nat) (hs : cb_advance len c c')
    (hi : used_inv c) : used_inv c' := by
  obtain ⟨h1, -, h3, -⟩ := hs
  unfold used_inv at hi ⊢
  rw [h3]
  rcases hi with e | e
  · exact Or.inl e
  · exact absurd e.2 (sync_ne_closed _ h1)

theorem call_advances_advance (c : Call) (j : Fin 16) (a b : tcp_cb)
    (h : call_advances c j a b) : ∃ len, cb_advance len a b := by
  cases c with
  | api_send soc buf => exact ⟨_, h.2.2⟩
  | api_close soc => exact ⟨_, h.2.2⟩
  | api_open => exact h.elim
  | api_bind _ _ => exact h.elim
  | api_listen _ _ => exact h.elim
  | api_accept _ _ _ _ => exact h.elim
  | api_connect _ _ _ _ => exact h.elim
  | api_recv _ _ _ => exact h.elim

/-- Every slot of a reachable table is allocated, or free and in CLOSED, whatever calls are
admitted. -/
theorem Reach_used_inv (U : Nat → Nat) (G : World → Call → Prop) (w : World) (ps : List Cont)
    (h : Reach U G w ps) : ∀ j, used_inv (w.cb_table j) := by
  induction h with
  | init kmem => exact fun j => Or.inr ⟨rfl, rfl⟩
  | call w w' ps c k _ _ hstep ih =>
    intro j
    rcases call_step_cb U c w w' k hstep j with hs | hs
    · exact used_inv_step _ _ hs (ih j)
    · obtain ⟨len, ha⟩ := call_advances_advance c j _ _ hs
      exact used_inv_advance _ _ len ha (ih j)
  | wake w w' ps k killed k' _ _ hstep ih =>
    exact fun j => used_inv_step _ _ (wake_step_cb k killed w w' k' hstep j) (ih j)
  | rx w w' ps rnd segment src dst iface _ hstep ih =>
    exact fun j => used_inv_step _ _ (tcp_rx_cb_step U rnd w w' segment src dst iface hstep j)
      (ih j)
/-- The run "open, bind, listen" is a run of the module. -/
theorem Reach_run_listen (U : Nat → Nat) (G : World → Call → Prop)
    (hG : ∀ w c, (∀ soc buf, c ≠ Call.api_send soc buf) → (∀ soc, c ≠ Call.api_close soc) →
      G w c) :
    Reach U G World_run_listen [] := by
  have h0 : Reach U G (World_init 64) [] := Reach.init 64
  have h1 := Reach.call _ _ _ Call.api_open none h0
    (hG _ _ (fun _ _ e => Call.noConfusion e) (fun _ e => Call.noConfusion e)) rfl
  have h2 := Reach.call _ _ _ (Call.api_bind 0 ⟨AF_INET, 0x5000, 0⟩) none h1
    (hG _ _ (fun _ _ e => Call.noConfusion e) (fun _ e => Call.noConfusion e)) rfl
  have h3 := Reach.call _ _ _ (Call.api_listen 0 1) none h2
    (hG _ _ (fun _ _ e => Call.noConfusion e) (fun _ e => Call.noConfusion e)) rfl
  exact h3

/-- Along the runs that stay in bounds the invariant holds: in every table state reached from
the all-zero table by API calls (open, bind, listen, accept, connect, send, recv, close, with
any arguments, clock and random values and kill flags, parked callers resuming at any time)
and incoming segments, none of which copies out of bounds or goes through `NULL` (see
`Reach`), every CB whose state is not CLOSED has `used = 1`. A run that overflows `window`
is outside this theorem. -/
theorem reachable_state_used (U : Nat → Nat) (w : World) (ps : List Cont)
    (h : Reach U any_call w ps) (j : Fin 16)
    (hs : (w.cb_table j).state ≠ TCP_CB_STATE_CLOSED) : (w.cb_table j).used = 1 := by
  rcases Reach_used_inv U any_call w ps h j with e | e
  · exact e
  · exact absurd e.2 hs

/-- An instance of the invariant: after "open, bind, listen" slot 0 is in LISTEN, and it is
used. -/
theorem reachable_state_used_witness :
    (World_run_listen.cb_table 0).state = TCP_CB_STATE_LISTEN ∧
    (World_run_listen.cb_table 0).used = 1 :=
  ⟨by decide, reachable_state_used U_sample World_run_listen []
    (Reach_run_listen U_sample any_call (fun _ _ _ _ => trivial)) 0 (by decide)⟩

/-! ### Handshake completion on the active side -/

theorem flg_is_synack (flg : Nat) (h : TCP_FLG_IS flg (TCP_FLG_SYN ||| TCP_FLG_ACK)) :
    ¬ TCP_FLG_ISSET flg TCP_FLG_RST ∧ TCP_FLG_ISSET flg TCP_FLG_ACK ∧
      TCP_FLG_ISSET flg TCP_FLG_SYN := by
  have h' : (flg &&& 0x3f) = 18 := h
  refine ⟨?_, ?_, ?_⟩
  · show ¬ ((flg &&& 0x3f) &&& 4) ≠ 0
    rw [h']; decide
  · show ((flg &&& 0x3f) &&& 16) ≠ 0
    rw [h']; decide
  · show ((flg &&& 0x3f) &&& 2) ≠ 0
    rw [h']; decide

/-- SYN_SENT, ACK set with an acknowledgement number outside `(iss, snd.nxt]` (plain unsigned
comparison): a RST goes out unless the segment carries RST, and nothing else happens. -/
theorem tcp_event_syn_sent_reject (U : Nat → Nat) (rnd : Nat) (w : World) (cb : Fin 16)
    (hdr : List Nat) (hs : (w.cb_table cb).state = TCP_CB_STATE_SYN_SENT)
    (hack : TCP_FLG_ISSET (hdr_flg hdr) TCP_FLG_ACK)
    (hbad : ntoh32 (hdr_ack hdr) ≤ (w.cb_table cb).iss ∨
      ntoh32 (hdr_ack hdr) > (w.cb_table cb).snd.nxt) :
    (TCP_FLG_ISSET (hdr_flg hdr) TCP_FLG_RST → tcp_incoming_event U rnd w cb hdr = some w) ∧
    (¬ TCP_FLG_ISSET (hdr_flg hdr) TCP_FLG_RST →
      ∃ (T : List tcp_txq_entry) (k : Nat), tcp_incoming_event U rnd w cb hdr = some
        { cb_table := set_cb w.cb_table cb { w.cb_table cb with txq := T },
          ip_out := w.ip_out ++ [⟨(w.cb_table cb).iface, IP_PROTOCOL_TCP,
            tcp_tx_segment (w.cb_table cb) (U (w.cb_table cb).iface) (ntoh32 (hdr_ack hdr)) 0
              TCP_FLG_RST [],
            TCP_HDR_SIZE + 0, (w.cb_table cb).peer.addr⟩],
          wakeups := w.wakeups, kmem := k }) := by
  have hev : tcp_incoming_event U rnd w cb hdr = tcp_event_syn_sent U w cb hdr := by
    rw [tcp_incoming_event_eq, hs, if_neg (by decide), if_neg (by decide), if_pos rfl]
  rw [hev]
  unfold tcp_event_syn_sent
  dsimp only
  rw [if_pos ⟨hack, hbad⟩]
  constructor
  · intro hr
    rw [if_neg (not_not.mpr hr)]
  · intro hr
    rw [if_pos hr]
    exact tcp_tx__form U w cb _ _ _ [] (by decide)

/-- SYN_SENT, flags SYN|ACK with an acknowledgement number inside `(iss, snd.nxt]` (plain
unsigned comparison): the CB becomes ESTABLISHED, an ACK goes out and the CB's sleepers are
woken. -/
theorem tcp_event_syn_sent_accept (U : Nat → Nat) (rnd : Nat) (w : World) (cb : Fin 16)
    (hdr : List Nat) (hs : (w.cb_table cb).state = TCP_CB_STATE_SYN_SENT)
    (hflg : TCP_FLG_IS (hdr_flg hdr) (TCP_FLG_SYN ||| TCP_FLG_ACK))
    (hwin : (w.cb_table cb).iss < ntoh32 (hdr_ack hdr) ∧
      ntoh32 (hdr_ack hdr) ≤ (w.cb_table cb).snd.nxt) :
    ∃ (T : List tcp_txq_entry) (k : Nat), tcp_incoming_event U rnd w cb hdr = some
      { cb_table := set_cb w.cb_table cb
          { w.cb_table cb with
            rcv.nxt := (ntoh32 (hdr_seq hdr) + 1) % 2 ^ 32, irs := ntoh32 (hdr_seq hdr),
            snd.una := ntoh32 (hdr_ack hdr), state := TCP_CB_STATE_ESTABLISHED, txq := T },
        ip_out := w.ip_out ++ [⟨(w.cb_table cb).iface, IP_PROTOCOL_TCP,
          tcp_tx_segment
            { w.cb_table cb with
              rcv.nxt := (ntoh32 (hdr_seq hdr) + 1) % 2 ^ 32, irs := ntoh32 (hdr_seq hdr),
              snd.una := ntoh32 (hdr_ack hdr), state := TCP_CB_STATE_ESTABLISHED }
            (U (w.cb_table cb).iface) (w.cb_table cb).snd.nxt
            ((ntoh32 (hdr_seq hdr) + 1) % 2 ^ 32) TCP_FLG_ACK [],
          TCP_HDR_SIZE + 0, (w.cb_table cb).peer.addr⟩],
        wakeups := w.wakeups ++ [cb], kmem := k } := by
  obtain ⟨hr, ha, hsy⟩ := flg_is_synack _ hflg
  have hev : tcp_incoming_event U rnd w cb hdr = tcp_event_syn_sent U w cb hdr := by
    rw [tcp_incoming_event_eq, hs, if_neg (by decide), if_neg (by decide), if_pos rfl]
  obtain ⟨T, k, h⟩ := tcp_tx__form U
    (w.put cb { w.cb_table cb with
      rcv.nxt := (ntoh32 (hdr_seq hdr) + 1) % 2 ^ 32, irs := ntoh32 (hdr_seq hdr),
      snd.una := ntoh32 (hdr_ack hdr), state := TCP_CB_STATE_ESTABLISHED }) cb
    (w.cb_table cb).snd.nxt ((ntoh32 (hdr_seq hdr) + 1) % 2 ^ 32) TCP_FLG_ACK [] (by decide)
  refine ⟨T, k, ?_⟩
  rw [hev]
  unfold tcp_event_syn_sent
  dsimp only
  rw [if_neg (by intro hc; have := hc.2; omega), if_neg hr, if_pos hsy, if_pos ha,
    if_pos hwin.1, h]
  simp only [World.put, set_cb_same, set_cb_set_cb, List.length_nil]

/-- SYN_SENT, flags exactly SYN: `irs` and `rcv.nxt` are set, an ACK with `seq = iss` goes
out, the state stays. -/
theorem tcp_event_syn_sent_syn (U : Nat → Nat) (rnd : Nat) (w : World) (cb : Fin 16)
    (hdr : List Nat) (hs : (w.cb_table cb).state = TCP_CB_STATE_SYN_SENT)
    (hflg : TCP_FLG_IS (hdr_flg hdr) TCP_FLG_SYN) :
    ∃ (T : List tcp_txq_entry) (k : Nat), tcp_incoming_event U rnd w cb hdr = some
      { cb_table := set_cb w.cb_table cb
          { w.cb_table cb with
            rcv.nxt := (ntoh32 (hdr_seq hdr) + 1) % 2 ^ 32, irs := ntoh32 (hdr_seq hdr),
            txq := T },
        ip_out := w.ip_out ++ [⟨(w.cb_table cb).iface, IP_PROTOCOL_TCP,
          tcp_tx_segment
            { w.cb_table cb with
              rcv.nxt := (ntoh32 (hdr_seq hdr) + 1) % 2 ^ 32, irs := ntoh32 (hdr_seq hdr) }
            (U (w.cb_table cb).iface) (w.cb_table cb).iss
            ((ntoh32 (hdr_seq hdr) + 1) % 2 ^ 32) TCP_FLG_ACK [],
          TCP_HDR_SIZE + 0, (w.cb_table cb).peer.addr⟩],
        wakeups := w.wakeups, kmem := k } := by
  obtain ⟨hr, ha, hsy⟩ := flg_is_syn _ hflg
  have hev : tcp_incoming_event U rnd w cb hdr = tcp_event_syn_sent U w cb hdr := by
    rw [tcp_incoming_event_eq, hs, if_neg (by decide), if_neg (by decide), if_pos rfl]
  obtain ⟨T, k, h⟩ := tcp_tx__form U
    (w.put cb { w.cb_table cb with
      rcv.nxt := (ntoh32 (hdr_seq hdr) + 1) % 2 ^ 32, irs := ntoh32 (hdr_seq hdr) }) cb
    (w.cb_table cb).iss ((ntoh32 (hdr_seq hdr) + 1) % 2 ^ 32) TCP_FLG_ACK [] (by decide)
  refine ⟨T, k, ?_⟩
  rw [hev]
  unfold tcp_event_syn_sent
  dsimp only
  rw [if_neg (fun hc => ha hc.1), if_neg hr, if_pos hsy, if_neg ha, h]
  simp only [World.put, set_cb_same, set_cb_set_cb, List.length_nil]

/-- The call `tcp_api_connect` on a used CLOSED CB without a port, once the port search has
succeeded: the caller sleeps, the CB is in SYN_SENT with `iss` the value of `random()` as a
`uint32_t` and `snd.nxt = iss + 1`, the interface reference is as it was. -/
theorem tcp_api_connect_sleeps (U : Nat → Nat) (now rnd : Nat) (w : World) (soc : Int)
    (addr : sockaddr_in) (p : Nat)
    (hv : ¬ TCP_SOCKET_ISINVALID soc) (hf : addr.sin_family = AF_INET)
    (hu : (w.cb_table (slot soc)).used ≠ 0)
    (hs : (w.cb_table (slot soc)).state = TCP_CB_STATE_CLOSED)
    (hp : (w.cb_table (slot soc)).port = 0)
    (hport : tcp_connect_port w.cb_table (TCP_SOURCE_PORT_MIN + now % 1024) = some p)
    (hne : hton16 p ≠ 0) :
    ∃ w1 : World, tcp_api_connect U now rnd w soc addr = Outcome.sleep w1 ∧
      (w1.cb_table (slot soc)).state = TCP_CB_STATE_SYN_SENT ∧
      (w1.cb_table (slot soc)).iss = rnd % 2 ^ 32 ∧
      (w1.cb_table (slot soc)).snd.nxt = (rnd % 2 ^ 32 + 1) % 2 ^ 32 ∧
      (w1.cb_table (slot soc)).iface = (w.cb_table (slot soc)).iface ∧
      (w1.cb_table (slot soc)).peer = ⟨addr.sin_addr, addr.sin_port⟩ ∧
      (w1.cb_table (slot soc)).snd.una = (w.cb_table (slot soc)).snd.una ∧
      w1.ip_out = w.ip_out ++ [⟨(w.cb_table (slot soc)).iface, IP_PROTOCOL_TCP,
        tcp_tx_segment
          { w.cb_table (slot soc) with
            port := hton16 p, peer := ⟨addr.sin_addr, addr.sin_port⟩,
            rcv.wnd := TCP_WINDOW_SIZE, iss := rnd % 2 ^ 32 }
          (U (w.cb_table (slot soc)).iface) (rnd % 2 ^ 32) 0 TCP_FLG_SYN [],
        TCP_HDR_SIZE + 0, addr.sin_addr⟩] := by
  obtain ⟨T, k, h⟩ := tcp_api_connect_form U now rnd w soc addr p hv hf hu hs hp hport hne
  refine ⟨_, h, ?_, ?_, ?_, ?_, ?_, ?_, rfl⟩ <;> simp only [set_cb_same]
/-- C21, as stated, fails on the code: `tcp_api_connect` with `random() = 0xFFFFFFFF` on a
fresh socket leaves slot 0 in SYN_SENT with `iss = 0xFFFFFFFF` and `snd.nxt = iss + 1 mod 2^32
= 0`; the segment has flags SYN|ACK and `ack = iss + 1 mod 2^32 = 0`. The CB does not become
ESTABLISHED: it stays in SYN_SENT and the only segment handed to `ip_tx` is a RST with
`seq = 0`. -/
theorem tcp_incoming_event_syn_sent_counterexample :
    ∃ w1 : World,
      tcp_api_connect U_sample 5 0xFFFFFFFF (World_opened 64 1) 0 ⟨AF_INET, 0x5000, 0x0100007f⟩ =
        Outcome.sleep w1 ∧
      (w1.cb_table 0).state = TCP_CB_STATE_SYN_SENT ∧
      (w1.cb_table 0).iss = 0xFFFFFFFF ∧
      (w1.cb_table 0).snd.nxt = ((w1.cb_table 0).iss + 1) % 2 ^ 32 ∧
      TCP_FLG_IS (hdr_flg segment_sample_synack0) (TCP_FLG_SYN ||| TCP_FLG_ACK) ∧
      ntoh32 (hdr_ack segment_sample_synack0) = ((w1.cb_table 0).iss + 1) % 2 ^ 32 ∧
      ∃ (w2 : World) (seg : List Nat),
        tcp_incoming_event U_sample 0 w1 0 segment_sample_synack0 = some w2 ∧
        (w2.cb_table 0).state = TCP_CB_STATE_SYN_SENT ∧
        w2.ip_out = w1.ip_out ++ [⟨0, IP_PROTOCOL_TCP, seg, 20, 0x0100007f⟩] ∧
        hdr_flg seg = TCP_FLG_RST ∧ ntoh32 (hdr_seq seg) = 0 := by
  obtain ⟨p, hport, l1, l2, -⟩ := tcp_connect_port_some (World_opened 64 1).cb_table
    (TCP_SOURCE_PORT_MIN + 5 % 1024) 49157 (by decide) (by decide)
    (fun j _ => by rw [World_opened_port]; decide)
  obtain ⟨w1, hc, s1, i1, n1, f1, p1, -⟩ := tcp_api_connect_sleeps U_sample 5 0xFFFFFFFF
    (World_opened 64 1) 0 ⟨AF_INET, 0x5000, 0x0100007f⟩ p (by decide) rfl (by decide) rfl rfl
    hport (hton16_ne_zero p (by change 49152 + 5 % 1024 ≤ p at l1; omega) l2)
  have s1' : (w1.cb_table 0).state = TCP_CB_STATE_SYN_SENT := s1
  have i1' : (w1.cb_table 0).iss = 0xFFFFFFFF := i1
  have n1' : (w1.cb_table 0).snd.nxt = 0 := n1
  have f1' : (w1.cb_table 0).iface = 0 := f1
  have p1' : (w1.cb_table 0).peer.addr = 0x0100007f := by
    have : (w1.cb_table 0).peer = ⟨0x0100007f, 0x5000⟩ := p1
    rw [this]
  refine ⟨w1, hc, s1', i1', ?_, by decide, ?_, ?_⟩
  · rw [n1', i1']
    decide
  · rw [i1']; decide
  · obtain ⟨T2, k2, he⟩ := (tcp_event_syn_sent_reject U_sample 0 w1 0 segment_sample_synack0
      s1' (by decide) (Or.inl (by rw [i1']; decide))).2 (by decide)
    refine ⟨_, tcp_tx_segment (w1.cb_table 0) (U_sample (w1.cb_table 0).iface)
      (ntoh32 (hdr_ack segment_sample_synack0)) 0 TCP_FLG_RST [], he, ?_, ?_, ?_, ?_⟩
    · simp only [set_cb_same]; exact s1'
    · simp only [f1', p1']
    · rw [tcp_tx_segment_flg]; rfl
    · rw [tcp_tx_segment_seq]; decide

/-- C21, amended: a CB in SYN_SENT (`iss` and `snd.nxt` are `uint32_t`), with the
acknowledgement number compared as a plain unsigned number. (a) A segment with flags SYN|ACK,
sequence number `q` and `iss < ack <= snd.nxt` (so `ack = iss + 1` when `snd.nxt = iss + 1`
has not wrapped) makes the CB ESTABLISHED with `snd.una = ack`, `irs = q`,
`rcv.nxt = (q + 1) mod 2^32`; exactly one segment goes to `ip_tx`, 20 bytes with
`seq = snd.nxt`, `ack = (q + 1) mod 2^32`, flags ACK; the CB's sleepers are woken. (b) A
segment with ACK set and `ack <= iss` or `ack > snd.nxt` changes nothing in the table but the
retransmission queue of the CB, and the only transmission is a 20-byte segment with
`seq = ack`, `ack = 0`, flags RST, sent unless the segment carries RST (then nothing at all
changes). (c) A segment with flags SYN only sets `irs = q` and `rcv.nxt = (q + 1) mod 2^32`,
sends one segment with `seq = iss`, `ack = rcv.nxt`, flags ACK, and the state stays
SYN_SENT. -/
theorem tcp_incoming_event_syn_sent (U : Nat → Nat) (rnd : Nat) (w : World) (cb : Fin 16)
    (hdr : List Nat) (hs : (w.cb_table cb).state = TCP_CB_STATE_SYN_SENT)
    (hi : (w.cb_table cb).iss < 2 ^ 32) (hn : (w.cb_table cb).snd.nxt < 2 ^ 32) :
    (TCP_FLG_IS (hdr_flg hdr) (TCP_FLG_SYN ||| TCP_FLG_ACK) →
      ((w.cb_table cb).iss < ntoh32 (hdr_ack hdr) ∧
        ntoh32 (hdr_ack hdr) ≤ (w.cb_table cb).snd.nxt) →
      ∃ (w' : World) (seg : List Nat),
        tcp_incoming_event U rnd w cb hdr = some w' ∧
        (w'.cb_table cb).state = TCP_CB_STATE_ESTABLISHED ∧
        (w'.cb_table cb).snd.una = ntoh32 (hdr_ack hdr) ∧
        (w'.cb_table cb).irs = ntoh32 (hdr_seq hdr) ∧
        (w'.cb_table cb).rcv.nxt = (ntoh32 (hdr_seq hdr) + 1) % 2 ^ 32 ∧
        (w'.cb_table cb).snd.nxt = (w.cb_table cb).snd.nxt ∧
        w'.ip_out = w.ip_out ++ [⟨(w.cb_table cb).iface, IP_PROTOCOL_TCP, seg, 20,
          (w.cb_table cb).peer.addr⟩] ∧
        seg.length = 20 ∧
        ntoh32 (hdr_seq seg) = (w.cb_table cb).snd.nxt ∧
        ntoh32 (hdr_ack seg) = (ntoh32 (hdr_seq hdr) + 1) % 2 ^ 32 ∧
        hdr_flg seg = TCP_FLG_ACK ∧
        w'.wakeups = w.wakeups ++ [cb] ∧
        (∀ j, j ≠ cb → w'.cb_table j = w.cb_table j)) ∧
    ((w.cb_table cb).snd.nxt = (w.cb_table cb).iss + 1 →
      ntoh32 (hdr_ack hdr) = (w.cb_table cb).iss + 1 →
      (w.cb_table cb).iss < ntoh32 (hdr_ack hdr) ∧
        ntoh32 (hdr_ack hdr) ≤ (w.cb_table cb).snd.nxt) ∧
    (TCP_FLG_ISSET (hdr_flg hdr) TCP_FLG_ACK →
      (ntoh32 (hdr_ack hdr) ≤ (w.cb_table cb).iss ∨
        ntoh32 (hdr_ack hdr) > (w.cb_table cb).snd.nxt) →
      (TCP_FLG_ISSET (hdr_flg hdr) TCP_FLG_RST → tcp_incoming_event U rnd w cb hdr = some w) ∧
      (¬ TCP_FLG_ISSET (hdr_flg hdr) TCP_FLG_RST →
        ∃ (w' : World) (seg : List Nat),
          tcp_incoming_event U rnd w cb hdr = some w' ∧
          w'.cb_table cb = { w.cb_table cb with txq := (w'.cb_table cb).txq } ∧
          (∀ j, j ≠ cb → w'.cb_table j = w.cb_table j) ∧
          w'.wakeups = w.wakeups ∧
          w'.ip_out = w.ip_out ++ [⟨(w.cb_table cb).iface, IP_PROTOCOL_TCP, seg, 20,
            (w.cb_table cb).peer.addr⟩] ∧
          seg.length = 20 ∧
          ntoh32 (hdr_seq seg) = ntoh32 (hdr_ack hdr) ∧
          ntoh32 (hdr_ack seg) = 0 ∧
          hdr_flg seg = TCP_FLG_RST)) ∧
    (TCP_FLG_IS (hdr_flg hdr) TCP_FLG_SYN →
      ∃ (w' : World) (seg : List Nat),
        tcp_incoming_event U rnd w cb hdr = some w' ∧
        (w'.cb_table cb).state = TCP_CB_STATE_SYN_SENT ∧
        (w'.cb_table cb).irs = ntoh32 (hdr_seq hdr) ∧
        (w'.cb_table cb).rcv.nxt = (ntoh32 (hdr_seq hdr) + 1) % 2 ^ 32 ∧
        (w'.cb_table cb).snd = (w.cb_table cb).snd ∧
        (w'.cb_table cb).iss = (w.cb_table cb).iss ∧
        w'.ip_out = w.ip_out ++ [⟨(w.cb_table cb).iface, IP_PROTOCOL_TCP, seg, 20,
          (w.cb_table cb).peer.addr⟩] ∧
        seg.length = 20 ∧
        ntoh32 (hdr_seq seg) = (w.cb_table cb).iss ∧
        ntoh32 (hdr_ack seg) = (w'.cb_table cb).rcv.nxt ∧
        hdr_flg seg = TCP_FLG_ACK ∧
        (∀ j, j ≠ cb → w'.cb_table j = w.cb_table j)) := by
  refine ⟨?_, ?_, ?_, ?_⟩
  · intro hflg hwin
    obtain ⟨T, k, h⟩ := tcp_event_syn_sent_accept U rnd w cb hdr hs hflg hwin
    refine ⟨_, _, h, ?_, ?_, ?_, ?_, ?_, rfl, tcp_tx_segment_length _ _ _ _ _ _, ?_, ?_, ?_,
      rfl, ?_⟩
    · simp only [set_cb_same]
    · simp only [set_cb_same]
    · simp only [set_cb_same]
    · simp only [set_cb_same]
    · simp only [set_cb_same]
    · rw [tcp_tx_segment_seq]; exact Nat.mod_eq_of_lt hn
    · rw [tcp_tx_segment_ack, Nat.mod_mod]
    · rw [tcp_tx_segment_flg]; rfl
    · intro j hj
      simp only [set_cb_other _ _ _ _ hj]
  · intro h1 h2
    omega
  · intro hack hbad
    obtain ⟨r1, r2⟩ := tcp_event_syn_sent_reject U rnd w cb hdr hs hack hbad
    refine ⟨r1, fun hr => ?_⟩
    obtain ⟨T, k, h⟩ := r2 hr
    refine ⟨_, _, h, ?_, ?_, rfl, rfl, tcp_tx_segment_length _ _ _ _ _ _, ?_, ?_, ?_⟩
    · simp only [set_cb_same]
    · intro j hj
      simp only [set_cb_other _ _ _ _ hj]
    · rw [tcp_tx_segment_seq]; exact Nat.mod_eq_of_lt (ntoh32_lt _)
    · rw [tcp_tx_segment_ack]; rfl
    · rw [tcp_tx_segment_flg]; rfl
  · intro hflg
    obtain ⟨T, k, h⟩ := tcp_event_syn_sent_syn U rnd w cb hdr hs hflg
    refine ⟨_, _, h, ?_, ?_, ?_, ?_, ?_, rfl, tcp_tx_segment_length _ _ _ _ _ _, ?_, ?_, ?_, ?_⟩
    · simp only [set_cb_same]; exact hs
    · simp only [set_cb_same]
    · simp only [set_cb_same]
    · simp only [set_cb_same]
    · simp only [set_cb_same]
    · rw [tcp_tx_segment_seq]; exact Nat.mod_eq_of_lt hi
    · rw [tcp_tx_segment_ack, Nat.mod_mod]
      simp only [set_cb_same]
    · rw [tcp_tx_segment_flg]; rfl
    · intro j hj
      simp only [set_cb_other _ _ _ _ hj]

/-- Witness for C21: the sample active open (`iss = 1000`, `snd.nxt = 1001`) is answered with
SYN|ACK, `seq = 0x100`, `ack = 1001`. -/
theorem tcp_incoming_event_syn_sent_witness :
    ((World_sample_syn_sent.cb_table 0).state = TCP_CB_STATE_SYN_SENT ∧
      (World_sample_syn_sent.cb_table 0).iss = 1000 ∧
      TCP_FLG_IS (hdr_flg segment_sample_synack1001) (TCP_FLG_SYN ||| TCP_FLG_ACK) ∧
      ntoh32 (hdr_ack segment_sample_synack1001) = 1001) ∧
    ∃ (w' : World) (seg : List Nat),
      tcp_incoming_event U_sample 0 World_sample_syn_sent 0 segment_sample_synack1001 = some w' ∧
      (w'.cb_table 0).state = TCP_CB_STATE_ESTABLISHED ∧
      (w'.cb_table 0).snd.una = 1001 ∧ (w'.cb_table 0).irs = 0x100 ∧
      (w'.cb_table 0).rcv.nxt = 0x101 ∧
      w'.ip_out = [⟨0, IP_PROTOCOL_TCP, seg, 20, 0x0100007f⟩] ∧
      ntoh32 (hdr_seq seg) = 1001 ∧ ntoh32 (hdr_ack seg) = 0x101 ∧ hdr_flg seg = TCP_FLG_ACK := by
  refine ⟨⟨rfl, rfl, by decide, by decide⟩, ?_⟩
  obtain ⟨w', seg, h1, h2, h3, h4, h5, -, h7, -, h9, h10, h11, -, -⟩ :=
    (tcp_incoming_event_syn_sent U_sample 0 World_sample_syn_sent 0 segment_sample_synack1001
      rfl (by decide) (by decide)).1 (by decide) (by decide)
  refine ⟨w', seg, h1, h2, ?_, ?_, ?_, h7, h9, ?_, h11⟩
  · rw [h3]; decide
  · rw [h4]; decide
  · rw [h5]; decide
  · rw [h10]; decide

/-! ### Acknowledgement processing -/

/-- In ESTABLISHED, FIN_WAIT_1, FIN_WAIT_2, CLOSE_WAIT and CLOSING a segment that passes the
precondition check is handed to the acknowledgement part. -/
theorem tcp_incoming_event_to_ack (U : Nat → Nat) (rnd : Nat) (w : World) (cb : Fin 16)
    (hdr : List Nat)
    (hs : (w.cb_table cb).state = TCP_CB_STATE_ESTABLISHED ∨
      (w.cb_table cb).state = TCP_CB_STATE_FIN_WAIT1 ∨
      (w.cb_table cb).state = TCP_CB_STATE_FIN_WAIT2 ∨
      (w.cb_table cb).state = TCP_CB_STATE_CLOSE_WAIT ∨
      (w.cb_table cb).state = TCP_CB_STATE_CLOSING)
    (hseq : ntoh32 (hdr_seq hdr) = (w.cb_table cb).rcv.nxt)
    (hack : TCP_FLG_ISSET (hdr_flg hdr) TCP_FLG_ACK)
    (hrst : ¬ TCP_FLG_ISSET (hdr_flg hdr) TCP_FLG_RST)
    (hsyn : ¬ TCP_FLG_ISSET (hdr_flg hdr) TCP_FLG_SYN) :
    tcp_incoming_event U rnd w cb hdr =
      tcp_event_ack U w cb hdr (seg_hlen hdr) (seg_plen hdr) := by
  have hrs : ¬ TCP_FLG_ISSET (hdr_flg hdr) (TCP_FLG_RST ||| TCP_FLG_SYN) := fun h =>
    (flg_isset_rst_syn_split _ h).elim hrst hsyn
  have h0 : (w.cb_table cb).state ≠ TCP_CB_STATE_CLOSED := by
    rcases hs with h | h | h | h | h <;> rw [h] <;> decide
  have h1 : (w.cb_table cb).state ≠ TCP_CB_STATE_LISTEN := by
    rcases hs with h | h | h | h | h <;> rw [h] <;> decide
  have h2 : (w.cb_table cb).state ≠ TCP_CB_STATE_SYN_SENT := by
    rcases hs with h | h | h | h | h <;> rw [h] <;> decide
  have h3 : (w.cb_table cb).state ≠ TCP_CB_STATE_SYN_RCVD := by
    rcases hs with h | h | h | h | h <;> rw [h] <;> decide
  rw [tcp_incoming_event_eq, if_neg h0, if_neg h1, if_neg h2]
  unfold tcp_event_synchronized
  simp only [hseq, ne_eq, not_true_eq_false, if_false, if_neg hrs, not_not.mpr hack,
    if_neg h3, if_pos hs]

/-- The acknowledgement part returns in ESTABLISHED, FIN_WAIT_1, FIN_WAIT_2 and CLOSE_WAIT
when the payload, if there is one, fits the receive window. -/
theorem tcp_event_ack_total (U : Nat → Nat) (w : World) (cb : Fin 16) (hdr : List Nat)
    (hfit : seg_plen hdr = 0 ∨ (seg_plen hdr ≤ (w.cb_table cb).rcv.wnd ∧
      (w.cb_table cb).rcv.wnd ≤ 4096 ∧ hdr_off hdr < 256 ∧ hdr.length < 2 ^ 32)) :
    ∃ w', tcp_event_ack U w cb hdr (seg_hlen hdr) (seg_plen hdr) = some w' := by
  have pay : ∀ X : tcp_cb, X.rcv.wnd = (w.cb_table cb).rcv.wnd →
      ∃ w', tcp_event_payload U (w.put cb X) cb hdr (seg_hlen hdr) (seg_plen hdr) = some w' := by
    intro X hX
    apply tcp_event_payload_total
    rcases hfit with h | ⟨h1, h2, h3, h4⟩
    · exact Or.inl h
    · refine Or.inr (Or.inr ?_)
      rw [put_cb_table, set_cb_same, hX]
      have := (seg_plen_fits hdr _ h3 h4 h2 h1).1
      refine ⟨?_, this⟩
      show (4096 + 2 ^ 32 - (w.cb_table cb).rcv.wnd) % 2 ^ 32 + seg_plen hdr ≤ 4096
      omega
  unfold tcp_event_ack
  dsimp only
  by_cases hgt : ¬ ((w.cb_table cb).snd.una < ntoh32 (hdr_ack hdr) ∧
      ntoh32 (hdr_ack hdr) ≤ (w.cb_table cb).snd.nxt) ∧
      ntoh32 (hdr_ack hdr) > (w.cb_table cb).snd.nxt
  · rw [if_pos hgt]
    exact tcp_tx__nil U w cb _ _ _
  rw [if_neg hgt]
  have rest : ∀ c1 : tcp_cb, c1.rcv.wnd = (w.cb_table cb).rcv.wnd →
      ∃ w', (if c1.state = TCP_CB_STATE_FIN_WAIT1 then
          tcp_event_payload U
            (w.put cb (if ntoh32 (hdr_ack hdr) = c1.snd.nxt then
              { c1 with state := TCP_CB_STATE_FIN_WAIT2 } else c1)) cb hdr (seg_hlen hdr)
            (seg_plen hdr)
        else if c1.state = TCP_CB_STATE_CLOSING then
          if ntoh32 (hdr_ack hdr) = c1.snd.nxt then
            some { (w.put cb { c1 with state := TCP_CB_STATE_TIME_WAIT }) with
                     wakeups := w.wakeups ++ [cb] }
          else some (w.put cb c1)
        else tcp_event_payload U (w.put cb c1) cb hdr (seg_hlen hdr) (seg_plen hdr)) =
          some w' := by
    intro c1 hc1
    by_cases a1 : c1.state = TCP_CB_STATE_FIN_WAIT1
    · rw [if_pos a1]
      by_cases a2 : ntoh32 (hdr_ack hdr) = c1.snd.nxt
      · rw [if_pos a2]; exact pay _ hc1
      · rw [if_neg a2]; exact pay _ hc1
    · rw [if_neg a1]
      by_cases a3 : c1.state = TCP_CB_STATE_CLOSING
      · rw [if_pos a3]
        by_cases a2 : ntoh32 (hdr_ack hdr) = c1.snd.nxt
        · rw [if_pos a2]; exact ⟨_, rfl⟩
        · rw [if_neg a2]; exact ⟨_, rfl⟩
      · rw [if_neg a3]; exact pay _ hc1
  by_cases hu : (w.cb_table cb).snd.una < ntoh32 (hdr_ack hdr) ∧
      ntoh32 (hdr_ack hdr) ≤ (w.cb_table cb).snd.nxt
  · simp only [if_pos hu]
    exact rest { w.cb_table cb with snd.una := ntoh32 (hdr_ack hdr) } rfl
  · simp only [if_neg hu]
    exact rest (w.cb_table cb) rfl

/-- An acknowledgement above `snd.nxt` (and so not inside `(snd.una, snd.nxt]`) is answered
with a bare ACK, and nothing else happens. -/
theorem tcp_event_ack_beyond (U : Nat → Nat) (w : World) (cb : Fin 16) (hdr : List Nat)
    (hlen plen : Nat) (hgt : ntoh32 (hdr_ack hdr) > (w.cb_table cb).snd.nxt) :
    ∃ (T : List tcp_txq_entry) (k : Nat), tcp_event_ack U w cb hdr hlen plen = some
      { cb_table := set_cb w.cb_table cb { w.cb_table cb with txq := T },
        ip_out := w.ip_out ++ [⟨(w.cb_table cb).iface, IP_PROTOCOL_TCP,
          tcp_tx_segment (w.cb_table cb) (U (w.cb_table cb).iface) (w.cb_table cb).snd.nxt
            (w.cb_table cb).rcv.nxt TCP_FLG_ACK [],
          TCP_HDR_SIZE + 0, (w.cb_table cb).peer.addr⟩],
        wakeups := w.wakeups, kmem := k } := by
  unfold tcp_event_ack
  dsimp only
  rw [if_pos ⟨fun h => by omega, hgt⟩]
  exact tcp_tx__form U w cb _ _ _ [] (by decide)

/-- In FIN_WAIT_1 an acknowledgement of exactly `snd.nxt` moves the CB to FIN_WAIT_2 before
the payload part runs. -/
theorem tcp_event_ack_fin_wait1 (U : Nat → Nat) (w : World) (cb : Fin 16) (hdr : List Nat)
    (hlen plen : Nat) (hs : (w.cb_table cb).state = TCP_CB_STATE_FIN_WAIT1)
    (he : ntoh32 (hdr_ack hdr) = (w.cb_table cb).snd.nxt) :
    ∃ u : Nat, tcp_event_ack U w cb hdr hlen plen =
      tcp_event_payload U
        (w.put cb { w.cb_table cb with snd.una := u, state := TCP_CB_STATE_FIN_WAIT2 }) cb hdr
        hlen plen := by
  have hgt : ¬ (¬ ((w.cb_table cb).snd.una < ntoh32 (hdr_ack hdr) ∧
      ntoh32 (hdr_ack hdr) ≤ (w.cb_table cb).snd.nxt) ∧
      ntoh32 (hdr_ack hdr) > (w.cb_table cb).snd.nxt) := by
    intro h; omega
  unfold tcp_event_ack
  simp only [if_neg hgt]
  by_cases hu : (w.cb_table cb).snd.una < ntoh32 (hdr_ack hdr) ∧
      ntoh32 (hdr_ack hdr) ≤ (w.cb_table cb).snd.nxt
  · simp only [if_pos hu]
    exact ⟨ntoh32 (hdr_ack hdr), by simp [hs, he]⟩
  · simp only [if_neg hu]
    exact ⟨(w.cb_table cb).snd.una, by simp only [if_pos hs, if_pos he]⟩
/-- What the acknowledgement part does to `snd.una`, `snd.nxt` and to the other slots, for a
segment that passes the precondition check in ESTABLISHED, FIN_WAIT_1, FIN_WAIT_2 or
CLOSE_WAIT and whose payload, if any, fits the receive window. -/
theorem tcp_incoming_event_ack_una (U : Nat → Nat) (rnd : Nat) (w : World) (cb : Fin 16)
    (hdr : List Nat)
    (hs : (w.cb_table cb).state = TCP_CB_STATE_ESTABLISHED ∨
      (w.cb_table cb).state = TCP_CB_STATE_FIN_WAIT1 ∨
      (w.cb_table cb).state = TCP_CB_STATE_FIN_WAIT2 ∨
      (w.cb_table cb).state = TCP_CB_STATE_CLOSE_WAIT)
    (hseq : ntoh32 (hdr_seq hdr) = (w.cb_table cb).rcv.nxt)
    (hack : TCP_FLG_ISSET (hdr_flg hdr) TCP_FLG_ACK)
    (hrst : ¬ TCP_FLG_ISSET (hdr_flg hdr) TCP_FLG_RST)
    (hsyn : ¬ TCP_FLG_ISSET (hdr_flg hdr) TCP_FLG_SYN)
    (hfit : seg_plen hdr = 0 ∨ (seg_plen hdr ≤ (w.cb_table cb).rcv.wnd ∧
      (w.cb_table cb).rcv.wnd ≤ 4096 ∧ hdr_off hdr < 256 ∧ hdr.length < 2 ^ 32)) :
    ∃ w' : World, tcp_incoming_event U rnd w cb hdr = some w' ∧
      (w'.cb_table cb).snd.una =
        (if (w.cb_table cb).snd.una < ntoh32 (hdr_ack hdr) ∧
            ntoh32 (hdr_ack hdr) ≤ (w.cb_table cb).snd.nxt then ntoh32 (hdr_ack hdr)
         else (w.cb_table cb).snd.una) ∧
      (w'.cb_table cb).snd.nxt = (w.cb_table cb).snd.nxt ∧
      (∀ j, j ≠ cb → w'.cb_table j = w.cb_table j) := by
  have hs5 : (w.cb_table cb).state = TCP_CB_STATE_ESTABLISHED ∨
      (w.cb_table cb).state = TCP_CB_STATE_FIN_WAIT1 ∨
      (w.cb_table cb).state = TCP_CB_STATE_FIN_WAIT2 ∨
      (w.cb_table cb).state = TCP_CB_STATE_CLOSE_WAIT ∨
      (w.cb_table cb).state = TCP_CB_STATE_CLOSING := by tauto
  have hev := tcp_incoming_event_to_ack U rnd w cb hdr hs5 hseq hack hrst hsyn
  obtain ⟨w', hw'⟩ := tcp_event_ack_total U w cb hdr hfit
  obtain ⟨⟨o, -, k⟩, u, -⟩ := tcp_event_ack_frame U w w' cb hdr _ _ hw'
  exact ⟨w', hev.trans hw', u, k.2.2.2.2.1, o⟩

/-- C22, as stated, fails on the code: slot 0 is ESTABLISHED with `snd.una = 0xFFFFFFF0` and
`snd.nxt = 0x10`; the segment passes the precondition check (`seq = rcv.nxt`, flags ACK) and
acknowledges 5, which lies in `(snd.una, snd.nxt]` in the modular ordering. `snd.una` does
not become 5: it stays `0xFFFFFFF0`. -/
theorem tcp_incoming_event_ack_counterexample :
    ((World_sample_wrapped.cb_table 0).state = TCP_CB_STATE_ESTABLISHED ∧
      (World_sample_wrapped.cb_table 0).snd.una = 0xFFFFFFF0 ∧
      (World_sample_wrapped.cb_table 0).snd.nxt = 0x10 ∧
      ntoh32 (hdr_seq segment_sample_ack5) = (World_sample_wrapped.cb_table 0).rcv.nxt ∧
      TCP_FLG_IS (hdr_flg segment_sample_ack5) TCP_FLG_ACK ∧
      ntoh32 (hdr_ack segment_sample_ack5) = 5 ∧
      seq_le (World_sample_wrapped.cb_table 0).snd.una (ntoh32 (hdr_ack segment_sample_ack5)) ∧
      (World_sample_wrapped.cb_table 0).snd.una ≠ ntoh32 (hdr_ack segment_sample_ack5) ∧
      seq_le (ntoh32 (hdr_ack segment_sample_ack5)) (World_sample_wrapped.cb_table 0).snd.nxt) ∧
    ∃ w' : World,
      tcp_incoming_event U_sample 0 World_sample_wrapped 0 segment_sample_ack5 = some w' ∧
      (w'.cb_table 0).snd.una = 0xFFFFFFF0 ∧ w'.ip_out = [] := by
  refine ⟨⟨rfl, rfl, rfl, by decide, by decide, by decide, by decide, by decide, by decide⟩, ?_⟩
  have hev := tcp_incoming_event_to_ack U_sample 0 World_sample_wrapped 0 segment_sample_ack5
    (Or.inl rfl) (by decide) (by decide) (by decide) (by decide)
  obtain ⟨w', hw'⟩ := tcp_event_ack_total U_sample World_sample_wrapped 0 segment_sample_ack5
    (Or.inl (by decide))
  obtain ⟨-, u, -⟩ := tcp_event_ack_frame U_sample World_sample_wrapped w' 0 segment_sample_ack5
    _ _ hw'
  refine ⟨w', hev.trans hw', ?_, ?_⟩
  · rw [u]; decide
  · have h2 : tcp_event_ack U_sample World_sample_wrapped 0 segment_sample_ack5
        (seg_hlen segment_sample_ack5) (seg_plen segment_sample_ack5) =
        some (World_sample_wrapped.put 0 (World_sample_wrapped.cb_table 0)) := by
      unfold tcp_event_ack
      dsimp only
      rw [if_neg (by decide), if_neg (by decide), if_neg (by decide), if_neg (by decide)]
      unfold tcp_event_payload
      dsimp only
      rw [if_neg (by decide)]
      unfold tcp_event_fin
      rw [if_neg (by decide)]
    rw [h2] at hw'
    injection hw' with hw'
    rw [← hw']
    rfl

/-- C22, amended: a CB in ESTABLISHED, FIN_WAIT_1, FIN_WAIT_2 or CLOSE_WAIT is handed a
segment that passes the precondition check (`seq = rcv.nxt`, ACK set, neither RST nor SYN)
and whose payload, if any, fits the receive window; `snd.nxt` and `rcv.nxt` are `uint32_t`;
all comparisons are between plain unsigned numbers. If `snd.una < ack <= snd.nxt`, `snd.una`
becomes `ack`; if `ack > snd.nxt`, exactly one segment goes to `ip_tx` (20 bytes,
`seq = snd.nxt`, `ack = rcv.nxt`, flags ACK) and nothing in the table changes but the
retransmission queue of the CB; if `ack <= snd.una`, `snd.una` stays. In every case `snd.nxt`
stays and `snd.una` stays or moves up, not above `snd.nxt`. A CB in FIN_WAIT_1 that receives
`ack = snd.nxt` ends in FIN_WAIT_2, or in TIME_WAIT if the segment also carries FIN. -/
theorem tcp_incoming_event_ack (U : Nat → Nat) (rnd : Nat) (w : World) (cb : Fin 16)
    (hdr : List Nat)
    (hs : (w.cb_table cb).state = TCP_CB_STATE_ESTABLISHED ∨
      (w.cb_table cb).state = TCP_CB_STATE_FIN_WAIT1 ∨
      (w.cb_table cb).state = TCP_CB_STATE_FIN_WAIT2 ∨
      (w.cb_table cb).state = TCP_CB_STATE_CLOSE_WAIT)
    (hseq : ntoh32 (hdr_seq hdr) = (w.cb_table cb).rcv.nxt)
    (hack : TCP_FLG_ISSET (hdr_flg hdr) TCP_FLG_ACK)
    (hrst : ¬ TCP_FLG_ISSET (hdr_flg hdr) TCP_FLG_RST)
    (hsyn : ¬ TCP_FLG_ISSET (hdr_flg hdr) TCP_FLG_SYN)
    (hfit : seg_plen hdr = 0 ∨ (seg_plen hdr ≤ (w.cb_table cb).rcv.wnd ∧
      (w.cb_table cb).rcv.wnd ≤ 4096 ∧ hdr_off hdr < 256 ∧ hdr.length < 2 ^ 32))
    (hn : (w.cb_table cb).snd.nxt < 2 ^ 32) (hr : (w.cb_table cb).rcv.nxt < 2 ^ 32) :
    (∃ w' : World, tcp_incoming_event U rnd w cb hdr = some w' ∧
      (((w.cb_table cb).snd.una < ntoh32 (hdr_ack hdr) ∧
          ntoh32 (hdr_ack hdr) ≤ (w.cb_table cb).snd.nxt) →
        (w'.cb_table cb).snd.una = ntoh32 (hdr_ack hdr)) ∧
      (ntoh32 (hdr_ack hdr) ≤ (w.cb_table cb).snd.una →
        (w'.cb_table cb).snd.una = (w.cb_table cb).snd.una) ∧
      (ntoh32 (hdr_ack hdr) > (w.cb_table cb).snd.nxt →
        (w'.cb_table cb).snd.una = (w.cb_table cb).snd.una) ∧
      ((w'.cb_table cb).snd.una = (w.cb_table cb).snd.una ∨
        ((w.cb_table cb).snd.una < (w'.cb_table cb).snd.una ∧
          (w'.cb_table cb).snd.una ≤ (w.cb_table cb).snd.nxt)) ∧
      (w'.cb_table cb).snd.nxt = (w.cb_table cb).snd.nxt ∧
      (∀ j, j ≠ cb → w'.cb_table j = w.cb_table j)) ∧
    (ntoh32 (hdr_ack hdr) > (w.cb_table cb).snd.nxt →
      ∃ (w' : World) (seg : List Nat),
        tcp_incoming_event U rnd w cb hdr = some w' ∧
        w'.cb_table cb = { w.cb_table cb with txq := (w'.cb_table cb).txq } ∧
        (∀ j, j ≠ cb → w'.cb_table j = w.cb_table j) ∧
        w'.wakeups = w.wakeups ∧
        w'.ip_out = w.ip_out ++ [⟨(w.cb_table cb).iface, IP_PROTOCOL_TCP, seg, 20,
          (w.cb_table cb).peer.addr⟩] ∧
        seg.length = 20 ∧
        ntoh32 (hdr_seq seg) = (w.cb_table cb).snd.nxt ∧
        ntoh32 (hdr_ack seg) = (w.cb_table cb).rcv.nxt ∧
        hdr_flg seg = TCP_FLG_ACK) ∧
    ((w.cb_table cb).state = TCP_CB_STATE_FIN_WAIT1 →
      ntoh32 (hdr_ack hdr) = (w.cb_table cb).snd.nxt →
      ∃ w' : World, tcp_incoming_event U rnd w cb hdr = some w' ∧
        (w'.cb_table cb).state =
          (if TCP_FLG_ISSET (hdr_flg hdr) TCP_FLG_FIN then TCP_CB_STATE_TIME_WAIT
           else TCP_CB_STATE_FIN_WAIT2)) := by
  have hs5 : (w.cb_table cb).state = TCP_CB_STATE_ESTABLISHED ∨
      (w.cb_table cb).state = TCP_CB_STATE_FIN_WAIT1 ∨
      (w.cb_table cb).state = TCP_CB_STATE_FIN_WAIT2 ∨
      (w.cb_table cb).state = TCP_CB_STATE_CLOSE_WAIT ∨
      (w.cb_table cb).state = TCP_CB_STATE_CLOSING := by tauto
  have hev := tcp_incoming_event_to_ack U rnd w cb hdr hs5 hseq hack hrst hsyn
  refine ⟨?_, ?_, ?_⟩
  · obtain ⟨w', h, u, n, o⟩ := tcp_incoming_event_ack_una U rnd w cb hdr hs hseq hack hrst hsyn
      hfit
    refine ⟨w', h, ?_, ?_, ?_, ack_una_cases _ _ _ _ u, n, o⟩
    · intro hin
      rw [u, if_pos hin]
    · intro hle
      rw [u, if_neg (fun hc => by omega)]
    · intro hgt
      rw [u, if_neg (fun hc => by omega)]
  · intro hgt
    obtain ⟨T, k, h⟩ := tcp_event_ack_beyond U w cb hdr (seg_hlen hdr) (seg_plen hdr) hgt
    refine ⟨_, _, hev.trans h, ?_, ?_, rfl, rfl, tcp_tx_segment_length _ _ _ _ _ _, ?_, ?_, ?_⟩
    · simp only [set_cb_same]
    · intro j hj
      simp only [set_cb_other _ _ _ _ hj]
    · rw [tcp_tx_segment_seq]; exact Nat.mod_eq_of_lt hn
    · rw [tcp_tx_segment_ack]; exact Nat.mod_eq_of_lt hr
    · rw [tcp_tx_segment_flg]; rfl
  · intro hfw he
    obtain ⟨u, hfw2⟩ := tcp_event_ack_fin_wait1 U w cb hdr (seg_hlen hdr) (seg_plen hdr) hfw he
    obtain ⟨w', hw'⟩ := tcp_event_ack_total U w cb hdr hfit
    refine ⟨w', hev.trans hw', ?_⟩
    rw [hfw2] at hw'
    obtain ⟨-, -, s⟩ := tcp_event_payload_frame U _ w' cb hdr _ _ hw'
    rw [s, put_cb_table, set_cb_same]
    split_ifs
    · rfl
    · rfl

/-- Witness for C22: the sample connection with one byte in flight (`snd.una = 1000`,
`snd.nxt = 1001`) receives the acknowledgement of 1001. -/
theorem tcp_incoming_event_ack_witness :
    ((World_sample_inflight.cb_table 0).state = TCP_CB_STATE_ESTABLISHED ∧
      (World_sample_inflight.cb_table 0).snd.una = 1000 ∧
      (World_sample_inflight.cb_table 0).snd.nxt = 1001 ∧
      ntoh32 (hdr_ack segment_sample_ack_est) = 1001) ∧
    ∃ w' : World,
      tcp_incoming_event U_sample 0 World_sample_inflight 0 segment_sample_ack_est = some w' ∧
      (w'.cb_table 0).snd.una = 1001 ∧ (w'.cb_table 0).snd.nxt = 1001 := by
  refine ⟨⟨rfl, rfl, rfl, by decide⟩, ?_⟩
  obtain ⟨w', h1, h2, -, -, -, h6, -⟩ :=
    (tcp_incoming_event_ack U_sample 0 World_sample_inflight 0 segment_sample_ack_est
      (Or.inl rfl) (by decide) (by decide) (by decide) (by decide) (Or.inl (by decide))
      (by decide) (by decide)).1
  refine ⟨w', h1, ?_, ?_⟩
  · rw [h2 (by decide)]; decide
  · rw [h6]; rfl

/-! ### FIN processing -/

/-- The FIN part of `tcp_incoming_event` for a segment that carries FIN, written out. -/
theorem tcp_event_fin_form (U : Nat → Nat) (w : World) (cb : Fin 16) (hdr : List Nat)
    (hf : TCP_FLG_ISSET (hdr_flg hdr) TCP_FLG_FIN) :
    ∃ (T : List tcp_txq_entry) (k : Nat) (wk : List (Fin 16)),
      tcp_event_fin U w cb hdr = some
        { cb_table := set_cb w.cb_table cb
            { w.cb_table cb with
              rcv.nxt := ((w.cb_table cb).rcv.nxt + 1) % 2 ^ 32, txq := T,
              state := fin_next (w.cb_table cb).state },
          ip_out := w.ip_out ++ [⟨(w.cb_table cb).iface, IP_PROTOCOL_TCP,
            tcp_tx_segment
              { w.cb_table cb with rcv.nxt := ((w.cb_table cb).rcv.nxt + 1) % 2 ^ 32 }
              (U (w.cb_table cb).iface) (w.cb_table cb).snd.nxt
              (((w.cb_table cb).rcv.nxt + 1) % 2 ^ 32) TCP_FLG_ACK [],
            TCP_HDR_SIZE + 0, (w.cb_table cb).peer.addr⟩],
          wakeups := wk, kmem := k } := by
  obtain ⟨T, k, h⟩ := tcp_tx__form U
    (w.put cb { w.cb_table cb with rcv.nxt := ((w.cb_table cb).rcv.nxt + 1) % 2 ^ 32 }) cb
    (w.cb_table cb).snd.nxt (((w.cb_table cb).rcv.nxt + 1) % 2 ^ 32) TCP_FLG_ACK [] (by decide)
  simp only [put_cb_table, set_cb_same, set_cb_set_cb, put_ip_out, put_wakeups,
    List.length_nil] at h
  unfold tcp_event_fin
  rw [if_pos hf]
  dsimp only
  simp only [put_cb_table, set_cb_same]
  rw [h]
  dsimp only
  simp only [set_cb_same]
  unfold fin_next
  by_cases c1 : (w.cb_table cb).state = TCP_CB_STATE_SYN_RCVD ∨
      (w.cb_table cb).state = TCP_CB_STATE_ESTABLISHED
  · rw [if_pos c1, if_pos c1]
    exact ⟨T, k, w.wakeups ++ [cb], by simp only [World.put, set_cb_same, set_cb_set_cb]⟩
  · rw [if_neg c1, if_neg c1]
    by_cases c2 : (w.cb_table cb).state = TCP_CB_STATE_FIN_WAIT1
    · rw [if_pos c2, if_pos c2]
      exact ⟨T, k, w.wakeups, by simp only [World.put, set_cb_same, set_cb_set_cb]⟩
    · rw [if_neg c2, if_neg c2]
      by_cases c3 : (w.cb_table cb).state = TCP_CB_STATE_FIN_WAIT2
      · rw [if_pos c3, if_pos c3]
        exact ⟨T, k, w.wakeups ++ [cb], by simp only [World.put, set_cb_same, set_cb_set_cb]⟩
      · rw [if_neg c3, if_neg c3]
        exact ⟨T, k, _, rfl⟩
/-- In ESTABLISHED, FIN_WAIT_1, FIN_WAIT_2 and CLOSE_WAIT an acknowledgement not above
`snd.nxt` leads on to the payload part, with `snd.una` as it was or moved up, and FIN_WAIT_1
turned into FIN_WAIT_2 when `snd.nxt` itself is acknowledged. -/
theorem tcp_event_ack_to_payload (U : Nat → Nat) (w : World) (cb : Fin 16) (hdr : List Nat)
    (hlen plen : Nat)
    (hs : (w.cb_table cb).state = TCP_CB_STATE_ESTABLISHED ∨
      (w.cb_table cb).state = TCP_CB_STATE_FIN_WAIT1 ∨
      (w.cb_table cb).state = TCP_CB_STATE_FIN_WAIT2 ∨
      (w.cb_table cb).state = TCP_CB_STATE_CLOSE_WAIT)
    (hle : ntoh32 (hdr_ack hdr) ≤ (w.cb_table cb).snd.nxt) :
    ∃ u : Nat, tcp_event_ack U w cb hdr hlen plen =
      tcp_event_payload U
        (w.put cb { w.cb_table cb with
          snd.una := u,
          state := (if (w.cb_table cb).state = TCP_CB_STATE_FIN_WAIT1 ∧
              ntoh32 (hdr_ack hdr) = (w.cb_table cb).snd.nxt then TCP_CB_STATE_FIN_WAIT2
            else (w.cb_table cb).state) }) cb hdr hlen plen := by
  have hgt : ¬ (¬ ((w.cb_table cb).snd.una < ntoh32 (hdr_ack hdr) ∧
      ntoh32 (hdr_ack hdr) ≤ (w.cb_table cb).snd.nxt) ∧
      ntoh32 (hdr_ack hdr) > (w.cb_table cb).snd.nxt) := by
    intro h; omega
  have hnc : ¬ (w.cb_table cb).state = TCP_CB_STATE_CLOSING := by
    rcases hs with h | h | h | h <;> rw [h] <;> decide
  have rest : ∀ c1 : tcp_cb, c1.state = (w.cb_table cb).state →
      c1.snd.nxt = (w.cb_table cb).snd.nxt →
      (if c1.state = TCP_CB_STATE_FIN_WAIT1 then
          tcp_event_payload U
            (w.put cb (if ntoh32 (hdr_ack hdr) = c1.snd.nxt then
              { c1 with state := TCP_CB_STATE_FIN_WAIT2 } else c1)) cb hdr hlen plen
        else if c1.state = TCP_CB_STATE_CLOSING then
          if ntoh32 (hdr_ack hdr) = c1.snd.nxt then
            some { (w.put cb { c1 with state := TCP_CB_STATE_TIME_WAIT }) with
                     wakeups := w.wakeups ++ [cb] }
          else some (w.put cb c1)
        else tcp_event_payload U (w.put cb c1) cb hdr hlen plen) =
      tcp_event_payload U
        (w.put cb { c1 with
          state := (if (w.cb_table cb).state = TCP_CB_STATE_FIN_WAIT1 ∧
              ntoh32 (hdr_ack hdr) = (w.cb_table cb).snd.nxt then TCP_CB_STATE_FIN_WAIT2
            else (w.cb_table cb).state) }) cb hdr hlen plen := by
    intro c1 e1 e2
    rw [e1, e2]
    by_cases a1 : (w.cb_table cb).state = TCP_CB_STATE_FIN_WAIT1
    · rw [if_pos a1]
      by_cases a2 : ntoh32 (hdr_ack hdr) = (w.cb_table cb).snd.nxt
      · rw [if_pos a2, if_pos ⟨a1, a2⟩]
      · rw [if_neg a2, if_neg (fun hc => a2 hc.2)]
        congr 2
        cases c1
        simp only at e1
        subst e1
        rfl
    · rw [if_neg a1, if_neg hnc, if_neg (fun hc => a1 hc.1)]
      congr 2
      cases c1
      simp only at e1
      subst e1
      rfl
  unfold tcp_event_ack
  simp only [if_neg hgt]
  by_cases hu : (w.cb_table cb).snd.una < ntoh32 (hdr_ack hdr) ∧
      ntoh32 (hdr_ack hdr) ≤ (w.cb_table cb).snd.nxt
  · simp only [if_pos hu]
    exact ⟨ntoh32 (hdr_ack hdr),
      rest { w.cb_table cb with snd.una := ntoh32 (hdr_ack hdr) } rfl rfl⟩
  · simp only [if_neg hu]
    exact ⟨(w.cb_table cb).snd.una, rest (w.cb_table cb) rfl rfl⟩

/-- The payload part ends with the FIN part, run on a table `w2` that is the old one but for
the CB: if a payload was stored its `window`, `rcv` and `txq` have moved and its bare ACK has
gone to `ip_tx`; nothing else differs. -/
theorem tcp_event_payload_to_fin (U : Nat → Nat) (w : World) (cb : Fin 16) (hdr : List Nat)
    (hlen plen : Nat)
    (hfit : plen = 0 ∨
      ¬ ((w.cb_table cb).state = TCP_CB_STATE_ESTABLISHED ∨
        (w.cb_table cb).state = TCP_CB_STATE_FIN_WAIT1 ∨
        (w.cb_table cb).state = TCP_CB_STATE_FIN_WAIT2) ∨
      ((TCP_WINDOW_SIZE + 2 ^ 32 - (w.cb_table cb).rcv.wnd) % 2 ^ 32 + plen ≤ TCP_WINDOW_SIZE ∧
        hlen + plen ≤ hdr.length)) :
    ∃ (w2 : World) (segp : List Nat),
      tcp_event_payload U w cb hdr hlen plen = tcp_event_fin U w2 cb hdr ∧
      (∀ j, j ≠ cb → w2.cb_table j = w.cb_table j) ∧
      w2.cb_table cb = { w.cb_table cb with
        window := (w2.cb_table cb).window, rcv := (w2.cb_table cb).rcv,
        txq := (w2.cb_table cb).txq } ∧
      (w2.cb_table cb).rcv.nxt =
        (if plen ≠ 0 ∧ ((w.cb_table cb).state = TCP_CB_STATE_ESTABLISHED ∨
            (w.cb_table cb).state = TCP_CB_STATE_FIN_WAIT1 ∨
            (w.cb_table cb).state = TCP_CB_STATE_FIN_WAIT2)
         then (ntoh32 (hdr_seq hdr) + plen) % 2 ^ 32 else (w.cb_table cb).rcv.nxt) ∧
      (w2.cb_table cb).rcv.wnd =
        (if plen ≠ 0 ∧ ((w.cb_table cb).state = TCP_CB_STATE_ESTABLISHED ∨
            (w.cb_table cb).state = TCP_CB_STATE_FIN_WAIT1 ∨
            (w.cb_table cb).state = TCP_CB_STATE_FIN_WAIT2)
         then ((w.cb_table cb).rcv.wnd + 2 ^ 16 - plen % 2 ^ 16) % 2 ^ 16
         else (w.cb_table cb).rcv.wnd) ∧
      segp.length = 20 ∧ hdr_flg segp = TCP_FLG_ACK ∧
      ntoh32 (hdr_seq segp) = (w.cb_table cb).snd.nxt % 2 ^ 32 ∧
      ntoh32 (hdr_ack segp) = (ntoh32 (hdr_seq hdr) + plen) % 2 ^ 32 ∧
      w2.ip_out = w.ip_out ++
        (if plen ≠ 0 ∧ ((w.cb_table cb).state = TCP_CB_STATE_ESTABLISHED ∨
            (w.cb_table cb).state = TCP_CB_STATE_FIN_WAIT1 ∨
            (w.cb_table cb).state = TCP_CB_STATE_FIN_WAIT2)
         then [⟨(w.cb_table cb).iface, IP_PROTOCOL_TCP, segp, 20, (w.cb_table cb).peer.addr⟩]
         else []) := by
  have hsp : ∀ c1 : tcp_cb,
      (tcp_tx_segment c1 (U (w.cb_table cb).iface) (w.cb_table cb).snd.nxt
        ((ntoh32 (hdr_seq hdr) + plen) % 2 ^ 32) TCP_FLG_ACK []).length = 20 ∧
      hdr_flg (tcp_tx_segment c1 (U (w.cb_table cb).iface) (w.cb_table cb).snd.nxt
        ((ntoh32 (hdr_seq hdr) + plen) % 2 ^ 32) TCP_FLG_ACK []) = TCP_FLG_ACK ∧
      ntoh32 (hdr_seq (tcp_tx_segment c1 (U (w.cb_table cb).iface) (w.cb_table cb).snd.nxt
        ((ntoh32 (hdr_seq hdr) + plen) % 2 ^ 32) TCP_FLG_ACK [])) =
        (w.cb_table cb).snd.nxt % 2 ^ 32 ∧
      ntoh32 (hdr_ack (tcp_tx_segment c1 (U (w.cb_table cb).iface) (w.cb_table cb).snd.nxt
        ((ntoh32 (hdr_seq hdr) + plen) % 2 ^ 32) TCP_FLG_ACK [])) =
        (ntoh32 (hdr_seq hdr) + plen) % 2 ^ 32 := by
    intro c1
    refine ⟨?_, ?_, ?_, ?_⟩
    · rw [tcp_tx_segment_length]; rfl
    · rw [tcp_tx_segment_flg]; rfl
    · rw [tcp_tx_segment_seq]
    · rw [tcp_tx_segment_ack, Nat.mod_mod]
  unfold tcp_event_payload
  dsimp only
  by_cases hc : plen ≠ 0 ∧ ((w.cb_table cb).state = TCP_CB_STATE_ESTABLISHED ∨
      (w.cb_table cb).state = TCP_CB_STATE_FIN_WAIT1 ∨
      (w.cb_table cb).state = TCP_CB_STATE_FIN_WAIT2)
  · simp only [if_pos hc]
    have hin : (TCP_WINDOW_SIZE + 2 ^ 32 - (w.cb_table cb).rcv.wnd) % 2 ^ 32 + plen ≤
        TCP_WINDOW_SIZE ∧ hlen + plen ≤ hdr.length := by
      rcases hfit with h | h | h
      · exact absurd h hc.1
      · exact absurd hc.2 h
      · exact h
    rw [if_pos hin]
    obtain ⟨T, k, h1⟩ := tcp_tx__form U
      (w.put cb { w.cb_table cb with
        window := (w.cb_table cb).window.take
            ((TCP_WINDOW_SIZE + 2 ^ 32 - (w.cb_table cb).rcv.wnd) % 2 ^ 32) ++
          (hdr.drop hlen).take plen ++ (w.cb_table cb).window.drop
            ((TCP_WINDOW_SIZE + 2 ^ 32 - (w.cb_table cb).rcv.wnd) % 2 ^ 32 + plen),
        rcv.nxt := (ntoh32 (hdr_seq hdr) + plen) % 2 ^ 32,
        rcv.wnd := ((w.cb_table cb).rcv.wnd + 2 ^ 16 - plen % 2 ^ 16) % 2 ^ 16 }) cb
      (w.cb_table cb).snd.nxt ((ntoh32 (hdr_seq hdr) + plen) % 2 ^ 32) TCP_FLG_ACK []
      (by decide)
    rw [h1]
    obtain ⟨p1, p2, p3, p4⟩ := hsp { w.cb_table cb with
        window := (w.cb_table cb).window.take
            ((TCP_WINDOW_SIZE + 2 ^ 32 - (w.cb_table cb).rcv.wnd) % 2 ^ 32) ++
          (hdr.drop hlen).take plen ++ (w.cb_table cb).window.drop
            ((TCP_WINDOW_SIZE + 2 ^ 32 - (w.cb_table cb).rcv.wnd) % 2 ^ 32 + plen),
        rcv.nxt := (ntoh32 (hdr_seq hdr) + plen) % 2 ^ 32,
        rcv.wnd := ((w.cb_table cb).rcv.wnd + 2 ^ 16 - plen % 2 ^ 16) % 2 ^ 16 }
    refine ⟨_, _, rfl, ?_, ?_, ?_, ?_, p1, p2, p3, p4, ?_⟩
    · intro j hj
      simp only [put_cb_table, set_cb_other _ _ _ _ hj]
    · simp only [put_cb_table, set_cb_same]
    · simp only [put_cb_table, set_cb_same]
    · simp only [put_cb_table, set_cb_same]
    · simp only [put_cb_table, put_ip_out, set_cb_same]
      rfl
  · simp only [if_neg hc]
    obtain ⟨p1, p2, p3, p4⟩ := hsp (w.cb_table cb)
    exact ⟨w, _, rfl, fun _ _ => rfl, rfl, rfl, rfl, p1, p2, p3, p4, (List.append_nil _).symm⟩

/-- In ESTABLISHED, FIN_WAIT_1, FIN_WAIT_2 and CLOSE_WAIT, with `ack <= snd.nxt` and a payload
that fits, the acknowledgement part and the payload part end with the FIN part on a table `w2`
that is the old one but for the CB: its state is as the acknowledgement part left it, `snd.una`
may have moved, a stored payload has moved `window`, `rcv` and `txq` and has sent its bare
ACK. -/
theorem tcp_event_ack_to_fin (U : Nat → Nat) (w : World) (cb : Fin 16) (hdr : List Nat)
    (hs : (w.cb_table cb).state = TCP_CB_STATE_ESTABLISHED ∨
      (w.cb_table cb).state = TCP_CB_STATE_FIN_WAIT1 ∨
      (w.cb_table cb).state = TCP_CB_STATE_FIN_WAIT2 ∨
      (w.cb_table cb).state = TCP_CB_STATE_CLOSE_WAIT)
    (hle : ntoh32 (hdr_ack hdr) ≤ (w.cb_table cb).snd.nxt)
    (hfit : seg_plen hdr = 0 ∨ (seg_plen hdr ≤ (w.cb_table cb).rcv.wnd ∧
      (w.cb_table cb).rcv.wnd ≤ 4096 ∧ hdr_off hdr < 256 ∧ hdr.length < 2 ^ 32)) :
    ∃ (w2 : World) (segp : List Nat),
      tcp_event_ack U w cb hdr (seg_hlen hdr) (seg_plen hdr) = tcp_event_fin U w2 cb hdr ∧
      (w2.cb_table cb).state =
        (if (w.cb_table cb).state = TCP_CB_STATE_FIN_WAIT1 ∧
            ntoh32 (hdr_ack hdr) = (w.cb_table cb).snd.nxt then TCP_CB_STATE_FIN_WAIT2
         else (w.cb_table cb).state) ∧
      (∀ j, j ≠ cb → w2.cb_table j = w.cb_table j) ∧
      w2.cb_table cb = { w.cb_table cb with
        state := (w2.cb_table cb).state, snd.una := (w2.cb_table cb).snd.una,
        window := (w2.cb_table cb).window, rcv := (w2.cb_table cb).rcv,
        txq := (w2.cb_table cb).txq } ∧
      (w2.cb_table cb).rcv.nxt =
        (if seg_plen hdr ≠ 0 ∧ ((w2.cb_table cb).state = TCP_CB_STATE_ESTABLISHED ∨
            (w2.cb_table cb).state = TCP_CB_STATE_FIN_WAIT1 ∨
            (w2.cb_table cb).state = TCP_CB_STATE_FIN_WAIT2)
         then (ntoh32 (hdr_seq hdr) + seg_plen hdr) % 2 ^ 32 else (w.cb_table cb).rcv.nxt) ∧
      (w2.cb_table cb).rcv.wnd =
        (if seg_plen hdr ≠ 0 ∧ ((w2.cb_table cb).state = TCP_CB_STATE_ESTABLISHED ∨
            (w2.cb_table cb).state = TCP_CB_STATE_FIN_WAIT1 ∨
            (w2.cb_table cb).state = TCP_CB_STATE_FIN_WAIT2)
         then (w.cb_table cb).rcv.wnd - seg_plen hdr else (w.cb_table cb).rcv.wnd) ∧
      segp.length = 20 ∧ hdr_flg segp = TCP_FLG_ACK ∧
      ntoh32 (hdr_seq segp) = (w.cb_table cb).snd.nxt % 2 ^ 32 ∧
      ntoh32 (hdr_ack segp) = (ntoh32 (hdr_seq hdr) + seg_plen hdr) % 2 ^ 32 ∧
      w2.ip_out = w.ip_out ++
        (if seg_plen hdr ≠ 0 ∧ ((w2.cb_table cb).state = TCP_CB_STATE_ESTABLISHED ∨
            (w2.cb_table cb).state = TCP_CB_STATE_FIN_WAIT1 ∨
            (w2.cb_table cb).state = TCP_CB_STATE_FIN_WAIT2)
         then [⟨(w.cb_table cb).iface, IP_PROTOCOL_TCP, segp, 20, (w.cb_table cb).peer.addr⟩]
         else []) := by
  obtain ⟨u, e2⟩ := tcp_event_ack_to_payload U w cb hdr (seg_hlen hdr) (seg_plen hdr) hs hle
  obtain ⟨w2, segp, e3, o3, c3, n3, d3, p1, p2, p3, p4, i3⟩ := tcp_event_payload_to_fin U
    (w.put cb { w.cb_table cb with
        snd.una := u,
        state := (if (w.cb_table cb).state = TCP_CB_STATE_FIN_WAIT1 ∧
            ntoh32 (hdr_ack hdr) = (w.cb_table cb).snd.nxt then TCP_CB_STATE_FIN_WAIT2
          else (w.cb_table cb).state) }) cb hdr (seg_hlen hdr) (seg_plen hdr)
    (by
      rcases hfit with h | ⟨h1, h2, h3, h4⟩
      · exact Or.inl h
      · refine Or.inr (Or.inr ?_)
        rw [put_cb_table, set_cb_same]
        have := (seg_plen_fits hdr _ h3 h4 h2 h1).1
        refine ⟨?_, this⟩
        show (4096 + 2 ^ 32 - (w.cb_table cb).rcv.wnd) % 2 ^ 32 + seg_plen hdr ≤ 4096
        omega)
  rw [put_cb_table, set_cb_same] at c3 n3 d3 p3 i3
  have hS : (w2.cb_table cb).state =
      (if (w.cb_table cb).state = TCP_CB_STATE_FIN_WAIT1 ∧
          ntoh32 (hdr_ack hdr) = (w.cb_table cb).snd.nxt then TCP_CB_STATE_FIN_WAIT2
       else (w.cb_table cb).state) := by
    conv_lhs => rw [c3]
  have hU : (w2.cb_table cb).snd.una = u := by
    conv_lhs => rw [c3]
  refine ⟨w2, segp, e2.trans e3, hS, ?_, ?_, ?_, ?_, p1, p2, p3, p4, ?_⟩
  · intro j hj
    rw [o3 j hj, put_cb_table, set_cb_other _ _ _ _ hj]
  · conv_lhs => rw [c3]
    rw [hS, hU]
  · rw [n3, hS]
  · rw [d3, hS]
    by_cases hc : seg_plen hdr ≠ 0 ∧
        ((if (w.cb_table cb).state = TCP_CB_STATE_FIN_WAIT1 ∧
            ntoh32 (hdr_ack hdr) = (w.cb_table cb).snd.nxt then TCP_CB_STATE_FIN_WAIT2
          else (w.cb_table cb).state) = TCP_CB_STATE_ESTABLISHED ∨
        (if (w.cb_table cb).state = TCP_CB_STATE_FIN_WAIT1 ∧
            ntoh32 (hdr_ack hdr) = (w.cb_table cb).snd.nxt then TCP_CB_STATE_FIN_WAIT2
          else (w.cb_table cb).state) = TCP_CB_STATE_FIN_WAIT1 ∨
        (if (w.cb_table cb).state = TCP_CB_STATE_FIN_WAIT1 ∧
            ntoh32 (hdr_ack hdr) = (w.cb_table cb).snd.nxt then TCP_CB_STATE_FIN_WAIT2
          else (w.cb_table cb).state) = TCP_CB_STATE_FIN_WAIT2)
    · rw [if_pos hc, if_pos hc]
      rcases hfit with h | ⟨h1, h2, -, -⟩
      · exact absurd h hc.1
      · show ((w.cb_table cb).rcv.wnd + 2 ^ 16 - seg_plen hdr % 2 ^ 16) % 2 ^ 16 = _
        omega
    · rw [if_neg hc, if_neg hc]
  · rw [i3, hS]
    rfl
/-- Every way a FIN-carrying segment gets through the precondition check and the
acknowledgement part ends in the FIN part, run on the table `w2` as payload handling left it.
The ways: ESTABLISHED, FIN_WAIT_1, FIN_WAIT_2 or CLOSE_WAIT with `ack <= snd.nxt`; TIME_WAIT;
SYN_RCVD with an acknowledgement outside `[snd.una, snd.nxt]` (answered with RST); SYN_RCVD
with an acknowledgement inside (promoted to ESTABLISHED and pushed on the backlog of its
parent). `w2` is tied to `w`: the other slots are as in `w` (the parent apart, in the last
way), the CB differs in `state`, `snd.una`, `window`, `rcv` and `txq` at most, and what has
gone to `ip_tx` is the RST of the third way or the bare ACK of a stored payload, nothing
else. -/
theorem tcp_incoming_event_to_fin (U : Nat → Nat) (rnd : Nat) (w : World) (cb : Fin 16)
    (hdr : List Nat)
    (hseq : ntoh32 (hdr_seq hdr) = (w.cb_table cb).rcv.nxt)
    (hack : TCP_FLG_ISSET (hdr_flg hdr) TCP_FLG_ACK)
    (hrst : ¬ TCP_FLG_ISSET (hdr_flg hdr) TCP_FLG_RST)
    (hsyn : ¬ TCP_FLG_ISSET (hdr_flg hdr) TCP_FLG_SYN)
    (hfit : seg_plen hdr = 0 ∨ (seg_plen hdr ≤ (w.cb_table cb).rcv.wnd ∧
      (w.cb_table cb).rcv.wnd ≤ 4096 ∧ hdr_off hdr < 256 ∧ hdr.length < 2 ^ 32))
    (hcase :
      (((w.cb_table cb).state = TCP_CB_STATE_ESTABLISHED ∨
          (w.cb_table cb).state = TCP_CB_STATE_FIN_WAIT1 ∨
          (w.cb_table cb).state = TCP_CB_STATE_FIN_WAIT2 ∨
          (w.cb_table cb).state = TCP_CB_STATE_CLOSE_WAIT) ∧
        ntoh32 (hdr_ack hdr) ≤ (w.cb_table cb).snd.nxt) ∨
      (w.cb_table cb).state = TCP_CB_STATE_TIME_WAIT ∨
      ((w.cb_table cb).state = TCP_CB_STATE_SYN_RCVD ∧
        ¬ ((w.cb_table cb).snd.una ≤ ntoh32 (hdr_ack hdr) ∧
          ntoh32 (hdr_ack hdr) ≤ (w.cb_table cb).snd.nxt)) ∨
      ((w.cb_table cb).state = TCP_CB_STATE_SYN_RCVD ∧
        ((w.cb_table cb).snd.una ≤ ntoh32 (hdr_ack hdr) ∧
          ntoh32 (hdr_ack hdr) ≤ (w.cb_table cb).snd.nxt) ∧
        ∃ p, (w.cb_table cb).parent = some p ∧ p ≠ cb)) :
    ∃ (w2 : World) (segr segp : List Nat),
      tcp_incoming_event U rnd w cb hdr = tcp_event_fin U w2 cb hdr ∧
      (w2.cb_table cb).state =
        (if (w.cb_table cb).state = TCP_CB_STATE_SYN_RCVD ∧
            ((w.cb_table cb).snd.una ≤ ntoh32 (hdr_ack hdr) ∧
              ntoh32 (hdr_ack hdr) ≤ (w.cb_table cb).snd.nxt) then TCP_CB_STATE_ESTABLISHED
         else if (w.cb_table cb).state = TCP_CB_STATE_FIN_WAIT1 ∧
            ntoh32 (hdr_ack hdr) = (w.cb_table cb).snd.nxt then TCP_CB_STATE_FIN_WAIT2
         else (w.cb_table cb).state) ∧
      (∀ j, j ≠ cb →
        ¬ (((w.cb_table cb).state = TCP_CB_STATE_SYN_RCVD ∧
            ((w.cb_table cb).snd.una ≤ ntoh32 (hdr_ack hdr) ∧
              ntoh32 (hdr_ack hdr) ≤ (w.cb_table cb).snd.nxt)) ∧
          (w.cb_table cb).parent = some j) →
        w2.cb_table j = w.cb_table j) ∧
      (((w.cb_table cb).state = TCP_CB_STATE_SYN_RCVD ∧
          ((w.cb_table cb).snd.una ≤ ntoh32 (hdr_ack hdr) ∧
            ntoh32 (hdr_ack hdr) ≤ (w.cb_table cb).snd.nxt)) →
        ∀ p, (w.cb_table cb).parent = some p →
          w2.cb_table p = { w.cb_table p with backlog := (w.cb_table p).backlog ++ [cb] }) ∧
      w2.cb_table cb = { w.cb_table cb with
        state := (w2.cb_table cb).state, snd.una := (w2.cb_table cb).snd.una,
        window := (w2.cb_table cb).window, rcv := (w2.cb_table cb).rcv,
        txq := (w2.cb_table cb).txq } ∧
      (w2.cb_table cb).rcv.nxt =
        (if seg_plen hdr ≠ 0 ∧ ((w2.cb_table cb).state = TCP_CB_STATE_ESTABLISHED ∨
            (w2.cb_table cb).state = TCP_CB_STATE_FIN_WAIT1 ∨
            (w2.cb_table cb).state = TCP_CB_STATE_FIN_WAIT2)
         then (ntoh32 (hdr_seq hdr) + seg_plen hdr) % 2 ^ 32 else (w.cb_table cb).rcv.nxt) ∧
      (w2.cb_table cb).rcv.wnd =
        (if seg_plen hdr ≠ 0 ∧ ((w2.cb_table cb).state = TCP_CB_STATE_ESTABLISHED ∨
            (w2.cb_table cb).state = TCP_CB_STATE_FIN_WAIT1 ∨
            (w2.cb_table cb).state = TCP_CB_STATE_FIN_WAIT2)
         then (w.cb_table cb).rcv.wnd - seg_plen hdr else (w.cb_table cb).rcv.wnd) ∧
      (segr.length = 20 ∧ hdr_flg segr = TCP_FLG_RST ∧
        ntoh32 (hdr_seq segr) = ntoh32 (hdr_ack hdr)) ∧
      (segp.length = 20 ∧ hdr_flg segp = TCP_FLG_ACK ∧
        ntoh32 (hdr_seq segp) = (w.cb_table cb).snd.nxt % 2 ^ 32 ∧
        ntoh32 (hdr_ack segp) = (ntoh32 (hdr_seq hdr) + seg_plen hdr) % 2 ^ 32) ∧
      w2.ip_out = w.ip_out ++
        (if (w.cb_table cb).state = TCP_CB_STATE_SYN_RCVD ∧
            ¬ ((w.cb_table cb).snd.una ≤ ntoh32 (hdr_ack hdr) ∧
              ntoh32 (hdr_ack hdr) ≤ (w.cb_table cb).snd.nxt)
         then [⟨(w.cb_table cb).iface, IP_PROTOCOL_TCP, segr, 20, (w.cb_table cb).peer.addr⟩]
         else []) ++
        (if seg_plen hdr ≠ 0 ∧ ((w2.cb_table cb).state = TCP_CB_STATE_ESTABLISHED ∨
            (w2.cb_table cb).state = TCP_CB_STATE_FIN_WAIT1 ∨
            (w2.cb_table cb).state = TCP_CB_STATE_FIN_WAIT2)
         then [⟨(w.cb_table cb).iface, IP_PROTOCOL_TCP, segp, 20, (w.cb_table cb).peer.addr⟩]
         else []) := by
  have hrs : ¬ TCP_FLG_ISSET (hdr_flg hdr) (TCP_FLG_RST ||| TCP_FLG_SYN) := fun h =>
    (flg_isset_rst_syn_split _ h).elim hrst hsyn
  -- the RST of the third way and a bare ACK of the payload, to name where none is sent
  have hr : (tcp_tx_segment (w.cb_table cb) (U (w.cb_table cb).iface) (ntoh32 (hdr_ack hdr)) 0
        TCP_FLG_RST []).length = 20 ∧
      hdr_flg (tcp_tx_segment (w.cb_table cb) (U (w.cb_table cb).iface)
        (ntoh32 (hdr_ack hdr)) 0 TCP_FLG_RST []) = TCP_FLG_RST ∧
      ntoh32 (hdr_seq (tcp_tx_segment (w.cb_table cb) (U (w.cb_table cb).iface)
        (ntoh32 (hdr_ack hdr)) 0 TCP_FLG_RST [])) = ntoh32 (hdr_ack hdr) := by
    refine ⟨?_, ?_, ?_⟩
    · rw [tcp_tx_segment_length]; rfl
    · rw [tcp_tx_segment_flg]; rfl
    · rw [tcp_tx_segment_seq]; exact Nat.mod_eq_of_lt (ntoh32_lt _)
  have hp : (tcp_tx_segment (w.cb_table cb) (U (w.cb_table cb).iface) (w.cb_table cb).snd.nxt
        ((ntoh32 (hdr_seq hdr) + seg_plen hdr) % 2 ^ 32) TCP_FLG_ACK []).length = 20 ∧
      hdr_flg (tcp_tx_segment (w.cb_table cb) (U (w.cb_table cb).iface)
        (w.cb_table cb).snd.nxt ((ntoh32 (hdr_seq hdr) + seg_plen hdr) % 2 ^ 32)
        TCP_FLG_ACK []) = TCP_FLG_ACK ∧
      ntoh32 (hdr_seq (tcp_tx_segment (w.cb_table cb) (U (w.cb_table cb).iface)
        (w.cb_table cb).snd.nxt ((ntoh32 (hdr_seq hdr) + seg_plen hdr) % 2 ^ 32)
        TCP_FLG_ACK [])) = (w.cb_table cb).snd.nxt % 2 ^ 32 ∧
      ntoh32 (hdr_ack (tcp_tx_segment (w.cb_table cb) (U (w.cb_table cb).iface)
        (w.cb_table cb).snd.nxt ((ntoh32 (hdr_seq hdr) + seg_plen hdr) % 2 ^ 32)
        TCP_FLG_ACK [])) = (ntoh32 (hdr_seq hdr) + seg_plen hdr) % 2 ^ 32 := by
    refine ⟨?_, ?_, ?_, ?_⟩
    · rw [tcp_tx_segment_length]; rfl
    · rw [tcp_tx_segment_flg]; rfl
    · rw [tcp_tx_segment_seq]
    · rw [tcp_tx_segment_ack, Nat.mod_mod]
  rcases hcase with ⟨hs, hle⟩ | hs | ⟨hs, hout⟩ | ⟨hs, hin, p, hpar, hpc⟩
  · -- ESTABLISHED, FIN_WAIT_1, FIN_WAIT_2, CLOSE_WAIT
    have e1 := tcp_incoming_event_to_ack U rnd w cb hdr
      (by rcases hs with h | h | h | h
          · exact Or.inl h
          · exact Or.inr (Or.inl h)
          · exact Or.inr (Or.inr (Or.inl h))
          · exact Or.inr (Or.inr (Or.inr (Or.inl h)))) hseq hack hrst hsyn
    have hns : (w.cb_table cb).state ≠ TCP_CB_STATE_SYN_RCVD := by
      rcases hs with h | h | h | h <;> rw [h] <;> decide
    obtain ⟨w2, segp, e2, s2, o2, c2, n2, d2, p1, p2, p3, p4, i2⟩ :=
      tcp_event_ack_to_fin U w cb hdr hs hle hfit
    have hna : ¬ ((w.cb_table cb).state = TCP_CB_STATE_SYN_RCVD ∧
        ((w.cb_table cb).snd.una ≤ ntoh32 (hdr_ack hdr) ∧
          ntoh32 (hdr_ack hdr) ≤ (w.cb_table cb).snd.nxt)) := fun h => hns h.1
    have hnr : ¬ ((w.cb_table cb).state = TCP_CB_STATE_SYN_RCVD ∧
        ¬ ((w.cb_table cb).snd.una ≤ ntoh32 (hdr_ack hdr) ∧
          ntoh32 (hdr_ack hdr) ≤ (w.cb_table cb).snd.nxt)) := fun h => hns h.1
    refine ⟨w2, _, segp, e1.trans e2, ?_, fun j hj _ => o2 j hj,
      fun h => absurd h.1 hns, c2, n2, d2, hr, ⟨p1, p2, p3, p4⟩, ?_⟩
    · rw [s2, if_neg hna]
    · rw [i2, if_neg hnr, List.append_nil]
  · -- TIME_WAIT
    have hnrx : ¬ (seg_plen hdr ≠ 0 ∧ ((w.cb_table cb).state = TCP_CB_STATE_ESTABLISHED ∨
        (w.cb_table cb).state = TCP_CB_STATE_FIN_WAIT1 ∨
        (w.cb_table cb).state = TCP_CB_STATE_FIN_WAIT2)) := by
      rw [hs]
      intro h
      rcases h.2 with h | h | h <;> exact absurd h (by decide)
    have hns : (w.cb_table cb).state ≠ TCP_CB_STATE_SYN_RCVD := by rw [hs]; decide
    have hnf : ¬ ((w.cb_table cb).state = TCP_CB_STATE_FIN_WAIT1 ∧
        ntoh32 (hdr_ack hdr) = (w.cb_table cb).snd.nxt) := by
      rw [hs]
      exact fun h => absurd h.1 (by decide)
    have hna : ¬ ((w.cb_table cb).state = TCP_CB_STATE_SYN_RCVD ∧
        ((w.cb_table cb).snd.una ≤ ntoh32 (hdr_ack hdr) ∧
          ntoh32 (hdr_ack hdr) ≤ (w.cb_table cb).snd.nxt)) := fun h => hns h.1
    have hnr : ¬ ((w.cb_table cb).state = TCP_CB_STATE_SYN_RCVD ∧
        ¬ ((w.cb_table cb).snd.una ≤ ntoh32 (hdr_ack hdr) ∧
          ntoh32 (hdr_ack hdr) ≤ (w.cb_table cb).snd.nxt)) := fun h => hns h.1
    refine ⟨w, _, _, ?_, ?_, fun _ _ _ => rfl, fun h => absurd h.1 hns, rfl, ?_, ?_, hr, hp,
      ?_⟩
    · rw [tcp_incoming_event_eq, hs, if_neg (by decide), if_neg (by decide), if_neg (by decide)]
      unfold tcp_event_synchronized
      simp only [hseq, ne_eq, not_true_eq_false, if_false, if_neg hrs, not_not.mpr hack, hs]
      rw [if_neg (by decide), if_neg (by decide), if_neg (by decide)]
      unfold tcp_event_payload
      dsimp only
      rw [if_neg]
      rw [hs]
      intro h
      rcases h.2 with h | h | h <;> exact absurd h (by decide)
    · rw [if_neg hna, if_neg hnf]
    · rw [if_neg hnrx]
    · rw [if_neg hnrx]
    · rw [if_neg hnr, if_neg hnrx, List.append_nil, List.append_nil]
  · -- SYN_RCVD, acknowledgement outside
    obtain ⟨T, k, h1⟩ := tcp_tx__form U w cb (ntoh32 (hdr_ack hdr)) 0 TCP_FLG_RST [] (by decide)
    have hnrx : ¬ (seg_plen hdr ≠ 0 ∧ ((w.cb_table cb).state = TCP_CB_STATE_ESTABLISHED ∨
        (w.cb_table cb).state = TCP_CB_STATE_FIN_WAIT1 ∨
        (w.cb_table cb).state = TCP_CB_STATE_FIN_WAIT2)) := by
      rw [hs]
      intro h
      rcases h.2 with h | h | h <;> exact absurd h (by decide)
    have hnf : ¬ ((w.cb_table cb).state = TCP_CB_STATE_FIN_WAIT1 ∧
        ntoh32 (hdr_ack hdr) = (w.cb_table cb).snd.nxt) := by
      rw [hs]
      exact fun h => absurd h.1 (by decide)
    refine ⟨{ cb_table := set_cb w.cb_table cb { w.cb_table cb with txq := T },
              ip_out := w.ip_out ++ [⟨(w.cb_table cb).iface, IP_PROTOCOL_TCP,
                tcp_tx_segment (w.cb_table cb) (U (w.cb_table cb).iface)
                  (ntoh32 (hdr_ack hdr)) 0 TCP_FLG_RST [],
                TCP_HDR_SIZE + ([] : List Nat).length, (w.cb_table cb).peer.addr⟩],
              wakeups := w.wakeups, kmem := k }, _, _, ?_, ?_, ?_, fun h => absurd h.2 hout, ?_,
      ?_, ?_, hr, hp, ?_⟩
    · rw [tcp_incoming_event_eq, hs, if_neg (by decide), if_neg (by decide), if_neg (by decide)]
      unfold tcp_event_synchronized
      simp only [hseq, ne_eq, not_true_eq_false, if_false, if_neg hrs, not_not.mpr hack, hs,
        if_true, if_neg hout, h1]
      unfold tcp_event_payload
      simp only [set_cb_same]
      rw [if_neg (by rw [← hs]; exact hnrx)]
    · simp only [set_cb_same]
      have hna : ¬ ((w.cb_table cb).state = TCP_CB_STATE_SYN_RCVD ∧
          ((w.cb_table cb).snd.una ≤ ntoh32 (hdr_ack hdr) ∧
            ntoh32 (hdr_ack hdr) ≤ (w.cb_table cb).snd.nxt)) := fun h => hout h.2
      rw [if_neg hna, if_neg hnf]
    · intro j hj _
      simp only [set_cb_other _ _ _ _ hj]
    · simp only [set_cb_same]
    · simp only [set_cb_same]
      rw [if_neg hnrx]
    · simp only [set_cb_same]
      rw [if_neg hnrx]
    · simp only [set_cb_same]
      rw [if_pos ⟨hs, hout⟩, if_neg hnrx, List.append_nil]
      rfl
  · -- SYN_RCVD, acknowledgement inside
    have hcp : cb ≠ p := fun e => hpc e.symm
    have hinc : ∃ wa : World,
        (∀ j, wa.cb_table j =
          if j = p then { w.cb_table p with backlog := (w.cb_table p).backlog ++ [cb] }
          else if j = cb then { w.cb_table cb with state := TCP_CB_STATE_ESTABLISHED }
          else w.cb_table j) ∧
        wa.ip_out = w.ip_out ∧
        tcp_incoming_event U rnd w cb hdr =
          tcp_event_ack U wa cb hdr (seg_hlen hdr) (seg_plen hdr) := by
      rw [tcp_incoming_event_eq, hs, if_neg (by decide), if_neg (by decide), if_neg (by decide)]
      unfold tcp_event_synchronized
      simp only [hseq, ne_eq, not_true_eq_false, if_false, if_neg hrs, not_not.mpr hack, hs,
        if_true, if_pos hin, hpar]
      refine ⟨_, ?_, ?_, rfl⟩
      · intro j
        by_cases hjp : j = p
        · subst hjp
          simp only [put_cb_table, set_cb_same, set_cb_other _ _ _ _ hpc, queue_push, if_true]
        · by_cases hjc : j = cb
          · subst hjc
            simp only [put_cb_table, set_cb_same, set_cb_other _ _ _ _ hjp, if_neg hjp, if_true,
              hpar]
          · simp only [put_cb_table, set_cb_other _ _ _ _ hjp, set_cb_other _ _ _ _ hjc,
              if_neg hjp, if_neg hjc]
      · simp only [put_ip_out]
    obtain ⟨wa, ea, ia, hinc⟩ := hinc
    have ec : wa.cb_table cb = { w.cb_table cb with state := TCP_CB_STATE_ESTABLISHED } := by
      rw [ea, if_neg hcp, if_pos rfl]
    obtain ⟨w2, segp, e2, s2, o2, c2, n2, d2, p1, p2, p3, p4, i2⟩ :=
      tcp_event_ack_to_fin U wa cb hdr (by rw [ec]; exact Or.inl rfl)
        (by rw [ec]; exact hin.2) (by rw [ec]; exact hfit)
    rw [ec] at s2 c2 n2 d2 p3 i2
    have hne : ¬ (TCP_CB_STATE_ESTABLISHED = TCP_CB_STATE_FIN_WAIT1 ∧
        ntoh32 (hdr_ack hdr) = (w.cb_table cb).snd.nxt) := fun h => absurd h.1 (by decide)
    have s2' : (w2.cb_table cb).state = TCP_CB_STATE_ESTABLISHED := s2.trans (if_neg hne)
    refine ⟨w2, _, segp, hinc.trans e2, ?_, ?_, ?_, c2, n2, d2, hr, ⟨p1, p2, p3, p4⟩, ?_⟩
    · rw [s2', if_pos ⟨hs, hin⟩]
    · intro j hj hnp
      have hjp : j ≠ p := fun e => hnp ⟨⟨hs, hin⟩, e ▸ hpar⟩
      rw [o2 j hj, ea, if_neg hjp, if_neg hj]
    · intro _ p' hp'
      have : p' = p := by
        rw [hpar] at hp'
        injection hp' with hp'
        exact hp'.symm
      subst this
      rw [o2 p' hpc, ea, if_pos rfl]
    · have hnr : ¬ ((w.cb_table cb).state = TCP_CB_STATE_SYN_RCVD ∧
          ¬ ((w.cb_table cb).snd.una ≤ ntoh32 (hdr_ack hdr) ∧
            ntoh32 (hdr_ack hdr) ≤ (w.cb_table cb).snd.nxt)) := fun h => h.2 hin
      rw [i2, ia, if_neg hnr, List.append_nil]

/-- C23 (FIN processing). A CB in a synchronised state receives a segment that carries FIN and
gets through the precondition check (`seq = rcv.nxt`, ACK set, neither RST nor SYN) and the
acknowledgement part, which is the case in ESTABLISHED, FIN_WAIT_1, FIN_WAIT_2 and CLOSE_WAIT
with `ack <= snd.nxt`, in TIME_WAIT, and in SYN_RCVD (CLOSING and LAST_ACK return before).
`w2` is the table after payload handling, tied to the table `w` before the event: the other
slots are those of `w` (in SYN_RCVD with an accepted acknowledgement the parent has the CB
pushed on its backlog), the CB differs from the one in `w` in `state`, `snd.una`, `window`,
`rcv` and `txq` at most, its state is the state after the acknowledgement part, its `rcv.nxt`
is behind the payload if one was stored, and what has gone to `ip_tx` since `w` is the RST of
a rejected acknowledgement in SYN_RCVD or the bare ACK of a stored payload, at most one
segment. From `w2` the FIN part moves `rcv.nxt` up by exactly 1 modulo 2^32, hands exactly
one segment to `ip_tx` (20 bytes, `seq = snd.nxt`, `ack` = the new `rcv.nxt`, flags ACK),
changes the state SYN_RCVD or ESTABLISHED to CLOSE_WAIT, FIN_WAIT_1 to FIN_WAIT_2, FIN_WAIT_2
to TIME_WAIT and keeps every other state, and changes nothing else in the table but `txq` of
the CB. So the segments of the whole event are `w.ip_out`, then the RST or the payload's ACK
if there is one, then the ACK of the FIN; the RST differs from it in the flags and the
payload's ACK in the acknowledgement number. -/
theorem tcp_incoming_event_fin (U : Nat → Nat) (rnd : Nat) (w : World) (cb : Fin 16)
    (hdr : List Nat)
    (hseq : ntoh32 (hdr_seq hdr) = (w.cb_table cb).rcv.nxt)
    (hack : TCP_FLG_ISSET (hdr_flg hdr) TCP_FLG_ACK)
    (hrst : ¬ TCP_FLG_ISSET (hdr_flg hdr) TCP_FLG_RST)
    (hsyn : ¬ TCP_FLG_ISSET (hdr_flg hdr) TCP_FLG_SYN)
    (hfin : TCP_FLG_ISSET (hdr_flg hdr) TCP_FLG_FIN)
    (hfit : seg_plen hdr = 0 ∨ (seg_plen hdr ≤ (w.cb_table cb).rcv.wnd ∧
      (w.cb_table cb).rcv.wnd ≤ 4096 ∧ hdr_off hdr < 256 ∧ hdr.length < 2 ^ 32))
    (hn : (w.cb_table cb).snd.nxt < 2 ^ 32)
    (hcase :
      (((w.cb_table cb).state = TCP_CB_STATE_ESTABLISHED ∨
          (w.cb_table cb).state = TCP_CB_STATE_FIN_WAIT1 ∨
          (w.cb_table cb).state = TCP_CB_STATE_FIN_WAIT2 ∨
          (w.cb_table cb).state = TCP_CB_STATE_CLOSE_WAIT) ∧
        ntoh32 (hdr_ack hdr) ≤ (w.cb_table cb).snd.nxt) ∨
      (w.cb_table cb).state = TCP_CB_STATE_TIME_WAIT ∨
      ((w.cb_table cb).state = TCP_CB_STATE_SYN_RCVD ∧
        ¬ ((w.cb_table cb).snd.una ≤ ntoh32 (hdr_ack hdr) ∧
          ntoh32 (hdr_ack hdr) ≤ (w.cb_table cb).snd.nxt)) ∨
      ((w.cb_table cb).state = TCP_CB_STATE_SYN_RCVD ∧
        ((w.cb_table cb).snd.una ≤ ntoh32 (hdr_ack hdr) ∧
          ntoh32 (hdr_ack hdr) ≤ (w.cb_table cb).snd.nxt) ∧
        ∃ p, (w.cb_table cb).parent = some p ∧ p ≠ cb)) :
    ∃ (w2 w' : World) (segr segp seg : List Nat),
      tcp_incoming_event U rnd w cb hdr = some w' ∧
      (w2.cb_table cb).state =
        (if (w.cb_table cb).state = TCP_CB_STATE_SYN_RCVD ∧
            ((w.cb_table cb).snd.una ≤ ntoh32 (hdr_ack hdr) ∧
              ntoh32 (hdr_ack hdr) ≤ (w.cb_table cb).snd.nxt) then TCP_CB_STATE_ESTABLISHED
         else if (w.cb_table cb).state = TCP_CB_STATE_FIN_WAIT1 ∧
            ntoh32 (hdr_ack hdr) = (w.cb_table cb).snd.nxt then TCP_CB_STATE_FIN_WAIT2
         else (w.cb_table cb).state) ∧
      (∀ j, j ≠ cb →
        ¬ (((w.cb_table cb).state = TCP_CB_STATE_SYN_RCVD ∧
            ((w.cb_table cb).snd.una ≤ ntoh32 (hdr_ack hdr) ∧
              ntoh32 (hdr_ack hdr) ≤ (w.cb_table cb).snd.nxt)) ∧
          (w.cb_table cb).parent = some j) →
        w2.cb_table j = w.cb_table j) ∧
      (((w.cb_table cb).state = TCP_CB_STATE_SYN_RCVD ∧
          ((w.cb_table cb).snd.una ≤ ntoh32 (hdr_ack hdr) ∧
            ntoh32 (hdr_ack hdr) ≤ (w.cb_table cb).snd.nxt)) →
        ∀ p, (w.cb_table cb).parent = some p →
          w2.cb_table p = { w.cb_table p with backlog := (w.cb_table p).backlog ++ [cb] }) ∧
      w2.cb_table cb = { w.cb_table cb with
        state := (w2.cb_table cb).state, snd.una := (w2.cb_table cb).snd.una,
        window := (w2.cb_table cb).window, rcv := (w2.cb_table cb).rcv,
        txq := (w2.cb_table cb).txq } ∧
      (w2.cb_table cb).rcv.nxt =
        (if seg_plen hdr ≠ 0 ∧ ((w2.cb_table cb).state = TCP_CB_STATE_ESTABLISHED ∨
            (w2.cb_table cb).state = TCP_CB_STATE_FIN_WAIT1 ∨
            (w2.cb_table cb).state = TCP_CB_STATE_FIN_WAIT2)
         then (ntoh32 (hdr_seq hdr) + seg_plen hdr) % 2 ^ 32 else (w.cb_table cb).rcv.nxt) ∧
      w2.ip_out = w.ip_out ++
        (if (w.cb_table cb).state = TCP_CB_STATE_SYN_RCVD ∧
            ¬ ((w.cb_table cb).snd.una ≤ ntoh32 (hdr_ack hdr) ∧
              ntoh32 (hdr_ack hdr) ≤ (w.cb_table cb).snd.nxt)
         then [⟨(w.cb_table cb).iface, IP_PROTOCOL_TCP, segr, 20, (w.cb_table cb).peer.addr⟩]
         else []) ++
        (if seg_plen hdr ≠ 0 ∧ ((w2.cb_table cb).state = TCP_CB_STATE_ESTABLISHED ∨
            (w2.cb_table cb).state = TCP_CB_STATE_FIN_WAIT1 ∨
            (w2.cb_table cb).state = TCP_CB_STATE_FIN_WAIT2)
         then [⟨(w.cb_table cb).iface, IP_PROTOCOL_TCP, segp, 20, (w.cb_table cb).peer.addr⟩]
         else []) ∧
      (segr.length = 20 ∧ hdr_flg segr = TCP_FLG_RST ∧
        ntoh32 (hdr_seq segr) = ntoh32 (hdr_ack hdr)) ∧
      (segp.length = 20 ∧ hdr_flg segp = TCP_FLG_ACK ∧
        ntoh32 (hdr_seq segp) = (w.cb_table cb).snd.nxt ∧
        ntoh32 (hdr_ack segp) = (ntoh32 (hdr_seq hdr) + seg_plen hdr) % 2 ^ 32) ∧
      w'.cb_table cb = { w2.cb_table cb with
        rcv.nxt := ((w2.cb_table cb).rcv.nxt + 1) % 2 ^ 32,
        state :=
          (if (w2.cb_table cb).state = TCP_CB_STATE_SYN_RCVD ∨
              (w2.cb_table cb).state = TCP_CB_STATE_ESTABLISHED then TCP_CB_STATE_CLOSE_WAIT
           else if (w2.cb_table cb).state = TCP_CB_STATE_FIN_WAIT1 then TCP_CB_STATE_FIN_WAIT2
           else if (w2.cb_table cb).state = TCP_CB_STATE_FIN_WAIT2 then TCP_CB_STATE_TIME_WAIT
           else (w2.cb_table cb).state),
        txq := (w'.cb_table cb).txq } ∧
      (∀ j, j ≠ cb → w'.cb_table j = w2.cb_table j) ∧
      w'.ip_out = w2.ip_out ++ [⟨(w.cb_table cb).iface, IP_PROTOCOL_TCP, seg, 20,
        (w.cb_table cb).peer.addr⟩] ∧
      seg.length = 20 ∧
      ntoh32 (hdr_seq seg) = (w.cb_table cb).snd.nxt ∧
      ntoh32 (hdr_ack seg) = (w'.cb_table cb).rcv.nxt ∧
      hdr_flg seg = TCP_FLG_ACK ∧
      hdr_flg segr ≠ hdr_flg seg ∧
      (seg_plen hdr ≠ 0 ∧ ((w2.cb_table cb).state = TCP_CB_STATE_ESTABLISHED ∨
          (w2.cb_table cb).state = TCP_CB_STATE_FIN_WAIT1 ∨
          (w2.cb_table cb).state = TCP_CB_STATE_FIN_WAIT2) →
        ntoh32 (hdr_ack segp) ≠ ntoh32 (hdr_ack seg)) := by
  obtain ⟨w2, segr, segp, e, s2, o2, par2, c2, n2, -, hr, ⟨p1, p2, p3, p4⟩, i2⟩ :=
    tcp_incoming_event_to_fin U rnd w cb hdr hseq hack hrst hsyn hfit hcase
  obtain ⟨T, k, wk, ef⟩ := tcp_event_fin_form U w2 cb hdr hfin
  have hi : (w2.cb_table cb).iface = (w.cb_table cb).iface := by conv_lhs => rw [c2]
  have hpe : (w2.cb_table cb).peer = (w.cb_table cb).peer := by conv_lhs => rw [c2]
  have hnx : (w2.cb_table cb).snd.nxt = (w.cb_table cb).snd.nxt := by conv_lhs => rw [c2]
  have hack_seg : ntoh32 (hdr_ack (tcp_tx_segment
      { w2.cb_table cb with rcv.nxt := ((w2.cb_table cb).rcv.nxt + 1) % 2 ^ 32 }
      (U (w2.cb_table cb).iface) (w2.cb_table cb).snd.nxt
      (((w2.cb_table cb).rcv.nxt + 1) % 2 ^ 32) TCP_FLG_ACK [])) =
      ((w2.cb_table cb).rcv.nxt + 1) % 2 ^ 32 := by
    rw [tcp_tx_segment_ack, Nat.mod_mod]
  refine ⟨w2, _, segr, segp, tcp_tx_segment
      { w2.cb_table cb with rcv.nxt := ((w2.cb_table cb).rcv.nxt + 1) % 2 ^ 32 }
      (U (w2.cb_table cb).iface) (w2.cb_table cb).snd.nxt
      (((w2.cb_table cb).rcv.nxt + 1) % 2 ^ 32) TCP_FLG_ACK [], e.trans ef, s2, o2, par2, c2, n2,
    i2, hr, ⟨p1, p2, p3.trans (Nat.mod_eq_of_lt hn), p4⟩, ?_, ?_, ?_, ?_, ?_, ?_, ?_, ?_, ?_⟩
  · simp only [set_cb_same, fin_next]
  · intro j hj
    show set_cb _ _ _ j = _
    rw [set_cb_other _ _ _ _ hj]
  · show _ ++ _ = _ ++ _
    rw [hi, hpe]
  · rw [tcp_tx_segment_length]
    rfl
  · rw [tcp_tx_segment_seq, hnx]
    exact Nat.mod_eq_of_lt hn
  · rw [hack_seg]
    show _ = (set_cb _ _ _ cb).rcv.nxt
    rw [set_cb_same]
  · rw [tcp_tx_segment_flg]
    rfl
  · rw [hr.2.1, tcp_tx_segment_flg]
    decide
  · intro hst
    rw [p4, hack_seg, n2, if_pos hst]
    have : (ntoh32 (hdr_seq hdr) + seg_plen hdr) % 2 ^ 32 < 2 ^ 32 :=
      Nat.mod_lt _ (by norm_num)
    omega

/-- Witness for C23: the peer of the sample connection (ESTABLISHED, `rcv.nxt = 0x500`) sends
FIN|ACK without payload; the CB ends in CLOSE_WAIT with `rcv.nxt = 0x501`, and the one segment
the event hands to `ip_tx` is the ACK of the FIN. -/
theorem tcp_incoming_event_fin_witness :
    ((World_sample.cb_table 0).state = TCP_CB_STATE_ESTABLISHED ∧
      (World_sample.cb_table 0).rcv.nxt = 0x500 ∧
      World_sample.ip_out = [] ∧
      TCP_FLG_ISSET (hdr_flg segment_sample_fin) TCP_FLG_FIN) ∧
    ∃ (w' : World) (seg : List Nat),
      tcp_incoming_event U_sample 0 World_sample 0 segment_sample_fin = some w' ∧
      (w'.cb_table 0).state = TCP_CB_STATE_CLOSE_WAIT ∧
      (w'.cb_table 0).rcv.nxt = 0x501 ∧
      w'.ip_out = [⟨1, IP_PROTOCOL_TCP, seg, 20, 0x0100007f⟩] ∧
      hdr_flg seg = TCP_FLG_ACK ∧ ntoh32 (hdr_ack seg) = 0x501 := by
  refine ⟨⟨rfl, rfl, rfl, by decide⟩, ?_⟩
  obtain ⟨w2, w', segr, segp, seg, h1, s2, -, -, -, r2, i2, -, -, hcb, -, io, -, -, ha, hf, -⟩ :=
    tcp_incoming_event_fin U_sample 0 World_sample 0 segment_sample_fin (by decide) (by decide)
      (by decide) (by decide) (by decide) (Or.inl (by decide)) (by decide)
      (Or.inl ⟨Or.inl rfl, by decide⟩)
  have hs : (World_sample.cb_table 0).state = TCP_CB_STATE_ESTABLISHED := rfl
  have hp : seg_plen segment_sample_fin = 0 := by decide
  have hna : ¬ ((World_sample.cb_table 0).state = TCP_CB_STATE_SYN_RCVD ∧
      ((World_sample.cb_table 0).snd.una ≤ ntoh32 (hdr_ack segment_sample_fin) ∧
        ntoh32 (hdr_ack segment_sample_fin) ≤ (World_sample.cb_table 0).snd.nxt)) :=
    fun h => absurd h.1 (by decide)
  have hnr : ¬ ((World_sample.cb_table 0).state = TCP_CB_STATE_SYN_RCVD ∧
      ¬ ((World_sample.cb_table 0).snd.una ≤ ntoh32 (hdr_ack segment_sample_fin) ∧
        ntoh32 (hdr_ack segment_sample_fin) ≤ (World_sample.cb_table 0).snd.nxt)) :=
    fun h => absurd h.1 (by decide)
  have hnf : ¬ ((World_sample.cb_table 0).state = TCP_CB_STATE_FIN_WAIT1 ∧
      ntoh32 (hdr_ack segment_sample_fin) = (World_sample.cb_table 0).snd.nxt) :=
    fun h => absurd h.1 (by decide)
  have hnst : ¬ (seg_plen segment_sample_fin ≠ 0 ∧
      ((w2.cb_table 0).state = TCP_CB_STATE_ESTABLISHED ∨
        (w2.cb_table 0).state = TCP_CB_STATE_FIN_WAIT1 ∨
        (w2.cb_table 0).state = TCP_CB_STATE_FIN_WAIT2)) := fun h => h.1 hp
  rw [if_neg hna, if_neg hnf] at s2
  rw [if_neg hnst] at r2
  rw [if_neg hnr, if_neg hnst, List.append_nil, List.append_nil] at i2
  have hn' : (w'.cb_table 0).rcv.nxt = 0x501 := by
    rw [hcb]
    show ((w2.cb_table 0).rcv.nxt + 1) % 2 ^ 32 = _
    rw [r2]
    rfl
  refine ⟨w', seg, h1, ?_, hn', ?_, hf, ?_⟩
  · rw [hcb]
    show (if _ then _ else _) = _
    rw [s2]
    rfl
  · rw [io, i2]
    rfl
  · rw [ha, hn']

/-! ### Segment builder and retransmission queue -/

/-- With two pages free `tcp_txq_add` links one entry, holding the first `len` bytes at `hdr`,
behind the tail of the queue. -/
theorem tcp_txq_add_ok (w : World) (cb : Fin 16) (hdr : List Nat) (len : Nat)
    (hk : 2 ≤ w.kmem) :
    tcp_txq_add w cb hdr len =
      ({ w with
          cb_table := set_cb w.cb_table cb { w.cb_table cb with
            txq := (w.cb_table cb).txq ++ [⟨hdr.take len, len % 2 ^ 16⟩] },
          kmem := w.kmem - 1 - 1 }, 0) := by
  have h0 : ¬ w.kmem = 0 := by omega
  have h1 : ¬ w.kmem - 1 = 0 := by omega
  simp only [tcp_txq_add, kalloc, if_neg h0, if_neg h1, World.put]

/-- With fewer than two pages free `tcp_txq_add` returns `-1` and leaves everything as it
was. -/
theorem tcp_txq_add_fail (w : World) (cb : Fin 16) (hdr : List Nat) (len : Nat)
    (hk : w.kmem < 2) : tcp_txq_add w cb hdr len = (w, -1) := by
  by_cases h0 : w.kmem = 0
  · simp only [tcp_txq_add, kalloc, if_pos h0]
  · have h1 : w.kmem - 1 = 0 := by omega
    simp only [tcp_txq_add, kalloc, if_neg h0, if_pos h1, kfree]
    congr 1
    exact World_ext rfl rfl rfl (by show w.kmem - 1 + 1 = w.kmem; omega)

/-- The result of `tcp_tx` for a payload that fits the staging buffer, written out: `len` is
returned, one call of `ip_tx` is made, and the queue entry is linked when two pages are free. -/
theorem tcp_tx_result (U : Nat → Nat) (w : World) (cb : Fin 16) (seq ack flg : Nat)
    (buf : List Nat) (h : TCP_HDR_SIZE + buf.length ≤ TCP_SEGMENT_SIZE) :
    tcp_tx U w cb seq ack flg buf = some
      ({ cb_table :=
           if 2 ≤ w.kmem then
             set_cb w.cb_table cb { w.cb_table cb with
               txq := (w.cb_table cb).txq ++
                 [⟨tcp_tx_segment (w.cb_table cb) (U (w.cb_table cb).iface) seq ack flg buf,
                   TCP_HDR_SIZE + buf.length⟩] }
           else w.cb_table,
         ip_out := w.ip_out ++ [⟨(w.cb_table cb).iface, IP_PROTOCOL_TCP,
           tcp_tx_segment (w.cb_table cb) (U (w.cb_table cb).iface) seq ack flg buf,
           TCP_HDR_SIZE + buf.length, (w.cb_table cb).peer.addr⟩],
         wakeups := w.wakeups,
         kmem := if 2 ≤ w.kmem then w.kmem - 2 else w.kmem }, (buf.length : Int)) := by
  have h' : ¬ (TCP_SEGMENT_SIZE < TCP_HDR_SIZE + buf.length) := by omega
  have hl : (tcp_tx_segment (w.cb_table cb) (U (w.cb_table cb).iface) seq ack flg buf).length =
      TCP_HDR_SIZE + buf.length := tcp_tx_segment_length _ _ _ _ _ _
  have hm : (TCP_HDR_SIZE + buf.length) % 2 ^ 16 = TCP_HDR_SIZE + buf.length := by
    apply Nat.mod_eq_of_lt
    have : TCP_SEGMENT_SIZE = 1500 := rfl
    omega
  simp only [tcp_tx, if_neg h']
  by_cases hk : 2 ≤ w.kmem
  · rw [tcp_txq_add_ok _ _ _ _ (by exact hk), if_pos hk, if_pos hk]
    simp only [hm, List.take_of_length_le (le_of_eq hl)]
    rfl
  · rw [tcp_txq_add_fail _ _ _ _ (by show w.kmem < 2; omega), if_neg hk, if_neg hk]
/-- The two bytes of a `uint16_t` in network order: the high byte is stored first. -/
theorem hton16_bytes (x : Nat) :
    hton16 x % 256 = x / 256 % 256 ∧ hton16 x / 256 % 256 = x % 256 := by
  unfold hton16
  have ha : x % 256 < 256 := Nat.mod_lt _ (by norm_num)
  have hb : x / 256 % 256 < 256 := Nat.mod_lt _ (by norm_num)
  generalize x % 256 = a at ha ⊢
  generalize x / 256 % 256 = b at hb ⊢
  omega

/-- The bytes of the header `tcp_tx` builds, one by one: ports, `seq`, `ack`. -/
theorem tcp_tx_segment_at (c : tcp_cb) (self seq ack flg : Nat) (buf : List Nat) :
    (tcp_tx_segment c self seq ack flg buf).getD 0 0 = c.port % 256 ∧
    (tcp_tx_segment c self seq ack flg buf).getD 1 0 = c.port / 256 % 256 ∧
    (tcp_tx_segment c self seq ack flg buf).getD 2 0 = c.peer.port % 256 ∧
    (tcp_tx_segment c self seq ack flg buf).getD 3 0 = c.peer.port / 256 % 256 ∧
    (tcp_tx_segment c self seq ack flg buf).getD 4 0 = seq / 2 ^ 24 % 256 ∧
    (tcp_tx_segment c self seq ack flg buf).getD 5 0 = seq / 2 ^ 16 % 256 ∧
    (tcp_tx_segment c self seq ack flg buf).getD 6 0 = seq / 2 ^ 8 % 256 ∧
    (tcp_tx_segment c self seq ack flg buf).getD 7 0 = seq % 256 ∧
    (tcp_tx_segment c self seq ack flg buf).getD 8 0 = ack / 2 ^ 24 % 256 ∧
    (tcp_tx_segment c self seq ack flg buf).getD 9 0 = ack / 2 ^ 16 % 256 ∧
    (tcp_tx_segment c self seq ack flg buf).getD 10 0 = ack / 2 ^ 8 % 256 ∧
    (tcp_tx_segment c self seq ack flg buf).getD 11 0 = ack % 256 := by
  obtain ⟨s0, s1, s2, s3⟩ := hton32_bytes seq
  obtain ⟨a0, a1, a2, a3⟩ := hton32_bytes ack
  exact ⟨rfl, rfl, rfl, rfl, s0, s1, s2, s3, a0, a1, a2, a3⟩

/-- The bytes of the header `tcp_tx` builds, one by one: data offset, flags, window, urgent
pointer (offsets 16 and 17 hold the checksum). -/
theorem tcp_tx_segment_at_tail (c : tcp_cb) (self seq ack flg : Nat) (buf : List Nat) :
    (tcp_tx_segment c self seq ack flg buf).getD 12 0 = 0x50 ∧
    (tcp_tx_segment c self seq ack flg buf).getD 13 0 = flg % 256 ∧
    (tcp_tx_segment c self seq ack flg buf).getD 14 0 = c.rcv.wnd / 256 % 256 ∧
    (tcp_tx_segment c self seq ack flg buf).getD 15 0 = c.rcv.wnd % 256 ∧
    (tcp_tx_segment c self seq ack flg buf).getD 18 0 = 0 ∧
    (tcp_tx_segment c self seq ack flg buf).getD 19 0 = 0 := by
  obtain ⟨w0, w1⟩ := hton16_bytes c.rcv.wnd
  have e1 : (tcp_tx_segment c self seq ack flg buf).getD 15 0 =
      (store16 (hton16 c.rcv.wnd)).getD 1 0 := rfl
  have e2 : (store16 (hton16 c.rcv.wnd)).getD 1 0 = hton16 c.rcv.wnd / 256 % 256 := rfl
  exact ⟨rfl, rfl, w0, (e1.trans e2).trans w1, rfl, rfl⟩

/-- Counterexample for C26: with no page free, `tcp_tx` on the sample CB with an empty payload
(`20 + 0 <= 1500`) hands its segment to `ip_tx` and returns 0, and the retransmission queue is
as empty as before: no entry is appended. -/
theorem tcp_tx_counterexample :
    20 + ([] : List Nat).length ≤ 1500 ∧
    (World_sample_nomem.cb_table 0).txq = [] ∧
    ∃ w' : World,
      tcp_tx U_sample World_sample_nomem 0 1001 0x500 TCP_FLG_ACK [] = some (w', 0) ∧
      w'.ip_out.length = 1 ∧
      (w'.cb_table 0).txq = [] := by
  refine ⟨by decide, rfl, _, tcp_tx_result U_sample World_sample_nomem 0 1001 0x500 TCP_FLG_ACK []
    (by decide), rfl, rfl⟩

/-- C26 (segment builder postcondition). For every CB, `seq`, `ack`, flags and payload `buf`
of length `len` with `20 + len <= 1500`, `tcp_tx` returns `len` and hands `ip_tx` exactly one
segment of `20 + len` bytes: bytes 0-1 are `cb.port` and bytes 2-3 `cb.peer.port` as stored,
bytes 4-7 and 8-11 are `seq` and `ack` big-endian, byte 12 is 0x50, byte 13 the flags, bytes
14-15 `rcv.wnd` big-endian, bytes 18-19 zero, bytes 20.. are `buf`. If `kalloc` can hand out
two pages, exactly one entry holding those `20 + len` bytes is appended at the tail of
`cb.txq`, behind the earlier entries; if it cannot, `txq` is as before. No other field of
the CB and no other CB changes, and nobody is woken. -/
theorem tcp_tx_postcondition (U : Nat → Nat) (w : World) (cb : Fin 16) (seq ack flg : Nat)
    (buf : List Nat) (hlen : 20 + buf.length ≤ 1500) :
    ∃ (w' : World) (seg : List Nat),
      tcp_tx U w cb seq ack flg buf = some (w', (buf.length : Int)) ∧
      w'.ip_out = w.ip_out ++ [⟨(w.cb_table cb).iface, IP_PROTOCOL_TCP, seg, 20 + buf.length,
        (w.cb_table cb).peer.addr⟩] ∧
      seg.length = 20 + buf.length ∧
      seg.getD 0 0 = (w.cb_table cb).port % 256 ∧
      seg.getD 1 0 = (w.cb_table cb).port / 256 % 256 ∧
      seg.getD 2 0 = (w.cb_table cb).peer.port % 256 ∧
      seg.getD 3 0 = (w.cb_table cb).peer.port / 256 % 256 ∧
      seg.getD 4 0 = seq / 2 ^ 24 % 256 ∧ seg.getD 5 0 = seq / 2 ^ 16 % 256 ∧
      seg.getD 6 0 = seq / 2 ^ 8 % 256 ∧ seg.getD 7 0 = seq % 256 ∧
      seg.getD 8 0 = ack / 2 ^ 24 % 256 ∧ seg.getD 9 0 = ack / 2 ^ 16 % 256 ∧
      seg.getD 10 0 = ack / 2 ^ 8 % 256 ∧ seg.getD 11 0 = ack % 256 ∧
      seg.getD 12 0 = 0x50 ∧ seg.getD 13 0 = flg % 256 ∧
      seg.getD 14 0 = (w.cb_table cb).rcv.wnd / 256 % 256 ∧
      seg.getD 15 0 = (w.cb_table cb).rcv.wnd % 256 ∧
      seg.getD 18 0 = 0 ∧ seg.getD 19 0 = 0 ∧
      seg.drop 20 = buf ∧
      (2 ≤ w.kmem → w'.cb_table cb = { w.cb_table cb with
        txq := (w.cb_table cb).txq ++ [⟨seg, 20 + buf.length⟩] }) ∧
      (w.kmem < 2 → w'.cb_table cb = w.cb_table cb) ∧
      (∀ j, j ≠ cb → w'.cb_table j = w.cb_table j) ∧
      w'.wakeups = w.wakeups := by
  obtain ⟨b0, b1, b2, b3, b4, b5, b6, b7, b8, b9, b10, b11⟩ :=
    tcp_tx_segment_at (w.cb_table cb) (U (w.cb_table cb).iface) seq ack flg buf
  obtain ⟨b12, b13, b14, b15, b18, b19⟩ :=
    tcp_tx_segment_at_tail (w.cb_table cb) (U (w.cb_table cb).iface) seq ack flg buf
  refine ⟨_, tcp_tx_segment (w.cb_table cb) (U (w.cb_table cb).iface) seq ack flg buf,
    tcp_tx_result U w cb seq ack flg buf hlen, rfl, tcp_tx_segment_length _ _ _ _ _ _,
    b0, b1, b2, b3, b4, b5, b6, b7, b8, b9, b10, b11, b12, b13, b14, b15, b18, b19, rfl,
    ?_, ?_, ?_, rfl⟩
  · intro hk
    simp only [if_pos hk, set_cb_same]
  · intro hk
    have hk' : ¬ 2 ≤ w.kmem := by omega
    simp only [if_neg hk']
  · intro j hj
    by_cases hk : 2 ≤ w.kmem
    · simp only [if_pos hk, set_cb_other _ _ _ _ hj]
    · simp only [if_neg hk]

/-- Witness for C26: the sample CB (64 pages free) sends the payload "hi!"; 3 is returned,
one 23-byte segment goes out and the queue holds one 23-byte entry. -/
theorem tcp_tx_postcondition_witness :
    20 + [104, 105, 33].length ≤ 1500 ∧
    ∃ w' : World,
      tcp_tx U_sample World_sample 0 1001 0x500 0x18 [104, 105, 33] = some (w', 3) ∧
      w'.ip_out.length = 1 ∧
      ((w'.cb_table 0).txq.map (fun e => e.len)) = [23] := by
  obtain ⟨w', seg, h1, h2, -, -, -, -, -, -, -, -, -, -, -, -, -, -, -, -, -, -, -, -, h3, -⟩ :=
    tcp_tx_postcondition U_sample World_sample 0 1001 0x500 0x18 [104, 105, 33] (by decide)
  refine ⟨by decide, w', h1, ?_, ?_⟩
  · rw [h2]; rfl
  · rw [h3 (by decide)]; rfl

/-! ### Payload length against the staging buffer -/

/-- C29: `tcp_api_send` has no check of `len` and neither has `tcp_tx`: on a used socket in
ESTABLISHED or CLOSE_WAIT every buffer longer than 1480 bytes reaches the copy into the
1500-byte staging buffer of `tcp_tx`, behind the 20 header bytes, and the copy runs past its
end. The call is not rejected. -/
theorem tcp_api_send_overflow (U : Nat → Nat) (w : World) (soc : Int) (buf : List Nat)
    (hv : ¬ TCP_SOCKET_ISINVALID soc) (hu : (w.cb_table (slot soc)).used ≠ 0)
    (hs : (w.cb_table (slot soc)).state = TCP_CB_STATE_ESTABLISHED ∨
      (w.cb_table (slot soc)).state = TCP_CB_STATE_CLOSE_WAIT)
    (hlen : 1480 < buf.length) :
    tcp_tx U w (slot soc) (w.cb_table (slot soc)).snd.nxt (w.cb_table (slot soc)).rcv.nxt
        (TCP_FLG_ACK ||| TCP_FLG_PSH) buf = none ∧
      tcp_api_send U w soc buf = Outcome.fault := by
  have hbig : TCP_SEGMENT_SIZE < TCP_HDR_SIZE + buf.length := by
    show 1500 < 20 + buf.length
    omega
  have htx : tcp_tx U w (slot soc) (w.cb_table (slot soc)).snd.nxt
      (w.cb_table (slot soc)).rcv.nxt (TCP_FLG_ACK ||| TCP_FLG_PSH) buf = none := by
    unfold tcp_tx
    rw [if_pos hbig]
  refine ⟨htx, ?_⟩
  unfold tcp_api_send
  rw [if_neg hv]
  dsimp only
  rw [if_neg hu, if_neg (not_not.mpr hs)]
  unfold tcp_tx_
  rw [htx]
  rfl

/-- Witness for C29: a send of 1481 bytes on the sample connection. -/
theorem tcp_api_send_overflow_witness :
    (1480 < (List.replicate 1481 0).length ∧
      (World_sample.cb_table (slot 0)).state = TCP_CB_STATE_ESTABLISHED) ∧
    tcp_api_send U_sample World_sample 0 (List.replicate 1481 0) = Outcome.fault := by
  have hl : 1480 < (List.replicate 1481 0).length := by
    rw [List.length_replicate]
    decide
  exact ⟨⟨hl, rfl⟩,
    (tcp_api_send_overflow U_sample World_sample 0 (List.replicate 1481 0) (by decide)
      (by decide) (Or.inl rfl) hl).2⟩

/-! ### Header length against segment length -/

/-- C28: `tcp_rx` checks `len >= 20` and the checksum, and nothing compares the data offset
with `len`. A segment that passes both checks, is dispatched to a CB in ESTABLISHED,
FIN_WAIT_1 or FIN_WAIT_2 and gets through the precondition check with `ack <= snd.nxt`, but
whose header length `hlen` is above `len`, has `plen = len - hlen` wrapped around to
`len + 2^32 - hlen`, and the copy of `plen` bytes from offset `hlen` of the segment leaves the
segment: the run ends there. -/
theorem tcp_rx_hlen_unchecked (U : Nat → Nat) (rnd : Nat) (w : World) (segment : List Nat)
    (src dst iface : Nat) (cb : Fin 16) (fcb lcb : Option (Fin 16))
    (hdst : dst = U iface) (hmin : 20 ≤ segment.length)
    (hsum : cksum16 segment segment.length (tcp_rx_pseudo src dst segment.length) = 0)
    (hscan : tcp_rx_scan w.cb_table iface src (hdr_src segment) (hdr_dst segment) allSlots
      none none = (some cb, fcb, lcb))
    (hs : (w.cb_table cb).state = TCP_CB_STATE_ESTABLISHED ∨
      (w.cb_table cb).state = TCP_CB_STATE_FIN_WAIT1 ∨
      (w.cb_table cb).state = TCP_CB_STATE_FIN_WAIT2)
    (hseq : ntoh32 (hdr_seq segment) = (w.cb_table cb).rcv.nxt)
    (hack : TCP_FLG_ISSET (hdr_flg segment) TCP_FLG_ACK)
    (hrst : ¬ TCP_FLG_ISSET (hdr_flg segment) TCP_FLG_RST)
    (hsyn : ¬ TCP_FLG_ISSET (hdr_flg segment) TCP_FLG_SYN)
    (hle : ntoh32 (hdr_ack segment) ≤ (w.cb_table cb).snd.nxt)
    (hoff : segment.length < seg_hlen segment) (hbyte : hdr_off segment < 256) :
    seg_plen segment = segment.length + 2 ^ 32 - seg_hlen segment ∧
      segment.length < seg_hlen segment + seg_plen segment ∧
      tcp_rx U rnd w segment src dst iface = none := by
  have hh : seg_hlen segment ≤ 60 := seg_hlen_le segment hbyte
  have hp : seg_plen segment = segment.length + 2 ^ 32 - seg_hlen segment := by
    unfold seg_plen
    apply Nat.mod_eq_of_lt
    omega
  have hp0 : seg_plen segment ≠ 0 := by omega
  have hs4 : (w.cb_table cb).state = TCP_CB_STATE_ESTABLISHED ∨
      (w.cb_table cb).state = TCP_CB_STATE_FIN_WAIT1 ∨
      (w.cb_table cb).state = TCP_CB_STATE_FIN_WAIT2 ∨
      (w.cb_table cb).state = TCP_CB_STATE_CLOSE_WAIT := by
    rcases hs with h | h | h
    · exact Or.inl h
    · exact Or.inr (Or.inl h)
    · exact Or.inr (Or.inr (Or.inl h))
  have hs5 : (w.cb_table cb).state = TCP_CB_STATE_ESTABLISHED ∨
      (w.cb_table cb).state = TCP_CB_STATE_FIN_WAIT1 ∨
      (w.cb_table cb).state = TCP_CB_STATE_FIN_WAIT2 ∨
      (w.cb_table cb).state = TCP_CB_STATE_CLOSE_WAIT ∨
      (w.cb_table cb).state = TCP_CB_STATE_CLOSING := by
    rcases hs with h | h | h
    · exact Or.inl h
    · exact Or.inr (Or.inl h)
    · exact Or.inr (Or.inr (Or.inl h))
  have e1 := tcp_incoming_event_to_ack U rnd w cb segment hs5 hseq hack hrst hsyn
  obtain ⟨u, e2⟩ := tcp_event_ack_to_payload U w cb segment (seg_hlen segment)
    (seg_plen segment) hs4 hle
  have e3 : tcp_incoming_event U rnd w cb segment = none := by
    rw [e1, e2]
    unfold tcp_event_payload
    dsimp only
    rw [put_cb_table, set_cb_same]
    have hrx : (if (w.cb_table cb).state = TCP_CB_STATE_FIN_WAIT1 ∧
        ntoh32 (hdr_ack segment) = (w.cb_table cb).snd.nxt then TCP_CB_STATE_FIN_WAIT2
        else (w.cb_table cb).state) = TCP_CB_STATE_ESTABLISHED ∨
      (if (w.cb_table cb).state = TCP_CB_STATE_FIN_WAIT1 ∧
        ntoh32 (hdr_ack segment) = (w.cb_table cb).snd.nxt then TCP_CB_STATE_FIN_WAIT2
        else (w.cb_table cb).state) = TCP_CB_STATE_FIN_WAIT1 ∨
      (if (w.cb_table cb).state = TCP_CB_STATE_FIN_WAIT1 ∧
        ntoh32 (hdr_ack segment) = (w.cb_table cb).snd.nxt then TCP_CB_STATE_FIN_WAIT2
        else (w.cb_table cb).state) = TCP_CB_STATE_FIN_WAIT2 := by
      split_ifs
      · exact Or.inr (Or.inr rfl)
      · exact hs
    rw [if_pos ⟨hp0, hrx⟩, if_neg]
    intro h
    omega
  refine ⟨hp, by omega, ?_⟩
  have h1 : ¬ dst ≠ U iface := not_not.mpr hdst
  have h2 : ¬ segment.length < TCP_HDR_SIZE := by
    show ¬ segment.length < 20
    omega
  have h3 : ¬ cksum16 segment segment.length (tcp_rx_pseudo src dst segment.length) ≠ 0 :=
    not_not.mpr hsum
  unfold tcp_rx
  simp only [if_neg h1, if_neg h2, if_neg h3, hscan]
  exact e3

/-- Witness for C28: a 20-byte segment for the sample connection with data-offset byte 0xF0
passes the length check and the checksum check of `tcp_rx`, has `hlen = 60`, and the run
ends in the payload copy. -/
theorem tcp_rx_hlen_unchecked_witness :
    (20 ≤ segment_sample_off15.length ∧
      cksum16 segment_sample_off15 segment_sample_off15.length
        (tcp_rx_pseudo 0x0100007f 0x0200007f segment_sample_off15.length) = 0 ∧
      seg_hlen segment_sample_off15 = 60 ∧
      (World_sample.cb_table 0).state = TCP_CB_STATE_ESTABLISHED) ∧
    seg_plen segment_sample_off15 = 2 ^ 32 - 40 ∧
    tcp_rx U_sample 0 World_sample segment_sample_off15 0x0100007f 0x0200007f 1 = none := by
  have hck : cksum16 segment_sample_off15 segment_sample_off15.length
      (tcp_rx_pseudo 0x0100007f 0x0200007f segment_sample_off15.length) = 0 := by decide
  have hsc : tcp_rx_scan World_sample.cb_table 1 0x0100007f (hdr_src segment_sample_off15)
      (hdr_dst segment_sample_off15) allSlots none none = (some 0, none, none) := by decide
  obtain ⟨h1, -, h3⟩ := tcp_rx_hlen_unchecked U_sample 0 World_sample segment_sample_off15
    0x0100007f 0x0200007f 1 0 none none rfl (by decide) hck hsc (Or.inl rfl) (by decide)
    (by decide) (by decide) (by decide) (by decide) (by decide) (by decide)
  exact ⟨⟨by decide, hck, by decide, rfl⟩, by rw [h1]; decide, h3⟩

/-! ### Receive-buffer accounting -/

/-- A used CB with `rcv.wnd = 0` counts as holding 4096 readable bytes, whatever its state:
`tcp_api_recv` returns `min(size, 4096)`, hands out that many bytes of `window` and adds the
count to `rcv.wnd`, without sleeping. -/
theorem tcp_api_recv_wnd_zero (w : World) (soc : Int) (size : Nat) (killed : Bool)
    (hv : ¬ TCP_SOCKET_ISINVALID soc) (hu : (w.cb_table (slot soc)).used ≠ 0)
    (hw : (w.cb_table (slot soc)).rcv.wnd = 0) :
    ∃ w' : World, tcp_api_recv w soc size killed =
        Outcome.ret w' ((min size 4096 : Nat) : Int)
          ((w.cb_table (slot soc)).window.take (min size 4096)) ∧
      (w'.cb_table (slot soc)).rcv.wnd = min size 4096 := by
  have ht : (TCP_WINDOW_SIZE + 2 ^ 32 - (w.cb_table (slot soc)).rcv.wnd) % 2 ^ 32 = 4096 := by
    rw [hw]
    rfl
  have hm : (if size < 4096 then size else 4096) = min size 4096 := by
    split_ifs <;> omega
  unfold tcp_api_recv
  rw [if_neg hv, if_neg hu]
  unfold tcp_api_recv_wake
  simp only [ht]
  rw [if_neg (by decide), if_neg (by decide), hm]
  refine ⟨_, rfl, ?_⟩
  rw [put_cb_table, set_cb_same]
  show ((w.cb_table (slot soc)).rcv.wnd + min size 4096) % 2 ^ 16 = _
  rw [hw]
  have : min size 4096 ≤ 4096 := Nat.min_le_right _ _
  omega

/-- C24: `tcp_api_open` only sets `used`, so the CB it hands out has `rcv.wnd = 0` (the other
ways to a used CB, `tcp_api_connect` and the passive open in `tcp_rx`, set `rcv.wnd` to 4096).
After the run "open" from the all-zero table no segment has been received, yet slot 0 is used
with `4096 - rcv.wnd = 4096`, and `tcp_api_recv(0, buf, size)` returns `min(size, 4096)` and
hands out that many zero bytes, for every `size`: a positive count on a socket that has
received nothing. -/
theorem tcp_api_recv_unreceived (size : Nat) :
    Reach U_sample any_call World_run_open [] ∧
    (tcp_api_open (World_init 64)).2 = 0 ∧
    (World_run_open.cb_table 0).used = 1 ∧
    (World_run_open.cb_table 0).state = TCP_CB_STATE_CLOSED ∧
    TCP_WINDOW_SIZE - (World_run_open.cb_table 0).rcv.wnd = 4096 ∧
    ∃ w' : World,
      tcp_api_recv World_run_open 0 size false =
        Outcome.ret w' ((min size 4096 : Nat) : Int) (List.replicate (min size 4096) 0) ∧
      (w'.cb_table 0).rcv.wnd = min size 4096 := by
  have h0 : Reach U_sample any_call (World_init 64) [] := Reach.init 64
  have h1 := Reach.call _ _ _ Call.api_open none h0 trivial rfl
  refine ⟨h1, rfl, rfl, rfl, rfl, ?_⟩
  obtain ⟨w', e, r⟩ := tcp_api_recv_wnd_zero World_run_open 0 size false (by decide)
    (by decide) rfl
  refine ⟨w', ?_, r⟩
  rw [e]
  have hwin : (World_run_open.cb_table (slot 0)).window = List.replicate 4096 0 := rfl
  rw [hwin, List.take_replicate]
  congr 2
  have : min size 4096 ≤ 4096 := Nat.min_le_right _ _
  omega

/-! ### Interface reference of an active open -/

/-- C27: the only assignment to `cb->iface` is the one for a child in `tcp_rx`; a CB handed
out by `tcp_api_open` has the null reference of the zeroed table, and `tcp_api_connect` calls
`tcp_tx` on it as it is. After the run "open" from the all-zero table, `tcp_api_connect(0, ...)`
with any clock value, `random()` value and peer hands its SYN to `ip_tx` with `iface = 0`, the
pseudo-header address being what the read through the null reference yields (`U 0`), and the
CB stays without an interface for the calls that follow. -/
theorem tcp_api_connect_iface_null (U : Nat → Nat) (now rnd port a : Nat) :
    Reach U any_call World_run_open [] ∧
    (World_run_open.cb_table 0).used = 1 ∧
    (World_run_open.cb_table 0).iface = 0 ∧
    ∃ (w1 : World) (c : tcp_cb),
      tcp_api_connect U now rnd World_run_open 0 ⟨AF_INET, port, a⟩ = Outcome.sleep w1 ∧
      Reach U any_call w1 [Cont.in_connect 0] ∧
      c.iface = 0 ∧
      w1.ip_out = [⟨0, IP_PROTOCOL_TCP, tcp_tx_segment c (U 0) (rnd % 2 ^ 32) 0 TCP_FLG_SYN [],
        20, a⟩] ∧
      (w1.cb_table 0).state = TCP_CB_STATE_SYN_SENT ∧
      (w1.cb_table 0).iface = 0 := by
  have h0 : Reach U any_call (World_init 64) [] := Reach.init 64
  have h1 : Reach U any_call World_run_open [] :=
    Reach.call _ _ _ Call.api_open none h0 trivial rfl
  have hports : ∀ j : Fin 16, (World_run_open.cb_table j).port = 0 := by decide
  have hq : ∀ j, (World_run_open.cb_table j).used ≠ 0 →
      (World_run_open.cb_table j).port ≠ hton16 (TCP_SOURCE_PORT_MIN + now % 1024) := by
    intro j _
    rw [hports j]
    have hn : now % 1024 < 1024 := Nat.mod_lt _ (by norm_num)
    exact fun e => hton16_ne_zero (TCP_SOURCE_PORT_MIN + now % 1024)
      (by show 49152 ≤ 49152 + now % 1024; omega)
      (by show 49152 + now % 1024 ≤ 65535; omega) e.symm
  have hn : now % 1024 < 1024 := Nat.mod_lt _ (by norm_num)
  obtain ⟨p, hp, hp1, hp2, -⟩ := tcp_connect_port_some World_run_open.cb_table
    (TCP_SOURCE_PORT_MIN + now % 1024) (TCP_SOURCE_PORT_MIN + now % 1024) (le_refl _)
    (by show 49152 + now % 1024 ≤ 65535; omega) hq
  have hp49 : 49152 ≤ p := by
    have : 49152 + now % 1024 ≤ p := hp1
    omega
  obtain ⟨w1, e, s, -, -, i, -, -, o⟩ := tcp_api_connect_sleeps U now rnd World_run_open 0
    ⟨AF_INET, port, a⟩ p (by decide) rfl (by decide) (by decide) (by decide) hp
    (hton16_ne_zero p hp49 hp2)
  have h2 : Reach U any_call w1 [Cont.in_connect 0] :=
    Reach.call _ _ _ (Call.api_connect 0 ⟨AF_INET, port, a⟩ now rnd) (some (Cont.in_connect 0))
      h1 trivial (by show outcome_step (tcp_api_connect U now rnd World_run_open 0 _) _ = _
                     rw [e]; rfl)
  exact ⟨h1, rfl, rfl, w1, _, e, h2, rfl, o, s, i⟩

/-! ### Half-open children -/

/-- The passive open of `tcp_rx`, for the invariants of children: with `L` the first used
LISTEN CB matching the destination port, `F` the first free slot and no used CB on that port
with the segment's peer, a valid segment with flags exactly SYN makes slot `F` a used CB in
SYN_RCVD with parent `L` and touches no other slot. -/
theorem tcp_rx_child (U : Nat → Nat) (rnd : Nat) (w : World) (segment : List Nat)
    (src dst iface : Nat) (L F : Fin 16)
    (hdst : dst = U iface) (hlen : 20 ≤ segment.length)
    (hck : cksum16 segment segment.length (tcp_rx_pseudo src dst segment.length) = 0)
    (hflg : TCP_FLG_IS (hdr_flg segment) TCP_FLG_SYN)
    (hLu : (w.cb_table L).used ≠ 0) (hLs : (w.cb_table L).state = TCP_CB_STATE_LISTEN)
    (hLp : (w.cb_table L).port = hdr_dst segment)
    (hLi : (w.cb_table L).iface = 0 ∨ (w.cb_table L).iface = iface)
    (hL1 : ∀ j, j < L → (w.cb_table j).used ≠ 0 →
      ((w.cb_table j).iface = 0 ∨ (w.cb_table j).iface = iface) →
      (w.cb_table j).port = hdr_dst segment → (w.cb_table j).state ≠ TCP_CB_STATE_LISTEN)
    (hFu : (w.cb_table F).used = 0) (hF1 : ∀ j, j < F → (w.cb_table j).used ≠ 0)
    (hno : ∀ j, (w.cb_table j).used ≠ 0 → (w.cb_table j).port = hdr_dst segment →
      ¬ ((w.cb_table j).peer.addr = src ∧ (w.cb_table j).peer.port = hdr_src segment)) :
    ∃ w' : World,
      tcp_rx U rnd w segment src dst iface = some w' ∧
      (w'.cb_table F).used = 1 ∧
      (w'.cb_table F).state = TCP_CB_STATE_SYN_RCVD ∧
      (w'.cb_table F).parent = some L ∧
      (w'.cb_table F).backlog = (w.cb_table F).backlog ∧
      (∀ j, j ≠ F → w'.cb_table j = w.cb_table j) ∧
      (w'.cb_table F).iface = iface ∧
      (w'.cb_table F).port = (w.cb_table L).port ∧
      (w'.cb_table F).peer = ⟨src, hdr_src segment⟩ ∧
      (w'.cb_table F).rcv.nxt = (ntoh32 (hdr_seq segment) + 1) % 2 ^ 32 ∧
      (w'.cb_table F).rcv.wnd = TCP_WINDOW_SIZE ∧
      (w'.cb_table F).snd.una = rnd % 2 ^ 32 ∧
      (w'.cb_table F).snd.nxt = (rnd % 2 ^ 32 + 1) % 2 ^ 32 := by
  have hscan := tcp_rx_scan_none w.cb_table iface src (hdr_src segment) (hdr_dst segment)
    allSlots none none (fun i _ hu hm => hno i hu hm.2)
  have hfree : allSlots.find? (fun i => decide ((w.cb_table i).used = 0)) = some F :=
    find?_lowest _ F (by simpa using hFu) (fun j hj => by simpa using hF1 j hj) allSlots
      allSlots_sorted (mem_allSlots F)
  have hlis : allSlots.find? (fun i => decide ((w.cb_table i).used ≠ 0 ∧
      ((w.cb_table i).iface = 0 ∨ (w.cb_table i).iface = iface) ∧
      (w.cb_table i).port = hdr_dst segment ∧
      (w.cb_table i).state = TCP_CB_STATE_LISTEN)) = some L :=
    find?_lowest _ L (by simpa using ⟨hLu, hLi, hLp, hLs⟩)
      (fun j hj => by
        have := hL1 j hj
        simp only [decide_eq_false_iff_not]
        tauto) allSlots allSlots_sorted (mem_allSlots L)
  rw [hfree, hlis] at hscan
  obtain ⟨T, k, hev⟩ := tcp_event_listen_syn U rnd
    (w.put F { w.cb_table F with used := 1, state := (w.cb_table L).state, iface := iface,
                                 port := (w.cb_table L).port, peer := ⟨src, hdr_src segment⟩,
                                 rcv.wnd := TCP_WINDOW_SIZE, parent := some L })
    F segment (by simp only [put_cb_table, set_cb_same]; exact hLs) hflg
  have hrx : tcp_rx U rnd w segment src dst iface = tcp_incoming_event U rnd
      (w.put F { w.cb_table F with used := 1, state := (w.cb_table L).state, iface := iface,
                                   port := (w.cb_table L).port, peer := ⟨src, hdr_src segment⟩,
                                   rcv.wnd := TCP_WINDOW_SIZE, parent := some L })
      F segment := by
    unfold tcp_rx
    rw [if_neg (not_not.mpr hdst), if_neg (by show ¬ segment.length < 20; omega),
      if_neg (not_not.mpr hck), hscan]
    simp only [Option.none_or]
    rw [if_pos hflg]
  rw [← hrx] at hev
  refine ⟨_, hev, ?_, ?_, ?_, ?_, ?_, ?_, ?_, ?_, ?_, ?_, ?_, ?_⟩
  all_goals (try simp only [put_cb_table, set_cb_same])
  intro j hj
  rw [set_cb_other _ _ _ _ hj, set_cb_other _ _ _ _ hj]

/-- Closing a listening socket whose queues are empty zeroes its slot and touches no other:
a child in SYN_RCVD keeps its reference to the slot. -/
theorem tcp_api_close_listen (U : Nat → Nat) (w : World) (soc : Int)
    (hv : ¬ TCP_SOCKET_ISINVALID soc) (hu : (w.cb_table (slot soc)).used ≠ 0)
    (hs : (w.cb_table (slot soc)).state = TCP_CB_STATE_LISTEN)
    (hb : (w.cb_table (slot soc)).backlog = []) (ht : (w.cb_table (slot soc)).txq = []) :
    tcp_api_close U w soc = Outcome.ret (w.put (slot soc) tcp_cb_zero) 0 () := by
  unfold tcp_api_close
  rw [if_neg hv]
  dsimp only
  rw [if_neg hu, hs, if_neg (by decide), if_neg (by decide)]
  unfold tcp_api_close_wake
  rw [tcp_cb_clear_of_empty w (slot soc) hb ht]

/-- C25: `tcp_cb_clear` releases the children queued on the backlog of a listening socket and
nothing refers back from a parent to its half-open children, so closing the listener leaves
them behind. The run "open, bind to port 80, listen, SYN from 127.0.0.1:0xC000, close(0)" from
the all-zero table ends with slot 1 used and in SYN_RCVD, its parent reference still slot 0,
and slot 0 free and CLOSED: the parent of a SYN_RCVD child is not a used CB in LISTEN. -/
theorem tcp_api_close_orphans_child :
    ∃ w2 w3 : World,
      tcp_rx U_sample 1000 World_run_listen segment_sample_syn 0x0100007f 0x0200007f 1 =
        some w2 ∧
      tcp_api_close U_sample w2 0 = Outcome.ret w3 0 () ∧
      Reach U_sample any_call w3 [] ∧
      (w3.cb_table 1).used = 1 ∧
      (w3.cb_table 1).state = TCP_CB_STATE_SYN_RCVD ∧
      (w3.cb_table 1).parent = some 0 ∧
      (w3.cb_table 0).used = 0 ∧
      (w3.cb_table 0).state = TCP_CB_STATE_CLOSED := by
  have hck : cksum16 segment_sample_syn segment_sample_syn.length
      (tcp_rx_pseudo 0x0100007f 0x0200007f segment_sample_syn.length) = 0 := by decide
  have hr0 : Reach U_sample any_call World_run_listen [] :=
    Reach_run_listen U_sample any_call (fun _ _ _ _ => trivial)
  obtain ⟨w2, e2, u2, s2, p2, -, o2, -⟩ := tcp_rx_child U_sample 1000 World_run_listen
    segment_sample_syn 0x0100007f 0x0200007f 1 0 1 rfl (by decide) hck (by decide) (by decide)
    (by decide) (by decide) (by decide) (by decide) (by decide) (by decide) (by decide)
  have hr2 : Reach U_sample any_call w2 [] := Reach.rx _ _ _ _ _ _ _ _ hr0 e2
  have h0 : w2.cb_table 0 = World_run_listen.cb_table 0 := o2 0 (by decide)
  have e3 := tcp_api_close_listen U_sample w2 0 (by decide)
    (by show (w2.cb_table 0).used ≠ 0; rw [h0]; decide)
    (by show (w2.cb_table 0).state = _; rw [h0]; decide)
    (by show (w2.cb_table 0).backlog = _; rw [h0]; decide)
    (by show (w2.cb_table 0).txq = _; rw [h0]; decide)
  have hr3 : Reach U_sample any_call (w2.put (slot 0) tcp_cb_zero) [] :=
    Reach.call _ _ _ (Call.api_close 0) none hr2 trivial
      (by show outcome_step (tcp_api_close U_sample w2 0) _ = _
          rw [e3]; rfl)
  have h1 : (w2.put (slot 0) tcp_cb_zero).cb_table 1 = w2.cb_table 1 := by
    rw [put_cb_table]
    exact set_cb_other _ _ _ _ (by decide)
  refine ⟨w2, _, e2, e3, hr3, ?_, ?_, ?_, ?_, ?_⟩
  · rw [h1]; exact u2
  · rw [h1]; exact s2
  · rw [h1]; exact p2
  · rw [put_cb_table]; exact congrArg tcp_cb.used (set_cb_same _ _ _)
  · rw [put_cb_table]; exact congrArg tcp_cb.state (set_cb_same _ _ _)

/-! ### The send sequence space along a run -/

theorem seq_inv_step (c c' : tcp_cb) (hs : cb_step c c') (hi : seq_inv c) : seq_inv c' := by
  obtain ⟨i1, i2, i3, i4, i5⟩ := hi
  unfold seq_inv seq_diff at *
  cases hs with
  | same h =>
    obtain ⟨-, h2, h3, h4, h5⟩ := h
    rw [h2, h3, h4, h5]
    exact ⟨i1, i2, i3, i4, i5⟩
  | zero h =>
    obtain ⟨-, h2, h3, h4, h5⟩ := h
    have z2 : c'.state = 0 := h2
    have z3 : c'.snd.una = 0 := h3
    have z4 : c'.snd.nxt = 0 := h4
    have z5 : c'.iss = 0 := h5
    rw [z2, z3, z4, z5]
    refine ⟨by norm_num, by norm_num, by norm_num, fun h => absurd h (by decide), fun _ => ?_⟩
    norm_num
  | alloc _ _ h3 h4 h5 h6 =>
    rw [h3, h4, h5, h6]
    exact ⟨i1, i2, i3, i4, i5⟩
  | listen _ _ h3 _ h5 h6 h7 =>
    rw [h3, h5, h6, h7]
    refine ⟨i1, i2, i3, fun h => absurd h (by decide), fun h => ?_⟩
    rcases h with e | e | e | e | e | e | e | e <;> exact absurd e (by decide)
  | connect _ _ h3 _ h5 h6 h7 =>
    rw [h3, h5, h7]
    refine ⟨i1, Nat.mod_lt _ (by norm_num), h6, fun _ => rfl, fun h => ?_⟩
    rcases h with e | e | e | e | e | e | e | e <;> exact absurd e (by decide)
  | syn_rcvd _ h2 h3 h4 h5 =>
    rw [h2, h4, h5]
    refine ⟨h3, Nat.mod_lt _ (by norm_num), h3, fun h => absurd h (by decide), fun _ => ?_⟩
    omega
  | established h1 h2 _ h4 h5 h6 h7 =>
    have hn := i4 h1
    rw [h2, h6, h7]
    refine ⟨by omega, i2, i3, fun h => absurd h (by decide), fun _ => ?_⟩
    omega
  | sync h1 h2 _ h4 h5 h6 =>
    have hd := i5 h1
    rw [h4, h5]
    refine ⟨by omega, i2, i3, ?_, fun _ => ?_⟩
    · intro h
      rcases h2 with e | e | e | e | e | e | e | e <;> rw [e] at h <;> exact absurd h (by decide)
    · rcases h6 with e | ⟨e1, e2⟩
      · rw [e]; exact hd
      · omega

theorem seq_inv_advance (c c' : tcp_cb) (len : Nat) (hs : cb_advance len c c')
    (hg : seq_diff c + len < 2 ^ 31) (hi : seq_inv c) : seq_inv c' := by
  obtain ⟨i1, i2, i3, -, -⟩ := hi
  obtain ⟨-, h2, -, h4, h5, h6⟩ := hs
  unfold seq_inv seq_diff at *
  rw [h4, h5, h6]
  refine ⟨i1, Nat.mod_lt _ (by norm_num), i3, ?_, fun _ => ?_⟩
  · intro h
    rcases h2 with e | e | e | e | e | e | e | e <;> rw [e] at h <;> exact absurd h (by decide)
  · omega

/-- Every slot of a table reachable under the send guard satisfies the invariant of the send
sequence space. -/
theorem Reach_seq_inv (U : Nat → Nat) (w : World) (ps : List Cont)
    (h : Reach U send_guard w ps) : ∀ j, seq_inv (w.cb_table j) := by
  induction h with
  | init kmem =>
    intro j
    have hz : ((World_init kmem).cb_table j).state = 0 := rfl
    refine ⟨?_, ?_, ?_, fun h => ?_, fun h => ?_⟩
    · show (0 : Nat) < 2 ^ 32; norm_num
    · show (0 : Nat) < 2 ^ 32; norm_num
    · show (0 : Nat) < 2 ^ 32; norm_num
    · rw [hz] at h; exact absurd h (by decide)
    · rw [hz] at h
      rcases h with e | e | e | e | e | e | e | e <;> exact absurd e (by decide)
  | call w w' ps c k _ hg hstep ih =>
    intro j
    rcases call_step_cb U c w w' k hstep j with hs | hs
    · exact seq_inv_step _ _ hs (ih j)
    · cases c with
      | api_send soc buf =>
        obtain ⟨hj, hr, ha⟩ := hs
        subst hj
        exact seq_inv_advance _ _ _ ha (hg hr) (ih _)
      | api_close soc =>
        obtain ⟨hj, hr, ha⟩ := hs
        subst hj
        exact seq_inv_advance _ _ _ ha (hg hr) (ih _)
      | api_open => exact hs.elim
      | api_bind _ _ => exact hs.elim
      | api_listen _ _ => exact hs.elim
      | api_accept _ _ _ _ => exact hs.elim
      | api_connect _ _ _ _ => exact hs.elim
      | api_recv _ _ _ => exact hs.elim
  | wake w w' ps k killed k' _ _ hstep ih =>
    exact fun j => seq_inv_step _ _ (wake_step_cb k killed w w' k' hstep j) (ih j)
  | rx w w' ps rnd segment src dst iface _ hstep ih =>
    exact fun j => seq_inv_step _ _ (tcp_rx_cb_step U rnd w w' segment src dst iface hstep j)
      (ih j)
/-- The lookup loop of `tcp_rx` stops at the first used CB that matches interface, port and
peer. -/
theorem tcp_rx_scan_found (t : Fin 16 → tcp_cb) (iface src sport dport : Nat) (cb : Fin 16)
    (hu : (t cb).used ≠ 0)
    (hm : ((t cb).iface = 0 ∨ (t cb).iface = iface) ∧ (t cb).port = dport)
    (hp : (t cb).peer.addr = src ∧ (t cb).peer.port = sport)
    (hb : ∀ j, j < cb → (t j).used ≠ 0 →
      ((t j).iface = 0 ∨ (t j).iface = iface) ∧ (t j).port = dport →
      ¬ ((t j).peer.addr = src ∧ (t j).peer.port = sport)) :
    ∀ (l : List (Fin 16)) (fcb lcb : Option (Fin 16)), l.Pairwise (· < ·) → cb ∈ l →
      ∃ f x, tcp_rx_scan t iface src sport dport l fcb lcb = (some cb, f, x) := by
  intro l
  induction l with
  | nil => intro _ _ _ h; simp at h
  | cons i rest ih =>
    intro fcb lcb hs hi
    rw [List.pairwise_cons] at hs
    unfold tcp_rx_scan
    dsimp only
    by_cases hic : i = cb
    · subst hic
      rw [if_neg hu, if_pos hm, if_pos hp]
      exact ⟨_, _, rfl⟩
    · have hmem : cb ∈ rest := by
        rcases List.mem_cons.mp hi with e | e
        · exact absurd e.symm hic
        · exact e
      have hlt : i < cb := hs.1 cb hmem
      by_cases h0 : (t i).used = 0
      · rw [if_pos h0]
        exact ih _ _ hs.2 hmem
      · rw [if_neg h0]
        by_cases h1 : ((t i).iface = 0 ∨ (t i).iface = iface) ∧ (t i).port = dport
        · rw [if_pos h1, if_neg (hb i hlt h0 h1)]
          exact ih _ _ hs.2 hmem
        · rw [if_neg h1]
          exact ih _ _ hs.2 hmem

/-- A valid segment for which the lookup of `tcp_rx` stops at `cb` is handed to
`tcp_incoming_event` for that CB, on the table as it is. -/
theorem tcp_rx_found (U : Nat → Nat) (rnd : Nat) (w : World) (segment : List Nat)
    (src dst iface : Nat) (cb : Fin 16)
    (hdst : dst = U iface) (hlen : 20 ≤ segment.length)
    (hck : cksum16 segment segment.length (tcp_rx_pseudo src dst segment.length) = 0)
    (hu : (w.cb_table cb).used ≠ 0)
    (hm : ((w.cb_table cb).iface = 0 ∨ (w.cb_table cb).iface = iface) ∧
      (w.cb_table cb).port = hdr_dst segment)
    (hp : (w.cb_table cb).peer.addr = src ∧ (w.cb_table cb).peer.port = hdr_src segment)
    (hb : ∀ j, j < cb → (w.cb_table j).used ≠ 0 →
      ((w.cb_table j).iface = 0 ∨ (w.cb_table j).iface = iface) ∧
        (w.cb_table j).port = hdr_dst segment →
      ¬ ((w.cb_table j).peer.addr = src ∧ (w.cb_table j).peer.port = hdr_src segment)) :
    tcp_rx U rnd w segment src dst iface = tcp_incoming_event U rnd w cb segment := by
  obtain ⟨f, x, hscan⟩ := tcp_rx_scan_found w.cb_table iface src (hdr_src segment)
    (hdr_dst segment) cb hu hm hp hb allSlots none none allSlots_sorted (mem_allSlots cb)
  unfold tcp_rx
  rw [if_neg (not_not.mpr hdst), if_neg (by show ¬ segment.length < 20; omega),
    if_neg (not_not.mpr hck), hscan]

/-- A `tcp_api_send` of a buffer that fits the staging buffer, on a used CB in ESTABLISHED or
CLOSE_WAIT: it returns 0 and moves `snd.nxt` on by the length, whatever is unacknowledged. -/
theorem tcp_api_send_advance (U : Nat → Nat) (w : World) (soc : Int) (buf : List Nat)
    (hv : ¬ TCP_SOCKET_ISINVALID soc) (hu : (w.cb_table (slot soc)).used ≠ 0)
    (hs : TCP_CB_STATE_TX_ISREADY (w.cb_table (slot soc)))
    (hlen : TCP_HDR_SIZE + buf.length ≤ TCP_SEGMENT_SIZE) :
    ∃ w' : World, tcp_api_send U w soc buf = Outcome.ret w' 0 () ∧
      (w'.cb_table (slot soc)).state = (w.cb_table (slot soc)).state ∧
      (w'.cb_table (slot soc)).used = (w.cb_table (slot soc)).used ∧
      (w'.cb_table (slot soc)).snd.una = (w.cb_table (slot soc)).snd.una ∧
      (w'.cb_table (slot soc)).snd.nxt =
        ((w.cb_table (slot soc)).snd.nxt + buf.length) % 2 ^ 32 := by
  obtain ⟨w1, h1, -⟩ := tcp_tx__spec U w (slot soc) (w.cb_table (slot soc)).snd.nxt
    (w.cb_table (slot soc)).rcv.nxt (TCP_FLG_ACK ||| TCP_FLG_PSH) buf hlen
  obtain ⟨⟨-, -, k1⟩, s1, u1, -⟩ := tcp_tx__frame U w w1 (slot soc) _ _ _ _ h1
  obtain ⟨k1, -, -, -, k5, -⟩ := k1
  refine ⟨w1.put (slot soc) { w1.cb_table (slot soc) with
    snd.nxt := ((w1.cb_table (slot soc)).snd.nxt + buf.length) % 2 ^ 32 }, ?_, ?_, ?_, ?_, ?_⟩
  · unfold tcp_api_send
    rw [if_neg hv]
    dsimp only
    rw [if_neg hu, if_neg (not_not.mpr hs), h1]
  · rw [put_cb_table, set_cb_same]; exact s1
  · rw [put_cb_table, set_cb_same]; exact k1
  · rw [put_cb_table, set_cb_same]; exact u1
  · rw [put_cb_table, set_cb_same]
    show ((w1.cb_table (slot soc)).snd.nxt + buf.length) % 2 ^ 32 = _
    rw [k5]

/-- Any number of one-byte sends can follow one another on a socket that can send: nothing
holds a sender back, and `snd.nxt` moves on by their number while `snd.una` stays. -/
theorem Reach_send_many (U : Nat → Nat) (soc : Int) (hv : ¬ TCP_SOCKET_ISINVALID soc) :
    ∀ (n : Nat) (w : World) (ps : List Cont), Reach U any_call w ps →
      (w.cb_table (slot soc)).used ≠ 0 → TCP_CB_STATE_TX_ISREADY (w.cb_table (slot soc)) →
      (w.cb_table (slot soc)).snd.nxt < 2 ^ 32 →
      ∃ w' : World, Reach U any_call w' ps ∧
        (w'.cb_table (slot soc)).state = (w.cb_table (slot soc)).state ∧
        (w'.cb_table (slot soc)).snd.una = (w.cb_table (slot soc)).snd.una ∧
        (w'.cb_table (slot soc)).snd.nxt = ((w.cb_table (slot soc)).snd.nxt + n) % 2 ^ 32 := by
  intro n
  induction n with
  | zero =>
    intro w ps hr _ _ hn
    exact ⟨w, hr, rfl, rfl, (Nat.mod_eq_of_lt hn).symm⟩
  | succ n ih =>
    intro w ps hr hu hs hn
    obtain ⟨w1, e1, s1, u1, a1, n1⟩ := tcp_api_send_advance U w soc [0] hv hu hs (by decide)
    have hr1 : Reach U any_call w1 ps :=
      Reach.call _ _ _ (Call.api_send soc [0]) none hr trivial
        (by show outcome_step (tcp_api_send U w soc [0]) _ = _
            rw [e1]; rfl)
    obtain ⟨w2, hr2, s2, a2, n2⟩ := ih w1 ps hr1 (by rw [u1]; exact hu)
      (by show (w1.cb_table (slot soc)).state = _ ∨ (w1.cb_table (slot soc)).state = _
          rw [s1]; exact hs)
      (by rw [n1]; exact Nat.mod_lt _ (by norm_num))
    refine ⟨w2, hr2, s2.trans s1, a2.trans a1, ?_⟩
    rw [n2, n1]
    show (((w.cb_table (slot soc)).snd.nxt + 1) % 2 ^ 32 + n) % 2 ^ 32 = _
    omega

/-- The run "open, bind to port 80, listen, SYN from 127.0.0.1:0xC000, ACK of the SYN|ACK"
is a run of the module under every guard that admits the calls other than send and close, and
it ends with the child in slot 1 in ESTABLISHED. -/
theorem Reach_run_established :
    ∃ w3 : World,
      (∀ G : World → Call → Prop,
        (∀ w c, (∀ soc buf, c ≠ Call.api_send soc buf) → (∀ soc, c ≠ Call.api_close soc) →
          G w c) → Reach U_sample G w3 []) ∧
      (w3.cb_table 1).state = TCP_CB_STATE_ESTABLISHED := by
  have hck1 : cksum16 segment_sample_syn segment_sample_syn.length
      (tcp_rx_pseudo 0x0100007f 0x0200007f segment_sample_syn.length) = 0 := by decide
  have hck2 : cksum16 segment_sample_ack_valid segment_sample_ack_valid.length
      (tcp_rx_pseudo 0x0100007f 0x0200007f segment_sample_ack_valid.length) = 0 := by decide
  obtain ⟨w2, e2, u2, s2, p2, -, o2, i2, q2, r2, rn2, -, una2, nxt2⟩ :=
    tcp_rx_child U_sample 1000 World_run_listen
    segment_sample_syn 0x0100007f 0x0200007f 1 0 1 rfl (by decide) hck1 (by decide) (by decide)
    (by decide) (by decide) (by decide) (by decide) (by decide) (by decide) (by decide)
  have h0 : w2.cb_table 0 = World_run_listen.cb_table 0 := o2 0 (by decide)
  have e3 : tcp_rx U_sample 0 w2 segment_sample_ack_valid 0x0100007f 0x0200007f 1 =
      tcp_incoming_event U_sample 0 w2 1 segment_sample_ack_valid := by
    apply tcp_rx_found U_sample 0 w2 segment_sample_ack_valid 0x0100007f 0x0200007f 1 1 rfl
      (by decide) hck2
    · rw [u2]; decide
    · rw [i2, q2]
      exact ⟨Or.inr rfl, by decide⟩
    · rw [r2]
      exact ⟨rfl, by decide⟩
    · intro j hj _ _
      have hj0 : j = 0 := by
        apply Fin.ext
        have : j.val < 1 := hj
        show j.val = 0
        omega
      rw [hj0, h0]
      intro h
      exact absurd h.1 (by decide)
  obtain ⟨w3, e4, -, s4, -⟩ := tcp_event_syn_rcvd_accept U_sample 0 w2 1 0
    segment_sample_ack_valid s2 p2 (by decide)
    (by rw [rn2]; decide) (by decide) (by decide) (by decide)
    (by rw [una2, nxt2]; decide) (Or.inl (by decide))
  refine ⟨w3, ?_, ?_⟩
  · intro G hG
    have hr0 : Reach U_sample G World_run_listen [] := Reach_run_listen U_sample G hG
    have hr2 : Reach U_sample G w2 [] := Reach.rx _ _ _ _ _ _ _ _ hr0 e2
    exact Reach.rx _ _ _ _ _ _ _ _ hr2 (e3.trans e4)
  · rw [s4]
    exact if_neg (by decide)

/-- C17, as stated, fails on the code: after the passive handshake of the run above the child
in slot 1 is in ESTABLISHED, and one-byte calls of `tcp_api_send`, none of them acknowledged,
follow until `2^31` sequence numbers are unacknowledged; every call returns 0. The table is
reachable, the CB is in a synchronised state, and `(snd.nxt - snd.una) mod 2^32 = 2^31`. -/
theorem reachable_seq_order_counterexample :
    ∃ w : World, Reach U_sample any_call w [] ∧
      (w.cb_table 1).state = TCP_CB_STATE_ESTABLISHED ∧
      seq_diff (w.cb_table 1) = 2 ^ 31 ∧
      ¬ seq_le (w.cb_table 1).snd.una (w.cb_table 1).snd.nxt := by
  obtain ⟨w3, hr, s3⟩ := Reach_run_established
  have hG : ∀ (w : World) (c : Call), (∀ soc buf, c ≠ Call.api_send soc buf) →
      (∀ soc, c ≠ Call.api_close soc) → send_guard w c := by
    intro w c h1 h2
    cases c with
    | api_send soc buf => exact absurd rfl (h1 soc buf)
    | api_close soc => exact absurd rfl (h2 soc)
    | api_open => exact trivial
    | api_bind _ _ => exact trivial
    | api_listen _ _ => exact trivial
    | api_accept _ _ _ _ => exact trivial
    | api_connect _ _ _ _ => exact trivial
    | api_recv _ _ _ => exact trivial
  have hra : Reach U_sample any_call w3 [] := hr any_call (fun _ _ _ _ => trivial)
  obtain ⟨i1, i2, -, -, i5⟩ := Reach_seq_inv U_sample w3 [] (hr send_guard hG) 1
  have hd : seq_diff (w3.cb_table 1) < 2 ^ 31 := i5 (by rw [s3]; exact Or.inr (Or.inl rfl))
  have hu : (w3.cb_table 1).used ≠ 0 := by
    rcases Reach_used_inv U_sample any_call w3 [] hra 1 with e | e
    · rw [e]; decide
    · rw [s3] at e; exact absurd e.2 (by decide)
  obtain ⟨w', hr', s', a', n'⟩ := Reach_send_many U_sample 1 (by decide)
    (2 ^ 31 - seq_diff (w3.cb_table 1)) w3 [] hra hu (Or.inl s3) i2
  have s'' : (w'.cb_table 1).state = (w3.cb_table 1).state := s'
  have a'' : (w'.cb_table 1).snd.una = (w3.cb_table 1).snd.una := a'
  have n'' : (w'.cb_table 1).snd.nxt =
      ((w3.cb_table 1).snd.nxt + (2 ^ 31 - seq_diff (w3.cb_table 1))) % 2 ^ 32 := n'
  have hfin : seq_diff (w'.cb_table 1) = 2 ^ 31 := by
    unfold seq_diff at hd ⊢
    rw [a'', n'']
    unfold seq_diff
    omega
  refine ⟨w', hr', s''.trans s3, hfin, ?_⟩
  unfold seq_le
  unfold seq_diff at hfin
  rw [hfin]
  norm_num

/-- C17, amended. The code has no send window: `tcp_api_send` and `tcp_api_close` move
`snd.nxt` on whatever is unacknowledged. The amended statement has two conditions on the
run. In every table state reached from the all-zero table by API calls and incoming
segments such that
(1) no step accesses memory out of bounds or through `NULL` (the runs of `Reach`: every
payload stored by `tcp_incoming_event` fits the room left in `window` and lies inside its
segment, `tcp_api_send` hands at most 1480 bytes to `tcp_tx`, `tcp_api_recv` meets no
`rcv.wnd > 4096`, no SYN_RCVD CB with a `NULL` parent has its SYN|ACK acknowledged), and
(2) every `tcp_api_send` of `len` bytes on a CB that can send is made while
`(snd.nxt - snd.una) mod 2^32 + len < 2^31`, and every `tcp_api_close` that sends a FIN while
`(snd.nxt - snd.una) mod 2^32 + 1 < 2^31` (the guard `send_guard`),
every CB in a synchronised state has `snd.una <= snd.nxt` in the modular ordering:
`(snd.nxt - snd.una) mod 2^32 < 2^31`. Nothing is claimed of a run that breaks (1): an
overflowing payload is written over the `snd` fields of the next CB. -/
theorem reachable_seq_order (U : Nat → Nat) (w : World) (ps : List Cont)
    (h : Reach U send_guard w ps) (j : Fin 16)
    (hs : TCP_CB_STATE_ISSYNC (w.cb_table j).state) :
    seq_le (w.cb_table j).snd.una (w.cb_table j).snd.nxt :=
  (Reach_seq_inv U w ps h j).2.2.2.2 hs

/-- Witness for C17: the run "open, bind, listen, SYN, ACK" has no send and no close; the
child it leaves in ESTABLISHED has `snd.una <= snd.nxt`. -/
theorem reachable_seq_order_witness :
    ∃ w : World, Reach U_sample send_guard w [] ∧
      (w.cb_table 1).state = TCP_CB_STATE_ESTABLISHED ∧
      seq_le (w.cb_table 1).snd.una (w.cb_table 1).snd.nxt := by
  obtain ⟨w3, hr, s3⟩ := Reach_run_established
  have hG : ∀ (w : World) (c : Call), (∀ soc buf, c ≠ Call.api_send soc buf) →
      (∀ soc, c ≠ Call.api_close soc) → send_guard w c := by
    intro w c h1 h2
    cases c with
    | api_send soc buf => exact absurd rfl (h1 soc buf)
    | api_close soc => exact absurd rfl (h2 soc)
    | api_open => exact trivial
    | api_bind _ _ => exact trivial
    | api_listen _ _ => exact trivial
    | api_accept _ _ _ _ => exact trivial
    | api_connect _ _ _ _ => exact trivial
    | api_recv _ _ _ => exact trivial
  exact ⟨w3, hr send_guard hG, s3,
    reachable_seq_order U_sample w3 [] (hr send_guard hG) 1
      (by rw [s3]; exact Or.inr (Or.inl rfl))⟩

/-! ### Payload against the receive buffer -/

/-- The full-sized data segments of the sample connection: 1480 bytes that pass the checks of
`tcp_rx`, with a 20-byte header and 1460 payload bytes. -/
theorem segment_sample_data_facts (q : Nat) (hq : q < 2 ^ 32) :
    (segment_sample_data q).length = 1480 ∧
    cksum16 (segment_sample_data q) (segment_sample_data q).length
      (tcp_rx_pseudo 0x0100007f 0x0200007f (segment_sample_data q).length) = 0 ∧
    hdr_src (segment_sample_data q) = 0x00c0 ∧
    hdr_dst (segment_sample_data q) = 0x5000 ∧
    ntoh32 (hdr_seq (segment_sample_data q)) = q ∧
    ntoh32 (hdr_ack (segment_sample_data q)) = 1001 ∧
    hdr_flg (segment_sample_data q) = 0x18 ∧
    hdr_off (segment_sample_data q) = 0x50 ∧
    seg_hlen (segment_sample_data q) = 20 ∧
    seg_plen (segment_sample_data q) = 1460 := by
  have hl : payload_sample_1460.length = 1460 := by
    simp [payload_sample_1460]
  have hb : ∀ b ∈ payload_sample_1460, b < 256 := by
    intro b hb
    simp only [payload_sample_1460, List.mem_map] at hb
    obtain ⟨i, -, rfl⟩ := hb
    split_ifs <;> norm_num
  have hlen : (segment_sample_data q).length = 1480 := by
    unfold segment_sample_data
    rw [tcp_tx_segment_length, hl]
  have hoff : hdr_off (segment_sample_data q) = 0x50 := tcp_tx_segment_off _ _ _ _ _ _
  have hh : seg_hlen (segment_sample_data q) = 20 := by
    unfold seg_hlen
    rw [hoff]
    rfl
  refine ⟨hlen, ?_, ?_, ?_, ?_, ?_, ?_, hoff, hh, ?_⟩
  · exact tcp_tx_segment_cksum tcp_cb_sample_peer 0x0100007f q 1001
      (TCP_FLG_ACK ||| TCP_FLG_PSH) payload_sample_1460 (by rw [hl]; norm_num) hb (by norm_num)
      (by decide)
  · unfold segment_sample_data
    rw [tcp_tx_segment_src]
    rfl
  · unfold segment_sample_data
    rw [tcp_tx_segment_dst]
    rfl
  · unfold segment_sample_data
    rw [tcp_tx_segment_seq]
    exact Nat.mod_eq_of_lt hq
  · unfold segment_sample_data
    rw [tcp_tx_segment_ack]
    rfl
  · unfold segment_sample_data
    rw [tcp_tx_segment_flg]
    rfl
  · unfold seg_plen
    rw [hlen, hh]
    norm_num

/-- A payload that does not fit the space left in the receive buffer: for a CB in ESTABLISHED,
FIN_WAIT_1 or FIN_WAIT_2 and a segment that gets through the precondition check with
`ack <= snd.nxt`, whose payload is longer than `rcv.wnd`, the copy into `window` starts at
offset `4096 - rcv.wnd` and runs past the end of the array. Nothing in `tcp_incoming_event`
compares `plen` with `rcv.wnd`. -/
theorem tcp_incoming_event_overflow (U : Nat → Nat) (rnd : Nat) (w : World) (cb : Fin 16)
    (hdr : List Nat)
    (hs : (w.cb_table cb).state = TCP_CB_STATE_ESTABLISHED ∨
      (w.cb_table cb).state = TCP_CB_STATE_FIN_WAIT1 ∨
      (w.cb_table cb).state = TCP_CB_STATE_FIN_WAIT2)
    (hseq : ntoh32 (hdr_seq hdr) = (w.cb_table cb).rcv.nxt)
    (hack : TCP_FLG_ISSET (hdr_flg hdr) TCP_FLG_ACK)
    (hrst : ¬ TCP_FLG_ISSET (hdr_flg hdr) TCP_FLG_RST)
    (hsyn : ¬ TCP_FLG_ISSET (hdr_flg hdr) TCP_FLG_SYN)
    (hle : ntoh32 (hdr_ack hdr) ≤ (w.cb_table cb).snd.nxt)
    (hw : (w.cb_table cb).rcv.wnd ≤ 4096)
    (hbig : (w.cb_table cb).rcv.wnd < seg_plen hdr) :
    tcp_incoming_event U rnd w cb hdr = none := by
  have hs4 : (w.cb_table cb).state = TCP_CB_STATE_ESTABLISHED ∨
      (w.cb_table cb).state = TCP_CB_STATE_FIN_WAIT1 ∨
      (w.cb_table cb).state = TCP_CB_STATE_FIN_WAIT2 ∨
      (w.cb_table cb).state = TCP_CB_STATE_CLOSE_WAIT := by
    rcases hs with h | h | h
    · exact Or.inl h
    · exact Or.inr (Or.inl h)
    · exact Or.inr (Or.inr (Or.inl h))
  have hs5 : (w.cb_table cb).state = TCP_CB_STATE_ESTABLISHED ∨
      (w.cb_table cb).state = TCP_CB_STATE_FIN_WAIT1 ∨
      (w.cb_table cb).state = TCP_CB_STATE_FIN_WAIT2 ∨
      (w.cb_table cb).state = TCP_CB_STATE_CLOSE_WAIT ∨
      (w.cb_table cb).state = TCP_CB_STATE_CLOSING := by
    rcases hs with h | h | h
    · exact Or.inl h
    · exact Or.inr (Or.inl h)
    · exact Or.inr (Or.inr (Or.inl h))
  have hp0 : seg_plen hdr ≠ 0 := by omega
  have e1 := tcp_incoming_event_to_ack U rnd w cb hdr hs5 hseq hack hrst hsyn
  obtain ⟨u, e2⟩ := tcp_event_ack_to_payload U w cb hdr (seg_hlen hdr) (seg_plen hdr) hs4 hle
  rw [e1, e2]
  unfold tcp_event_payload
  dsimp only
  rw [put_cb_table, set_cb_same]
  have hrx : (if (w.cb_table cb).state = TCP_CB_STATE_FIN_WAIT1 ∧
      ntoh32 (hdr_ack hdr) = (w.cb_table cb).snd.nxt then TCP_CB_STATE_FIN_WAIT2
      else (w.cb_table cb).state) = TCP_CB_STATE_ESTABLISHED ∨
    (if (w.cb_table cb).state = TCP_CB_STATE_FIN_WAIT1 ∧
      ntoh32 (hdr_ack hdr) = (w.cb_table cb).snd.nxt then TCP_CB_STATE_FIN_WAIT2
      else (w.cb_table cb).state) = TCP_CB_STATE_FIN_WAIT1 ∨
    (if (w.cb_table cb).state = TCP_CB_STATE_FIN_WAIT1 ∧
      ntoh32 (hdr_ack hdr) = (w.cb_table cb).snd.nxt then TCP_CB_STATE_FIN_WAIT2
      else (w.cb_table cb).state) = TCP_CB_STATE_FIN_WAIT2 := by
    split_ifs
    · exact Or.inr (Or.inr rfl)
    · exact hs
  rw [if_pos ⟨hp0, hrx⟩, if_neg]
  intro h
  have h1 : (4096 + 2 ^ 32 - (w.cb_table cb).rcv.wnd) % 2 ^ 32 + seg_plen hdr ≤ 4096 := h.1
  omega
/-- A full-sized data segment in sequence, with room for it in the receive buffer, is taken:
the sample connection moves `rcv.nxt` on by 1460 and has 1460 bytes less room. -/
theorem sample_child_data_step (w : World) (q wnd : Nat) (hc : sample_child w q wnd)
    (hq : q + 1460 < 2 ^ 32) (hw1 : 1460 ≤ wnd) (hw2 : wnd ≤ 4096) :
    ∃ w' : World,
      tcp_rx U_sample 0 w (segment_sample_data q) 0x0100007f 0x0200007f 1 = some w' ∧
      sample_child w' (q + 1460) (wnd - 1460) := by
  obtain ⟨hu, hs, hi, hpt, hpe, hnx, hrn, hrw, h0⟩ := hc
  obtain ⟨hlen, hck, hsrc, hdst, hsq, hak, hflg, hoff, -, hpl⟩ :=
    segment_sample_data_facts q (by omega)
  have e1 : tcp_rx U_sample 0 w (segment_sample_data q) 0x0100007f 0x0200007f 1 =
      tcp_incoming_event U_sample 0 w 1 (segment_sample_data q) := by
    apply tcp_rx_found U_sample 0 w (segment_sample_data q) 0x0100007f 0x0200007f 1 1 rfl
      (by rw [hlen]; norm_num) hck
    · rw [hu]; decide
    · exact ⟨Or.inr hi, by rw [hpt, hdst]⟩
    · rw [hpe, hsrc]
      exact ⟨rfl, rfl⟩
    · intro j hj _ _
      have hj0 : j = 0 := by
        apply Fin.ext
        have : j.val < 1 := hj
        show j.val = 0
        omega
      rw [hj0, h0]
      intro h
      exact absurd h.1 (by decide)
  have hna : ¬ ((w.cb_table 1).state = TCP_CB_STATE_SYN_RCVD ∧
      ((w.cb_table 1).snd.una ≤ ntoh32 (hdr_ack (segment_sample_data q)) ∧
        ntoh32 (hdr_ack (segment_sample_data q)) ≤ (w.cb_table 1).snd.nxt)) := by
    intro h
    rw [hs] at h
    exact absurd h.1 (by decide)
  have hnf : ¬ ((w.cb_table 1).state = TCP_CB_STATE_FIN_WAIT1 ∧
      ntoh32 (hdr_ack (segment_sample_data q)) = (w.cb_table 1).snd.nxt) := by
    intro h
    rw [hs] at h
    exact absurd h.1 (by decide)
  obtain ⟨w2, -, -, e2, s2, o2, -, c2, n2, d2, -, -, -⟩ :=
    tcp_incoming_event_to_fin U_sample 0 w 1 (segment_sample_data q)
      (by rw [hsq, hrn]) (by rw [hflg]; decide) (by rw [hflg]; decide) (by rw [hflg]; decide)
      (Or.inr ⟨by rw [hpl, hrw]; exact hw1, by rw [hrw]; exact hw2, by rw [hoff]; norm_num,
        by rw [hlen]; norm_num⟩)
      (Or.inl ⟨Or.inl hs, by rw [hak, hnx]⟩)
  have e3 := tcp_event_fin_none U_sample w2 1 (segment_sample_data q) (by rw [hflg]; decide)
  rw [if_neg hna, if_neg hnf, hs] at s2
  have hst : seg_plen (segment_sample_data q) ≠ 0 ∧
      ((w2.cb_table 1).state = TCP_CB_STATE_ESTABLISHED ∨
        (w2.cb_table 1).state = TCP_CB_STATE_FIN_WAIT1 ∨
        (w2.cb_table 1).state = TCP_CB_STATE_FIN_WAIT2) :=
    ⟨by rw [hpl]; norm_num, Or.inl s2⟩
  refine ⟨w2, e1.trans (e2.trans e3), ?_, s2, ?_, ?_, ?_, ?_, ?_, ?_, ?_⟩
  · conv_lhs => rw [c2]
    exact hu
  · conv_lhs => rw [c2]
    exact hi
  · conv_lhs => rw [c2]
    exact hpt
  · conv_lhs => rw [c2]
    exact hpe
  · conv_lhs => rw [c2]
    exact hnx
  · rw [n2, if_pos hst, hsq, hpl]
    exact Nat.mod_eq_of_lt hq
  · rw [d2, if_pos hst, hrw, hpl]
  · rw [o2 0 (by decide) (fun h => hna h.1)]
    exact h0

/-- A data segment of the sample connection is handed to the CB in slot 1 by `tcp_rx`. -/
theorem sample_child_dispatch (w : World) (q wnd : Nat) (hc : sample_child w q wnd)
    (hq : q < 2 ^ 32) :
    tcp_rx U_sample 0 w (segment_sample_data q) 0x0100007f 0x0200007f 1 =
      tcp_incoming_event U_sample 0 w 1 (segment_sample_data q) := by
  obtain ⟨hu, -, hi, hpt, hpe, -, -, -, h0⟩ := hc
  obtain ⟨hlen, hck, hsrc, hdst, -, -, -, -, -, -⟩ := segment_sample_data_facts q hq
  apply tcp_rx_found U_sample 0 w (segment_sample_data q) 0x0100007f 0x0200007f 1 1 rfl
    (by rw [hlen]; norm_num) hck
  · rw [hu]; decide
  · exact ⟨Or.inr hi, by rw [hpt, hdst]⟩
  · rw [hpe, hsrc]
    exact ⟨rfl, rfl⟩
  · intro j hj _ _
    have hj0 : j = 0 := by
      apply Fin.ext
      have : j.val < 1 := hj
      show j.val = 0
      omega
    rw [hj0, h0]
    intro h
    exact absurd h.1 (by decide)

/-- A full-sized data segment in sequence for which the receive buffer has no room left: it
passes the checks of `tcp_rx` and is handed to the CB, and the copy of its payload runs past
the end of `window`. -/
theorem sample_child_overflow (w : World) (q wnd : Nat) (hc : sample_child w q wnd)
    (hq : q < 2 ^ 32) (hw : wnd < 1460) :
    tcp_rx U_sample 0 w (segment_sample_data q) 0x0100007f 0x0200007f 1 = none := by
  obtain ⟨hu, hs, hi, hpt, hpe, hnx, hrn, hrw, h0⟩ := hc
  obtain ⟨hlen, hck, hsrc, hdst, hsq, hak, hflg, -, -, hpl⟩ := segment_sample_data_facts q hq
  have e1 : tcp_rx U_sample 0 w (segment_sample_data q) 0x0100007f 0x0200007f 1 =
      tcp_incoming_event U_sample 0 w 1 (segment_sample_data q) := by
    apply tcp_rx_found U_sample 0 w (segment_sample_data q) 0x0100007f 0x0200007f 1 1 rfl
      (by rw [hlen]; norm_num) hck
    · rw [hu]; decide
    · exact ⟨Or.inr hi, by rw [hpt, hdst]⟩
    · rw [hpe, hsrc]
      exact ⟨rfl, rfl⟩
    · intro j hj _ _
      have hj0 : j = 0 := by
        apply Fin.ext
        have : j.val < 1 := hj
        show j.val = 0
        omega
      rw [hj0, h0]
      intro h
      exact absurd h.1 (by decide)
  rw [e1]
  exact tcp_incoming_event_overflow U_sample 0 w 1 (segment_sample_data q) (Or.inl hs)
    (by rw [hsq, hrn]) (by rw [hflg]; decide) (by rw [hflg]; decide) (by rw [hflg]; decide)
    (by rw [hak, hnx]) (by rw [hrw]; omega) (by rw [hrw, hpl]; exact hw)

/-- The run "open, bind to port 80, listen, SYN from 127.0.0.1:0xC000, ACK of the SYN|ACK" is
a run of the module under every guard that admits the calls other than send and close, and it
ends with the sample connection in slot 1: ESTABLISHED, `rcv.nxt = 0x101`, the receive buffer
empty. -/
theorem Reach_run_child :
    ∃ w3 : World,
      (∀ G : World → Call → Prop,
        (∀ w c, (∀ soc buf, c ≠ Call.api_send soc buf) → (∀ soc, c ≠ Call.api_close soc) →
          G w c) → Reach U_sample G w3 []) ∧
      sample_child w3 0x101 4096 := by
  have hck1 : cksum16 segment_sample_syn segment_sample_syn.length
      (tcp_rx_pseudo 0x0100007f 0x0200007f segment_sample_syn.length) = 0 := by decide
  have hck2 : cksum16 segment_sample_ack_valid segment_sample_ack_valid.length
      (tcp_rx_pseudo 0x0100007f 0x0200007f segment_sample_ack_valid.length) = 0 := by decide
  obtain ⟨w2, e2, u2, s2, p2, -, o2, i2, q2, r2, rn2, rw2, una2, nxt2⟩ :=
    tcp_rx_child U_sample 1000 World_run_listen
    segment_sample_syn 0x0100007f 0x0200007f 1 0 1 rfl (by decide) hck1 (by decide) (by decide)
    (by decide) (by decide) (by decide) (by decide) (by decide) (by decide) (by decide)
  have h0 : w2.cb_table 0 = World_run_listen.cb_table 0 := o2 0 (by decide)
  have e3 : tcp_rx U_sample 0 w2 segment_sample_ack_valid 0x0100007f 0x0200007f 1 =
      tcp_incoming_event U_sample 0 w2 1 segment_sample_ack_valid := by
    apply tcp_rx_found U_sample 0 w2 segment_sample_ack_valid 0x0100007f 0x0200007f 1 1 rfl
      (by decide) hck2
    · rw [u2]; decide
    · rw [i2, q2]
      exact ⟨Or.inr rfl, by decide⟩
    · rw [r2]
      exact ⟨rfl, by decide⟩
    · intro j hj _ _
      have hj0 : j = 0 := by
        apply Fin.ext
        have : j.val < 1 := hj
        show j.val = 0
        omega
      rw [hj0, h0]
      intro h
      exact absurd h.1 (by decide)
  have hin : (w2.cb_table 1).snd.una ≤ ntoh32 (hdr_ack segment_sample_ack_valid) ∧
      ntoh32 (hdr_ack segment_sample_ack_valid) ≤ (w2.cb_table 1).snd.nxt := by
    rw [una2, nxt2]; decide
  have hpl : seg_plen segment_sample_ack_valid = 0 := by decide
  obtain ⟨w3, -, -, e4, s4, -, par4, c4, n4, d4, -, -, -⟩ :=
    tcp_incoming_event_to_fin U_sample 0 w2 1 segment_sample_ack_valid
      (by rw [rn2]; decide) (by decide) (by decide) (by decide) (Or.inl hpl)
      (Or.inr (Or.inr (Or.inr ⟨s2, hin, 0, p2, by decide⟩)))
  have e5 := tcp_event_fin_none U_sample w3 1 segment_sample_ack_valid (by decide)
  rw [if_pos ⟨s2, hin⟩] at s4
  have hnst : ¬ (seg_plen segment_sample_ack_valid ≠ 0 ∧
      ((w3.cb_table 1).state = TCP_CB_STATE_ESTABLISHED ∨
        (w3.cb_table 1).state = TCP_CB_STATE_FIN_WAIT1 ∨
        (w3.cb_table 1).state = TCP_CB_STATE_FIN_WAIT2)) := fun h => h.1 hpl
  refine ⟨w3, ?_, ?_, s4, ?_, ?_, ?_, ?_, ?_, ?_, ?_⟩
  · intro G hG
    have hr0 : Reach U_sample G World_run_listen [] := Reach_run_listen U_sample G hG
    have hr2 : Reach U_sample G w2 [] := Reach.rx _ _ _ _ _ _ _ _ hr0 e2
    exact Reach.rx _ _ _ _ _ _ _ _ hr2 (e3.trans (e4.trans e5))
  · conv_lhs => rw [c4]
    exact u2
  · conv_lhs => rw [c4]
    exact i2
  · conv_lhs => rw [c4]
    rw [q2]
    decide
  · conv_lhs => rw [c4]
    rw [r2]
    decide
  · conv_lhs => rw [c4]
    rw [nxt2]
    norm_num
  · rw [n4, if_neg hnst, rn2]
    decide
  · rw [d4, if_neg hnst, rw2]
  · rw [par4 ⟨s2, hin⟩ 0 p2]
    show (w2.cb_table 0).peer.addr = 0
    rw [h0]
    decide

/-- The last 284 payload bytes of a full-sized data segment of the sample connection, the
ones behind payload offset 1176: the bytes 0x00 and 0x04 in turn. -/
theorem segment_sample_data_tail (q : Nat) :
    ((segment_sample_data q).drop 20).drop 1176 =
      (List.range 284).map (fun i => if i % 2 = 0 then 0 else 4) := by
  unfold segment_sample_data
  rw [tcp_tx_segment_drop]
  apply List.ext_getElem?
  intro i
  simp only [payload_sample_1460, List.getElem?_drop, List.getElem?_map]
  by_cases hi : i < 284
  · rw [List.getElem?_range (by omega), List.getElem?_range hi]
    have h2 : (1176 + i) % 2 = i % 2 := by omega
    simp only [Option.map_some', h2]
  · rw [List.getElem?_eq_none (by simp; omega), List.getElem?_eq_none (by simp; omega)]

/-- C16: the invariant fails on a reachable run, through the copy of a payload that
`tcp_incoming_event` makes without comparing its length with `rcv.wnd`. The run "open, bind to
port 80, listen, SYN, ACK of the SYN|ACK" and two full-sized data segments in sequence is a
run of the module and leaves the child in slot 1 in ESTABLISHED with 1176 bytes of room in
`window`. The third such segment (1480 bytes, valid checksum, `seq = rcv.nxt`, flags ACK|PSH,
1460 payload bytes) passes the checks of `tcp_rx` and is handed to that CB; the copy of its
payload starts at offset 2920 of `window` and ends 284 bytes behind the array, and the bytes
written there are 0x00 and 0x04 in turn. In C they land on `parent`, `backlog` and the head of
the next entry of `cb_table` (its `used` and `state`); the table they leave is not one of the
tables of the model, whose step has no result. -/
theorem reachable_window_overflow :
    ∃ w : World, Reach U_sample any_call w [] ∧
      (w.cb_table 1).used = 1 ∧
      (w.cb_table 1).state = TCP_CB_STATE_ESTABLISHED ∧
      (w.cb_table 1).rcv.nxt = 0xC69 ∧
      (w.cb_table 1).rcv.wnd = 1176 ∧
      20 ≤ (segment_sample_data 0xC69).length ∧
      cksum16 (segment_sample_data 0xC69) (segment_sample_data 0xC69).length
        (tcp_rx_pseudo 0x0100007f 0x0200007f (segment_sample_data 0xC69).length) = 0 ∧
      ntoh32 (hdr_seq (segment_sample_data 0xC69)) = 0xC69 ∧
      hdr_flg (segment_sample_data 0xC69) = TCP_FLG_ACK ||| TCP_FLG_PSH ∧
      seg_hlen (segment_sample_data 0xC69) = 20 ∧
      seg_plen (segment_sample_data 0xC69) = 1460 ∧
      TCP_WINDOW_SIZE - (w.cb_table 1).rcv.wnd = 2920 ∧
      TCP_WINDOW_SIZE - (w.cb_table 1).rcv.wnd + seg_plen (segment_sample_data 0xC69) =
        TCP_WINDOW_SIZE + 284 ∧
      ((segment_sample_data 0xC69).drop (seg_hlen (segment_sample_data 0xC69))).drop
          (w.cb_table 1).rcv.wnd =
        (List.range 284).map (fun i => if i % 2 = 0 then 0 else 4) ∧
      tcp_rx U_sample 0 w (segment_sample_data 0xC69) 0x0100007f 0x0200007f 1 =
        tcp_incoming_event U_sample 0 w 1 (segment_sample_data 0xC69) ∧
      tcp_rx U_sample 0 w (segment_sample_data 0xC69) 0x0100007f 0x0200007f 1 = none := by
  obtain ⟨w3, hr, hc3⟩ := Reach_run_child
  have hr3 : Reach U_sample any_call w3 [] := hr any_call (fun _ _ _ _ => trivial)
  obtain ⟨w4, e4, hc4⟩ := sample_child_data_step w3 0x101 4096 hc3 (by norm_num) (by norm_num)
    (by norm_num)
  have hr4 : Reach U_sample any_call w4 [] := Reach.rx _ _ _ _ _ _ _ _ hr3 e4
  obtain ⟨w5, e5, hc5⟩ := sample_child_data_step w4 (0x101 + 1460) (4096 - 1460) hc4
    (by norm_num) (by norm_num) (by norm_num)
  have hr5 : Reach U_sample any_call w5 [] := Reach.rx _ _ _ _ _ _ _ _ hr4 e5
  have hc5' : sample_child w5 0xC69 1176 := hc5
  obtain ⟨hlen, hck, -, -, hsq, -, hflg, -, hh, hpl⟩ :=
    segment_sample_data_facts 0xC69 (by norm_num)
  have hnone := sample_child_overflow w5 0xC69 1176 hc5' (by norm_num) (by norm_num)
  have hdisp := sample_child_dispatch w5 0xC69 1176 hc5' (by norm_num)
  obtain ⟨hu, hs, -, -, -, -, hrn, hrw, -⟩ := hc5'
  refine ⟨w5, hr5, hu, hs, hrn, hrw, by rw [hlen]; norm_num, hck, hsq, hflg, hh, hpl, ?_, ?_, ?_,
    hdisp, hnone⟩
  · rw [hrw]
    rfl
  · rw [hrw, hpl]
    rfl
  · rw [hh, hrw]
    exact segment_sample_data_tail 0xC69

end Xv6Net
